import Mathlib

/-!
# newserv: cipher suite (src/src/PSOEncryption.cc)

Shallow embedding of the stream ciphers of `PSOEncryption.cc` and of the multi-key
detector / imitator pair, followed by the theorems that settle the claims about them.

Conventions of the embedding.

* A byte buffer (`void* data, size_t size`) is a `List Nat`; `size` is its length.
  A cell of type `uint8_t` holds a value below 256, one of type `uint32_t` a value
  below `2 ^ 32`; arithmetic that can leave the range is reduced explicitly.
* A member function that mutates its object and the caller's buffer and may throw
  returns an `Outcome`: the object after the call, the buffer after the call and
  the exception that left the call, if any.
* Reading or writing outside an object, and a remainder by zero, are not C++
  exceptions; the embedding marks them with `Exn.undefined`.
-/

namespace NewServ

/-- The ways a call can end abnormally: the three standard exceptions the source
throws (with their message), and the marker for undefined behaviour. -/
inductive Exn where
  | invalid_argument (what : String)
  | logic_error (what : String)
  | runtime_error (what : String)
  | undefined (what : String)
deriving DecidableEq

/-- Result of a mutating member function: object state, caller's buffer, exception. -/
structure Outcome (σ : Type) where
  crypt : σ
  data : List Nat
  error : Option Exn

/-- Subtraction of `uint32_t` values. -/
def sub32 (a b : Nat) : Nat := (a + 2 ^ 32 - b % 2 ^ 32) % 2 ^ 32

/-- Addition of `uint32_t` values. -/
def add32 (a b : Nat) : Nat := (a + b) % 2 ^ 32

/-- Value of a `le_uint32_t` stored in four consecutive bytes. -/
def le_load (b0 b1 b2 b3 : Nat) : Nat := b0 + 256 * b1 + 65536 * b2 + 16777216 * b3

/-- The four bytes of a `le_uint32_t` holding `w` (truncated to 32 bits). -/
def le_store (w : Nat) : List Nat :=
  [w % 256, w / 256 % 256, w / 65536 % 256, w / 16777216 % 256]

/-! ## V1: PSOPCEncryption -/

/-- Modelled from the spec: `PC_STREAM_LENGTH` is declared in `PSOEncryption.hh`, which is
not among the sources. The specification calls the V1 state a 56-word state and has its
positions 55 and 56 filled with the seed; the constructor writes `stream[56]`, so the state
array has the cells 0..56, and the value taken here is the number of these cells, 57. What
is shown about the point at which `next` refills the stream (`offset == PC_STREAM_LENGTH`)
does not rest on this value: it is stated with the stream length as a parameter (`next_at`,
`encrypt_at` below), for 56 as well as for 57. -/
def PC_STREAM_LENGTH : Nat := 57

/-- Modelled from the spec: `GC_STREAM_LENGTH` is defined in `PSOEncryption.hh`, which is
not among the sources; the V2/V3 cipher has a 521-word state. -/
def GC_STREAM_LENGTH : Nat := 521

structure PSOPCEncryption where
  stream : List Nat
  offset : Nat
deriving DecidableEq

namespace PSOPCEncryption

/-- First loop of `update_stream`: `while (edx > 0)` with `esi = stream[eax + 0x1F]`. -/
def update_stream_loop1 : Nat → Nat → List Nat → List Nat
  | 0, _, stream => stream
  | edx + 1, eax, stream =>
    let esi := stream.getD (eax + 0x1F) 0
    let ebp := sub32 (stream.getD eax 0) esi
    update_stream_loop1 edx (eax + 1) (stream.set eax ebp)

/-- Second loop of `update_stream`: `while (edx > 0)` with `esi = stream[eax - 0x18]`. -/
def update_stream_loop2 : Nat → Nat → List Nat → List Nat
  | 0, _, stream => stream
  | edx + 1, eax, stream =>
    let esi := stream.getD (eax - 0x18) 0
    let ebp := sub32 (stream.getD eax 0) esi
    update_stream_loop2 edx (eax + 1) (stream.set eax ebp)

def update_stream (stream : List Nat) : List Nat :=
  let stream := update_stream_loop1 0x18 1 stream
  update_stream_loop2 0x1F 0x19 stream

/-- The constructor's `while (edi <= 0x46E)` loop; `fuel` bounds the number of
iterations (the loop ends by its own condition after 54). -/
def init_loop : Nat → Nat → Nat → Nat → List Nat → List Nat
  | 0, _, _, _, stream => stream
  | fuel + 1, esi, ebx, edi, stream =>
    if edi ≤ 0x46E then
      let eax := edi
      let var1 := eax / 55
      let edx := eax - var1 * 55
      let ebx := sub32 ebx esi
      let edi := edi + 0x15
      let stream := stream.set edx esi
      let esi := ebx
      let ebx := stream.getD edx 0
      init_loop fuel esi ebx edi stream
    else stream

/-- Applies `update_stream` the given number of times (`for (x = 0; x < n; x++)`). -/
def stir : Nat → List Nat → List Nat
  | 0, stream => stream
  | n + 1, stream => stir n (update_stream stream)

/-- The constructor `PSOPCEncryption(uint32_t seed)`. The state array is not initialised
by the source; its cells start as 0 here (position 0 is never written nor read). -/
def new (seed : Nat) : PSOPCEncryption :=
  let stream := List.replicate PC_STREAM_LENGTH 0
  let stream := stream.set 56 seed
  let stream := stream.set 55 seed
  let stream := init_loop 0x46F 1 seed 0x15 stream
  { stream := stir 5 stream, offset := 1 }

def next (c : PSOPCEncryption) (advance : Bool) : PSOPCEncryption × Nat :=
  let c : PSOPCEncryption :=
    if c.offset = PC_STREAM_LENGTH then { stream := update_stream c.stream, offset := 1 }
    else c
  let ret := c.stream.getD c.offset 0
  (if advance then { c with offset := c.offset + 1 } else c, ret)

/-- The loop `for (x = 0; x < size; x++) data[x] ^= this->next(advance)` over the
`le_uint32_t` words of the buffer. -/
def encrypt_loop (advance : Bool) : PSOPCEncryption → List Nat → PSOPCEncryption × List Nat
  | c, b0 :: b1 :: b2 :: b3 :: rest =>
    let r := c.next advance
    let w := le_load b0 b1 b2 b3 ^^^ r.2
    let t := encrypt_loop advance r.1 rest
    (t.1, le_store w ++ t.2)
  | c, rest => (c, rest)

def encrypt (c : PSOPCEncryption) (data : List Nat) (advance : Bool) :
    Outcome PSOPCEncryption :=
  if data.length &&& 3 ≠ 0 then
    ⟨c, data, some (.invalid_argument "size must be a multiple of 4")⟩
  else if !advance && data.length ≠ 4 then
    ⟨c, data, some (.logic_error "cannot peek-encrypt/decrypt with size > 4")⟩
  else
    let t := encrypt_loop advance c data
    ⟨t.1, t.2, none⟩

/-- The cipher does not override `decrypt`: `PSOEncryption::decrypt` calls `encrypt`. -/
def decrypt (c : PSOPCEncryption) (data : List Nat) (advance : Bool) :
    Outcome PSOPCEncryption :=
  c.encrypt data advance

end PSOPCEncryption

/-! ## V2/V3: PSOGCEncryption -/

structure PSOGCEncryption where
  stream : List Nat
  offset : Nat
deriving DecidableEq

namespace PSOGCEncryption

/-- First loop of `update_stream`: `while (r6 != GC_STREAM_LENGTH)
stream[r5++] ^= stream[r6++]`; returns `r5` and the state array. -/
def update_stream_loop1 : Nat → Nat → Nat → List Nat → Nat × List Nat
  | 0, r5, _, stream => (r5, stream)
  | fuel + 1, r5, r6, stream =>
    if r6 ≠ GC_STREAM_LENGTH then
      update_stream_loop1 fuel (r5 + 1) (r6 + 1)
        (stream.set r5 (stream.getD r5 0 ^^^ stream.getD r6 0))
    else (r5, stream)

/-- Second loop of `update_stream`: `while (r5 != GC_STREAM_LENGTH)
stream[r5++] ^= stream[r7++]`. -/
def update_stream_loop2 : Nat → Nat → Nat → List Nat → List Nat
  | 0, _, _, stream => stream
  | fuel + 1, r5, r7, stream =>
    if r5 ≠ GC_STREAM_LENGTH then
      update_stream_loop2 fuel (r5 + 1) (r7 + 1)
        (stream.set r5 (stream.getD r5 0 ^^^ stream.getD r7 0))
    else stream

def update_stream (c : PSOGCEncryption) : PSOGCEncryption :=
  let r5 := 0
  let r6 := 489
  let r7 := 0
  let t := update_stream_loop1 GC_STREAM_LENGTH r5 r6 c.stream
  let stream := update_stream_loop2 GC_STREAM_LENGTH t.1 r7 t.2
  { stream := stream, offset := 0 }

def next (c : PSOGCEncryption) (advance : Bool) : PSOGCEncryption × Nat :=
  let c : PSOGCEncryption := if c.offset = GC_STREAM_LENGTH then c.update_stream else c
  let ret := c.stream.getD c.offset 0
  (if advance then { c with offset := c.offset + 1 } else c, ret)

/-- The constructor's inner loop `for (y = 0; y < 32; y++)` on `(seed, basekey)`. -/
def init_bits : Nat → Nat → Nat → Nat × Nat
  | 0, seed, basekey => (seed, basekey)
  | n + 1, seed, basekey =>
    let seed := (seed * 0x5D588B65) % 2 ^ 32
    let basekey := basekey >>> 1
    let seed := (seed + 1) % 2 ^ 32
    let basekey :=
      if seed &&& 0x80000000 ≠ 0 then basekey ||| 0x80000000 else basekey &&& 0x7FFFFFFF
    init_bits n seed basekey

/-- The constructor's outer loop `for (x = 0; x <= 16; x++)`, storing
`stream[offset++] = basekey`. -/
def init_words : Nat → Nat → Nat → PSOGCEncryption → PSOGCEncryption
  | 0, _, _, c => c
  | n + 1, seed, basekey, c =>
    let t := init_bits 32 seed basekey
    init_words n t.1 t.2 { stream := c.stream.set c.offset t.2, offset := c.offset + 1 }

/-- The constructor's loop `while (offset != GC_STREAM_LENGTH)`. -/
def init_fill : Nat → Nat → Nat → Nat → PSOGCEncryption → PSOGCEncryption
  | 0, _, _, _, c => c
  | fuel + 1, source1, source2, source3, c =>
    if c.offset ≠ GC_STREAM_LENGTH then
      let v := c.stream.getD source3 0 ^^^
        ((((c.stream.getD source1 0 <<< 23) % 2 ^ 32) &&& 0xFF800000) ^^^
          ((c.stream.getD source2 0 >>> 9) &&& 0x007FFFFF))
      init_fill fuel (source1 + 1) (source2 + 1) (source3 + 1)
        { stream := c.stream.set c.offset v, offset := c.offset + 1 }
    else c

/-- Applies `update_stream` the given number of times. -/
def stir : Nat → PSOGCEncryption → PSOGCEncryption
  | 0, c => c
  | n + 1, c => stir n c.update_stream

/-- The constructor `PSOGCEncryption(uint32_t seed)`; the uninitialised state array
starts as zeros here (every cell is written before it is read). -/
def new (seed : Nat) : PSOGCEncryption :=
  let c : PSOGCEncryption := { stream := List.replicate GC_STREAM_LENGTH 0, offset := 0 }
  let c := init_words 17 seed 0 c
  let last := (((c.stream.getD 0 0) >>> 9) ^^^
    ((c.stream.getD (c.offset - 1) 0 <<< 23) % 2 ^ 32)) ^^^ c.stream.getD 15 0
  let c : PSOGCEncryption := { stream := c.stream.set (c.offset - 1) last, offset := c.offset }
  let source1 := 0
  let source2 := 1
  let source3 := c.offset - 1
  let c := init_fill GC_STREAM_LENGTH source1 source2 source3 c
  stir 4 c

def encrypt_loop (advance : Bool) : PSOGCEncryption → List Nat → PSOGCEncryption × List Nat
  | c, b0 :: b1 :: b2 :: b3 :: rest =>
    let r := c.next advance
    let w := le_load b0 b1 b2 b3 ^^^ r.2
    let t := encrypt_loop advance r.1 rest
    (t.1, le_store w ++ t.2)
  | c, rest => (c, rest)

def encrypt (c : PSOGCEncryption) (data : List Nat) (advance : Bool) :
    Outcome PSOGCEncryption :=
  if data.length &&& 3 ≠ 0 then
    ⟨c, data, some (.invalid_argument "size must be a multiple of 4")⟩
  else if !advance && data.length ≠ 4 then
    ⟨c, data, some (.logic_error "cannot peek-encrypt/decrypt with size > 4")⟩
  else
    let t := encrypt_loop advance c data
    ⟨t.1, t.2, none⟩

/-- The cipher does not override `decrypt`: `PSOEncryption::decrypt` calls `encrypt`. -/
def decrypt (c : PSOGCEncryption) (data : List Nat) (advance : Bool) :
    Outcome PSOGCEncryption :=
  c.encrypt data advance

end PSOGCEncryption

/-! ## V4: PSOBBEncryption -/

/-- Subtraction of `uint8_t` values. -/
def sub8 (a b : Nat) : Nat := (a + 256 - b % 256) % 256

/-- Modelled from the spec: the `Subtype` enumeration is declared in `PSOEncryption.hh`,
which is not among the sources. The source names `JSD1` and `MOCB1`; every other value
selects the default sub-variant, called `STANDARD` here. -/
inductive Subtype where
  | STANDARD
  | MOCB1
  | JSD1
deriving DecidableEq

/-- Modelled from the spec: `PSOBBEncryption::KeyFile` is declared in `PSOEncryption.hh`,
which is not among the sources. It holds the 72-byte initial key and the 4096-byte private
key, each a union of a byte view `as8` and a view `as32` of little-endian 32-bit words, and
the sub-variant. Both keys are kept as their bytes. -/
structure KeyFile where
  initial_keys : List Nat
  private_keys : List Nat
  subtype : Subtype
deriving DecidableEq

/-- The view `as8[i]` of a key. -/
def as8 (ks : List Nat) (i : Nat) : Nat := ks.getD i 0

/-- The view `as32[i]` of a key. -/
def as32 (ks : List Nat) (i : Nat) : Nat :=
  le_load (ks.getD (4 * i) 0) (ks.getD (4 * i + 1) 0) (ks.getD (4 * i + 2) 0)
    (ks.getD (4 * i + 3) 0)

/-- The assignment `as32[i] = w` on a key. -/
def set32 (ks : List Nat) (i w : Nat) : List Nat :=
  (((ks.set (4 * i) (w % 256)).set (4 * i + 1) (w / 256 % 256)).set (4 * i + 2)
    (w / 65536 % 256)).set (4 * i + 3) (w / 16777216 % 256)

/-- Modelled from the spec: `jsd1_stream_offset` is declared in `PSOEncryption.hh`, which is
not among the sources. It is the one-byte stream offset of the JSD1 sub-variant, indexing
the 256-entry table, and shares its storage with the first byte of the initial key. -/
def KeyFile.jsd1_stream_offset (s : KeyFile) : Nat := as8 s.initial_keys 0

/-- Assignment to `jsd1_stream_offset`. -/
def KeyFile.set_jsd1_stream_offset (s : KeyFile) (o : Nat) : KeyFile :=
  { s with initial_keys := s.initial_keys.set 0 o }

/-- The expression the source repeats for every round:
`((as32[x >> 0x18] + as32[((x >> 0x10) & 0xFF) + 0x100]) ^ as32[((x >> 0x8) & 0xFF) + 0x200])
+ as32[(x & 0xFF) + 0x300]` on the private key, in `uint32_t` arithmetic. -/
def sbox (pk : List Nat) (x : Nat) : Nat :=
  add32
    (add32 (as32 pk (x >>> 0x18)) (as32 pk (((x >>> 0x10) &&& 0xFF) + 0x100)) ^^^
      as32 pk (((x >>> 0x8) &&& 0xFF) + 0x200))
    (as32 pk ((x &&& 0xFF) + 0x300))

structure PSOBBEncryption where
  state : KeyFile
deriving DecidableEq

namespace PSOBBEncryption

/-- Body of the `while (edx < num_dwords)` loop of `decrypt` on the words
`dwords[edx]`, `dwords[edx + 1]`; returns their new values. -/
def decrypt_block (s : KeyFile) (d0 d1 : Nat) : Nat × Nat :=
  let ebx := d0
  let ebx := ebx ^^^ as32 s.initial_keys 5
  let ebp := sbox s.private_keys ebx
  let ebp := ebp ^^^ as32 s.initial_keys 4
  let ebp := ebp ^^^ d1
  let edi := sbox s.private_keys ebp
  let edi := edi ^^^ as32 s.initial_keys 3
  let ebx := ebx ^^^ edi
  let esi := sbox s.private_keys ebx
  let ebp := ebp ^^^ esi ^^^ as32 s.initial_keys 2
  let edi := sbox s.private_keys ebp
  let edi := edi ^^^ as32 s.initial_keys 1
  let ebp := ebp ^^^ as32 s.initial_keys 0
  let ebx := ebx ^^^ edi
  (ebp, ebx)

/-- Body of the `while (edx < num_dwords)` loop of `encrypt` on the words
`data[edx]`, `data[edx + 1]`; returns their new values. -/
def encrypt_block (s : KeyFile) (d0 d1 : Nat) : Nat × Nat :=
  let ebx := d0 ^^^ as32 s.initial_keys 0
  let ebp := sbox s.private_keys ebx
  let ebp := ebp ^^^ as32 s.initial_keys 1
  let ebp := ebp ^^^ d1
  let edi := sbox s.private_keys ebp
  let edi := edi ^^^ as32 s.initial_keys 2
  let ebx := ebx ^^^ edi
  let esi := sbox s.private_keys ebx
  let ebp := ebp ^^^ esi ^^^ as32 s.initial_keys 3
  let edi := sbox s.private_keys ebp
  let edi := edi ^^^ as32 s.initial_keys 4
  let ebp := ebp ^^^ as32 s.initial_keys 5
  let ebx := ebx ^^^ edi
  (ebp, ebx)

/-- The loop `while (edx < num_dwords) { ...; edx += 2; }` of `decrypt` over the
8-byte blocks of the buffer. -/
def decrypt_blocks (s : KeyFile) : List Nat → List Nat
  | b0 :: b1 :: b2 :: b3 :: b4 :: b5 :: b6 :: b7 :: rest =>
    let r := decrypt_block s (le_load b0 b1 b2 b3) (le_load b4 b5 b6 b7)
    le_store r.1 ++ le_store r.2 ++ decrypt_blocks s rest
  | rest => rest

/-- The loop `while (edx < num_dwords) { ...; edx += 2; }` of `encrypt` over the
8-byte blocks of the buffer. -/
def encrypt_blocks (s : KeyFile) : List Nat → List Nat
  | b0 :: b1 :: b2 :: b3 :: b4 :: b5 :: b6 :: b7 :: rest =>
    let r := encrypt_block s (le_load b0 b1 b2 b3) (le_load b4 b5 b6 b7)
    le_store r.1 ++ le_store r.2 ++ encrypt_blocks s rest
  | rest => rest

/-- The JSD1 loop `for (z = 0; z < size; z += 2)` exchanging the bits `0xAA` of
`bytes[z]` and `bytes[z + 1]`. With an odd `size` the last round reads and writes
`bytes[size]`, outside the buffer: the flag reports that. -/
def jsd1_swap : List Nat → List Nat × Bool
  | [] => ([], false)
  | [a] => ([a], true)
  | a :: b :: rest =>
    let t := jsd1_swap rest
    (((a &&& 0x55) ||| (b &&& 0xAA)) :: ((a &&& 0xAA) ||| (b &&& 0x55)) :: t.1, t.2)

/-- The JSD1 loop of `decrypt`: `bytes[z] ^= as8[offset]; if (advance) as8[offset] -=
bytes[z]; offset++`. -/
def jsd1_decrypt_loop (advance : Bool) : KeyFile → List Nat → KeyFile × List Nat
  | s, [] => (s, [])
  | s, v :: rest =>
    let o := s.jsd1_stream_offset
    let out := v ^^^ as8 s.private_keys o
    let s : KeyFile :=
      if advance then
        { s with private_keys := s.private_keys.set o (sub8 (as8 s.private_keys o) out) }
      else s
    let s := s.set_jsd1_stream_offset ((s.jsd1_stream_offset + 1) % 256)
    let t := jsd1_decrypt_loop advance s rest
    (t.1, out :: t.2)

/-- The JSD1 loop of `encrypt`: `v = bytes[z]; bytes[z] = v ^ as8[offset];
if (advance) as8[offset] -= v; offset++`. -/
def jsd1_encrypt_loop (advance : Bool) : KeyFile → List Nat → KeyFile × List Nat
  | s, [] => (s, [])
  | s, v :: rest =>
    let o := s.jsd1_stream_offset
    let out := v ^^^ as8 s.private_keys o
    let s : KeyFile :=
      if advance then
        { s with private_keys := s.private_keys.set o (sub8 (as8 s.private_keys o) v) }
      else s
    let s := s.set_jsd1_stream_offset ((s.jsd1_stream_offset + 1) % 256)
    let t := jsd1_encrypt_loop advance s rest
    (t.1, out :: t.2)

/-- The statement `if (!advance) jsd1_stream_offset -= size`. -/
def jsd1_restore (advance : Bool) (s : KeyFile) (size : Nat) : KeyFile :=
  if !advance then s.set_jsd1_stream_offset (sub8 s.jsd1_stream_offset size) else s

def decrypt (c : PSOBBEncryption) (data : List Nat) (advance : Bool) :
    Outcome PSOBBEncryption :=
  if c.state.subtype ≠ Subtype.JSD1 then
    if data.length &&& 7 ≠ 0 then
      ⟨c, data, some (.invalid_argument "size must be a multiple of 8")⟩
    else ⟨c, decrypt_blocks c.state data, none⟩
  else
    if !advance && data.length > 0x100 then
      ⟨c, data, some (.logic_error "JSD1 can only peek-decrypt up to 0x100 bytes")⟩
    else
      let sw := jsd1_swap data
      if sw.2 then ⟨c, sw.1, some (.undefined "bytes[z + 1] is outside the buffer")⟩
      else
        let t := jsd1_decrypt_loop advance c.state sw.1
        ⟨⟨jsd1_restore advance t.1 data.length⟩, t.2, none⟩

def encrypt (c : PSOBBEncryption) (data : List Nat) (advance : Bool) :
    Outcome PSOBBEncryption :=
  if c.state.subtype ≠ Subtype.JSD1 then
    if data.length &&& 7 ≠ 0 then
      ⟨c, data, some (.invalid_argument "size must be a multiple of 8")⟩
    else ⟨c, encrypt_blocks c.state data, none⟩
  else
    if !advance && data.length > 0x100 then
      ⟨c, data, some (.logic_error "JSD1 can only peek-encrypt up to 0x100 bytes")⟩
    else
      let t := jsd1_encrypt_loop advance c.state data
      let s := jsd1_restore advance t.1 data.length
      let sw := jsd1_swap t.2
      if sw.2 then ⟨⟨s⟩, sw.1, some (.undefined "bytes[z + 1] is outside the buffer")⟩
      else ⟨⟨s⟩, sw.1, none⟩

end PSOBBEncryption

/-- The loop `for (x = 0; x < seed_size; x += 3)` of `apply_seed`, appending
`original_seed_data[x] ^ 0x19`, `[x + 1] ^ 0x16`, `[x + 2] ^ 0x18` (as `char`s) to `seed`.
`original_seed` lists the bytes that may be read through the pointer; a read past them is
undefined. -/
def seed_mask (original_seed : List Nat) (seed_size : Nat) :
    Nat → Nat → List Nat → Except Exn (List Nat)
  | 0, _, seed => .ok seed
  | fuel + 1, x, seed =>
    if x < seed_size then
      match original_seed[x]?, original_seed[x + 1]?, original_seed[x + 2]? with
      | some a, some b, some c =>
        seed_mask original_seed seed_size fuel (x + 3)
          (seed ++ [(a ^^^ 0x19) % 256, (b ^^^ 0x16) % 256, (c ^^^ 0x18) % 256])
      | _, _, _ => .error (.undefined "original_seed_data read outside the seed")
    else .ok seed

/-- The MOCB1 loop `for (x = 0; x < 0x12; x++)` of `apply_seed` on the initial key. -/
def mocb1_loop : Nat → Nat → List Nat → List Nat
  | 0, _, ik => ik
  | n + 1, x, ik =>
    let a := as8 ik (4 * x + 0)
    let b := as8 ik (4 * x + 1)
    let c := as8 ik (4 * x + 2)
    let d := as8 ik (4 * x + 3)
    mocb1_loop n (x + 1)
      (set32 ik x ((((a ^^^ d) <<< 24) ||| ((b ^^^ c) <<< 16) ||| (a <<< 8) ||| b) % 2 ^ 32))

/-- The loop `while (ebx < 0x12)` of `apply_seed`, folding the masked seed into the
initial key. The `char`s of `seed` are given by their byte value: the masks and the
32-bit shift make the result independent of the sign extension. -/
def seed_fold (seed : List Nat) : Nat → Nat → Nat → List Nat → List Nat
  | 0, _, _, ik => ik
  | fuel + 1, ecx, ebx, ik =>
    if ebx < 0x12 then
      let ebp := (seed.getD ecx 0 <<< 0x18) % 2 ^ 32
      let eax := ecx + 1
      let edx := eax % seed.length
      let eax := (seed.getD edx 0 <<< 0x10) &&& 0x00FF0000
      let ebp := (ebp ||| eax) &&& 0xFFFF00FF
      let eax := ecx + 2
      let edx := eax % seed.length
      let eax := (seed.getD edx 0 <<< 0x08) &&& 0x0000FF00
      let ebp := (ebp ||| eax) &&& 0xFFFFFF00
      let eax := ecx + 3
      let ecx := ecx + 4
      let edx := eax % seed.length
      let eax := seed.getD edx 0 &&& 0x000000FF
      let ebp := ebp ||| eax
      let eax := ecx
      let edx := eax % seed.length
      let ik := set32 ik ebx (as32 ik ebx ^^^ ebp)
      let ecx := edx
      seed_fold seed fuel ecx (ebx + 1) ik
    else ik

/-- The loop `for (x = 0; x <= 5; x++)` inside both key-schedule loops of `apply_seed`,
on the registers `ebx`, `esi`, `ecx`. -/
def schedule_inner (ik pk : List Nat) : Nat → Nat → Nat → Nat → Nat → Nat × Nat × Nat
  | 0, _, ebx, esi, ecx => (ebx, esi, ecx)
  | n + 1, x, ebx, esi, ecx =>
    let ebx := ebx ^^^ as32 ik ((x * 2) + 2)
    let esi := esi ^^^ ebx
    let ebx := sbox pk esi
    let ebx := ebx ^^^ as32 ik ((x * 2) + 3)
    let ecx := ecx ^^^ ebx
    let ebx := sbox pk ecx
    schedule_inner ik pk n (x + 1) ebx esi ecx

/-- The body shared by both key-schedule loops of `apply_seed`, from
`esi = esi ^ as32[0]` to `esi = esi ^ eax`; returns the pair `(esi, ecx)` that the loop
then stores. -/
def schedule_round (ik pk : List Nat) (esi ecx : Nat) : Nat × Nat :=
  let esi := esi ^^^ as32 ik 0
  let eax := sbox pk esi
  let eax := eax ^^^ as32 ik 1
  let ecx := ecx ^^^ eax
  let ebx := sbox pk ecx
  let t := schedule_inner ik pk 6 0 ebx esi ecx
  let ebx := t.1
  let esi := t.2.1
  let ecx := t.2.2
  let ebx := ebx ^^^ as32 ik 14
  let esi := esi ^^^ ebx
  let eax := sbox pk esi
  let eax := eax ^^^ as32 ik 15
  let eax := ecx ^^^ eax
  let ecx := sbox pk eax
  let ecx := ecx ^^^ as32 ik 16
  let ecx := ecx ^^^ esi
  let esi := as32 ik 17
  let esi := esi ^^^ eax
  (esi, ecx)

/-- The loop `while (edi < edx)` with `edx = 0x48` of `apply_seed`, rewriting the initial
key; returns `esi`, `ecx` and the initial key. -/
def schedule_initial (pk : List Nat) : Nat → Nat → Nat → Nat → List Nat → Nat × Nat × List Nat
  | 0, _, esi, ecx, ik => (esi, ecx, ik)
  | fuel + 1, edi, esi, ecx, ik =>
    if edi < 0x48 then
      let t := schedule_round ik pk esi ecx
      let ik := set32 ik (edi / 4) t.1
      let ik := set32 ik ((edi / 4) + 1) t.2
      schedule_initial pk fuel (edi + 8) t.1 t.2 ik
    else (esi, ecx, ik)

/-- The inner loop `while (edi < edx)` with `edx = 0x400` of `apply_seed`, rewriting 256
words of the private key from word `ou / 4` on. -/
def schedule_private_inner (ik : List Nat) (ou : Nat) :
    Nat → Nat → Nat → Nat → List Nat → Nat × Nat × List Nat
  | 0, _, esi, ecx, pk => (esi, ecx, pk)
  | fuel + 1, edi, esi, ecx, pk =>
    if edi < 0x400 then
      let t := schedule_round ik pk esi ecx
      let pk := set32 pk ((ou / 4) + (edi / 4)) t.1
      let pk := set32 pk ((ou / 4) + (edi / 4) + 1) t.2
      schedule_private_inner ik ou fuel (edi + 8) t.1 t.2 pk
    else (esi, ecx, pk)

/-- The outer loop `while (ou < 0x1000)` of `apply_seed`. -/
def schedule_private (ik : List Nat) : Nat → Nat → Nat → Nat → List Nat → List Nat
  | 0, _, _, _, pk => pk
  | fuel + 1, ou, esi, ecx, pk =>
    if ou < 0x1000 then
      let t := schedule_private_inner ik ou 0x400 0 esi ecx pk
      schedule_private ik fuel (ou + 0x400) t.1 t.2.1 t.2.2
    else pk

/-- The JSD1 loop `for (z = 0; z < 0x100; z++)` of `apply_seed`. -/
def jsd1_table (seed : List Nat) : Nat → Nat → Nat → List Nat → List Nat
  | 0, _, _, pk => pk
  | n + 1, z, seed_offset, pk =>
    let pk := pk.set z
      (((z + seed.getD seed_offset 0) ^^^ (seed.getD seed_offset 0 >>> 1)) % 256)
    jsd1_table seed n (z + 1) ((seed_offset + 1) % seed.length) pk

namespace PSOBBEncryption

def apply_seed (c : PSOBBEncryption) (original_seed : List Nat) (seed_size : Nat) :
    Except Exn PSOBBEncryption :=
  match seed_mask original_seed seed_size seed_size 0 [] with
  | .error e => .error e
  | .ok seed =>
    if c.state.subtype ≠ Subtype.JSD1 then
      if seed_size % 3 ≠ 0 then
        .error (.invalid_argument "seed size must be divisible by 3")
      else
        let ik :=
          if c.state.subtype = Subtype.MOCB1 then mocb1_loop 0x12 0 c.state.initial_keys
          else c.state.initial_keys
        if seed.length = 0 then .error (.undefined "remainder by seed.size() = 0")
        else
          let ik := seed_fold seed 0x12 0 0 ik
          let t := schedule_initial c.state.private_keys 0x48 0 0 0 ik
          let pk := schedule_private t.2.2 0x1000 0 t.1 t.2.1 c.state.private_keys
          .ok ⟨{ initial_keys := t.2.2, private_keys := pk, subtype := c.state.subtype }⟩
    else
      if seed.length = 0 then .error (.undefined "remainder by seed.size() = 0")
      else
        .ok ⟨{ c.state with
          private_keys := jsd1_table seed 0x100 0 0 c.state.private_keys }⟩

/-- The constructor `PSOBBEncryption(key, original_seed, seed_size)`: `state(key)`, then
`apply_seed`. An exception leaves no object. -/
def new (key : KeyFile) (original_seed : List Nat) (seed_size : Nat) :
    Except Exn PSOBBEncryption :=
  apply_seed ⟨key⟩ original_seed seed_size

end PSOBBEncryption

/-! ## The multi-key detector and imitator -/

/-- The bytes readable through `s.data()` for a `std::string` `s`: its characters and the
terminating zero. -/
def string_data (s : List Nat) : List Nat := s ++ [0]

structure PSOBBMultiKeyDetectorEncryption where
  possible_keys : List KeyFile
  expected_first_data : List Nat
  seed : List Nat
  active_key : Option KeyFile
  active_crypt : Option PSOBBEncryption
deriving DecidableEq

namespace PSOBBMultiKeyDetectorEncryption

/-- The constructor: no key is active and no cipher is installed. -/
def new (possible_keys : List KeyFile) (expected_first_data : List Nat) (seed : List Nat) :
    PSOBBMultiKeyDetectorEncryption :=
  { possible_keys := possible_keys, expected_first_data := expected_first_data,
    seed := seed, active_key := none, active_crypt := none }

def get_active_key (d : PSOBBMultiKeyDetectorEncryption) : Option KeyFile := d.active_key

def get_seed (d : PSOBBMultiKeyDetectorEncryption) : List Nat := d.seed

def encrypt (d : PSOBBMultiKeyDetectorEncryption) (data : List Nat) (advance : Bool) :
    Outcome PSOBBMultiKeyDetectorEncryption :=
  match d.active_crypt with
  | none =>
    ⟨d, data, some (.logic_error "PSOBB multi-key encryption requires client input first")⟩
  | some c =>
    let r := c.encrypt data advance
    ⟨{ d with active_crypt := some r.crypt }, r.data, r.error⟩

/-- The loop `for (const auto& key : this->possible_keys)` of `decrypt` over the
remaining candidates; returns the detector after the loop and the exception that left
the loop, if any. -/
def detect (data : List Nat) :
    PSOBBMultiKeyDetectorEncryption → List KeyFile →
      PSOBBMultiKeyDetectorEncryption × Option Exn
  | d, [] => (d, none)
  | d, key :: rest =>
    let d := { d with active_key := some key }
    match PSOBBEncryption.new key (string_data d.seed) d.seed.length with
    | .error e => (d, some e)
    | .ok c =>
      let test_data := data
      let r := c.decrypt test_data false
      let d := { d with active_crypt := some r.crypt }
      match r.error with
      | some e => (d, some e)
      | none =>
        if r.data = d.expected_first_data then (d, none)
        else detect data { d with active_key := none, active_crypt := none } rest

def decrypt (d : PSOBBMultiKeyDetectorEncryption) (data : List Nat) (advance : Bool) :
    Outcome PSOBBMultiKeyDetectorEncryption :=
  match d.active_crypt with
  | some c =>
    let r := c.decrypt data advance
    ⟨{ d with active_crypt := some r.crypt }, r.data, r.error⟩
  | none =>
    if data.length ≠ d.expected_first_data.length then
      ⟨d, data,
        some (.logic_error "initial decryption size does not match expected first data size")⟩
    else
      let t := detect data d d.possible_keys
      match t.2 with
      | some e => ⟨t.1, data, some e⟩
      | none =>
        match t.1.active_crypt with
        | none =>
          ⟨t.1, data,
            some (.runtime_error "none of the registered private keys are valid for this client")⟩
        | some c =>
          let r := c.decrypt data advance
          ⟨{ t.1 with active_crypt := some r.crypt }, r.data, r.error⟩

end PSOBBMultiKeyDetectorEncryption

/-- The imitator; the detector it is paired with (`detector_crypt`, a pointer to an
object it does not own) is passed to each operation in its current state. -/
structure PSOBBMultiKeyImitatorEncryption where
  seed : List Nat
  jsd1_use_detector_seed : Bool
  active_crypt : Option PSOBBEncryption
deriving DecidableEq

namespace PSOBBMultiKeyImitatorEncryption

def new (seed : List Nat) (jsd1_use_detector_seed : Bool) :
    PSOBBMultiKeyImitatorEncryption :=
  { seed := seed, jsd1_use_detector_seed := jsd1_use_detector_seed, active_crypt := none }

/-- Returns the imitator after the call and the cipher, or the exception thrown. -/
def ensure_crypt (m : PSOBBMultiKeyImitatorEncryption)
    (detector_crypt : PSOBBMultiKeyDetectorEncryption) :
    PSOBBMultiKeyImitatorEncryption × Except Exn PSOBBEncryption :=
  match m.active_crypt with
  | some c => (m, .ok c)
  | none =>
    match detector_crypt.get_active_key with
    | none =>
      (m, .error (.logic_error
        "server crypt cannot be initialized because client crypt is not ready"))
    | some key =>
      if key.subtype = Subtype.JSD1 && m.jsd1_use_detector_seed then
        let detector_seed := detector_crypt.get_seed
        match PSOBBEncryption.new key (string_data detector_seed) detector_seed.length with
        | .error e => (m, .error e)
        | .ok c => ({ m with active_crypt := some c }, .ok c)
      else
        match PSOBBEncryption.new key (string_data m.seed) m.seed.length with
        | .error e => (m, .error e)
        | .ok c => ({ m with active_crypt := some c }, .ok c)

def encrypt (m : PSOBBMultiKeyImitatorEncryption)
    (detector_crypt : PSOBBMultiKeyDetectorEncryption) (data : List Nat) (advance : Bool) :
    Outcome PSOBBMultiKeyImitatorEncryption :=
  let t := m.ensure_crypt detector_crypt
  match t.2 with
  | .error e => ⟨t.1, data, some e⟩
  | .ok c =>
    let r := c.encrypt data advance
    ⟨{ t.1 with active_crypt := some r.crypt }, r.data, r.error⟩

def decrypt (m : PSOBBMultiKeyImitatorEncryption)
    (detector_crypt : PSOBBMultiKeyDetectorEncryption) (data : List Nat) (advance : Bool) :
    Outcome PSOBBMultiKeyImitatorEncryption :=
  let t := m.ensure_crypt detector_crypt
  match t.2 with
  | .error e => ⟨t.1, data, some e⟩
  | .ok c =>
    let r := c.decrypt data advance
    ⟨{ t.1 with active_crypt := some r.crypt }, r.data, r.error⟩

end PSOBBMultiKeyImitatorEncryption

/-! ## Well-formed states -/

/-- The key memory of a V4 cipher is well formed: both keys have their declared sizes
(`0x48` and `0x1000` bytes) and every cell holds a byte. -/
def KeyFile.WF (s : KeyFile) : Prop :=
  s.initial_keys.length = 0x48 ∧ s.private_keys.length = 0x1000 ∧
    (∀ b ∈ s.initial_keys, b < 256) ∧ (∀ b ∈ s.private_keys, b < 256)

/-- A key file used to instantiate the theorems: every initial-key byte is `0x5A`, every
private-key byte `0xC3`. -/
def sample_key (subtype : Subtype) : KeyFile :=
  { initial_keys := List.replicate 0x48 0x5A, private_keys := List.replicate 0x1000 0xC3,
    subtype := subtype }

/-- Two JSD1 key states are the same cipher state: same stream offset and same 256-entry
table (the first 256 bytes of the private key, the only ones the one-byte offset reaches). -/
def jsd1_same_state (s1 s2 : KeyFile) : Prop :=
  s1.jsd1_stream_offset = s2.jsd1_stream_offset ∧
    ∀ i, i < 0x100 → as8 s1.private_keys i = as8 s2.private_keys i

/-- State after one advance-mode round of a JSD1 loop that subtracts `x` from the table
entry at the offset. -/
def jsd1_step (s : KeyFile) (x : Nat) : KeyFile :=
  { initial_keys := s.initial_keys.set 0 ((s.jsd1_stream_offset + 1) % 256),
    private_keys := s.private_keys.set s.jsd1_stream_offset
      (sub8 (as8 s.private_keys s.jsd1_stream_offset) x),
    subtype := s.subtype }

/-- State after one peek-mode round of a JSD1 loop. -/
def jsd1_peek_step (s : KeyFile) : KeyFile :=
  { initial_keys := s.initial_keys.set 0 ((s.jsd1_stream_offset + 1) % 256),
    private_keys := s.private_keys, subtype := s.subtype }

/-- The exception `PSOPCEncryption::encrypt` and `PSOGCEncryption::encrypt` throw for a
buffer of the given size when one of their two checks rejects it: the size check comes
first. -/
def stream_size_error (size : Nat) : Exn :=
  if size % 4 ≠ 0 then .invalid_argument "size must be a multiple of 4"
  else .logic_error "cannot peek-encrypt/decrypt with size > 4"

/-- The list is a memory image of `n` bytes. -/
def IsBytes (n : Nat) (l : List Nat) : Prop := l.length = n ∧ ∀ b ∈ l, b < 256

/-- What trying one candidate key on the first ciphertext yields: the bytes its cipher,
built from the key and the detector's seed, peek-decrypts the ciphertext to, or nothing
when the construction or the peek-decrypt raises. -/
def peek_decrypt_with (seed : List Nat) (key : KeyFile) (data : List Nat) :
    Option (List Nat) :=
  match PSOBBEncryption.new key (string_data seed) seed.length with
  | .error _ => none
  | .ok c => if (c.decrypt data false).error = none then some (c.decrypt data false).data else none

/-- The exception of `ensure_crypt` when the detector has no active key. -/
def not_ready : Exn :=
  .logic_error "server crypt cannot be initialized because client crypt is not ready"

/-- The seed `ensure_crypt` builds the imitator's cipher from: the detector's seed for a
JSD1 key when `jsd1_use_detector_seed` is set, the imitator's own seed otherwise. -/
def imitator_seed (m : PSOBBMultiKeyImitatorEncryption)
    (detector_crypt : PSOBBMultiKeyDetectorEncryption) (key : KeyFile) : List Nat :=
  if key.subtype = Subtype.JSD1 && m.jsd1_use_detector_seed then detector_crypt.get_seed
  else m.seed

/-- A JSD1 key file used to instantiate the theorems: the sample key with the given
stream offset in the first byte of the initial key. -/
def sample_jsd1_key (offset : Nat) : KeyFile :=
  { initial_keys := offset :: List.replicate 0x47 0x5A,
    private_keys := List.replicate 0x1000 0xC3, subtype := Subtype.JSD1 }

/-- What a peer holding `key` sends for the plaintext `data` as its first message: the
advance-mode encryption by a cipher fresh from the key and the seed, or nothing when the
construction or the encryption raises. -/
def encrypt_with (seed : List Nat) (key : KeyFile) (data : List Nat) : Option (List Nat) :=
  match PSOBBEncryption.new key (string_data seed) seed.length with
  | .error _ => none
  | .ok c => if (c.encrypt data true).error = none then some (c.encrypt data true).data else none

/-! ## Subcommand dispatcher (src/src/ReceiveSubcommands.cc)

Conventions of this part.

* The room (`Lobby`) owns its clients: a slot of the room holds the client's record, and the
  sender `c` of a subcommand is passed together with the index `ci` of the slot it occupies,
  so that a write through the pointer `c` is a write to slot `ci` of the room.  The pointer
  identity of a client (`target == c`) is its field `id`.
* Everything a handler sends is appended to a list of `Event`s, in order.  Log lines are not
  modelled.
* A handler returns a `Handled`: the room when the handler is left, the events up to
  that point, and the exception that left it, if any.
* The headers `PSOProtocol.hh`, `Client.hh`, `Lobby.hh`, `Player.hh`, `Map.hh`,
  `SendCommands.hh` and `Items.hh` are not among the sources.  The layout of the command
  structs is a parameter (`Protocol`), the functions the handlers call in other files are
  parameters (`Env`), and the records below keep the fields the handlers name.
-/

/-- Game versions (`Version.hh`). -/
inductive GameVersion where
  | PATCH | DC | PC | GC | XB | BB
deriving DecidableEq, Repr

/-- Setup phases of a card battle (`Episode3/DataIndex.hh`). -/
inductive SetupPhase where
  | REGISTRATION | STARTER_ROLLS | HAND_REDRAW_OPTION | MAIN_BATTLE | BATTLE_ENDED | INVALID_FF
deriving DecidableEq, Repr

/-- Modelled from the spec: the item record, raw bytes plus a 32-bit id; `data1` are the
first twelve raw bytes and `data2` the last four. -/
structure ItemData where
  data1 : List Nat
  id : Nat
  data2 : List Nat
deriving DecidableEq, Repr

/-- The first 32-bit word of `data1` (`data1d[0]`). -/
def ItemData.data1d0 (i : ItemData) : Nat :=
  le_load (i.data1.getD 0 0) (i.data1.getD 1 0) (i.data1.getD 2 0) (i.data1.getD 3 0)

/-- An inventory entry: the fields the handlers name. -/
structure PlayerInventoryItem where
  present : Nat
  flags : Nat
  data : ItemData
deriving DecidableEq, Repr

/-- A default-constructed item (`ItemData()`): all bytes zero. -/
def ItemData.blank : ItemData := ⟨List.replicate 12 0, 0, List.replicate 4 0⟩

/-- A default-constructed inventory entry (`PlayerInventoryItem item;`). -/
def PlayerInventoryItem.blank : PlayerInventoryItem := ⟨0, 0, ItemData.blank⟩

/-- The inventory of a player: the fields the handlers name. -/
structure PlayerInventory where
  num_items : Nat
  hp_materials_used : Nat
  tp_materials_used : Nat
  language : Nat
  items : List PlayerInventoryItem
deriving DecidableEq, Repr

/-- The bank of a player; its entries are kept as the environment stores them. -/
structure PlayerBank where
  meseta : Nat
  items : List (ItemData × Nat)
deriving DecidableEq, Repr

/-- The displayed character data (`disp`); `stats` is the block a level-up changes. -/
structure PlayerDispData where
  stats : List Nat
  level : Nat
  experience : Nat
  meseta : Nat
  char_class : Nat
deriving DecidableEq, Repr

/-- A player (`c->game_data.player()`). -/
structure Player where
  disp : PlayerDispData
  inventory : PlayerInventory
  bank : PlayerBank
  guild_card_description : List Nat
deriving DecidableEq, Repr

/-- The per-client game data (`c->game_data`). -/
structure ClientGameData where
  player : Player
  shop_contents : List ItemData
  identify_result : PlayerInventoryItem
deriving DecidableEq, Repr

/-- The cheat options of a client (`c->options`). -/
structure ClientOptions where
  infinite_hp : Bool
  infinite_tp : Bool
  switch_assist : Bool
deriving DecidableEq, Repr

/-- A client: the fields the handlers name.  `is_episode_3` and `is_dc_v1` are the bits
`Client::Flag::IS_EPISODE_3` and `Client::Flag::IS_DC_V1` of `flags`; `x` and `z` hold the
bit patterns of the two floats; `last_switch_enabled_command` holds the bytes of the stored
command. -/
structure Client where
  id : Nat
  lobby_client_id : Nat
  version : GameVersion
  is_episode_3 : Bool
  is_dc_v1 : Bool
  can_chat : Bool
  area : Nat
  x : Nat
  z : Nat
  options : ClientOptions
  last_switch_enabled_command : List Nat
  game_data : ClientGameData
deriving DecidableEq, Repr

/-- Modelled from the spec: an entry of the enemy table (id → type, hit-flags bitmask whose
high bit is 0x80, last-hit slot, experience); `hit_flags` and `last_hit` are bytes and
`experience` is a 32-bit value. -/
structure Enemy where
  hit_flags : Nat
  last_hit : Nat
  experience : Nat
deriving DecidableEq, Repr

/-- A ground item of a room with its place. -/
structure FloorItem where
  inv_item : PlayerInventoryItem
  area : Nat
  x : Nat
  z : Nat
deriving DecidableEq, Repr

/-- The item part of a room: the ground items and the item-id counters that
`Lobby::add_item`, `Lobby::remove_item` and `Lobby::generate_item_id` work on. -/
structure ItemState where
  items : List FloorItem
  next_item_id : List Nat
  next_game_item_id : Nat
deriving DecidableEq, Repr

/-- The data of a room: the fields the handlers name.  `item_tracking_enabled`,
`cheats_enabled` and `episode_3_only` are the bits `Lobby::Flag::ITEM_TRACKING_ENABLED`,
`CHEATS_ENABLED` and `EPISODE_3_ONLY` of `flags`; `is_game` and `any_client_loading` are the
results of the member functions of these names; `common_item_creator` tells whether that
pointer is set; `ep3_server_base` is the setup phase of the card-battle server when the room
has one; `battle_record` is `some b` when a battle record is attached, `b` being the result
of `battle_in_progress()`.  The slot array `clients` is at least `max_clients` long; an
index outside the list reads as an empty slot. -/
structure LobbyData where
  lobby_id : Nat
  version : GameVersion
  episode : Nat
  difficulty : Nat
  section_id : Nat
  item_tracking_enabled : Bool
  cheats_enabled : Bool
  episode_3_only : Bool
  is_game : Bool
  any_client_loading : Bool
  max_clients : Nat
  leader_id : Nat
  clients : List (Option Client)
  enemies : List Enemy
  item_state : ItemState
  common_item_creator : Bool
  ep3_server_base : Option SetupPhase
  battle_record : Option Bool
deriving DecidableEq, Repr

/-- A room with the rooms that watch it (`watcher_lobbies`). -/
inductive Lobby where
  | mk (data : LobbyData) (watcher_lobbies : List Lobby)

/-- The data of a room. -/
def Lobby.data : Lobby → LobbyData
  | .mk d _ => d

/-- The rooms that watch a room. -/
def Lobby.watcher_lobbies : Lobby → List Lobby
  | .mk _ w => w

/-- The room with its data replaced. -/
def Lobby.set_data (l : Lobby) (d : LobbyData) : Lobby := .mk d l.watcher_lobbies

/-- The occupant of a slot (`l->clients[x]`). -/
def LobbyData.client (l : LobbyData) (x : Nat) : Option Client := l.clients.getD x none

/-- The room data after a write through the pointer held in slot `x`. -/
def LobbyData.set_client (l : LobbyData) (x : Nat) (c : Client) : LobbyData :=
  { l with clients := l.clients.set x (some c) }

/-- An entry of a rare-item table: probability and item code. -/
structure RareDrop where
  probability : Nat
  item_code : List Nat
deriving DecidableEq, Repr

/-- A rare-item table (`RareItemSet::Table`). -/
structure RareTable where
  monster_rares : List RareDrop
  box_areas : List Nat
  box_rares : List RareDrop
deriving DecidableEq, Repr

/-- An entry of the level table: the experience threshold of the level and the change
`apply` makes to a player's stats. -/
structure LevelStats where
  experience : Nat
  apply : List Nat → List Nat

/-- The server state: the parts the handlers read.  `disable_masking` is the bit
`Episode3::BehaviorFlag::DISABLE_MASKING` of the card index's behaviour flags;
`stats_for_level` is the level table's function of that name (class, level);
`rare_item_set` is the table lookup `get_table` when a rare-item set is loaded. -/
structure ServerState where
  disable_masking : Bool
  stats_for_level : Nat → Nat → LevelStats
  rare_item_set : Option (Int → Nat → Nat → RareTable)

/-- What a handler sends, by the function of `SendCommands.hh` that sends it.
`send_command` is the delivery of a raw payload to one client, as `forward_subcommand`
does it; `add_command` is the append to a room's battle record (`ep3` tells which of the
two event types is used); clients are named by their `id`, rooms by their `lobby_id`. -/
inductive Event where
  | send_command (target : Nat) (command flag : Nat) (data : List Nat)
  | add_command (lobby : Nat) (ep3 : Bool) (data : List Nat)
  | send_command_t (target : Nat) (command flag : Nat) (data : List Nat)
  | send_guild_card (target source : Nat)
  | send_arrow_update (lobby : Nat)
  | send_player_stats_change (lobby client : Nat) (add_tp : Bool) (amount : Nat)
  | send_text_message (client : Nat) (text : String)
  | send_give_experience (lobby client : Nat) (amount : Nat)
  | send_level_up (lobby client : Nat)
  | send_drop_stacked_item (lobby : Nat) (item : ItemData) (area x z : Nat)
  | send_pick_up_item (lobby client : Nat) (item_id area : Nat)
  | send_shop (client : Nat) (shop_type : Nat)
  | send_bank (client : Nat)
  | send_destroy_item (lobby client : Nat) (item_id amount : Nat)
  | send_create_inventory_item (lobby client : Nat) (item : ItemData)
  | send_drop_item (lobby : Nat) (item : ItemData) (from_enemy : Bool) (area x z request_id : Nat)
  | send_identify_result (lobby : Nat) (client_id : Nat) (item : ItemData)
  | send_boss_drop_request (target : Nat) (flag area episode : Nat)
deriving DecidableEq, Repr

/-- Result of a handler: the room when the handler is left, what it has sent, and the
exception that left it, if any. -/
structure Handled where
  lobby : Lobby
  events : List Event
  error : Option Exn

/-- The command structs of `PSOProtocol.hh` that the handlers name. -/
inductive Cmd where
  | G_CardBattleCommandHeader | G_Unknown_GC_Ep3_6xB5x36
  | G_SendGuildCard_DC_6x06 | G_SendGuildCard_PC_6x06 | G_SendGuildCard_V3_6x06
  | G_SymbolChat_6x07 | G_WordSelect_6x74 | G_SetPlayerVisibility_6x22_6x23
  | G_InterLevelWarp_6x21 | G_CastTechniqueComplete_6x48
  | G_AttackFinished_6x46 | G_CastTechnique_6x47 | G_SubtractPBEnergy_6x49
  | G_SwitchStateChanged_6x05
  | G_StopAtPosition_6x3E | G_SetPosition_6x3F | G_WalkToPosition_6x40 | G_RunToPosition_6x42
  | G_DropItem_6x2A | G_CreateInventoryItem_DC_6x2B | G_CreateInventoryItem_PC_V3_BB_6x2B
  | G_DropStackedItem_DC_6x5D | G_DropStackedItem_PC_V3_BB_6x5D | G_SplitStackedItem_6xC3
  | G_BuyShopItem_6x5E | G_DropItem_DC_6x5F | G_DropItem_PC_V3_BB_6x5F
  | G_PickUpItem_6x59 | G_PickUpItemRequest_6x5A | G_EquipOrUnequipItem_6x25_6x26
  | G_UseItem_6x27 | G_ShopContentsRequest_BB_6xB5 | G_BankAction_BB_6xBD
  | G_SortInventory_6xC4
  | G_EnemyDropItemRequest_DC_6x60 | G_EnemyDropItemRequest_PC_V3_BB_6x60
  | G_BoxItemDropRequest_6xA2 | G_PhaseSetup_V3_BB_6x75
  | G_EnemyHitByPlayer_6x0A | G_EnemyKilled_6xC8
  | G_DeleteInventoryItem_6x29 | G_DestroyGroundItem_6x63
  | G_AcceptItemIdentification_BB_6xB8 | G_AcceptItemIdentification_BB_6xBA
deriving DecidableEq, Repr

/-- The members of the command structs that the handlers read, other than the header. -/
inductive Field where
  | subsubcommand | unknown_a1 | description | client_id | area | count | target_count
  | entry_count | flags | x | z | item_id | item | data | amount | shop_type | action
  | meseta_amount | item_amount | item_ids (x : Nat) | enemy_id | request_id | difficulty
  | phase | entries | targets
deriving DecidableEq, Repr

/-- The layout of the command structs, which `PSOProtocol.hh` declares: the size of each
struct, the offset of a member, and the value of a member read from a payload (a number, an
item record, or a run of bytes). -/
structure Protocol where
  sizeof : Cmd → Nat
  offsetof : Cmd → Field → Nat
  field : Cmd → Field → List Nat → Nat
  item : Cmd → Field → List Nat → ItemData
  bytes : Cmd → Field → List Nat → List Nat

/-- The functions of other files that the handlers call, and the random draws of one
dispatch.  `add_item`, `remove_item` and `generate_item_id` are the member functions of
`Lobby`; `player_remove_item`, `player_add_item`, `find_item`, `bank_add_item` and
`bank_remove_item` those of `Player`, `PlayerInventory` and `PlayerBank` (`bank_remove_item`
includes the conversion of the bank entry to an inventory entry); `player_use_item` and
`set_mask_for_ep3_game_command` are the functions of these names.  `random_object` lists
the successive results of `random_object<uint8_t>()`, `rand` is the result of `rand()`,
`sample n p` the result of the `n`-th call of `RareItemSet::sample` with probability `p`,
`create_shop_item n` the result of the `n`-th call of that function and `create_drop_item`
the result of that function, `none` standing for its `out_of_range` exception. -/
structure Env where
  add_item : ItemState → PlayerInventoryItem → Nat → Nat → Nat → Except Exn ItemState
  remove_item : ItemState → Nat → Except Exn (PlayerInventoryItem × ItemState)
  generate_item_id : ItemState → Nat → Nat × ItemState
  player_remove_item : Player → Nat → Nat → Except Exn (PlayerInventoryItem × Player)
  player_add_item : Player → PlayerInventoryItem → Except Exn Player
  find_item : PlayerInventory → Nat → Except Exn Nat
  bank_add_item : PlayerBank → PlayerInventoryItem → Except Exn PlayerBank
  bank_remove_item : PlayerBank → Nat → Nat → Except Exn (PlayerInventoryItem × PlayerBank)
  player_use_item : Client → Nat → Except Exn Client
  set_mask_for_ep3_game_command : List Nat → Nat → List Nat
  random_object : List Nat
  rand : Nat
  sample : Nat → Nat → Bool
  create_shop_item : Nat → Nat → Nat → ItemData
  create_drop_item : Nat → Nat → Nat → Nat → Option ItemData

/-- Modelled from the spec: the subcommand envelope starts with the sub-opcode byte, the
size in 4-byte words (one byte) and a 16-bit client id (or enemy id, object id, or nothing);
this is the sub-opcode. -/
def header_subcommand (data : List Nat) : Nat := data.getD 0 0

/-- Modelled from the spec: the size byte of the envelope (`header->size`). -/
def header_size (data : List Nat) : Nat := data.getD 1 0

/-- Modelled from the spec: the 16-bit little-endian field of the envelope
(`header.client_id`, `header.enemy_id`, `header.object_id`). -/
def header_id (data : List Nat) : Nat := data.getD 2 0 + 256 * data.getD 3 0

/-- Modelled from the spec: the extended 32-bit size in bytes that follows the envelope at
offset 4 (`ext_header->size`). -/
def ext_header_size (data : List Nat) : Nat :=
  le_load (data.getD 4 0) (data.getD 5 0) (data.getD 6 0) (data.getD 7 0)

/-- Modelled from the spec: the size of the 4-byte envelope (`sizeof(G_UnusedHeader)`,
`sizeof(G_ClientIDHeader)`). -/
def sizeof_header : Nat := 4

/-- `command_is_private`. -/
def command_is_private (command : Nat) : Bool := command == 0x62 || command == 0x6D

/-- Modelled from the spec: `check_size_t` of `PSOProtocol.hh` on a payload of `size`
bytes; it fails when the payload is shorter than `min_size` or longer than `max_size`. -/
def check_size_t (size min_size max_size : Nat) : Except Exn Unit :=
  if size < min_size then .error (.runtime_error "command too small")
  else if size > max_size then .error (.runtime_error "command too large")
  else .ok ()

/-- `check_size_sc<CmdT>(data, min_size, max_size, check_size_field)`. -/
def check_size_sc (data : List Nat) (min_size max_size : Nat) (check_size_field : Bool) :
    Except Exn Unit :=
  let max_size := if max_size < min_size then min_size else max_size
  match check_size_t data.length min_size max_size with
  | .error e => .error e
  | .ok _ =>
    if check_size_field then
      if data.length < 4 then
        .error (.runtime_error "subcommand is too short for header")
      else if header_size data = 0 then
        if data.length < 8 then
          .error (.runtime_error "subcommand has extended size but is shorter than 8 bytes")
        else if ext_header_size data ≠ data.length then
          .error (.runtime_error "invalid subcommand extended size field")
        else .ok ()
      else if header_size data * 4 ≠ data.length then
        .error (.runtime_error "invalid subcommand size field")
      else .ok ()
    else .ok ()

/-- `watcher_subcommands`: symbol chat, word select, word select during battle. -/
def watcher_subcommands : List Nat := [0x07, 0x74, 0xBD]

/-- Modelled from the spec: the broadcast of `SendCommands.hh`, which sends to every
occupied slot of the room except the excluded client. -/
def send_command_excluding_client (l : LobbyData) (c : Client) (command flag : Nat)
    (data : List Nat) : List Event :=
  l.clients.filterMap fun t =>
    match t with
    | none => none
    | some target =>
      if target.id = c.id then none else some (Event.send_command target.id command flag data)

/-- The loop of `forward_subcommand` over the slots for a card-battle command. -/
def forward_ep3_loop (l : LobbyData) (c : Client) (command flag : Nat) (data : List Nat) :
    List Event :=
  l.clients.filterMap fun t =>
    match t with
    | none => none
    | some target =>
      if target.id = c.id || !target.is_episode_3 then none
      else some (Event.send_command target.id command flag data)

mutual
/-- `forward_subcommand(l, c, command, flag, data, size)`, with `size` the length of `data`.
The argument of `watcher_subcommands.count` is the value of the `||` expression, a `bool`
converted to the key type `uint8_t`. -/
def forward_subcommand : Lobby → Client → Nat → Nat → List Nat → List Event
  | .mk l watcher_lobbies, c, command, flag, data =>
    let command_is_ep3 := decide (command &&& 0xF0 = 0xC0)
    if command_is_ep3 && !c.is_episode_3 then []
    else if command_is_private command then
      if flag ≥ l.max_clients then []
      else
        match l.client flag with
        | none => []
        | some target =>
          if command_is_ep3 && !target.is_episode_3 then []
          else [Event.send_command target.id command flag data]
    else
      (if command_is_ep3 then forward_ep3_loop l c command flag data
       else send_command_excluding_client l c command flag data)
      ++ (if data.length ≠ 0 ∧
            watcher_subcommands.count
              (if data.headD 0 ≠ 0 ∨
                  (l.ep3_server_base ≠ none ∧
                    l.ep3_server_base ≠ some SetupPhase.REGISTRATION) then 1 else 0) ≠ 0
          then forward_to_watchers watcher_lobbies c command flag data else [])
      ++ (if l.battle_record = some true then
            [Event.add_command l.lobby_id (decide (command &&& 0xF0 = 0xC0)) data]
          else [])
/-- The loop of `forward_subcommand` over `l->watcher_lobbies`. -/
def forward_to_watchers : List Lobby → Client → Nat → Nat → List Nat → List Event
  | [], _, _, _, _ => []
  | watcher_lobby :: rest, c, command, flag, data =>
    forward_subcommand watcher_lobby c command flag data
      ++ forward_to_watchers rest c command flag data
end

/-- The player of a client (`c->game_data.player()`). -/
def Client.player (c : Client) : Player := c.game_data.player

/-- The client after a write to its player. -/
def Client.set_player (c : Client) (p : Player) : Client :=
  { c with game_data := { c.game_data with player := p } }

/-- The room after a write through the pointer held in slot `x`. -/
def Lobby.set_client (l : Lobby) (x : Nat) (c : Client) : Lobby :=
  l.set_data (l.data.set_client x c)

/-- A step of a handler that may throw: the handler is left with the room and the events
it has reached when the step throws, and goes on with the step's result otherwise.  A call
that throws leaves its object as it was. -/
def attempt {α : Type} (l : Lobby) (events : List Event) (r : Except Exn α)
    (k : α → Handled) : Handled :=
  match r with
  | .error e => ⟨l, events, some e⟩
  | .ok a => k a

/-- `on_subcommand_invalid`. -/
def on_subcommand_invalid (_P : Protocol) (_E : Env) (_s : ServerState) (l : Lobby)
    (_ci : Nat) (_c : Client) (_command _flag : Nat) (data : List Nat) : Handled :=
  attempt l [] (check_size_sc data sizeof_header 0xFFFF true) fun _ => ⟨l, [], none⟩

/-- `on_subcommand_unimplemented`. -/
def on_subcommand_unimplemented (_P : Protocol) (_E : Env) (_s : ServerState) (l : Lobby)
    (_ci : Nat) (_c : Client) (_command _flag : Nat) (data : List Nat) : Handled :=
  attempt l [] (check_size_sc data sizeof_header 0xFFFF true) fun _ => ⟨l, [], none⟩

/-- `on_subcommand_forward_check_size`. -/
def on_subcommand_forward_check_size (_P : Protocol) (_E : Env) (_s : ServerState)
    (l : Lobby) (_ci : Nat) (c : Client) (command flag : Nat) (data : List Nat) : Handled :=
  attempt l [] (check_size_sc data sizeof_header 0xFFFF true) fun _ =>
    ⟨l, forward_subcommand l c command flag data, none⟩

/-- `on_subcommand_forward_check_game`. -/
def on_subcommand_forward_check_game (_P : Protocol) (_E : Env) (_s : ServerState)
    (l : Lobby) (_ci : Nat) (c : Client) (command flag : Nat) (data : List Nat) : Handled :=
  if !l.data.is_game then ⟨l, [], none⟩
  else ⟨l, forward_subcommand l c command flag data, none⟩

/-- `on_subcommand_forward_check_game_loading`. -/
def on_subcommand_forward_check_game_loading (_P : Protocol) (_E : Env) (_s : ServerState)
    (l : Lobby) (_ci : Nat) (c : Client) (command flag : Nat) (data : List Nat) : Handled :=
  if !l.data.is_game || !l.data.any_client_loading then ⟨l, [], none⟩
  else ⟨l, forward_subcommand l c command flag data, none⟩

/-- `on_subcommand_forward_check_size_client`. -/
def on_subcommand_forward_check_size_client (_P : Protocol) (_E : Env) (_s : ServerState)
    (l : Lobby) (_ci : Nat) (c : Client) (command flag : Nat) (data : List Nat) : Handled :=
  attempt l [] (check_size_sc data sizeof_header 0xFFFF true) fun _ =>
    if header_id data ≠ c.lobby_client_id then ⟨l, [], none⟩
    else ⟨l, forward_subcommand l c command flag data, none⟩

/-- `on_subcommand_forward_check_size_game`. -/
def on_subcommand_forward_check_size_game (_P : Protocol) (_E : Env) (_s : ServerState)
    (l : Lobby) (_ci : Nat) (c : Client) (command flag : Nat) (data : List Nat) : Handled :=
  attempt l [] (check_size_sc data sizeof_header 0xFFFF true) fun _ =>
    if !l.data.is_game then ⟨l, [], none⟩
    else ⟨l, forward_subcommand l c command flag data, none⟩

/-- `on_subcommand_forward_check_size_ep3_lobby`. -/
def on_subcommand_forward_check_size_ep3_lobby (_P : Protocol) (_E : Env) (_s : ServerState)
    (l : Lobby) (_ci : Nat) (c : Client) (command flag : Nat) (data : List Nat) : Handled :=
  attempt l [] (check_size_sc data sizeof_header 0xFFFF true) fun _ =>
    if l.data.is_game || !l.data.episode_3_only then ⟨l, [], none⟩
    else ⟨l, forward_subcommand l c command flag data, none⟩

/-- `on_subcommand_forward_check_size_ep3_game`. -/
def on_subcommand_forward_check_size_ep3_game (_P : Protocol) (_E : Env) (_s : ServerState)
    (l : Lobby) (_ci : Nat) (c : Client) (command flag : Nat) (data : List Nat) : Handled :=
  attempt l [] (check_size_sc data sizeof_header 0xFFFF true) fun _ =>
    if !l.data.is_game || !l.data.episode_3_only then ⟨l, [], none⟩
    else ⟨l, forward_subcommand l c command flag data, none⟩

/-- The loop `while (!mask_key) mask_key = random_object<uint8_t>()` over the successive
draws: the first non-zero draw, or nothing when every draw is zero. -/
def mask_key_loop : List Nat → Option Nat
  | [] => none
  | k :: rest => if k % 256 ≠ 0 then some (k % 256) else mask_key_loop rest

/-- `on_subcommand_ep3_battle_subs`.  `header` refers to the payload as received. -/
def on_subcommand_ep3_battle_subs (P : Protocol) (E : Env) (s : ServerState)
    (l : Lobby) (_ci : Nat) (c : Client) (command flag : Nat) (orig_data : List Nat) :
    Handled :=
  attempt l [] (check_size_sc orig_data (P.sizeof .G_CardBattleCommandHeader) 0xFFFF true)
    fun _ =>
    if !l.data.is_game || !l.data.episode_3_only then ⟨l, [], none⟩
    else
      let data := E.set_mask_for_ep3_game_command orig_data 0
      let subsubcommand := P.field .G_CardBattleCommandHeader .subsubcommand orig_data
      let finish : Handled :=
        if !s.disable_masking then
          match mask_key_loop E.random_object with
          | none => ⟨l, [], some (.undefined "the mask key loop does not end")⟩
          | some mask_key =>
            ⟨l, forward_subcommand l c command flag
              (E.set_mask_for_ep3_game_command data mask_key), none⟩
        else ⟨l, forward_subcommand l c command flag data, none⟩
      if header_subcommand orig_data = 0xB5 ∧ subsubcommand = 0x1A then ⟨l, [], none⟩
      else if header_subcommand orig_data = 0xB5 ∧ subsubcommand = 0x36 then
        attempt l [] (check_size_t data.length (P.sizeof .G_Unknown_GC_Ep3_6xB5x36)
          (P.sizeof .G_Unknown_GC_Ep3_6xB5x36)) fun _ =>
          if l.data.is_game && decide (P.field .G_Unknown_GC_Ep3_6xB5x36 .unknown_a1 data ≥ 4)
          then ⟨l, [], none⟩
          else finish
      else finish

/-- `on_subcommand_send_guild_card`. -/
def on_subcommand_send_guild_card (P : Protocol) (_E : Env) (_s : ServerState)
    (l : Lobby) (ci : Nat) (c : Client) (command flag : Nat) (data : List Nat) : Handled :=
  if !command_is_private command || decide (flag ≥ l.data.max_clients) ||
      (l.data.client flag).isNone then ⟨l, [], none⟩
  else
    let send (l : Lobby) (c : Client) : Handled :=
      match l.data.client flag with
      | none => ⟨l, [], none⟩
      | some target => ⟨l, [Event.send_guild_card target.id c.id], none⟩
    let store (cmd : Cmd) : Handled :=
      attempt l [] (check_size_sc data (P.sizeof cmd) (P.sizeof cmd) true) fun _ =>
        let c1 := c.set_player
          { c.player with guild_card_description := P.bytes cmd .description data }
        send (l.set_client ci c1) c1
    match c.version with
    | .DC => store .G_SendGuildCard_DC_6x06
    | .PC => store .G_SendGuildCard_PC_6x06
    | .GC => store .G_SendGuildCard_V3_6x06
    | .XB => store .G_SendGuildCard_V3_6x06
    | .BB => send l c
    | .PATCH => ⟨l, [], some (.logic_error "unsupported game version")⟩

/-- `on_subcommand_symbol_chat`. -/
def on_subcommand_symbol_chat (P : Protocol) (_E : Env) (_s : ServerState)
    (l : Lobby) (_ci : Nat) (c : Client) (command flag : Nat) (data : List Nat) : Handled :=
  attempt l [] (check_size_sc data (P.sizeof .G_SymbolChat_6x07)
    (P.sizeof .G_SymbolChat_6x07) true) fun _ =>
    if !c.can_chat || decide (P.field .G_SymbolChat_6x07 .client_id data ≠ c.lobby_client_id)
    then ⟨l, [], none⟩
    else ⟨l, forward_subcommand l c command flag data, none⟩

/-- `on_subcommand_word_select`. -/
def on_subcommand_word_select (P : Protocol) (_E : Env) (_s : ServerState)
    (l : Lobby) (_ci : Nat) (c : Client) (command flag : Nat) (data : List Nat) : Handled :=
  attempt l [] (check_size_sc data (P.sizeof .G_WordSelect_6x74)
    (P.sizeof .G_WordSelect_6x74) true) fun _ =>
    if !c.can_chat || decide (header_id data ≠ c.lobby_client_id) then ⟨l, [], none⟩
    else ⟨l, forward_subcommand l c command flag data, none⟩

/-- `on_subcommand_set_player_visibility`. -/
def on_subcommand_set_player_visibility (P : Protocol) (_E : Env) (_s : ServerState)
    (l : Lobby) (_ci : Nat) (c : Client) (command flag : Nat) (data : List Nat) : Handled :=
  attempt l [] (check_size_sc data (P.sizeof .G_SetPlayerVisibility_6x22_6x23)
    (P.sizeof .G_SetPlayerVisibility_6x22_6x23) true) fun _ =>
    if header_id data ≠ c.lobby_client_id then ⟨l, [], none⟩
    else
      ⟨l, forward_subcommand l c command flag data
        ++ (if !l.data.is_game && !c.is_dc_v1 then [Event.send_arrow_update l.data.lobby_id]
            else []), none⟩

/-- `on_subcommand_change_area`. -/
def on_subcommand_change_area (P : Protocol) (_E : Env) (_s : ServerState)
    (l : Lobby) (ci : Nat) (c : Client) (command flag : Nat) (data : List Nat) : Handled :=
  attempt l [] (check_size_sc data (P.sizeof .G_InterLevelWarp_6x21)
    (P.sizeof .G_InterLevelWarp_6x21) true) fun _ =>
    if !l.data.is_game then ⟨l, [], none⟩
    else
      let c1 := { c with area := P.field .G_InterLevelWarp_6x21 .area data }
      let l1 := l.set_client ci c1
      ⟨l1, forward_subcommand l1 c1 command flag data, none⟩

/-- `on_subcommand_hit_by_enemy`. -/
def on_subcommand_hit_by_enemy (_P : Protocol) (_E : Env) (_s : ServerState)
    (l : Lobby) (_ci : Nat) (c : Client) (command flag : Nat) (data : List Nat) : Handled :=
  attempt l [] (check_size_sc data sizeof_header 0xFFFF true) fun _ =>
    if !l.data.is_game || decide (header_id data ≠ c.lobby_client_id) then ⟨l, [], none⟩
    else
      ⟨l, forward_subcommand l c command flag data
        ++ (if l.data.cheats_enabled && c.options.infinite_hp then
              [Event.send_player_stats_change l.data.lobby_id c.id false 2550]
            else []), none⟩

/-- `on_subcommand_cast_technique_finished`. -/
def on_subcommand_cast_technique_finished (P : Protocol) (_E : Env) (_s : ServerState)
    (l : Lobby) (_ci : Nat) (c : Client) (command flag : Nat) (data : List Nat) : Handled :=
  attempt l [] (check_size_sc data (P.sizeof .G_CastTechniqueComplete_6x48)
    (P.sizeof .G_CastTechniqueComplete_6x48) true) fun _ =>
    if !l.data.is_game || decide (header_id data ≠ c.lobby_client_id) then ⟨l, [], none⟩
    else
      ⟨l, forward_subcommand l c command flag data
        ++ (if l.data.cheats_enabled && c.options.infinite_tp then
              [Event.send_player_stats_change l.data.lobby_id c.id true 255]
            else []), none⟩

/-- The value of `min<size_t>(cmd.header.size - k, bound)`: the difference is computed in
`int` and converted to `size_t`, so a size byte below `k` gives a value near `2 ^ 64`. -/
def allowed_count (data : List Nat) (k bound : Nat) : Nat :=
  min ((2 ^ 64 + header_size data - k) % 2 ^ 64) bound

/-- `on_subcommand_attack_finished`. -/
def on_subcommand_attack_finished (P : Protocol) (E : Env) (s : ServerState)
    (l : Lobby) (ci : Nat) (c : Client) (command flag : Nat) (data : List Nat) : Handled :=
  attempt l [] (check_size_sc data (P.offsetof .G_AttackFinished_6x46 .entries)
    (P.sizeof .G_AttackFinished_6x46) true) fun _ =>
    if P.field .G_AttackFinished_6x46 .count data > allowed_count data 2 11 then
      ⟨l, [], some (.runtime_error "invalid attack finished command")⟩
    else on_subcommand_forward_check_size_client P E s l ci c command flag data

/-- `on_subcommand_cast_technique`. -/
def on_subcommand_cast_technique (P : Protocol) (E : Env) (s : ServerState)
    (l : Lobby) (ci : Nat) (c : Client) (command flag : Nat) (data : List Nat) : Handled :=
  attempt l [] (check_size_sc data (P.offsetof .G_CastTechnique_6x47 .targets)
    (P.sizeof .G_CastTechnique_6x47) true) fun _ =>
    if P.field .G_CastTechnique_6x47 .target_count data > allowed_count data 2 10 then
      ⟨l, [], some (.runtime_error "invalid cast technique command")⟩
    else on_subcommand_forward_check_size_client P E s l ci c command flag data

/-- `on_subcommand_subtract_pb_energy`. -/
def on_subcommand_subtract_pb_energy (P : Protocol) (E : Env) (s : ServerState)
    (l : Lobby) (ci : Nat) (c : Client) (command flag : Nat) (data : List Nat) : Handled :=
  attempt l [] (check_size_sc data (P.offsetof .G_SubtractPBEnergy_6x49 .entries)
    (P.sizeof .G_SubtractPBEnergy_6x49) true) fun _ =>
    if P.field .G_SubtractPBEnergy_6x49 .entry_count data > allowed_count data 3 14 then
      ⟨l, [], some (.runtime_error "invalid subtract PB energy command")⟩
    else on_subcommand_forward_check_size_client P E s l ci c command flag data

/-- `on_subcommand_switch_state_changed`.  The payload has the size of the struct when the
size check passes, so the stored copy of `cmd` is the payload. -/
def on_subcommand_switch_state_changed (P : Protocol) (_E : Env) (_s : ServerState)
    (l : Lobby) (ci : Nat) (c : Client) (command flag : Nat) (data : List Nat) : Handled :=
  attempt l [] (check_size_t data.length (P.sizeof .G_SwitchStateChanged_6x05)
    (P.sizeof .G_SwitchStateChanged_6x05)) fun _ =>
    if !l.data.is_game then ⟨l, [], none⟩
    else
      let sent := forward_subcommand l c command flag data
      if P.field .G_SwitchStateChanged_6x05 .flags data ≠ 0 ∧ header_id data ≠ 0xFFFF then
        let replay :=
          if l.data.cheats_enabled && c.options.switch_assist &&
              decide (header_subcommand c.last_switch_enabled_command = 0x05) then
            forward_subcommand l c command flag c.last_switch_enabled_command
              ++ [Event.send_command_t c.id command flag c.last_switch_enabled_command]
          else []
        ⟨l.set_client ci { c with last_switch_enabled_command := data }, sent ++ replay, none⟩
      else ⟨l, sent, none⟩

/-- `on_subcommand_movement<CmdT>`. -/
def on_subcommand_movement (cmd : Cmd) (P : Protocol) (_E : Env) (_s : ServerState)
    (l : Lobby) (ci : Nat) (c : Client) (command flag : Nat) (data : List Nat) : Handled :=
  attempt l [] (check_size_sc data (P.sizeof cmd) (P.sizeof cmd) true) fun _ =>
    if header_id data ≠ c.lobby_client_id then ⟨l, [], none⟩
    else
      let c1 := { c with x := P.field cmd .x data, z := P.field cmd .z data }
      let l1 := l.set_client ci c1
      ⟨l1, forward_subcommand l1 c1 command flag data, none⟩

/-- The room with the item part replaced. -/
def Lobby.set_item_state (l : Lobby) (st : ItemState) : Lobby :=
  l.set_data { l.data with item_state := st }

/-- The entry a handler builds from an item record: `present = 1`, `flags = 0`. -/
def PlayerInventoryItem.of_data (d : ItemData) : PlayerInventoryItem := ⟨1, 0, d⟩

/-- `on_subcommand_player_drop_item`. -/
def on_subcommand_player_drop_item (P : Protocol) (E : Env) (_s : ServerState)
    (l : Lobby) (ci : Nat) (c : Client) (command flag : Nat) (data : List Nat) : Handled :=
  attempt l [] (check_size_sc data (P.sizeof .G_DropItem_6x2A)
    (P.sizeof .G_DropItem_6x2A) true) fun _ =>
    if header_id data ≠ c.lobby_client_id then ⟨l, [], none⟩
    else if l.data.item_tracking_enabled then
      attempt l [] (E.player_remove_item c.player (P.field .G_DropItem_6x2A .item_id data) 0)
        fun r =>
        let c1 := c.set_player r.2
        let l1 := l.set_client ci c1
        attempt l1 [] (E.add_item l1.data.item_state r.1 (P.field .G_DropItem_6x2A .area data)
          (P.field .G_DropItem_6x2A .x data) (P.field .G_DropItem_6x2A .z data)) fun st =>
          let l2 := l1.set_item_state st
          ⟨l2, forward_subcommand l2 c1 command flag data, none⟩
    else ⟨l, forward_subcommand l c command flag data, none⟩

/-- `on_subcommand_create_inventory_item`. -/
def on_subcommand_create_inventory_item (P : Protocol) (E : Env) (_s : ServerState)
    (l : Lobby) (ci : Nat) (c : Client) (command flag : Nat) (data : List Nat) : Handled :=
  attempt l [] (check_size_sc data (P.sizeof .G_CreateInventoryItem_DC_6x2B)
    (P.sizeof .G_CreateInventoryItem_PC_V3_BB_6x2B) true) fun _ =>
    if header_id data ≠ c.lobby_client_id then ⟨l, [], none⟩
    else if c.version = .BB then ⟨l, [], none⟩
    else if l.data.item_tracking_enabled then
      attempt l [] (E.player_add_item c.player
        (.of_data (P.item .G_CreateInventoryItem_DC_6x2B .item data))) fun p =>
        let c1 := c.set_player p
        let l1 := l.set_client ci c1
        ⟨l1, forward_subcommand l1 c1 command flag data, none⟩
    else ⟨l, forward_subcommand l c command flag data, none⟩

/-- `on_subcommand_drop_partial_stack`. -/
def on_subcommand_drop_partial_stack (P : Protocol) (E : Env) (_s : ServerState)
    (l : Lobby) (_ci : Nat) (c : Client) (command flag : Nat) (data : List Nat) : Handled :=
  attempt l [] (check_size_sc data (P.sizeof .G_DropStackedItem_DC_6x5D)
    (P.sizeof .G_DropStackedItem_PC_V3_BB_6x5D) true) fun _ =>
    if !l.data.is_game then ⟨l, [], none⟩
    else if l.data.version = .BB then ⟨l, [], none⟩
    else if l.data.item_tracking_enabled then
      attempt l [] (E.add_item l.data.item_state
        (.of_data (P.item .G_DropStackedItem_DC_6x5D .data data))
        (P.field .G_DropStackedItem_DC_6x5D .area data)
        (P.field .G_DropStackedItem_DC_6x5D .x data)
        (P.field .G_DropStackedItem_DC_6x5D .z data)) fun st =>
        let l1 := l.set_item_state st
        ⟨l1, forward_subcommand l1 c command flag data, none⟩
    else ⟨l, forward_subcommand l c command flag data, none⟩

/-- The entry with the id of its item replaced (`item.data.id = id`). -/
def PlayerInventoryItem.set_id (item : PlayerInventoryItem) (id : Nat) : PlayerInventoryItem :=
  { item with data := { item.data with id := id } }

/-- `on_subcommand_drop_partial_stack_bb`. -/
def on_subcommand_drop_partial_stack_bb (P : Protocol) (E : Env) (_s : ServerState)
    (l : Lobby) (ci : Nat) (c : Client) (command flag : Nat) (data : List Nat) : Handled :=
  if l.data.version = .BB then
    attempt l [] (check_size_sc data (P.sizeof .G_SplitStackedItem_6xC3)
      (P.sizeof .G_SplitStackedItem_6xC3) true) fun _ =>
      if !l.data.is_game || decide (header_id data ≠ c.lobby_client_id) then ⟨l, [], none⟩
      else if !l.data.item_tracking_enabled then
        ⟨l, [], some (.logic_error "item tracking not enabled in BB game")⟩
      else
        attempt l [] (E.player_remove_item c.player
          (P.field .G_SplitStackedItem_6xC3 .item_id data)
          (P.field .G_SplitStackedItem_6xC3 .amount data)) fun r =>
          let l1 := l.set_client ci (c.set_player r.2)
          let g := E.generate_item_id l1.data.item_state c.lobby_client_id
          let item : PlayerInventoryItem :=
            if r.1.data.id = 0xFFFFFFFF then r.1.set_id g.1 else r.1
          let l2 := if r.1.data.id = 0xFFFFFFFF then l1.set_item_state g.2 else l1
          attempt l2 [] (E.player_add_item r.2 item) fun p =>
            let l3 := l2.set_client ci (c.set_player p)
            attempt l3 [] (E.add_item l3.data.item_state item
              (P.field .G_SplitStackedItem_6xC3 .area data)
              (P.field .G_SplitStackedItem_6xC3 .x data)
              (P.field .G_SplitStackedItem_6xC3 .z data)) fun st =>
              ⟨l3.set_item_state st,
                [Event.send_drop_stacked_item l.data.lobby_id item.data
                  (P.field .G_SplitStackedItem_6xC3 .area data)
                  (P.field .G_SplitStackedItem_6xC3 .x data)
                  (P.field .G_SplitStackedItem_6xC3 .z data)], none⟩
  else ⟨l, forward_subcommand l c command flag data, none⟩

/-- `on_subcommand_buy_shop_item`. -/
def on_subcommand_buy_shop_item (P : Protocol) (E : Env) (_s : ServerState)
    (l : Lobby) (ci : Nat) (c : Client) (command flag : Nat) (data : List Nat) : Handled :=
  attempt l [] (check_size_sc data (P.sizeof .G_BuyShopItem_6x5E)
    (P.sizeof .G_BuyShopItem_6x5E) true) fun _ =>
    if !l.data.is_game || decide (header_id data ≠ c.lobby_client_id) then ⟨l, [], none⟩
    else if l.data.version = .BB then ⟨l, [], none⟩
    else if l.data.item_tracking_enabled then
      attempt l [] (E.player_add_item c.player
        (.of_data (P.item .G_BuyShopItem_6x5E .item data))) fun p =>
        let c1 := c.set_player p
        let l1 := l.set_client ci c1
        ⟨l1, forward_subcommand l1 c1 command flag data, none⟩
    else ⟨l, forward_subcommand l c command flag data, none⟩

/-- `on_subcommand_box_or_enemy_item_drop`. -/
def on_subcommand_box_or_enemy_item_drop (P : Protocol) (E : Env) (_s : ServerState)
    (l : Lobby) (_ci : Nat) (c : Client) (command flag : Nat) (data : List Nat) : Handled :=
  attempt l [] (check_size_sc data (P.sizeof .G_DropItem_DC_6x5F)
    (P.sizeof .G_DropItem_PC_V3_BB_6x5F) true) fun _ =>
    if !l.data.is_game || decide (c.lobby_client_id ≠ l.data.leader_id) then ⟨l, [], none⟩
    else if l.data.version = .BB then ⟨l, [], none⟩
    else
      attempt l [] (E.add_item l.data.item_state
        (.of_data (P.item .G_DropItem_DC_6x5F .data data))
        (P.field .G_DropItem_DC_6x5F .area data)
        (P.field .G_DropItem_DC_6x5F .x data)
        (P.field .G_DropItem_DC_6x5F .z data)) fun st =>
        let l1 := l.set_item_state st
        ⟨l1, forward_subcommand l1 c command flag data, none⟩

/-- `on_subcommand_pick_up_item`.  `clients.at` throws `out_of_range`, a `logic_error`,
for an index outside the slot array. -/
def on_subcommand_pick_up_item (P : Protocol) (E : Env) (_s : ServerState)
    (l : Lobby) (_ci : Nat) (c : Client) (command flag : Nat) (data : List Nat) : Handled :=
  attempt l [] (check_size_sc data (P.sizeof .G_PickUpItem_6x59)
    (P.sizeof .G_PickUpItem_6x59) true) fun _ =>
    if !l.data.is_game then ⟨l, [], none⟩
    else if l.data.version = .BB then ⟨l, [], none⟩
    else if header_id data ≥ l.data.clients.length then
      ⟨l, [], some (.logic_error "out_of_range")⟩
    else
      match l.data.client (header_id data) with
      | none => ⟨l, [], none⟩
      | some effective_c =>
        if l.data.item_tracking_enabled then
          attempt l [] (E.remove_item l.data.item_state
            (P.field .G_PickUpItem_6x59 .item_id data)) fun r =>
            let l1 := l.set_item_state r.2
            attempt l1 [] (E.player_add_item effective_c.player r.1) fun p =>
              let l2 := l1.set_client (header_id data) (effective_c.set_player p)
              ⟨l2, forward_subcommand l2 c command flag data, none⟩
        else ⟨l, forward_subcommand l c command flag data, none⟩

/-- `on_subcommand_pick_up_item_request`. -/
def on_subcommand_pick_up_item_request (P : Protocol) (E : Env) (_s : ServerState)
    (l : Lobby) (ci : Nat) (c : Client) (command flag : Nat) (data : List Nat) : Handled :=
  if l.data.version = .BB then
    attempt l [] (check_size_sc data (P.sizeof .G_PickUpItemRequest_6x5A)
      (P.sizeof .G_PickUpItemRequest_6x5A) true) fun _ =>
      if !l.data.is_game || decide (header_id data ≠ c.lobby_client_id) then ⟨l, [], none⟩
      else if !l.data.item_tracking_enabled then
        ⟨l, [], some (.logic_error "item tracking not enabled in BB game")⟩
      else
        attempt l [] (E.remove_item l.data.item_state
          (P.field .G_PickUpItemRequest_6x5A .item_id data)) fun r =>
          let l1 := l.set_item_state r.2
          attempt l1 [] (E.player_add_item c.player r.1) fun p =>
            ⟨l1.set_client ci (c.set_player p),
              [Event.send_pick_up_item l.data.lobby_id c.id
                (P.field .G_PickUpItemRequest_6x5A .item_id data)
                (P.field .G_PickUpItemRequest_6x5A .area data)], none⟩
  else ⟨l, forward_subcommand l c command flag data, none⟩

/-- The inventory with the flags of entry `index` replaced by `f` of them
(`inventory.items[index].flags`, a 32-bit field). -/
def PlayerInventory.update_flags (inv : PlayerInventory) (index : Nat) (f : Nat → Nat) :
    PlayerInventory :=
  let entry := inv.items.getD index .blank
  { inv with items := inv.items.set index { entry with flags := f entry.flags } }

/-- `on_subcommand_equip_unequip_item`. -/
def on_subcommand_equip_unequip_item (P : Protocol) (E : Env) (_s : ServerState)
    (l : Lobby) (ci : Nat) (c : Client) (command flag : Nat) (data : List Nat) : Handled :=
  attempt l [] (check_size_sc data (P.sizeof .G_EquipOrUnequipItem_6x25_6x26)
    (P.sizeof .G_EquipOrUnequipItem_6x25_6x26) true) fun _ =>
    if header_id data ≠ c.lobby_client_id then ⟨l, [], none⟩
    else if l.data.item_tracking_enabled then
      attempt l [] (E.find_item c.player.inventory
        (P.field .G_EquipOrUnequipItem_6x25_6x26 .item_id data)) fun index =>
        let inv :=
          if header_subcommand data = 0x25 then
            c.player.inventory.update_flags index fun flags => flags ||| 0x00000008
          else
            c.player.inventory.update_flags index fun flags => flags &&& 0xFFFFFFF7
        let c1 := c.set_player { c.player with inventory := inv }
        let l1 := l.set_client ci c1
        ⟨l1, forward_subcommand l1 c1 command flag data, none⟩
    else if l.data.version = .BB then
      ⟨l, [], some (.logic_error "item tracking not enabled in BB game")⟩
    else ⟨l, forward_subcommand l c command flag data, none⟩

/-- `on_subcommand_use_item`. -/
def on_subcommand_use_item (P : Protocol) (E : Env) (_s : ServerState)
    (l : Lobby) (ci : Nat) (c : Client) (command flag : Nat) (data : List Nat) : Handled :=
  attempt l [] (check_size_sc data (P.sizeof .G_UseItem_6x27)
    (P.sizeof .G_UseItem_6x27) true) fun _ =>
    if header_id data ≠ c.lobby_client_id then ⟨l, [], none⟩
    else if l.data.item_tracking_enabled then
      attempt l [] (E.find_item c.player.inventory (P.field .G_UseItem_6x27 .item_id data))
        fun index =>
        attempt l [] (E.player_use_item c index) fun c1 =>
          let l1 := l.set_client ci c1
          ⟨l1, forward_subcommand l1 c1 command flag data, none⟩
    else ⟨l, forward_subcommand l c command flag data, none⟩

/-- The loop of the shop handler that fills `shop_contents` up to `num_items` entries:
`n` entries are still missing and `k` calls of `create_shop_item` have been made. -/
def shop_loop (E : Env) (difficulty shop_type client_id : Nat) :
    Nat → Nat → ItemState → List ItemData → ItemState × List ItemData
  | 0, _, st, shop_contents => (st, shop_contents)
  | n + 1, k, st, shop_contents =>
    if shop_type = 0 ∨ shop_type = 1 ∨ shop_type = 2 then
      let item_data :=
        E.create_shop_item k difficulty
          (if shop_type = 0 then 3 else if shop_type = 1 then 0 else 1)
      let g := E.generate_item_id st client_id
      shop_loop E difficulty shop_type client_id n (k + 1) g.2
        (shop_contents ++ [{ item_data with id := g.1 }])
    else (st, shop_contents)

/-- `on_subcommand_open_shop_bb_or_ep3_battle_subs`. -/
def on_subcommand_open_shop_bb_or_ep3_battle_subs (P : Protocol) (E : Env) (s : ServerState)
    (l : Lobby) (ci : Nat) (c : Client) (command flag : Nat) (data : List Nat) : Handled :=
  if l.data.episode_3_only then on_subcommand_ep3_battle_subs P E s l ci c command flag data
  else if !l.data.common_item_creator then
    ⟨l, [], some (.runtime_error "received shop subcommand without item creator present")⟩
  else
    attempt l [] (check_size_sc data 0x08 (P.sizeof .G_ShopContentsRequest_BB_6xB5) true)
      fun _ =>
      if l.data.version = .BB ∧ l.data.is_game = true then
        let shop_type := P.field .G_ShopContentsRequest_BB_6xB5 .shop_type data
        let num_items := 9 + E.rand % 4
        let r := shop_loop E l.data.difficulty shop_type c.lobby_client_id num_items 0
          l.data.item_state []
        let c1 := { c with game_data := { c.game_data with shop_contents := r.2 } }
        ⟨(l.set_item_state r.1).set_client ci c1, [Event.send_shop c.id shop_type], none⟩
      else ⟨l, [], none⟩

/-- `on_subcommand_open_bank_bb_or_card_trade_counter_ep3`. -/
def on_subcommand_open_bank_bb_or_card_trade_counter_ep3 (_P : Protocol) (_E : Env)
    (_s : ServerState) (l : Lobby) (_ci : Nat) (c : Client) (command flag : Nat)
    (data : List Nat) : Handled :=
  if l.data.version = .BB ∧ l.data.is_game = true then ⟨l, [Event.send_bank c.id], none⟩
  else if l.data.version = .GC ∧ l.data.episode_3_only = true then
    ⟨l, forward_subcommand l c command flag data, none⟩
  else ⟨l, [], none⟩

/-- `on_subcommand_bank_action_bb`.  The meseta fields are 32-bit. -/
def on_subcommand_bank_action_bb (P : Protocol) (E : Env) (_s : ServerState)
    (l : Lobby) (ci : Nat) (c : Client) (_command _flag : Nat) (data : List Nat) : Handled :=
  if l.data.version = .BB then
    attempt l [] (check_size_sc data (P.sizeof .G_BankAction_BB_6xBD)
      (P.sizeof .G_BankAction_BB_6xBD) true) fun _ =>
      let action := P.field .G_BankAction_BB_6xBD .action data
      let item_id := P.field .G_BankAction_BB_6xBD .item_id data
      let meseta_amount := P.field .G_BankAction_BB_6xBD .meseta_amount data
      let item_amount := P.field .G_BankAction_BB_6xBD .item_amount data
      let p := c.player
      if !l.data.is_game then ⟨l, [], none⟩
      else if !l.data.item_tracking_enabled then
        ⟨l, [], some (.logic_error "item tracking not enabled in BB game")⟩
      else if action = 0 then
        if item_id = 0xFFFFFFFF then
          if meseta_amount > p.disp.meseta then ⟨l, [], none⟩
          else if add32 p.bank.meseta meseta_amount > 999999 then ⟨l, [], none⟩
          else
            ⟨l.set_client ci (c.set_player
              { p with
                bank := { p.bank with meseta := add32 p.bank.meseta meseta_amount }
                disp := { p.disp with meseta := sub32 p.disp.meseta meseta_amount } }),
              [], none⟩
        else
          attempt l [] (E.player_remove_item p item_id item_amount) fun r =>
            let l1 := l.set_client ci (c.set_player r.2)
            attempt l1 [] (E.bank_add_item r.2.bank r.1) fun bank =>
              ⟨l.set_client ci (c.set_player { r.2 with bank := bank }),
                [Event.send_destroy_item l.data.lobby_id c.id item_id item_amount], none⟩
      else if action = 1 then
        if item_id = 0xFFFFFFFF then
          if meseta_amount > p.bank.meseta then ⟨l, [], none⟩
          else if add32 p.disp.meseta meseta_amount > 999999 then ⟨l, [], none⟩
          else
            ⟨l.set_client ci (c.set_player
              { p with
                bank := { p.bank with meseta := sub32 p.bank.meseta meseta_amount }
                disp := { p.disp with meseta := add32 p.disp.meseta meseta_amount } }),
              [], none⟩
        else
          attempt l [] (E.bank_remove_item p.bank item_id item_amount) fun r =>
            let p1 := { p with bank := r.2 }
            let l1 := l.set_client ci (c.set_player p1)
            let g := E.generate_item_id l1.data.item_state 0xFF
            let item := r.1.set_id g.1
            let l2 := l1.set_item_state g.2
            attempt l2 [] (E.player_add_item p1 item) fun p2 =>
              ⟨l2.set_client ci (c.set_player p2),
                [Event.send_create_inventory_item l.data.lobby_id c.id item.data], none⟩
      else ⟨l, [], none⟩
  else ⟨l, [], none⟩

/-- The loop of `on_subcommand_sort_inventory_bb` over the 30 slots, from slot `x`, with
`n` slots to go: the entries of `sorted` from `x` on, or the exception of `find_item`. -/
def sort_inventory_loop (P : Protocol) (E : Env) (inv : PlayerInventory) (data : List Nat) :
    Nat → Nat → Except Exn (List PlayerInventoryItem)
  | 0, _ => .ok []
  | n + 1, x =>
    if P.field .G_SortInventory_6xC4 (.item_ids x) data = 0xFFFFFFFF then
      match sort_inventory_loop P E inv data n (x + 1) with
      | .error e => .error e
      | .ok rest => .ok (PlayerInventoryItem.blank.set_id 0xFFFFFFFF :: rest)
    else
      match E.find_item inv (P.field .G_SortInventory_6xC4 (.item_ids x) data) with
      | .error e => .error e
      | .ok index =>
        match sort_inventory_loop P E inv data n (x + 1) with
        | .error e => .error e
        | .ok rest => .ok (inv.items.getD index .blank :: rest)

/-- `on_subcommand_sort_inventory_bb`. -/
def on_subcommand_sort_inventory_bb (P : Protocol) (E : Env) (_s : ServerState)
    (l : Lobby) (ci : Nat) (c : Client) (_command _flag : Nat) (data : List Nat) : Handled :=
  if l.data.version = .BB then
    attempt l [] (check_size_sc data (P.sizeof .G_SortInventory_6xC4)
      (P.sizeof .G_SortInventory_6xC4) true) fun _ =>
      if !l.data.item_tracking_enabled then
        ⟨l, [], some (.logic_error "item tracking not enabled in BB game")⟩
      else
        attempt l [] (sort_inventory_loop P E c.player.inventory data 30 0) fun items =>
          ⟨l.set_client ci (c.set_player
            { c.player with inventory := { c.player.inventory with items := items } }),
            [], none⟩
  else ⟨l, [], none⟩

/-- The scan of `drop_item` over the 30 box areas of a rare table, from entry `z`, with `n`
entries to go, after `k` calls of `RareItemSet::sample`. -/
def box_rare_loop (E : Env) (table : RareTable) (area : Nat) : Nat → Nat → Nat → Option RareDrop
  | 0, _, _ => none
  | n + 1, z, k =>
    if table.box_areas.getD z 0 ≠ area then box_rare_loop E table area n (z + 1) k
    else if E.sample k (table.box_rares.getD z ⟨0, []⟩).probability then
      some (table.box_rares.getD z ⟨0, []⟩)
    else box_rare_loop E table area n (z + 1) (k + 1)

/-- The item `drop_item` builds from a rare-table entry: the three bytes of the item code,
and the unidentified bit of byte 4 when the first word of `data1` is zero. -/
def rare_item (drop : RareDrop) : ItemData :=
  let data1 :=
    (((List.replicate 12 0).set 0 (drop.item_code.getD 0 0)).set 1
      (drop.item_code.getD 1 0)).set 2 (drop.item_code.getD 2 0)
  let item : ItemData := ⟨data1, 0, List.replicate 4 0⟩
  if item.data1d0 = 0 then { item with data1 := data1.set 4 (data1.getD 4 0 ||| 0x80) }
  else item

/-- `drop_item`; the second component is the value it returns. -/
def drop_item (E : Env) (s : ServerState) (l : Lobby) (enemy_id : Int)
    (area x z request_id : Nat) : Handled × Bool :=
  if l.data.version = .BB then
    if !l.data.common_item_creator then
      (⟨l, [], some (.runtime_error
        "received box drop subcommand without item creator present")⟩, false)
    else
      let drop : Option RareDrop :=
        match s.rare_item_set with
        | none => none
        | some get_table =>
          let table := get_table ((l.data.episode : Int) - 1) l.data.difficulty l.data.section_id
          if enemy_id < 0 then box_rare_loop E table area 30 0 0
          else if enemy_id ≤ 0x65 ∧
              E.sample 0 (table.monster_rares.getD enemy_id.toNat ⟨0, []⟩).probability = true
          then some (table.monster_rares.getD enemy_id.toNat ⟨0, []⟩)
          else none
      let finish (data : ItemData) : Handled × Bool :=
        let g := E.generate_item_id l.data.item_state 0xFF
        let item : PlayerInventoryItem := ⟨0, 0, { data with id := g.1 }⟩
        let l1 := l.set_item_state g.2
        let sent := [Event.send_drop_item l.data.lobby_id item.data (decide (enemy_id ≥ 0))
          area x z request_id]
        if l.data.item_tracking_enabled then
          match E.add_item l1.data.item_state item area x z with
          | .error e => (⟨l1, [], some e⟩, false)
          | .ok st => (⟨l1.set_item_state st, sent, none⟩, true)
        else (⟨l1, sent, none⟩, true)
      match drop with
      | some d => finish (rare_item d)
      | none =>
        match E.create_drop_item l.data.episode l.data.difficulty area l.data.section_id with
        | none => (⟨l, [], none⟩, true)
        | some data => finish data
  else (⟨l, [], none⟩, false)

/-- The end of the two drop-request handlers: the request is forwarded when `drop_item`
returns false. -/
def drop_or_forward (r : Handled × Bool) (c : Client) (command flag : Nat)
    (data : List Nat) : Handled :=
  match r.1.error with
  | some e => ⟨r.1.lobby, r.1.events, some e⟩
  | none =>
    if !r.2 then
      ⟨r.1.lobby, r.1.events ++ forward_subcommand r.1.lobby c command flag data, none⟩
    else r.1

/-- `on_subcommand_enemy_drop_item_request`. -/
def on_subcommand_enemy_drop_item_request (P : Protocol) (E : Env) (s : ServerState)
    (l : Lobby) (_ci : Nat) (c : Client) (command flag : Nat) (data : List Nat) : Handled :=
  if !l.data.is_game then ⟨l, [], none⟩
  else
    attempt l [] (check_size_sc data (P.sizeof .G_EnemyDropItemRequest_DC_6x60)
      (P.sizeof .G_EnemyDropItemRequest_PC_V3_BB_6x60) true) fun _ =>
      drop_or_forward
        (drop_item E s l (P.field .G_EnemyDropItemRequest_DC_6x60 .enemy_id data : Nat)
          (P.field .G_EnemyDropItemRequest_DC_6x60 .area data)
          (P.field .G_EnemyDropItemRequest_DC_6x60 .x data)
          (P.field .G_EnemyDropItemRequest_DC_6x60 .z data)
          (P.field .G_EnemyDropItemRequest_DC_6x60 .request_id data))
        c command flag data

/-- `on_subcommand_box_drop_item_request`. -/
def on_subcommand_box_drop_item_request (P : Protocol) (E : Env) (s : ServerState)
    (l : Lobby) (_ci : Nat) (c : Client) (command flag : Nat) (data : List Nat) : Handled :=
  if !l.data.is_game then ⟨l, [], none⟩
  else
    attempt l [] (check_size_sc data (P.sizeof .G_BoxItemDropRequest_6xA2)
      (P.sizeof .G_BoxItemDropRequest_6xA2) true) fun _ =>
      drop_or_forward
        (drop_item E s l (-1)
          (P.field .G_BoxItemDropRequest_6xA2 .area data)
          (P.field .G_BoxItemDropRequest_6xA2 .x data)
          (P.field .G_BoxItemDropRequest_6xA2 .z data)
          (P.field .G_BoxItemDropRequest_6xA2 .request_id data))
        c command flag data

/-- `on_subcommand_phase_setup`. -/
def on_subcommand_phase_setup (P : Protocol) (_E : Env) (_s : ServerState)
    (l : Lobby) (_ci : Nat) (c : Client) (command flag : Nat) (data : List Nat) : Handled :=
  if c.version = .DC ∨ c.version = .PC then
    ⟨l, forward_subcommand l c command flag data, none⟩
  else
    attempt l [] (check_size_sc data (P.sizeof .G_PhaseSetup_V3_BB_6x75)
      (P.sizeof .G_PhaseSetup_V3_BB_6x75) true) fun _ =>
      if !l.data.is_game then ⟨l, [], none⟩
      else
        let sent := forward_subcommand l c command flag data
        let phase := P.field .G_PhaseSetup_V3_BB_6x75 .phase data
        let should_send_boss_drop_req : Bool :=
          if P.field .G_PhaseSetup_V3_BB_6x75 .difficulty data = l.data.difficulty then
            if l.data.episode = 1 ∧ c.area = 0x0E then
              decide ((l.data.difficulty = 0 ∧ phase = 0x00000035) ∨
                (l.data.difficulty ≠ 0 ∧ phase = 0x00000037))
            else decide (l.data.episode = 2 ∧ phase = 0x00000057 ∧ c.area = 0x0D)
          else false
        if should_send_boss_drop_req then
          if l.data.leader_id ≥ l.data.clients.length then
            ⟨l, sent, some (.logic_error "out_of_range")⟩
          else
            match l.data.client l.data.leader_id with
            | none => ⟨l, sent, none⟩
            | some leader =>
              ⟨l, sent ++ [Event.send_boss_drop_request leader.id l.data.leader_id
                (leader.area % 256) l.data.episode], none⟩
        else ⟨l, sent, none⟩

/-- The room with the enemy table replaced. -/
def Lobby.set_enemies (l : Lobby) (enemies : List Enemy) : Lobby :=
  l.set_data { l.data with enemies := enemies }

/-- The entry of the enemy table at an index inside it (`l->enemies[enemy_id]`). -/
def LobbyData.enemy (l : LobbyData) (enemy_id : Nat) : Enemy := l.enemies.getD enemy_id ⟨0, 0, 0⟩

/-- `on_subcommand_enemy_hit`.  `hit_flags` is a byte, so the result of `|=` is reduced to
eight bits. -/
def on_subcommand_enemy_hit (P : Protocol) (_E : Env) (_s : ServerState)
    (l : Lobby) (_ci : Nat) (c : Client) (command flag : Nat) (data : List Nat) : Handled :=
  if l.data.version = .BB then
    attempt l [] (check_size_sc data (P.sizeof .G_EnemyHitByPlayer_6x0A)
      (P.sizeof .G_EnemyHitByPlayer_6x0A) true) fun _ =>
      if !l.data.is_game then ⟨l, [], none⟩
      else if header_id data ≥ l.data.enemies.length then ⟨l, [], none⟩
      else if (l.data.enemy (header_id data)).hit_flags &&& 0x80 ≠ 0 then ⟨l, [], none⟩
      else
        let enemy := l.data.enemy (header_id data)
        let l1 := l.set_enemies (l.data.enemies.set (header_id data)
          { enemy with
            hit_flags := (enemy.hit_flags ||| 1 <<< c.lobby_client_id) % 256
            last_hit := c.lobby_client_id })
        ⟨l1, forward_subcommand l1 c command flag data, none⟩
  else ⟨l, forward_subcommand l c command flag data, none⟩

/-- The level-up loop of `on_subcommand_enemy_killed` (a `do ... while (level < 199)`),
with a bound on the number of passes: the character data and `leveled_up` when the loop is
left, or nothing when the bound is used up. -/
def level_up_loop (s : ServerState) : Nat → PlayerDispData → Bool → Option (PlayerDispData × Bool)
  | 0, _, _ => none
  | fuel + 1, disp, leveled_up =>
    let level := s.stats_for_level disp.char_class (disp.level + 1)
    if disp.experience ≥ level.experience then
      let disp1 := { disp with stats := level.apply disp.stats, level := disp.level + 1 }
      if disp1.level < 199 then level_up_loop s fuel disp1 true else some (disp1, true)
    else some (disp, leveled_up)

/-- The experience `on_subcommand_enemy_killed` gives the player in a slot: all of it to
the last hitter, 77% to the others, computed in 32 bits. -/
def experience_share (enemy : Enemy) (other_c : Client) : Nat :=
  if enemy.last_hit = other_c.lobby_client_id then enemy.experience
  else (enemy.experience * 77 % 2 ^ 32) / 100

/-- The body of the loop of `on_subcommand_enemy_killed` for an occupied slot whose player
is below level 199: the experience is added (a 32-bit field), the give-experience message is
sent, the level-up loop runs and the level-up message is sent when a level was gained.
The result is the client afterwards, the events, and the marker for a level-up loop that
does not end. -/
def enemy_killed_award (s : ServerState) (enemy : Enemy) (lobby_id : Nat) (other_c : Client) :
    Client × List Event × Option Exn :=
  let exp := experience_share enemy other_c
  let disp := other_c.player.disp
  let disp1 := { disp with experience := add32 disp.experience exp }
  let give := Event.send_give_experience lobby_id other_c.id exp
  match level_up_loop s 200 disp1 false with
  | none =>
    (other_c.set_player { other_c.player with disp := disp1 }, [give],
      some (.undefined "the level-up loop does not end"))
  | some r =>
    (other_c.set_player { other_c.player with disp := r.1 },
      give :: (if r.2 then [Event.send_level_up lobby_id other_c.id] else []), none)

/-- The loop of `on_subcommand_enemy_killed` over the slots, from slot `x`, with `n` slots
to go; `events` are the events so far. -/
def enemy_killed_loop (s : ServerState) (enemy : Enemy) :
    Nat → Nat → Lobby → List Event → Handled
  | 0, _, l, events => ⟨l, events, none⟩
  | n + 1, x, l, events =>
    if (enemy.hit_flags >>> x) &&& 1 = 0 then enemy_killed_loop s enemy n (x + 1) l events
    else
      match l.data.client x with
      | none => enemy_killed_loop s enemy n (x + 1) l events
      | some other_c =>
        if other_c.player.disp.level ≥ 199 then enemy_killed_loop s enemy n (x + 1) l events
        else
          let r := enemy_killed_award s enemy l.data.lobby_id other_c
          match r.2.2 with
          | some e => ⟨l.set_client x r.1, events ++ r.2.1, some e⟩
          | none => enemy_killed_loop s enemy n (x + 1) (l.set_client x r.1) (events ++ r.2.1)

/-- `on_subcommand_enemy_killed`. -/
def on_subcommand_enemy_killed (P : Protocol) (_E : Env) (s : ServerState)
    (l : Lobby) (_ci : Nat) (c : Client) (command flag : Nat) (data : List Nat) : Handled :=
  let sent := forward_subcommand l c command flag data
  if l.data.version = .BB then
    attempt l sent (check_size_sc data (P.sizeof .G_EnemyKilled_6xC8)
      (P.sizeof .G_EnemyKilled_6xC8) true) fun _ =>
      if !l.data.is_game then
        ⟨l, sent, some (.runtime_error "client should not kill enemies outside of games")⟩
      else if header_id data ≥ l.data.enemies.length then
        ⟨l, sent ++ [Event.send_text_message c.id "$C6Missing enemy killed"], none⟩
      else if (l.data.enemy (header_id data)).hit_flags &&& 0x80 ≠ 0 then ⟨l, sent, none⟩
      else if (l.data.enemy (header_id data)).experience = 0xFFFFFFFF then
        ⟨l, sent ++ [Event.send_text_message c.id "$C6Unknown enemy type killed"], none⟩
      else
        let enemy0 := l.data.enemy (header_id data)
        let enemy := { enemy0 with hit_flags := (enemy0.hit_flags ||| 0x80) % 256 }
        let l1 := l.set_enemies (l.data.enemies.set (header_id data) enemy)
        enemy_killed_loop s enemy l.data.max_clients 0 l1 sent
  else ⟨l, sent, none⟩

/-- `on_subcommand_destroy_inventory_item`. -/
def on_subcommand_destroy_inventory_item (P : Protocol) (E : Env) (_s : ServerState)
    (l : Lobby) (ci : Nat) (c : Client) (command flag : Nat) (data : List Nat) : Handled :=
  attempt l [] (check_size_sc data (P.sizeof .G_DeleteInventoryItem_6x29)
    (P.sizeof .G_DeleteInventoryItem_6x29) true) fun _ =>
    if !l.data.is_game then ⟨l, [], none⟩
    else if header_id data ≠ c.lobby_client_id then ⟨l, [], none⟩
    else if l.data.item_tracking_enabled then
      attempt l [] (E.player_remove_item c.player
        (P.field .G_DeleteInventoryItem_6x29 .item_id data)
        (P.field .G_DeleteInventoryItem_6x29 .amount data)) fun r =>
        let c1 := c.set_player r.2
        let l1 := l.set_client ci c1
        ⟨l1, forward_subcommand l1 c1 command flag data, none⟩
    else ⟨l, [], none⟩

/-- `on_subcommand_destroy_ground_item`. -/
def on_subcommand_destroy_ground_item (P : Protocol) (E : Env) (_s : ServerState)
    (l : Lobby) (_ci : Nat) (c : Client) (command flag : Nat) (data : List Nat) : Handled :=
  attempt l [] (check_size_sc data (P.sizeof .G_DestroyGroundItem_6x63)
    (P.sizeof .G_DestroyGroundItem_6x63) true) fun _ =>
    if !l.data.is_game then ⟨l, [], none⟩
    else if l.data.item_tracking_enabled then
      attempt l [] (E.remove_item l.data.item_state
        (P.field .G_DestroyGroundItem_6x63 .item_id data)) fun r =>
        let l1 := l.set_item_state r.2
        ⟨l1, forward_subcommand l1 c command flag data, none⟩
    else ⟨l, [], none⟩

/-- `on_subcommand_identify_item_bb`.  `meseta` is a 32-bit field. -/
def on_subcommand_identify_item_bb (P : Protocol) (E : Env) (_s : ServerState)
    (l : Lobby) (ci : Nat) (c : Client) (command flag : Nat) (data : List Nat) : Handled :=
  if l.data.version = .BB then
    attempt l [] (check_size_sc data (P.sizeof .G_AcceptItemIdentification_BB_6xB8)
      (P.sizeof .G_AcceptItemIdentification_BB_6xB8) true) fun _ =>
      if !l.data.is_game then ⟨l, [], none⟩
      else if !l.data.item_tracking_enabled then
        ⟨l, [], some (.logic_error "item tracking not enabled in BB game")⟩
      else
        attempt l [] (E.find_item c.player.inventory
          (P.field .G_AcceptItemIdentification_BB_6xB8 .item_id data)) fun x =>
          let entry := c.player.inventory.items.getD x .blank
          if entry.data.data1.getD 0 0 ≠ 0 then ⟨l, [], none⟩
          else
            let p := c.player
            let p1 := { p with disp := { p.disp with meseta := sub32 p.disp.meseta 100 } }
            let result : PlayerInventoryItem :=
              { entry with data := { entry.data with
                  data1 := entry.data.data1.set 4 (entry.data.data1.getD 4 0 &&& 0x7F) } }
            let c1 : Client :=
              { c with game_data := { player := p1, shop_contents := c.game_data.shop_contents,
                                       identify_result := result } }
            ⟨l.set_client ci c1,
              [Event.send_identify_result l.data.lobby_id c.lobby_client_id result.data], none⟩
  else ⟨l, forward_subcommand l c command flag data, none⟩

/-- `on_subcommand_accept_identify_item_bb`. -/
def on_subcommand_accept_identify_item_bb (P : Protocol) (E : Env) (_s : ServerState)
    (l : Lobby) (ci : Nat) (c : Client) (command flag : Nat) (data : List Nat) : Handled :=
  if l.data.version = .BB then
    attempt l [] (check_size_sc data (P.sizeof .G_AcceptItemIdentification_BB_6xBA)
      (P.sizeof .G_AcceptItemIdentification_BB_6xBA) true) fun _ =>
      if !l.data.item_tracking_enabled then
        ⟨l, [], some (.logic_error "item tracking not enabled in BB game")⟩
      else if c.game_data.identify_result.data.id = 0 then
        ⟨l, [], some (.runtime_error "no identify result present")⟩
      else if c.game_data.identify_result.data.id ≠
          P.field .G_AcceptItemIdentification_BB_6xBA .item_id data then
        ⟨l, [], some (.runtime_error
          "accepted item ID does not match previous identify request")⟩
      else
        attempt l [] (E.player_add_item c.player c.game_data.identify_result) fun p =>
          let c1 : Client :=
            { c with game_data := { player := p, shop_contents := c.game_data.shop_contents,
                                     identify_result := .blank } }
          ⟨l.set_client ci c1,
            [Event.send_create_inventory_item l.data.lobby_id c.id
              c.game_data.identify_result.data], none⟩
  else ⟨l, forward_subcommand l c command flag data, none⟩

/-- `on_subcommand_sell_item_at_shop_bb`. -/
def on_subcommand_sell_item_at_shop_bb (_P : Protocol) (_E : Env) (_s : ServerState)
    (l : Lobby) (_ci : Nat) (_c : Client) (_command _flag : Nat) (_data : List Nat) :
    Handled :=
  if l.data.version = .BB then
    if !l.data.item_tracking_enabled then
      ⟨l, [], some (.logic_error "item tracking not enabled in BB game")⟩
    else ⟨l, [], some (.logic_error "shop actions are not yet implemented")⟩
  else ⟨l, [], none⟩

/-- `on_subcommand_buy_shop_item_bb`. -/
def on_subcommand_buy_shop_item_bb (_P : Protocol) (_E : Env) (_s : ServerState)
    (l : Lobby) (_ci : Nat) (_c : Client) (_command _flag : Nat) (_data : List Nat) :
    Handled :=
  if l.data.version = .BB then
    if !l.data.item_tracking_enabled then
      ⟨l, [], some (.logic_error "item tracking not enabled in BB game")⟩
    else ⟨l, [], some (.logic_error "shop actions are not yet implemented")⟩
  else ⟨l, [], none⟩

/-- `on_subcommand_medical_center_bb`. -/
def on_subcommand_medical_center_bb (_P : Protocol) (_E : Env) (_s : ServerState)
    (l : Lobby) (ci : Nat) (c : Client) (_command _flag : Nat) (_data : List Nat) : Handled :=
  if l.data.version = .BB then
    if c.player.disp.meseta < 10 then ⟨l, [], some (.runtime_error "insufficient funds")⟩
    else
      let p := c.player
      ⟨l.set_client ci
        (c.set_player { p with disp := { p.disp with meseta := sub32 p.disp.meseta 10 } }),
        [], none⟩
  else ⟨l, [], none⟩

/-- The handler functions that the table `subcommand_handlers` points to, by name. -/
inductive Handler where
  | on_subcommand_invalid
  | on_subcommand_switch_state_changed
  | on_subcommand_send_guild_card
  | on_subcommand_symbol_chat
  | on_subcommand_enemy_hit
  | on_subcommand_forward_check_size_game
  | on_subcommand_forward_check_size
  | on_subcommand_change_area
  | on_subcommand_forward_check_size_client
  | on_subcommand_set_player_visibility
  | on_subcommand_equip_unequip_item
  | on_subcommand_use_item
  | on_subcommand_destroy_inventory_item
  | on_subcommand_player_drop_item
  | on_subcommand_create_inventory_item
  | on_subcommand_hit_by_enemy
  | on_subcommand_forward_check_game
  | on_subcommand_movement (cmd : Cmd)
  | on_subcommand_attack_finished
  | on_subcommand_cast_technique
  | on_subcommand_cast_technique_finished
  | on_subcommand_subtract_pb_energy
  | on_subcommand_pick_up_item
  | on_subcommand_pick_up_item_request
  | on_subcommand_drop_partial_stack
  | on_subcommand_buy_shop_item
  | on_subcommand_box_or_enemy_item_drop
  | on_subcommand_enemy_drop_item_request
  | on_subcommand_destroy_ground_item
  | on_subcommand_forward_check_game_loading
  | on_subcommand_word_select
  | on_subcommand_phase_setup
  | on_subcommand_box_drop_item_request
  | on_subcommand_ep3_battle_subs
  | on_subcommand_open_shop_bb_or_ep3_battle_subs
  | on_subcommand_buy_shop_item_bb
  | on_subcommand_identify_item_bb
  | on_subcommand_accept_identify_item_bb
  | on_subcommand_open_bank_bb_or_card_trade_counter_ep3
  | on_subcommand_forward_check_size_ep3_game
  | on_subcommand_bank_action_bb
  | on_subcommand_forward_check_size_ep3_lobby
  | on_subcommand_sell_item_at_shop_bb
  | on_subcommand_drop_partial_stack_bb
  | on_subcommand_sort_inventory_bb
  | on_subcommand_medical_center_bb
  | on_subcommand_enemy_killed
deriving DecidableEq, Repr

/-- The function a table entry points to. -/
def Handler.run : Handler → Protocol → Env → ServerState → Lobby → Nat → Client → Nat → Nat →
    List Nat → Handled
  | .on_subcommand_invalid => NewServ.on_subcommand_invalid
  | .on_subcommand_switch_state_changed => NewServ.on_subcommand_switch_state_changed
  | .on_subcommand_send_guild_card => NewServ.on_subcommand_send_guild_card
  | .on_subcommand_symbol_chat => NewServ.on_subcommand_symbol_chat
  | .on_subcommand_enemy_hit => NewServ.on_subcommand_enemy_hit
  | .on_subcommand_forward_check_size_game => NewServ.on_subcommand_forward_check_size_game
  | .on_subcommand_forward_check_size => NewServ.on_subcommand_forward_check_size
  | .on_subcommand_change_area => NewServ.on_subcommand_change_area
  | .on_subcommand_forward_check_size_client => NewServ.on_subcommand_forward_check_size_client
  | .on_subcommand_set_player_visibility => NewServ.on_subcommand_set_player_visibility
  | .on_subcommand_equip_unequip_item => NewServ.on_subcommand_equip_unequip_item
  | .on_subcommand_use_item => NewServ.on_subcommand_use_item
  | .on_subcommand_destroy_inventory_item => NewServ.on_subcommand_destroy_inventory_item
  | .on_subcommand_player_drop_item => NewServ.on_subcommand_player_drop_item
  | .on_subcommand_create_inventory_item => NewServ.on_subcommand_create_inventory_item
  | .on_subcommand_hit_by_enemy => NewServ.on_subcommand_hit_by_enemy
  | .on_subcommand_forward_check_game => NewServ.on_subcommand_forward_check_game
  | .on_subcommand_movement cmd => NewServ.on_subcommand_movement cmd
  | .on_subcommand_attack_finished => NewServ.on_subcommand_attack_finished
  | .on_subcommand_cast_technique => NewServ.on_subcommand_cast_technique
  | .on_subcommand_cast_technique_finished => NewServ.on_subcommand_cast_technique_finished
  | .on_subcommand_subtract_pb_energy => NewServ.on_subcommand_subtract_pb_energy
  | .on_subcommand_pick_up_item => NewServ.on_subcommand_pick_up_item
  | .on_subcommand_pick_up_item_request => NewServ.on_subcommand_pick_up_item_request
  | .on_subcommand_drop_partial_stack => NewServ.on_subcommand_drop_partial_stack
  | .on_subcommand_buy_shop_item => NewServ.on_subcommand_buy_shop_item
  | .on_subcommand_box_or_enemy_item_drop => NewServ.on_subcommand_box_or_enemy_item_drop
  | .on_subcommand_enemy_drop_item_request => NewServ.on_subcommand_enemy_drop_item_request
  | .on_subcommand_destroy_ground_item => NewServ.on_subcommand_destroy_ground_item
  | .on_subcommand_forward_check_game_loading => NewServ.on_subcommand_forward_check_game_loading
  | .on_subcommand_word_select => NewServ.on_subcommand_word_select
  | .on_subcommand_phase_setup => NewServ.on_subcommand_phase_setup
  | .on_subcommand_box_drop_item_request => NewServ.on_subcommand_box_drop_item_request
  | .on_subcommand_ep3_battle_subs => NewServ.on_subcommand_ep3_battle_subs
  | .on_subcommand_open_shop_bb_or_ep3_battle_subs => NewServ.on_subcommand_open_shop_bb_or_ep3_battle_subs
  | .on_subcommand_buy_shop_item_bb => NewServ.on_subcommand_buy_shop_item_bb
  | .on_subcommand_identify_item_bb => NewServ.on_subcommand_identify_item_bb
  | .on_subcommand_accept_identify_item_bb => NewServ.on_subcommand_accept_identify_item_bb
  | .on_subcommand_open_bank_bb_or_card_trade_counter_ep3 => NewServ.on_subcommand_open_bank_bb_or_card_trade_counter_ep3
  | .on_subcommand_forward_check_size_ep3_game => NewServ.on_subcommand_forward_check_size_ep3_game
  | .on_subcommand_bank_action_bb => NewServ.on_subcommand_bank_action_bb
  | .on_subcommand_forward_check_size_ep3_lobby => NewServ.on_subcommand_forward_check_size_ep3_lobby
  | .on_subcommand_sell_item_at_shop_bb => NewServ.on_subcommand_sell_item_at_shop_bb
  | .on_subcommand_drop_partial_stack_bb => NewServ.on_subcommand_drop_partial_stack_bb
  | .on_subcommand_sort_inventory_bb => NewServ.on_subcommand_sort_inventory_bb
  | .on_subcommand_medical_center_bb => NewServ.on_subcommand_medical_center_bb
  | .on_subcommand_enemy_killed => NewServ.on_subcommand_enemy_killed

/-- Entries 00 to 0F of `subcommand_handlers`; `none` is `nullptr`. -/
def subcommand_handlers_0 : List (Option Handler) :=
  [some .on_subcommand_invalid, none, none, none,
   none, some .on_subcommand_switch_state_changed, some .on_subcommand_send_guild_card, some .on_subcommand_symbol_chat,
   none, none, some .on_subcommand_enemy_hit, some .on_subcommand_forward_check_size_game,
   some .on_subcommand_forward_check_size_game, some .on_subcommand_forward_check_size_game, none, none]

/-- Entries 10 to 1F of `subcommand_handlers`; `none` is `nullptr`. -/
def subcommand_handlers_1 : List (Option Handler) :=
  [none, none, some .on_subcommand_forward_check_size_game, some .on_subcommand_forward_check_size_game,
   some .on_subcommand_forward_check_size_game, some .on_subcommand_forward_check_size_game, some .on_subcommand_forward_check_size_game, some .on_subcommand_forward_check_size_game,
   some .on_subcommand_forward_check_size_game, some .on_subcommand_forward_check_size_game, none, none,
   some .on_subcommand_forward_check_size_game, none, none, some .on_subcommand_forward_check_size]

/-- Entries 20 to 2F of `subcommand_handlers`; `none` is `nullptr`. -/
def subcommand_handlers_2 : List (Option Handler) :=
  [some .on_subcommand_forward_check_size, some .on_subcommand_change_area, some .on_subcommand_forward_check_size_client, some .on_subcommand_set_player_visibility,
   some .on_subcommand_forward_check_size_game, some .on_subcommand_equip_unequip_item, some .on_subcommand_equip_unequip_item, some .on_subcommand_use_item,
   some .on_subcommand_forward_check_size_game, some .on_subcommand_destroy_inventory_item, some .on_subcommand_player_drop_item, some .on_subcommand_create_inventory_item,
   some .on_subcommand_forward_check_size, some .on_subcommand_forward_check_size, none, some .on_subcommand_hit_by_enemy]

/-- Entries 30 to 3F of `subcommand_handlers`; `none` is `nullptr`. -/
def subcommand_handlers_3 : List (Option Handler) :=
  [some .on_subcommand_forward_check_size_game, some .on_subcommand_forward_check_size_game, some .on_subcommand_forward_check_size_game, some .on_subcommand_forward_check_size_game,
   none, none, some .on_subcommand_forward_check_game, some .on_subcommand_forward_check_size_game,
   none, some .on_subcommand_forward_check_size_game, some .on_subcommand_forward_check_size_game, some .on_subcommand_forward_check_size,
   none, none, some (.on_subcommand_movement .G_StopAtPosition_6x3E), some (.on_subcommand_movement .G_SetPosition_6x3F)]

/-- Entries 40 to 4F of `subcommand_handlers`; `none` is `nullptr`. -/
def subcommand_handlers_4 : List (Option Handler) :=
  [some (.on_subcommand_movement .G_WalkToPosition_6x40), none, some (.on_subcommand_movement .G_RunToPosition_6x42), some .on_subcommand_forward_check_size_client,
   some .on_subcommand_forward_check_size_client, some .on_subcommand_forward_check_size_client, some .on_subcommand_attack_finished, some .on_subcommand_cast_technique,
   some .on_subcommand_cast_technique_finished, some .on_subcommand_subtract_pb_energy, some .on_subcommand_forward_check_size_client, some .on_subcommand_hit_by_enemy,
   some .on_subcommand_hit_by_enemy, some .on_subcommand_forward_check_size_client, some .on_subcommand_forward_check_size_client, some .on_subcommand_forward_check_size_client]

/-- Entries 50 to 5F of `subcommand_handlers`; `none` is `nullptr`. -/
def subcommand_handlers_5 : List (Option Handler) :=
  [some .on_subcommand_forward_check_size_client, none, some .on_subcommand_forward_check_size, some .on_subcommand_forward_check_size_game,
   none, some .on_subcommand_forward_check_size_client, some .on_subcommand_forward_check_size_client, some .on_subcommand_forward_check_size_client,
   some .on_subcommand_forward_check_size_game, some .on_subcommand_pick_up_item, some .on_subcommand_pick_up_item_request, none,
   none, some .on_subcommand_drop_partial_stack, some .on_subcommand_buy_shop_item, some .on_subcommand_box_or_enemy_item_drop]

/-- Entries 60 to 6F of `subcommand_handlers`; `none` is `nullptr`. -/
def subcommand_handlers_6 : List (Option Handler) :=
  [some .on_subcommand_enemy_drop_item_request, some .on_subcommand_forward_check_size_game, none, some .on_subcommand_destroy_ground_item,
   none, none, some .on_subcommand_forward_check_size_game, some .on_subcommand_forward_check_size_game,
   some .on_subcommand_forward_check_size_game, some .on_subcommand_forward_check_size_game, some .on_subcommand_forward_check_size_game, some .on_subcommand_forward_check_game_loading,
   some .on_subcommand_forward_check_game_loading, some .on_subcommand_forward_check_game_loading, some .on_subcommand_forward_check_game_loading, some .on_subcommand_forward_check_game_loading]

/-- Entries 70 to 7F of `subcommand_handlers`; `none` is `nullptr`. -/
def subcommand_handlers_7 : List (Option Handler) :=
  [some .on_subcommand_forward_check_game_loading, some .on_subcommand_forward_check_game_loading, some .on_subcommand_forward_check_game_loading, some .on_subcommand_invalid,
   some .on_subcommand_word_select, some .on_subcommand_phase_setup, some .on_subcommand_forward_check_size_game, some .on_subcommand_forward_check_size_game,
   none, some .on_subcommand_forward_check_size, none, none,
   some .on_subcommand_forward_check_size_game, some .on_subcommand_forward_check_size_game, none, none]

/-- Entries 80 to 8F of `subcommand_handlers`; `none` is `nullptr`. -/
def subcommand_handlers_8 : List (Option Handler) :=
  [some .on_subcommand_forward_check_size_game, none, none, some .on_subcommand_forward_check_size_game,
   some .on_subcommand_forward_check_size_game, some .on_subcommand_forward_check_size_game, some .on_subcommand_forward_check_size_game, none,
   some .on_subcommand_forward_check_size_game, some .on_subcommand_forward_check_size_game, none, none,
   none, some .on_subcommand_forward_check_size_client, none, none]

/-- Entries 90 to 9F of `subcommand_handlers`; `none` is `nullptr`. -/
def subcommand_handlers_9 : List (Option Handler) :=
  [none, some .on_subcommand_forward_check_size_game, none, some .on_subcommand_forward_check_size_game,
   some .on_subcommand_forward_check_size_game, none, none, none,
   none, none, some .on_subcommand_forward_check_size_game, none,
   some .on_subcommand_forward_check_size_game, none, none, some .on_subcommand_forward_check_size_game]

/-- Entries A0 to AF of `subcommand_handlers`; `none` is `nullptr`. -/
def subcommand_handlers_A : List (Option Handler) :=
  [some .on_subcommand_forward_check_size_game, some .on_subcommand_forward_check_size_game, some .on_subcommand_box_drop_item_request, some .on_subcommand_forward_check_size_game,
   some .on_subcommand_forward_check_size_game, some .on_subcommand_forward_check_size_game, some .on_subcommand_forward_check_size, none,
   some .on_subcommand_forward_check_size_game, some .on_subcommand_forward_check_size_game, some .on_subcommand_forward_check_size_game, some .on_subcommand_forward_check_size_client,
   none, some .on_subcommand_forward_check_size_game, some .on_subcommand_forward_check_size_client, some .on_subcommand_forward_check_size_client]

/-- Entries B0 to BF of `subcommand_handlers`; `none` is `nullptr`. -/
def subcommand_handlers_B : List (Option Handler) :=
  [some .on_subcommand_forward_check_size_client, none, none, some .on_subcommand_ep3_battle_subs,
   some .on_subcommand_ep3_battle_subs, some .on_subcommand_open_shop_bb_or_ep3_battle_subs, none, some .on_subcommand_buy_shop_item_bb,
   some .on_subcommand_identify_item_bb, none, some .on_subcommand_accept_identify_item_bb, some .on_subcommand_open_bank_bb_or_card_trade_counter_ep3,
   some .on_subcommand_forward_check_size_ep3_game, some .on_subcommand_bank_action_bb, some .on_subcommand_forward_check_size, some .on_subcommand_forward_check_size_ep3_lobby]

/-- Entries C0 to CF of `subcommand_handlers`; `none` is `nullptr`. -/
def subcommand_handlers_C : List (Option Handler) :=
  [some .on_subcommand_sell_item_at_shop_bb, none, none, some .on_subcommand_drop_partial_stack_bb,
   some .on_subcommand_sort_inventory_bb, some .on_subcommand_medical_center_bb, none, none,
   some .on_subcommand_enemy_killed, none, none, none,
   none, none, none, some .on_subcommand_forward_check_size_game]

/-- Entries D0 to DF of `subcommand_handlers`; `none` is `nullptr`. -/
def subcommand_handlers_D : List (Option Handler) :=
  [none, none, none, none,
   none, none, none, none,
   none, none, none, none,
   none, none, none, none]

/-- Entries E0 to EF of `subcommand_handlers`; `none` is `nullptr`. -/
def subcommand_handlers_E : List (Option Handler) :=
  [none, none, none, none,
   none, none, none, none,
   none, none, none, none,
   none, none, none, none]

/-- Entries F0 to FF of `subcommand_handlers`; `none` is `nullptr`. -/
def subcommand_handlers_F : List (Option Handler) :=
  [none, none, none, none,
   none, none, none, none,
   none, none, none, none,
   none, none, none, none]

/-- `subcommand_handlers`, sixteen entries to a row. -/
def subcommand_handlers : List (Option Handler) :=
  subcommand_handlers_0 ++ subcommand_handlers_1 ++ subcommand_handlers_2 ++ subcommand_handlers_3
    ++ subcommand_handlers_4 ++ subcommand_handlers_5 ++ subcommand_handlers_6 ++ subcommand_handlers_7
    ++ subcommand_handlers_8 ++ subcommand_handlers_9 ++ subcommand_handlers_A ++ subcommand_handlers_B
    ++ subcommand_handlers_C ++ subcommand_handlers_D ++ subcommand_handlers_E ++ subcommand_handlers_F

/-- `on_subcommand`. -/
def on_subcommand (P : Protocol) (E : Env) (s : ServerState) (l : Lobby) (ci : Nat)
    (c : Client) (command flag : Nat) (data : List Nat) : Handled :=
  if data.isEmpty then ⟨l, [], some (.runtime_error "game command is empty")⟩
  else
    match subcommand_handlers.getD (header_subcommand data) none with
    | some fn => fn.run P E s l ci c command flag data
    | none => on_subcommand_unimplemented P E s l ci c command flag data

/-- `subcommand_is_implemented`. -/
def subcommand_is_implemented (which : Nat) : Bool :=
  (subcommand_handlers.getD which none).isSome

/-- The size a subcommand payload declares: four times byte 1, or the extended 32-bit size
at offset 4 when byte 1 is zero. -/
def declared_size (data : List Nat) : Nat :=
  if header_size data = 0 then ext_header_size data else 4 * header_size data

/-- The sub-opcodes whose handler does not validate the size field before it acts, in some
room or for some sender. -/
def size_unchecked : List Nat :=
  [0x05, 0x06, 0x0A, 0x36, 0x5A, 0x60, 0x6B, 0x6C, 0x6D, 0x6E, 0x6F, 0x70, 0x71, 0x72, 0x75,
   0xA2, 0xB7, 0xB8, 0xBA, 0xBB, 0xBD, 0xC0, 0xC3, 0xC4, 0xC5, 0xC8]

/-- The handlers that start with `check_size_sc` with the size-field check on (or fail
before it), whatever the room and the sender. -/
def Handler.checks_size : Handler → Bool
  | .on_subcommand_switch_state_changed => false
  | .on_subcommand_send_guild_card => false
  | .on_subcommand_enemy_hit => false
  | .on_subcommand_forward_check_game => false
  | .on_subcommand_pick_up_item_request => false
  | .on_subcommand_enemy_drop_item_request => false
  | .on_subcommand_forward_check_game_loading => false
  | .on_subcommand_phase_setup => false
  | .on_subcommand_box_drop_item_request => false
  | .on_subcommand_buy_shop_item_bb => false
  | .on_subcommand_identify_item_bb => false
  | .on_subcommand_accept_identify_item_bb => false
  | .on_subcommand_open_bank_bb_or_card_trade_counter_ep3 => false
  | .on_subcommand_bank_action_bb => false
  | .on_subcommand_sell_item_at_shop_bb => false
  | .on_subcommand_drop_partial_stack_bb => false
  | .on_subcommand_sort_inventory_bb => false
  | .on_subcommand_medical_center_bb => false
  | .on_subcommand_enemy_killed => false
  | _ => true

/-- A protocol layout for the examples: every struct is 8 bytes long, a numeric member is
the byte at offset 4, an item member is blank, a run of bytes is empty. -/
def sample_protocol : Protocol where
  sizeof := fun _ => 8
  offsetof := fun _ _ => 4
  field := fun _ _ data => data.getD 4 0
  item := fun _ _ _ => ItemData.blank
  bytes := fun _ _ _ => []

/-- An environment for the examples: no item is ever found, ids are drawn from the game
counter, every draw is 1. -/
def sample_env : Env where
  add_item := fun st item area x z => .ok { st with items := st.items ++ [⟨item, area, x, z⟩] }
  remove_item := fun _ _ => .error (.logic_error "out_of_range")
  generate_item_id := fun st _ =>
    (st.next_game_item_id, { st with next_game_item_id := st.next_game_item_id + 1 })
  player_remove_item := fun _ _ _ => .error (.logic_error "out_of_range")
  player_add_item := fun p item =>
    .ok { p with inventory := { p.inventory with items := p.inventory.items ++ [item] } }
  find_item := fun _ _ => .error (.logic_error "out_of_range")
  bank_add_item := fun b item => .ok { b with items := b.items ++ [(item.data, 1)] }
  bank_remove_item := fun _ _ _ => .error (.logic_error "out_of_range")
  player_use_item := fun c _ => .ok c
  set_mask_for_ep3_game_command := fun data _ => data
  random_object := [1]
  rand := 1
  sample := fun _ _ => false
  create_shop_item := fun _ _ _ => ItemData.blank
  create_drop_item := fun _ _ _ _ => none

/-- A level table for the examples: level `n` needs `1000 * n` experience and a level-up
adds one to every stat. -/
def sample_server_state : ServerState where
  disable_masking := false
  stats_for_level := fun _ level => ⟨1000 * level, fun stats => stats.map (· + 1)⟩
  rare_item_set := none

/-- A player for the examples, with the given level, experience and carried meseta. -/
def sample_player (level experience meseta : Nat) : Player where
  disp := ⟨[10, 10, 10], level, experience, meseta, 0⟩
  inventory := ⟨0, 0, 0, 0, []⟩
  bank := ⟨0, []⟩
  guild_card_description := []

/-- A client for the examples: identity `id`, slot `slot`, of the given version. -/
def sample_client (id slot : Nat) (version : GameVersion) (p : Player) : Client where
  id := id
  lobby_client_id := slot
  version := version
  is_episode_3 := false
  is_dc_v1 := false
  can_chat := true
  area := 0
  x := 0
  z := 0
  options := ⟨false, false, false⟩
  last_switch_enabled_command := []
  game_data := ⟨p, [], .blank⟩

/-- The data of a game room for the examples, with item tracking on and no card battle. -/
def sample_game (lobby_id : Nat) (version : GameVersion) (max_clients : Nat)
    (clients : List (Option Client)) (enemies : List Enemy) : LobbyData where
  lobby_id := lobby_id
  version := version
  episode := 1
  difficulty := 0
  section_id := 0
  item_tracking_enabled := true
  cheats_enabled := false
  episode_3_only := false
  is_game := true
  any_client_loading := false
  max_clients := max_clients
  leader_id := 0
  clients := clients
  enemies := enemies
  item_state := ⟨[], [], 0x00810000⟩
  common_item_creator := true
  ep3_server_base := none
  battle_record := none

/-- A game room for the examples: two players of the room's version, with identities 100
and 101, in slots 0 and 1 of four; no watcher. -/
def sample_room (version : GameVersion) (enemies : List Enemy) : Lobby :=
  .mk (sample_game 1 version 4
    [some (sample_client 100 0 version (sample_player 1 0 500)),
     some (sample_client 101 1 version (sample_player 1 0 500)), none, none] enemies) []

/-- The sub-opcodes whose handler compares the client id of the envelope with the sender's
slot: the client-checked forwarder, the movement handlers and player drop item. -/
def client_checked : List Nat :=
  [0x22, 0x43, 0x44, 0x45, 0x4A, 0x4D, 0x4E, 0x4F, 0x50, 0x55, 0x56, 0x57, 0x8D, 0xAB, 0xAE,
   0xAF, 0xB0, 0x3E, 0x3F, 0x40, 0x42, 0x2A]

/-- The size bounds that the handler of a client-checked sub-opcode passes to
`check_size_sc`. -/
def client_checked_bounds (P : Protocol) (which : Nat) : Nat × Nat :=
  match subcommand_handlers.getD which none with
  | some (.on_subcommand_movement cmd) => (P.sizeof cmd, P.sizeof cmd)
  | some .on_subcommand_player_drop_item => (P.sizeof .G_DropItem_6x2A, P.sizeof .G_DropItem_6x2A)
  | _ => (sizeof_header, 0xFFFF)

/-- A card-battle room for the examples: the players 100 and 101, a card-battle server in
the main battle phase, and one watcher lobby (room 2) that holds the client 200. -/
def sample_watched_room : Lobby :=
  .mk { sample_game 1 .GC 4
          [some (sample_client 100 0 .GC (sample_player 1 0 500)),
           some (sample_client 101 1 .GC (sample_player 1 0 500)), none, none] [] with
        ep3_server_base := some .MAIN_BATTLE }
    [.mk { sample_game 2 .GC 12 [some (sample_client 200 0 .GC (sample_player 1 0 500))] [] with
           is_game := false } []]

/-- No bit of the hit flags of any enemy is cleared from the table `es` to the table
`es'`, and the tables have the same entries otherwise counted. -/
def flags_kept (es es' : List Enemy) : Prop :=
  es'.length = es.length ∧
    ∀ i k, k < 8 → ((es.getD i ⟨0, 0, 0⟩).hit_flags).testBit k = true →
      ((es'.getD i ⟨0, 0, 0⟩).hit_flags).testBit k = true

/-- What the loop of `on_subcommand_enemy_killed` does for slot `x` holding `t`: the
occupant afterwards and the events sent for it (nothing happens for an empty slot, a slot
whose bit is clear in the hit flags, or a player of level 199 or more). -/
def slot_award (s : ServerState) (enemy : Enemy) (lobby_id x : Nat) (t : Option Client) :
    Option Client × List Event :=
  match t with
  | none => (none, [])
  | some other_c =>
    if (enemy.hit_flags >>> x) &&& 1 = 0 ∨ other_c.player.disp.level ≥ 199 then
      (some other_c, [])
    else
      (some (enemy_killed_award s enemy lobby_id other_c).1,
        (enemy_killed_award s enemy lobby_id other_c).2.1)

/-- The total of the amounts of the give-experience messages among the events. -/
def experience_given : List Event → Nat
  | [] => 0
  | Event.send_give_experience _ _ amount :: rest => amount + experience_given rest
  | _ :: rest => experience_given rest

/-- The experience award as the specification states it, for the enemy `id` of the room
`l`, the room being `l'` afterwards: the kill bit is set; every occupied slot `x` below
`max_clients` whose bit `x` is set in the hit flags and whose player is below level 199 has
gained the enemy's experience `e` if `x` is the last hitter and `⌊e × 77 / 100⌋` otherwise;
every other slot is as before. -/
def award_as_specified (l l' : LobbyData) (id : Nat) : Prop :=
  (l'.enemy id).hit_flags &&& 0x80 ≠ 0 ∧
  ∀ x, match l.client x with
    | none => l'.client x = none
    | some oc =>
      if x < l.max_clients ∧ (l.enemy id).hit_flags.testBit x = true ∧
          oc.player.disp.level < 199 then
        ∃ oc', l'.client x = some oc' ∧
          oc'.player.disp.experience = oc.player.disp.experience +
            (if x = (l.enemy id).last_hit then (l.enemy id).experience
             else (l.enemy id).experience * 77 / 100)
      else l'.client x = some oc

/-- The give-experience and level-up messages. -/
def Event.is_award : Event → Bool
  | .send_give_experience _ _ _ => true
  | .send_level_up _ _ => true
  | _ => false

/-- One call of `on_subcommand`: its arguments other than the room. -/
structure Dispatch where
  P : Protocol
  E : Env
  s : ServerState
  ci : Nat
  c : Client
  command : Nat
  flag : Nat
  data : List Nat

/-- The result of one call of `on_subcommand` on a room. -/
def Dispatch.run (d : Dispatch) (l : Lobby) : Handled :=
  on_subcommand d.P d.E d.s l d.ci d.c d.command d.flag d.data

/-- The room after a sequence of calls of `on_subcommand`, each on the room the call
before it has left (a call that throws leaves the room as it is when it throws). -/
def run_dispatches : Lobby → List Dispatch → Lobby
  | l, [] => l
  | l, d :: ds => run_dispatches (d.run l).lobby ds

/-- The call is an enemy-hit subcommand (0x0A) for the enemy `id`, sent by the client of
slot `x`. -/
def Dispatch.is_hit (d : Dispatch) (id x : Nat) : Bool :=
  header_subcommand d.data == 0x0A && header_id d.data == id && d.c.lobby_client_id == x

/-- The slots of a room of `max_clients` slots from which an enemy-hit subcommand for the
enemy `id` has been sent in the course of the calls `ds`. -/
def hitters (ds : List Dispatch) (id max_clients : Nat) : List Nat :=
  (List.range max_clients).filter fun x => ds.any fun d => d.is_hit id x

/-- A V4 game of twelve slots for the examples, with the players 100 and 107 in slots 0
and 7 and one enemy worth 1000 experience that nobody has hit. -/
def sample_room_12 : Lobby :=
  .mk (sample_game 1 .BB 12
    [some (sample_client 100 0 .BB (sample_player 1 0 500)), none, none, none, none, none,
     none, some (sample_client 107 7 .BB (sample_player 1 0 500)), none, none, none, none]
    [⟨0, 0, 1000⟩]) []

/-- A call of `on_subcommand` for the examples: the payload `data`, broadcast by the
client 100 of slot 0. -/
def sample_dispatch (data : List Nat) : Dispatch :=
  ⟨sample_protocol, sample_env, sample_server_state, 0,
    sample_client 100 0 .BB (sample_player 1 0 500), 0x60, 0, data⟩

/-- The player after `amount` meseta have moved from the carried balance to the bank
(`deposit`) or from the bank to the carried balance. -/
def Player.move_meseta (p : Player) (deposit : Bool) (amount : Nat) : Player :=
  if deposit then
    { p with
      bank := { p.bank with meseta := p.bank.meseta + amount }
      disp := { p.disp with meseta := p.disp.meseta - amount } }
  else
    { p with
      bank := { p.bank with meseta := p.bank.meseta - amount }
      disp := { p.disp with meseta := p.disp.meseta + amount } }

/-- A protocol layout for the bank examples: every struct is 16 bytes long, `action` is
the byte at offset 4, `item_id` is 0xFFFFFFFF when the byte at offset 5 is 0xFF, and the
meseta amount is the 16-bit value at offset 8. -/
def sample_bank_protocol : Protocol where
  sizeof := fun _ => 16
  offsetof := fun _ _ => 4
  field := fun _ f data =>
    match f with
    | .action => data.getD 4 0
    | .item_id => if data.getD 5 0 = 0xFF then 0xFFFFFFFF else data.getD 5 0
    | .meseta_amount => data.getD 8 0 + 256 * data.getD 9 0
    | _ => data.getD 12 0
  item := fun _ _ _ => ItemData.blank
  bytes := fun _ _ _ => []

/-- `stack_size_for_item(data0, data1)` of `StaticGameData.cc`. -/
def stack_size_for_item (data0 data1 : Nat) : Nat :=
  if data0 = 4 then 999999
  else if data0 = 3 then
    if data1 < 9 ∧ data1 ≠ 2 then 10
    else if data1 = 0x10 then 99
    else 1
  else 1

/-- `stack_size_for_item(const ItemData& item)` of `StaticGameData.cc`. -/
def ItemData.stack_size (item : ItemData) : Nat :=
  stack_size_for_item (item.data1.getD 0 0) (item.data1.getD 1 0)

/-- The three type bytes of an item (category, subtype, variant). -/
def ItemData.type_bytes (item : ItemData) : List Nat :=
  [item.data1.getD 0 0, item.data1.getD 1 0, item.data1.getD 2 0]

/-- The count of a stack, byte 5 of `data1`. -/
def ItemData.count (item : ItemData) : Nat := item.data1.getD 5 0

/-- The item with the count of its stack replaced. -/
def ItemData.set_count (item : ItemData) (n : Nat) : ItemData :=
  { item with data1 := item.data1.set 5 n }

/-- Modelled from the spec: `PlayerInventory::find_item`, the index of the first entry
whose item has the given id; it fails when there is none. -/
def find_item (inv : PlayerInventory) (item_id : Nat) : Except Exn Nat :=
  if inv.items.findIdx (fun e => e.data.id == item_id) < inv.items.length then
    .ok (inv.items.findIdx fun e => e.data.id == item_id)
  else .error (.logic_error "out_of_range")

/-- Modelled from the spec: `Player::remove_item(item_id, amount)`.  Taking part of a
stack leaves the rest in place and returns the part with the id `0xFFFFFFFF`, so that the
caller draws a new id; otherwise the entry is taken out of the inventory.  (The special
case of meseta is left out.) -/
def model_remove_item (p : Player) (item_id amount : Nat) :
    Except Exn (PlayerInventoryItem × Player) :=
  match find_item p.inventory item_id with
  | .error e => .error e
  | .ok index =>
    let entry := p.inventory.items.getD index .blank
    if amount ≠ 0 ∧ entry.data.stack_size > 1 ∧ amount < entry.data.count then
      let part := entry.data.set_count amount
      let ret : PlayerInventoryItem := { entry with data := { part with id := 0xFFFFFFFF } }
      let rest : PlayerInventoryItem :=
        { entry with data := entry.data.set_count (entry.data.count - amount) }
      let items := p.inventory.items.set index rest
      .ok (ret, { p with inventory := { p.inventory with items := items } })
    else
      let items := p.inventory.items.eraseIdx index
      let num_items := p.inventory.num_items - 1
      .ok (entry,
        { p with inventory := { p.inventory with items := items, num_items := num_items } })

/-- Modelled from the spec: `Player::add_item(item)`.  A stackable item merges into the
first stack of the same type, up to the stack limit; any other item takes a new entry, and
the call fails when the 30 entries are taken.  (The special case of meseta is left out.) -/
def model_add_item (p : Player) (item : PlayerInventoryItem) : Except Exn Player :=
  let y := p.inventory.items.findIdx fun e => e.data.type_bytes == item.data.type_bytes
  if item.data.stack_size > 1 ∧ y < p.inventory.items.length then
    let entry := p.inventory.items.getD y .blank
    let count := min (entry.data.count + item.data.count) item.data.stack_size
    let merged : PlayerInventoryItem := { entry with data := entry.data.set_count count }
    let items := p.inventory.items.set y merged
    .ok { p with inventory := { p.inventory with items := items } }
  else if p.inventory.items.length ≥ 30 then .error (.runtime_error "inventory is full")
  else
    let items := p.inventory.items ++ [item]
    let num_items := p.inventory.num_items + 1
    .ok { p with inventory := { p.inventory with items := items, num_items := num_items } }

/-- Modelled from the spec: the environment of the item authority.  `add_item` inserts
into the ground items, `remove_item` takes the ground item of the given id out and fails
when there is none, `generate_item_id` returns the room's counter and advances it; the
inventory functions are the three above; the bank and the item use do nothing, and no
random draw succeeds. -/
def model_env : Env where
  add_item := fun st item area x z => .ok { st with items := st.items ++ [⟨item, area, x, z⟩] }
  remove_item := fun st item_id =>
    if st.items.findIdx (fun f => f.inv_item.data.id == item_id) < st.items.length then
      .ok ((st.items.getD (st.items.findIdx fun f => f.inv_item.data.id == item_id)
          ⟨.blank, 0, 0, 0⟩).inv_item,
        { st with items :=
            st.items.eraseIdx (st.items.findIdx fun f => f.inv_item.data.id == item_id) })
    else .error (.logic_error "out_of_range")
  generate_item_id := fun st _ =>
    (st.next_game_item_id, { st with next_game_item_id := st.next_game_item_id + 1 })
  player_remove_item := model_remove_item
  player_add_item := model_add_item
  find_item := find_item
  bank_add_item := fun b _ => .ok b
  bank_remove_item := fun _ _ _ => .error (.logic_error "out_of_range")
  player_use_item := fun c _ => .ok c
  set_mask_for_ep3_game_command := fun data _ => data
  random_object := [1]
  rand := 1
  sample := fun _ _ => false
  create_shop_item := fun _ _ _ => ItemData.blank
  create_drop_item := fun _ _ _ _ => none

/-- A protocol layout for the item examples: every struct is 16 bytes long, `item_id` is
the byte at offset 4, `amount` the byte at offset 8, `area`, `x` and `z` the bytes at
offsets 12, 13 and 14. -/
def sample_item_protocol : Protocol where
  sizeof := fun _ => 16
  offsetof := fun _ _ => 4
  field := fun _ f data =>
    match f with
    | .item_id => data.getD 4 0
    | .amount => data.getD 8 0
    | .area => data.getD 12 0
    | .x => data.getD 13 0
    | .z => data.getD 14 0
    | _ => data.getD 15 0
  item := fun _ _ _ => ItemData.blank
  bytes := fun _ _ _ => []

/-- A player for the examples who carries `meseta` and holds the given inventory
entries. -/
def sample_holder (meseta : Nat) (items : List PlayerInventoryItem) : Player where
  disp := ⟨[10, 10, 10], 1, 0, meseta, 0⟩
  inventory := ⟨items.length, 0, 0, 0, items⟩
  bank := ⟨0, []⟩
  guild_card_description := []

/-- A V4 game for the examples whose slot 0 holds the client 100 with the given player;
the item-id counter stands at 0x11. -/
def sample_item_room (p : Player) : Lobby :=
  .mk { sample_game 1 .BB 4 [some (sample_client 100 0 .BB p), none, none, none] [] with
        item_state := ⟨[], [], 0x11⟩ } []

/-- A server state for the drop examples: a rare-item set whose every table gives enemy 0
the item code `code`. -/
def sample_rare_state (code : List Nat) : ServerState where
  disable_masking := false
  stats_for_level := fun _ level => ⟨1000 * level, fun stats => stats⟩
  rare_item_set := some fun _ _ _ => ⟨[⟨0xFF, code⟩], [], []⟩

/-- An environment for the drop examples: the environment of the item authority with every
rare-table sample succeeding. -/
def sample_rare_env : Env := { model_env with sample := fun _ _ => true }

/-- The ids that `n` successive calls of `generate_item_id(client_id)` return, the first
one on the item state `st`. -/
def generated_ids (E : Env) (client_id : Nat) : Nat → ItemState → List Nat
  | 0, _ => []
  | n + 1, st =>
    (E.generate_item_id st client_id).1
      :: generated_ids E client_id n (E.generate_item_id st client_id).2

/-- A protocol layout for the attack examples, as the entry bounds of the three handlers
give it: 4-byte entries that start at offset 8 (offset 12 for 0x49), at most 11, 10 and 14
of them, and the entry count in the 32-bit field at offset 4. -/
def sample_attack_protocol : Protocol where
  sizeof := fun cmd =>
    match cmd with
    | .G_AttackFinished_6x46 => 52
    | .G_CastTechnique_6x47 => 48
    | .G_SubtractPBEnergy_6x49 => 68
    | _ => 8
  offsetof := fun cmd _ =>
    match cmd with
    | .G_SubtractPBEnergy_6x49 => 12
    | _ => 8
  field := fun _ _ data =>
    le_load (data.getD 4 0) (data.getD 5 0) (data.getD 6 0) (data.getD 7 0)
  item := fun _ _ _ => ItemData.blank
  bytes := fun _ _ _ => []

/-- The item ids of a room: those of the ground items, then those of the inventories of
the occupied slots. -/
def LobbyData.item_ids (d : LobbyData) : List Nat :=
  d.item_state.items.map (fun f => f.inv_item.data.id) ++
    d.clients.flatMap fun oc =>
      match oc with
      | none => []
      | some c => c.player.inventory.items.map fun e => e.data.id

/-- The split-stack payload of the examples: item 0x10, amount 2, area 1, x 10, z 20,
from the client of slot 0. -/
def sample_split_payload : List Nat :=
  [0xC3, 4, 0, 0, 0x10, 0, 0, 0, 2, 0, 0, 0, 1, 10, 20, 0]

/-- The inventory entry of the examples: five monomates under the id 0x10. -/
def sample_monomates : PlayerInventoryItem :=
  ⟨1, 0, ⟨[3, 0, 0, 0, 0, 5, 0, 0, 0, 0, 0, 0], 0x10, [0, 0, 0, 0]⟩⟩

/-- The loop of `name_for_item` (`StaticGameData.cc`) that finds the left photon blast of
a mag: `actual` is `actual_left_pb`, `left` is `left_pb`; one unit of fuel is one pass.  The
result is `none` when the fuel runs out. -/
def left_pb_loop : Nat → Nat → Nat → Nat → Nat → Option Nat
  | 0, _, _, _, _ => none
  | fuel + 1, center_pb, right_pb, actual, left =>
    if actual = center_pb ∨ actual = right_pb then
      left_pb_loop fuel center_pb right_pb ((actual + 1) % 256) left
    else if left > 0 then
      left_pb_loop fuel center_pb right_pb ((actual + 1) % 256) ((left + 255) % 256)
    else some actual

/-- The list the comment in `name_for_item` describes: all photon blasts (the indices of
the 8-entry name table, ascending) with the center and the right one removed. -/
def remaining_pbs (center_pb right_pb : Nat) : List Nat :=
  (List.range 8).filter fun v => v ≠ center_pb ∧ v ≠ right_pb

/-- The check of one case of the left photon blast: with 8 passes the loop returns the
element at index `k` of the remaining list, which differs from the center and the right
photon blast and is at most 5. -/
def left_pb_ok (center_pb right_pb k : Nat) : Bool :=
  match left_pb_loop 8 center_pb right_pb 0 k with
  | none => false
  | some v =>
    (remaining_pbs center_pb right_pb)[k]? == some v && v != center_pb && v != right_pb
      && decide (v ≤ 5)

/-- The sequence of the V1 constructor: `v(0) = seed`, `v(1) = 1`,
`v(i+2) = v(i) − v(i+1)` in 32-bit arithmetic (so `v(2) = seed − 1`). -/
def pc_seq (seed : Nat) : Nat → Nat
  | 0 => seed
  | 1 => 1
  | i + 2 => sub32 (pc_seq seed i) (pc_seq seed (i + 1))

/-- The state array after the writes of position `(21·i) mod 55` with `v(i)`, for the `m`
values `i = first, first + 1, …` in order. -/
def pc_writes (seed first m : Nat) (stream : List Nat) : List Nat :=
  (List.range' first m).foldl (fun st i => st.set (21 * i % 55) (pc_seq seed i)) stream

/-- The state array of the V1 constructor when the loop is entered: any 57 cells (the
source leaves them uninitialised) with the seed stored at positions 56 and 55. -/
def pc_seeded (seed : Nat) (stream : List Nat) : List Nat :=
  (stream.set 56 seed).set 55 seed

/-- The rounds of a Feistel network on the halves `(l, r)` of a block: each round XORs the
next round constant into `l`, XORs the round function of `l` (taken from the private key)
into `r`, and exchanges the halves. -/
def feistel_rounds (pk : List Nat) (keys : Nat → Nat) : Nat → Nat → Nat → Nat → Nat × Nat
  | 0, _, l, r => (l, r)
  | n + 1, i, l, r =>
    feistel_rounds pk keys n (i + 1) (r ^^^ sbox pk (l ^^^ keys i)) (l ^^^ keys i)

/-- The Feistel network of `rounds` rounds with the `rounds + 2` round constants
`keys 0, …, keys (rounds + 1)`: the rounds, the last exchange undone, and the two last
constants XORed into the halves. -/
def feistel (pk : List Nat) (keys : Nat → Nat) (rounds : Nat) (d0 d1 : Nat) : Nat × Nat :=
  let t := feistel_rounds pk keys rounds 0 d0 d1
  (t.2 ^^^ keys (rounds + 1), t.1 ^^^ keys rounds)

/-- A key file for the examples: the private key is all zeros, so that the round function
is 0, and the initial key is all zeros except the word of index 6, which is 1. -/
def sample_flat_key : KeyFile :=
  { initial_keys := (List.replicate 0x48 0).set 24 1, private_keys := List.replicate 0x1000 0,
    subtype := Subtype.STANDARD }

/-- The byte of index `i` of the masked seed that `apply_seed` builds: the seed byte XORed
with 0x19, 0x16 or 0x18 according to `i mod 3`. -/
def masked_byte (seed : List Nat) (i : Nat) : Nat :=
  (seed.getD i 0 ^^^ [0x19, 0x16, 0x18].getD (i % 3) 0) % 256

/-! ## The stream ciphers with the stream length as a parameter, and with checked
accesses to the state arrays -/

/-- `PSOPCEncryption::next` with the value of `PC_STREAM_LENGTH` (declared in
`PSOEncryption.hh`, which is not among the sources) as the parameter `stream_length`. -/
def PSOPCEncryption.next_at (stream_length : Nat) (c : PSOPCEncryption) (advance : Bool) :
    PSOPCEncryption × Nat :=
  let c : PSOPCEncryption :=
    if c.offset = stream_length then { stream := update_stream c.stream, offset := 1 }
    else c
  let ret := c.stream.getD c.offset 0
  (if advance then { c with offset := c.offset + 1 } else c, ret)

/-- The loop of `PSOPCEncryption::encrypt` with `PC_STREAM_LENGTH` as a parameter. -/
def PSOPCEncryption.encrypt_loop_at (stream_length : Nat) (advance : Bool) :
    PSOPCEncryption → List Nat → PSOPCEncryption × List Nat
  | c, b0 :: b1 :: b2 :: b3 :: rest =>
    let r := c.next_at stream_length advance
    let w := le_load b0 b1 b2 b3 ^^^ r.2
    let t := encrypt_loop_at stream_length advance r.1 rest
    (t.1, le_store w ++ t.2)
  | c, rest => (c, rest)

/-- `PSOPCEncryption::encrypt` with `PC_STREAM_LENGTH` as a parameter. -/
def PSOPCEncryption.encrypt_at (stream_length : Nat) (c : PSOPCEncryption) (data : List Nat)
    (advance : Bool) : Outcome PSOPCEncryption :=
  if data.length &&& 3 ≠ 0 then
    ⟨c, data, some (.invalid_argument "size must be a multiple of 4")⟩
  else if !advance && data.length ≠ 4 then
    ⟨c, data, some (.logic_error "cannot peek-encrypt/decrypt with size > 4")⟩
  else
    let t := encrypt_loop_at stream_length advance c data
    ⟨t.1, t.2, none⟩

/-- `PSOEncryption::decrypt` for the V1 cipher, with `PC_STREAM_LENGTH` as a parameter. -/
def PSOPCEncryption.decrypt_at (stream_length : Nat) (c : PSOPCEncryption) (data : List Nat)
    (advance : Bool) : Outcome PSOPCEncryption :=
  c.encrypt_at stream_length data advance

/-- The V1 cipher after a sequence of `encrypt` or `decrypt` calls, each given by its buffer
and its `advance` flag (`decrypt` is `encrypt` for this cipher); a call that throws leaves
the state as it is. -/
def PSOPCEncryption.run_at (stream_length : Nat) (c : PSOPCEncryption) :
    List (List Nat × Bool) → PSOPCEncryption
  | [] => c
  | call :: calls => run_at stream_length (c.encrypt_at stream_length call.1 call.2).crypt calls

/-- The V2/V3 cipher after a sequence of `encrypt` or `decrypt` calls, each given by its
buffer and its `advance` flag; a call that throws leaves the state as it is. -/
def PSOGCEncryption.run (c : PSOGCEncryption) : List (List Nat × Bool) → PSOGCEncryption
  | [] => c
  | call :: calls => run (c.encrypt call.1 call.2).crypt calls

/-- A read of `stream[i]` in a state array: nothing when `i` is outside the array. -/
def read_cell (stream : List Nat) (i : Nat) : Option Nat := stream[i]?

/-- A write `stream[i] = v` in a state array: nothing when `i` is outside the array. -/
def write_cell (stream : List Nat) (i v : Nat) : Option (List Nat) :=
  if i < stream.length then some (stream.set i v) else none

/-- First loop of `PSOPCEncryption::update_stream` with every access to the array checked;
the index arithmetic is that of `uint32_t`. -/
def PSOPCEncryption.update_stream_loop1_checked : Nat → Nat → List Nat → Option (List Nat)
  | 0, _, stream => some stream
  | edx + 1, eax, stream =>
    (read_cell stream ((eax + 0x1F) % 2 ^ 32)).bind fun esi =>
    (read_cell stream eax).bind fun v =>
    (write_cell stream eax (sub32 v esi)).bind fun stream =>
    update_stream_loop1_checked edx ((eax + 1) % 2 ^ 32) stream

/-- Second loop of `PSOPCEncryption::update_stream` with every access checked. -/
def PSOPCEncryption.update_stream_loop2_checked : Nat → Nat → List Nat → Option (List Nat)
  | 0, _, stream => some stream
  | edx + 1, eax, stream =>
    (read_cell stream (sub32 eax 0x18)).bind fun esi =>
    (read_cell stream eax).bind fun v =>
    (write_cell stream eax (sub32 v esi)).bind fun stream =>
    update_stream_loop2_checked edx ((eax + 1) % 2 ^ 32) stream

/-- `PSOPCEncryption::update_stream` with every access to the array checked. -/
def PSOPCEncryption.update_stream_checked (stream : List Nat) : Option (List Nat) :=
  (update_stream_loop1_checked 0x18 1 stream).bind fun stream =>
  update_stream_loop2_checked 0x1F 0x19 stream

/-- The loop `while (edi <= 0x46E)` of the V1 constructor with every access checked. -/
def PSOPCEncryption.init_loop_checked : Nat → Nat → Nat → Nat → List Nat → Option (List Nat)
  | 0, _, _, _, stream => some stream
  | fuel + 1, esi, ebx, edi, stream =>
    if edi ≤ 0x46E then
      let eax := edi
      let var1 := eax / 55
      let edx := sub32 eax (var1 * 55 % 2 ^ 32)
      let ebx := sub32 ebx esi
      let edi := (edi + 0x15) % 2 ^ 32
      (write_cell stream edx esi).bind fun stream =>
      let esi := ebx
      (read_cell stream edx).bind fun ebx =>
      init_loop_checked fuel esi ebx edi stream
    else some stream

/-- The loop `for (x = 0; x < n; x++) this->update_stream()` with every access checked. -/
def PSOPCEncryption.stir_checked : Nat → List Nat → Option (List Nat)
  | 0, stream => some stream
  | n + 1, stream => (update_stream_checked stream).bind fun stream => stir_checked n stream

/-- The constructor `PSOPCEncryption(uint32_t seed)` on a state array of `cells` cells, with
every access to the array checked. -/
def PSOPCEncryption.new_checked (cells seed : Nat) : Option PSOPCEncryption :=
  let stream := List.replicate cells 0
  (write_cell stream 56 seed).bind fun stream =>
  (write_cell stream 55 seed).bind fun stream =>
  (init_loop_checked 0x46F 1 seed 0x15 stream).bind fun stream =>
  (stir_checked 5 stream).bind fun stream =>
  some { stream := stream, offset := 1 }

/-- `PSOPCEncryption::next` with every access to the array checked, and with
`PC_STREAM_LENGTH` as a parameter. -/
def PSOPCEncryption.next_checked (stream_length : Nat) (c : PSOPCEncryption) (advance : Bool) :
    Option (PSOPCEncryption × Nat) :=
  (if c.offset = stream_length then
      (update_stream_checked c.stream).bind fun stream =>
        some ({ stream := stream, offset := 1 } : PSOPCEncryption)
    else some c).bind fun c =>
  (read_cell c.stream c.offset).bind fun ret =>
  some (if advance then { c with offset := c.offset + 1 } else c, ret)

/-- First loop of `PSOGCEncryption::update_stream` with every access checked; returns `r5`
and the array. -/
def PSOGCEncryption.update_stream_loop1_checked :
    Nat → Nat → Nat → List Nat → Option (Nat × List Nat)
  | 0, r5, _, stream => some (r5, stream)
  | fuel + 1, r5, r6, stream =>
    if r6 ≠ GC_STREAM_LENGTH then
      (read_cell stream r5).bind fun a =>
      (read_cell stream r6).bind fun b =>
      (write_cell stream r5 (a ^^^ b)).bind fun stream =>
      update_stream_loop1_checked fuel ((r5 + 1) % 2 ^ 32) ((r6 + 1) % 2 ^ 32) stream
    else some (r5, stream)

/-- Second loop of `PSOGCEncryption::update_stream` with every access checked. -/
def PSOGCEncryption.update_stream_loop2_checked :
    Nat → Nat → Nat → List Nat → Option (List Nat)
  | 0, _, _, stream => some stream
  | fuel + 1, r5, r7, stream =>
    if r5 ≠ GC_STREAM_LENGTH then
      (read_cell stream r5).bind fun a =>
      (read_cell stream r7).bind fun b =>
      (write_cell stream r5 (a ^^^ b)).bind fun stream =>
      update_stream_loop2_checked fuel ((r5 + 1) % 2 ^ 32) ((r7 + 1) % 2 ^ 32) stream
    else some stream

/-- `PSOGCEncryption::update_stream` with every access to the array checked. -/
def PSOGCEncryption.update_stream_checked (c : PSOGCEncryption) : Option PSOGCEncryption :=
  (update_stream_loop1_checked GC_STREAM_LENGTH 0 489 c.stream).bind fun t =>
  (update_stream_loop2_checked GC_STREAM_LENGTH t.1 0 t.2).bind fun stream =>
  some { stream := stream, offset := 0 }

/-- The outer loop `for (x = 0; x <= 16; x++)` of the V2/V3 constructor with the write
`stream[offset++] = basekey` checked. -/
def PSOGCEncryption.init_words_checked :
    Nat → Nat → Nat → PSOGCEncryption → Option PSOGCEncryption
  | 0, _, _, c => some c
  | n + 1, seed, basekey, c =>
    let t := init_bits 32 seed basekey
    (write_cell c.stream c.offset t.2).bind fun stream =>
    init_words_checked n t.1 t.2 { stream := stream, offset := c.offset + 1 }

/-- The loop `while (offset != GC_STREAM_LENGTH)` of the V2/V3 constructor with every access
checked. -/
def PSOGCEncryption.init_fill_checked :
    Nat → Nat → Nat → Nat → PSOGCEncryption → Option PSOGCEncryption
  | 0, _, _, _, c => some c
  | fuel + 1, source1, source2, source3, c =>
    if c.offset ≠ GC_STREAM_LENGTH then
      (read_cell c.stream source3).bind fun a =>
      (read_cell c.stream source1).bind fun b =>
      (read_cell c.stream source2).bind fun d =>
      (write_cell c.stream c.offset
        (a ^^^ ((((b <<< 23) % 2 ^ 32) &&& 0xFF800000) ^^^ ((d >>> 9) &&& 0x007FFFFF)))).bind
        fun stream =>
      init_fill_checked fuel ((source1 + 1) % 2 ^ 32) ((source2 + 1) % 2 ^ 32)
        ((source3 + 1) % 2 ^ 32) { stream := stream, offset := c.offset + 1 }
    else some c

/-- The loop `for (x = 0; x < n; x++) this->update_stream()` of the V2/V3 constructor with
every access checked. -/
def PSOGCEncryption.stir_checked : Nat → PSOGCEncryption → Option PSOGCEncryption
  | 0, c => some c
  | n + 1, c => c.update_stream_checked.bind fun c => stir_checked n c

/-- The constructor `PSOGCEncryption(uint32_t seed)` on a state array of `cells` cells, with
every access to the array checked. -/
def PSOGCEncryption.new_checked (cells seed : Nat) : Option PSOGCEncryption :=
  let c : PSOGCEncryption := { stream := List.replicate cells 0, offset := 0 }
  (init_words_checked 17 seed 0 c).bind fun c =>
  (read_cell c.stream 0).bind fun a =>
  (read_cell c.stream (sub32 c.offset 1)).bind fun b =>
  (read_cell c.stream 15).bind fun d =>
  (write_cell c.stream (sub32 c.offset 1)
    (((a >>> 9) ^^^ ((b <<< 23) % 2 ^ 32)) ^^^ d)).bind fun stream =>
  let c : PSOGCEncryption := { stream := stream, offset := c.offset }
  (init_fill_checked GC_STREAM_LENGTH 0 1 (sub32 c.offset 1) c).bind fun c =>
  stir_checked 4 c

/-- `PSOGCEncryption::next` with every access to the array checked. -/
def PSOGCEncryption.next_checked (c : PSOGCEncryption) (advance : Bool) :
    Option (PSOGCEncryption × Nat) :=
  (if c.offset = GC_STREAM_LENGTH then c.update_stream_checked else some c).bind fun c =>
  (read_cell c.stream c.offset).bind fun ret =>
  some (if advance then { c with offset := c.offset + 1 } else c, ret)

/-! ## Quest files (src/src/Quest.cc)

File names are lists of characters and file contents lists of bytes.  `Quest.hh`,
`Compression.hh` and the phosg library are not among the sources: the enumerations and the
fields of `Quest` are named as `Quest.cc` uses them, `prs_decompress_size` is a parameter,
and `ends_with`, `split` and `strtoull` are the library functions of these names. -/

/-- Modelled from the spec: the `QuestCategory` enumeration (`Quest.hh`), with the values
that `name_for_category` lists. -/
inductive QuestCategory where
  | UNKNOWN | RETRIEVAL | EXTERMINATION | EVENT | SHOP | VR | TOWER
  | GOVERNMENT_EPISODE_1 | GOVERNMENT_EPISODE_2 | GOVERNMENT_EPISODE_4
  | DOWNLOAD | BATTLE | CHALLENGE | SOLO | EPISODE_3
deriving DecidableEq, Repr

/-- Modelled from the spec: the `Quest::FileFormat` enumeration (`Quest.hh`). -/
inductive FileFormat where
  | BIN_DAT | BIN_DAT_GCI | BIN_DAT_DLQ
deriving DecidableEq, Repr

/-- Modelled from the spec: the fields of `Quest` (`Quest.hh`) that the constructor sets,
apart from the name and the two descriptions.  `quest_id` is an `int64_t`. -/
structure Quest where
  quest_id : Int
  category : QuestCategory
  episode : Nat
  is_dcv1 : Bool
  joinable : Bool
  file_format : FileFormat
  file_basename : List Char
  version : Option GameVersion
deriving DecidableEq

/-- The library function `ends_with(s, suffix)`. -/
def ends_with (s suffix : List Char) : Bool :=
  decide (suffix.length ≤ s.length) && (s.drop (s.length - suffix.length) == suffix)

/-- The characters after the last `'/'` (`rfind('/')` and `substr(slash_pos + 1)`), or the
whole name when it has no `'/'`. -/
def after_last_slash (s : List Char) : List Char :=
  (s.reverse.takeWhile fun ch => ch != '/').reverse

/-- The library function `split(s, delim)`: the pieces between the delimiters, one more
than there are delimiters. -/
def split (s : List Char) (delim : Char) : List (List Char) :=
  s.foldr (fun ch acc =>
    if ch = delim then [] :: acc
    else
      match acc with
      | [] => [[ch]]
      | t :: ts => (ch :: t) :: ts) [[]]

/-- The digits that `strtoull` reads in base 10: the value of the longest prefix of decimal
digits, following the value `acc` read so far. -/
def strtoull_digits : List Char → Nat → Nat
  | [], acc => acc
  | ch :: rest, acc =>
    if '0' ≤ ch ∧ ch ≤ '9' then strtoull_digits rest (acc * 10 + (ch.toNat - 48)) else acc

/-- The C library function `strtoull(s, nullptr, 10)`: white space is skipped, a sign is
accepted, the digits are read, a value above `ULLONG_MAX` gives `ULLONG_MAX`, and a minus
sign negates in 64-bit unsigned arithmetic. -/
def strtoull (s : List Char) : Nat :=
  let s := s.dropWhile fun ch => ch.toNat == 32 || (9 ≤ ch.toNat && ch.toNat ≤ 13)
  match s with
  | '-' :: rest =>
    if strtoull_digits rest 0 ≥ 2 ^ 64 then 2 ^ 64 - 1
    else (2 ^ 64 - strtoull_digits rest 0) % 2 ^ 64
  | '+' :: rest => min (strtoull_digits rest 0) (2 ^ 64 - 1)
  | _ => min (strtoull_digits s 0) (2 ^ 64 - 1)

/-- The conversion of an `unsigned long long` to `int64_t`. -/
def to_int64 (v : Nat) : Int :=
  if v % 2 ^ 64 < 2 ^ 63 then (v % 2 ^ 64 : Nat) else (v % 2 ^ 64 : Nat) - (2 ^ 64 : Int)

/-- The map `name_to_category` of the constructor. -/
def name_to_category : List (List Char × QuestCategory) :=
  [("ret".toList, .RETRIEVAL), ("ext".toList, .EXTERMINATION), ("evt".toList, .EVENT),
   ("shp".toList, .SHOP), ("vr".toList, .VR), ("twr".toList, .TOWER),
   ("dl".toList, .DOWNLOAD), ("1p".toList, .SOLO)]

/-- The map `name_to_version` of the constructor. -/
def name_to_version : List (List Char × GameVersion) :=
  [("d1".toList, .DC), ("dc".toList, .DC), ("pc".toList, .PC), ("gc".toList, .GC),
   ("gc3".toList, .GC), ("bb".toList, .BB)]

/-- The member function `at` of a map: it throws `std::out_of_range` (a `logic_error`)
for a key that the map does not hold. -/
def map_at {β : Type} (m : List (List Char × β)) (key : List Char) : Except Exn β :=
  match m.lookup key with
  | some v => .ok v
  | none => .error (.logic_error "out_of_range")

/-- The object under construction when the body of `Quest::Quest` is entered: the member
initialisers. -/
def Quest.initial : Quest :=
  { quest_id := -1, category := .UNKNOWN, episode := 0, is_dcv1 := false, joinable := false,
    file_format := .BIN_DAT, file_basename := [], version := none }

/-- First part of the constructor `Quest::Quest(bin_filename)`: the file format and
`file_basename` from the extension. -/
def Quest.read_extension (q : Quest) (bin_filename : List Char) : Except Exn Quest :=
  if ends_with bin_filename ".bin.gci".toList then
    .ok { q with file_format := .BIN_DAT_GCI,
                 file_basename := bin_filename.take (bin_filename.length - 8) }
  else if ends_with bin_filename ".bin.dlq".toList then
    .ok { q with file_format := .BIN_DAT_DLQ,
                 file_basename := bin_filename.take (bin_filename.length - 8) }
  else if ends_with bin_filename ".bin".toList then
    .ok { q with file_basename := bin_filename.take (bin_filename.length - 4) }
  else .error (.runtime_error "quest does not have a valid .bin file")

/-- The local `basename` of the constructor: the name after the last `'/'`, cut by the 4 or
8 characters of the extension. -/
def Quest.local_basename (q : Quest) (bin_filename : List Char) : List Char :=
  (after_last_slash bin_filename).take
    ((after_last_slash bin_filename).length - (if q.file_format = .BIN_DAT then 4 else 8))

/-- Second part of the constructor: the category from the first letter, or the error for
a letter that indicates no mode. -/
def Quest.read_mode (q : Quest) (basename : List Char) : Except Exn Quest :=
  if basename = [] then .error (.invalid_argument "empty filename")
  else if basename.head? = some 'b' then .ok { q with category := .BATTLE }
  else if basename.head? = some 'c' then .ok { q with category := .CHALLENGE }
  else if basename.head? = some 'e' then .ok { q with category := .EPISODE_3 }
  else if basename.head? ≠ some 'q' then
    .error (.invalid_argument "filename does not indicate mode")
  else .ok q

/-- Third part of the constructor: the tokens, the quest id, the category from the second
token when the first letter did not give it (the token is then erased), and the version.
Returns the object and the tokens. -/
def Quest.read_tokens (q : Quest) (basename : List Char) :
    Except Exn (Quest × List (List Char)) :=
  let tokens := split basename '-'
  if tokens.length ≠ 2 + (if q.category = .UNKNOWN then 1 else 0) then
    .error (.invalid_argument "incorrect filename format")
  else
    let q := { q with quest_id := to_int64 (strtoull ((tokens.getD 0 []).drop 1)) }
    let r : Except Exn (Quest × List (List Char)) :=
      if q.category = .UNKNOWN then
        if tokens.getD 1 [] = "gov".toList then
          if q.episode = 0 then
            .ok ({ q with category := .GOVERNMENT_EPISODE_1 }, tokens.eraseIdx 1)
          else if q.episode = 1 then
            .ok ({ q with category := .GOVERNMENT_EPISODE_2 }, tokens.eraseIdx 1)
          else if q.episode = 2 then
            .ok ({ q with category := .GOVERNMENT_EPISODE_4 }, tokens.eraseIdx 1)
          else .error (.invalid_argument "government quest has incorrect episode")
        else
          match map_at name_to_category (tokens.getD 1 []) with
          | .error e => .error e
          | .ok cat => .ok ({ q with category := cat }, tokens.eraseIdx 1)
      else .ok (q, tokens)
    match r with
    | .error e => .error e
    | .ok (q, tokens) =>
      match map_at name_to_version (tokens.getD 1 []) with
      | .error e => .error e
      | .ok v => .ok ({ q with version := some v }, tokens)

/-- Last part of the constructor: the `switch (this->version)` on the decompressed
contents of the bin file.  The header structs are packed: `PSOQuestHeaderDC` and
`PSOQuestHeaderGC` have 468 bytes, `PSOQuestHeaderPC` 916, `PSOQuestHeaderBB` 920 and
`PSOQuestHeaderGCEpisode3` 23064; `episode` is the byte at offset 19 of the GC header and
at offset 20 of the BB header, `joinable_in_progress` the byte at offset 22 of the BB
header. -/
def Quest.read_header (q : Quest) (tokens : List (List Char)) (bin_decompressed : List Nat) :
    Except Exn Quest :=
  match q.version with
  | some .PATCH => .error (.invalid_argument "patch server quests are not valid")
  | some .DC =>
    if bin_decompressed.length < 468 then
      .error (.invalid_argument "file is too small for header")
    else
      .ok { q with joinable := false, episode := 0,
                   is_dcv1 := decide (tokens.getD 1 [] = "d1".toList) }
  | some .PC =>
    if bin_decompressed.length < 916 then
      .error (.invalid_argument "file is too small for header")
    else .ok { q with joinable := false, episode := 0 }
  | some .GC =>
    if q.category = .EPISODE_3 then
      if bin_decompressed.length ≠ 23064 then
        .error (.invalid_argument "file is incorrect size")
      else .ok { q with joinable := false, episode := 0xFF }
    else
      if bin_decompressed.length < 468 then
        .error (.invalid_argument "file is too small for header")
      else
        .ok { q with joinable := false,
                     episode := if bin_decompressed.getD 19 0 = 1 then 1 else 0 }
  | some .BB =>
    if bin_decompressed.length < 920 then
      .error (.invalid_argument "file is too small for header")
    else
      .ok { q with joinable := decide (bin_decompressed.getD 22 0 ≠ 0),
                   episode := bin_decompressed.getD 20 0 }
  | _ => .ok q

/-- The constructor `Quest::Quest(bin_filename)`.  `bin_decompressed` is what
`prs_decompress(*this->bin_contents())` returns for the file, or the exception it throws. -/
def Quest.new (bin_filename : List Char) (bin_decompressed : Except Exn (List Nat)) :
    Except Exn Quest :=
  match Quest.initial.read_extension bin_filename with
  | .error e => .error e
  | .ok q =>
    match q.read_mode (q.local_basename bin_filename) with
    | .error e => .error e
    | .ok q1 =>
      match q1.read_tokens (q.local_basename bin_filename) with
      | .error e => .error e
      | .ok (q2, tokens) =>
        match bin_decompressed with
        | .error e => .error e
        | .ok bin => q2.read_header tokens bin

/-- The size `(n + 3) & (~3)` that a buffer of `n` bytes is resized to (a string is
shorter than 2^63 bytes, so that the sum does not wrap). -/
def padded_size (n : Nat) : Nat := (n + 3) / 4 * 4

/-- The statement `data.resize(n)`: cut, or filled up with zero bytes. -/
def resize (data : List Nat) (n : Nat) : List Nat :=
  data.take n ++ List.replicate (n - data.length) 0

/-- `Quest::decode_dlq` on the contents of the file; `prs_decompress_size` is a
parameter. -/
def decode_dlq (prs_decompress_size : List Nat → Nat) (file : List Nat) :
    Except Exn (List Nat) :=
  if file.length < 8 then .error (.runtime_error "end of file")
  else
    let decompressed_size :=
      le_load (file.getD 0 0) (file.getD 1 0) (file.getD 2 0) (file.getD 3 0)
    let key := le_load (file.getD 4 0) (file.getD 5 0) (file.getD 6 0) (file.getD 7 0)
    let data := file.drop 8
    let encr := PSOPCEncryption.new key
    let original_size := data.length
    let data := resize data (padded_size data.length)
    let r := encr.decrypt data true
    match r.error with
    | some e => .error e
    | none =>
      let data := resize r.data original_size
      if prs_decompress_size data ≠ decompressed_size then
        .error (.runtime_error "decompressed size does not match size in header")
      else .ok data

/-- The text that `string_printf` writes for a `%zX` conversion: the number in upper-case
hexadecimal digits. -/
def hex_upper (n : Nat) : String := String.mk ((Nat.toDigits 16 n).map Char.toUpper)

/-- `Quest::decode_gci` on the contents of the file; `prs_decompress_size` is a
parameter.  The expected size `dh->decompressed_size - 8` is a `uint32_t`. -/
def decode_gci (prs_decompress_size : List Nat → Nat) (data : List Nat) :
    Except Exn (List Nat) :=
  if data.length < 0x2080 + 8 then
    .error (.runtime_error ("GCI file is truncated before download quest header (have 0x" ++
      hex_upper data.length ++ " bytes)"))
  else
    let h_size := le_load (data.getD 0x2080 0) (data.getD 0x2081 0) (data.getD 0x2082 0)
      (data.getD 0x2083 0)
    let compressed_data_with_header := (data.drop 0x2088).take h_size
    if compressed_data_with_header.length < 16 then
      .error (.runtime_error "GCI file compressed data truncated during header")
    else
      let dh := compressed_data_with_header
      let unknown1 := le_load (dh.getD 0 0) (dh.getD 1 0) (dh.getD 2 0) (dh.getD 3 0)
      let unknown2 := le_load (dh.getD 4 0) (dh.getD 5 0) (dh.getD 6 0) (dh.getD 7 0)
      let decompressed_size :=
        le_load (dh.getD 8 0) (dh.getD 9 0) (dh.getD 10 0) (dh.getD 11 0)
      let unknown4 := le_load (dh.getD 12 0) (dh.getD 13 0) (dh.getD 14 0) (dh.getD 15 0)
      if unknown1 ≠ 0 ∨ unknown2 ≠ 0 ∨ unknown4 ≠ 0 then
        .error (.runtime_error "GCI file appears to be encrypted")
      else
        let data_to_decompress := compressed_data_with_header.drop 16
        let decompressed_bytes := prs_decompress_size data_to_decompress
        let expected_decompressed_bytes := sub32 decompressed_size 8
        if decompressed_bytes < expected_decompressed_bytes then
          .error (.runtime_error
            ("GCI decompressed data is smaller than expected size (have 0x" ++
              hex_upper decompressed_bytes ++ " bytes, expected 0x" ++
              hex_upper expected_decompressed_bytes ++ " bytes)"))
        else .ok data_to_decompress

/-- `create_download_quest_file(compressed_data, decompressed_size, seed)`; `random` is
the value that `random_object<uint32_t>()` returns. -/
def create_download_quest_file (compressed_data : List Nat) (decompressed_size seed : Nat)
    (random : Nat) : Except Exn (List Nat) :=
  let seed := if seed = 0 then random else seed
  let data := List.replicate 8 0
  let data := le_store decompressed_size ++ le_store seed ++ data.drop 8
  let data := data ++ compressed_data
  let original_size := data.length
  let data := resize data (padded_size data.length)
  let encr := PSOPCEncryption.new seed
  let r := encr.encrypt (data.drop 8) true
  match r.error with
  | some e => .error e
  | none => .ok (resize (data.take 8 ++ r.data) original_size)

/-- The decompressed size that the header of a download quest file declares. -/
def dlq_declared_size (file : List Nat) : Nat :=
  le_load (file.getD 0 0) (file.getD 1 0) (file.getD 2 0) (file.getD 3 0)

/-- The payload of a download quest file as the specification describes it: the bytes
after the 8-byte header, padded with zeros to a multiple of 4, decrypted by the V1 cipher
keyed with the header's second word, and cut back to their length. -/
def dlq_payload (file : List Nat) : List Nat :=
  ((PSOPCEncryption.encrypt_loop true
      (PSOPCEncryption.new
        (le_load (file.getD 4 0) (file.getD 5 0) (file.getD 6 0) (file.getD 7 0)))
      (file.drop 8 ++ List.replicate ((4 - (file.length - 8) % 4) % 4) 0)).2).take
    (file.length - 8)

/-- The decompressed size that the inner header of a GCI file declares: the third word of
the 16 bytes at offset 0x2088. -/
def gci_declared_size (data : List Nat) : Nat :=
  le_load (data.getD (0x2088 + 8) 0) (data.getD (0x2088 + 9) 0) (data.getD (0x2088 + 10) 0)
    (data.getD (0x2088 + 11) 0)

/-- The PRS stream of the examples: the end marker alone (control bits 0, 1 and the offset
word 0), which decompresses to nothing. -/
def sample_prs_stream : List Nat := [0x02, 0x00, 0x00]

/-- A size function for the examples: 0 for the stream above, as `prs_decompress_size`
gives, and the length of the stream for any other. -/
def sample_prs_size (data : List Nat) : Nat :=
  if data = sample_prs_stream then 0 else data.length

/-- A GCI file for the examples: 0x2080 zero bytes, the download-quest header with the
size `16 + blob.length` and a zero seed, the 16-byte inner header with the given declared
size between zero words, and the blob. -/
def sample_gci (declared : Nat) (blob : List Nat) : List Nat :=
  List.replicate 0x2080 0 ++ le_store (16 + blob.length) ++ [0, 0, 0, 0] ++
    (le_store 0 ++ le_store 0 ++ le_store declared ++ le_store 0) ++ blob

/-- A decompressed bin file for the examples: a V4 header of 920 bytes with the given
`episode` byte. -/
def sample_bb_bin (episode : Nat) : List Nat :=
  List.replicate 20 0 ++ [episode, 4, 1, 0] ++ List.replicate 896 0

/-- The decimal value of a string of digits, the first digit the most significant. -/
def decimal (num : List Char) : Nat :=
  num.foldl (fun acc ch => acc * 10 + (ch.toNat - 48)) 0

/-- The categories that the middle token of a `q` file name gives: the eight of
`name_to_category`, and `GOVERNMENT_EPISODE_1` for `gov`. -/
def category_of_token (token : List Char) : Option QuestCategory :=
  if token = "gov".toList then some .GOVERNMENT_EPISODE_1 else name_to_category.lookup token

/-- The result of the constructor for the examples: category, quest id and episode of the
quest, or nothing when the constructor throws. -/
def Quest.summary (r : Except Exn Quest) : Option (QuestCategory × Int × Nat) :=
  match r with
  | .ok q => some (q.category, q.quest_id, q.episode)
  | .error _ => none

/-! ## Arithmetic of words and bytes -/

theorem xor_mod_two_pow (a b n : Nat) : (a ^^^ b) % 2 ^ n = (a % 2 ^ n) ^^^ (b % 2 ^ n) := by
  apply Nat.eq_of_testBit_eq
  intro i
  simp only [Nat.testBit_mod_two_pow, Nat.testBit_xor]
  by_cases h : i < n <;> simp [h]

theorem xor_cancel_mod (w k : Nat) (hw : w < 2 ^ 32) :
    (((w ^^^ k) % 2 ^ 32) ^^^ k) % 2 ^ 32 = w := by
  rw [xor_mod_two_pow ((w ^^^ k) % 2 ^ 32) k, Nat.mod_mod, ← xor_mod_two_pow, Nat.xor_assoc,
    Nat.xor_self, Nat.xor_zero, Nat.mod_eq_of_lt hw]

theorem le_load_lt {b0 b1 b2 b3 : Nat} (h0 : b0 < 256) (h1 : b1 < 256) (h2 : b2 < 256)
    (h3 : b3 < 256) : le_load b0 b1 b2 b3 < 2 ^ 32 := by
  unfold le_load; omega

theorem le_store_le_load {b0 b1 b2 b3 : Nat} (h0 : b0 < 256) (h1 : b1 < 256) (h2 : b2 < 256)
    (h3 : b3 < 256) : le_store (le_load b0 b1 b2 b3) = [b0, b1, b2, b3] := by
  unfold le_load le_store
  simp only [List.cons.injEq, and_true]
  omega

theorem le_load_le_store (w : Nat) :
    le_load (w % 256) (w / 256 % 256) (w / 65536 % 256) (w / 16777216 % 256) = w % 2 ^ 32 := by
  unfold le_load; omega

theorem le_store_mod (w : Nat) : le_store (w % 2 ^ 32) = le_store w := by
  unfold le_store
  simp only [List.cons.injEq, and_true]
  omega

theorem le_store_bytes (w : Nat) : ∀ b ∈ le_store w, b < 256 := by
  intro b hb
  simp only [le_store, List.mem_cons, List.mem_singleton, List.not_mem_nil, or_false] at hb
  omega

/-- Storing `w ^ k` and then XOR-ing the stored word with `k` again restores the bytes. -/
theorem le_xor_round_trip {b0 b1 b2 b3 : Nat} (k : Nat) (h0 : b0 < 256) (h1 : b1 < 256)
    (h2 : b2 < 256) (h3 : b3 < 256) :
    le_store (le_load ((le_load b0 b1 b2 b3 ^^^ k) % 256)
      ((le_load b0 b1 b2 b3 ^^^ k) / 256 % 256) ((le_load b0 b1 b2 b3 ^^^ k) / 65536 % 256)
      ((le_load b0 b1 b2 b3 ^^^ k) / 16777216 % 256) ^^^ k) = [b0, b1, b2, b3] := by
  rw [le_load_le_store, ← le_store_mod, xor_cancel_mod _ _ (le_load_lt h0 h1 h2 h3),
    le_store_le_load h0 h1 h2 h3]

theorem PSOPCEncryption.pc_encrypt_loop_cons (advance : Bool) (c : PSOPCEncryption)
    (b0 b1 b2 b3 : Nat) (rest : List Nat) :
    PSOPCEncryption.encrypt_loop advance c (b0 :: b1 :: b2 :: b3 :: rest) =
      ((PSOPCEncryption.encrypt_loop advance (c.next advance).1 rest).1,
        le_store (le_load b0 b1 b2 b3 ^^^ (c.next advance).2) ++
          (PSOPCEncryption.encrypt_loop advance (c.next advance).1 rest).2) := rfl

theorem PSOPCEncryption.pc_encrypt_loop_store (advance : Bool) (c : PSOPCEncryption)
    (w : Nat) (rest : List Nat) :
    PSOPCEncryption.encrypt_loop advance c (le_store w ++ rest) =
      ((PSOPCEncryption.encrypt_loop advance (c.next advance).1 rest).1,
        le_store (le_load (w % 256) (w / 256 % 256) (w / 65536 % 256) (w / 16777216 % 256) ^^^
          (c.next advance).2) ++
          (PSOPCEncryption.encrypt_loop advance (c.next advance).1 rest).2) := rfl

theorem PSOPCEncryption.pc_encrypt_loop_short (advance : Bool) (c : PSOPCEncryption)
    (rest : List Nat) (h : rest.length < 4) :
    PSOPCEncryption.encrypt_loop advance c rest = (c, rest) := by
  match rest, h with
  | [], _ => rfl
  | [_], _ => rfl
  | [_, _], _ => rfl
  | [_, _, _], _ => rfl

theorem PSOPCEncryption.pc_encrypt_loop_round_trip (advance : Bool) (c : PSOPCEncryption)
    (B : List Nat) (hB : ∀ b ∈ B, b < 256) :
    PSOPCEncryption.encrypt_loop advance c (PSOPCEncryption.encrypt_loop advance c B).2 =
      ((PSOPCEncryption.encrypt_loop advance c B).1, B) := by
  induction c, B using PSOPCEncryption.encrypt_loop.induct advance with
  | case1 c b0 b1 b2 b3 rest r ih =>
    simp only [List.mem_cons, forall_eq_or_imp] at hB
    obtain ⟨h0, h1, h2, h3, hr⟩ := hB
    have ih := ih hr
    simp only [r] at ih
    rw [PSOPCEncryption.pc_encrypt_loop_cons, PSOPCEncryption.pc_encrypt_loop_store, ih,
      le_xor_round_trip _ h0 h1 h2 h3]
    rfl
  | case2 c rest h =>
    have hlen : rest.length < 4 := by
      match rest, h with
      | [], _ => simp
      | [_], _ => simp
      | [_, _], _ => simp
      | [_, _, _], _ => simp
      | b0 :: b1 :: b2 :: b3 :: r, h => exact (h b0 b1 b2 b3 r rfl).elim
    rw [PSOPCEncryption.pc_encrypt_loop_short _ _ _ hlen, PSOPCEncryption.pc_encrypt_loop_short _ _ _ hlen]
theorem PSOGCEncryption.gc_encrypt_loop_cons (advance : Bool) (c : PSOGCEncryption)
    (b0 b1 b2 b3 : Nat) (rest : List Nat) :
    PSOGCEncryption.encrypt_loop advance c (b0 :: b1 :: b2 :: b3 :: rest) =
      ((PSOGCEncryption.encrypt_loop advance (c.next advance).1 rest).1,
        le_store (le_load b0 b1 b2 b3 ^^^ (c.next advance).2) ++
          (PSOGCEncryption.encrypt_loop advance (c.next advance).1 rest).2) := rfl

theorem PSOGCEncryption.gc_encrypt_loop_store (advance : Bool) (c : PSOGCEncryption)
    (w : Nat) (rest : List Nat) :
    PSOGCEncryption.encrypt_loop advance c (le_store w ++ rest) =
      ((PSOGCEncryption.encrypt_loop advance (c.next advance).1 rest).1,
        le_store (le_load (w % 256) (w / 256 % 256) (w / 65536 % 256) (w / 16777216 % 256) ^^^
          (c.next advance).2) ++
          (PSOGCEncryption.encrypt_loop advance (c.next advance).1 rest).2) := rfl

theorem PSOGCEncryption.gc_encrypt_loop_short (advance : Bool) (c : PSOGCEncryption)
    (rest : List Nat) (h : rest.length < 4) :
    PSOGCEncryption.encrypt_loop advance c rest = (c, rest) := by
  match rest, h with
  | [], _ => rfl
  | [_], _ => rfl
  | [_, _], _ => rfl
  | [_, _, _], _ => rfl

theorem PSOGCEncryption.gc_encrypt_loop_round_trip (advance : Bool) (c : PSOGCEncryption)
    (B : List Nat) (hB : ∀ b ∈ B, b < 256) :
    PSOGCEncryption.encrypt_loop advance c (PSOGCEncryption.encrypt_loop advance c B).2 =
      ((PSOGCEncryption.encrypt_loop advance c B).1, B) := by
  induction c, B using PSOGCEncryption.encrypt_loop.induct advance with
  | case1 c b0 b1 b2 b3 rest r ih =>
    simp only [List.mem_cons, forall_eq_or_imp] at hB
    obtain ⟨h0, h1, h2, h3, hr⟩ := hB
    have ih := ih hr
    simp only [r] at ih
    rw [PSOGCEncryption.gc_encrypt_loop_cons, PSOGCEncryption.gc_encrypt_loop_store, ih,
      le_xor_round_trip _ h0 h1 h2 h3]
    rfl
  | case2 c rest h =>
    have hlen : rest.length < 4 := by
      match rest, h with
      | [], _ => simp
      | [_], _ => simp
      | [_, _], _ => simp
      | [_, _, _], _ => simp
      | b0 :: b1 :: b2 :: b3 :: r, h => exact (h b0 b1 b2 b3 r rfl).elim
    rw [PSOGCEncryption.gc_encrypt_loop_short _ _ _ hlen, PSOGCEncryption.gc_encrypt_loop_short _ _ _ hlen]

theorem and_three (n : Nat) : n &&& 3 = n % 4 := Nat.and_pow_two_sub_one_eq_mod n 2

theorem and_seven (n : Nat) : n &&& 7 = n % 8 := Nat.and_pow_two_sub_one_eq_mod n 3

theorem le_store_length (w : Nat) : (le_store w).length = 4 := rfl

theorem PSOPCEncryption.pc_encrypt_loop_length (advance : Bool) (c : PSOPCEncryption)
    (B : List Nat) : (PSOPCEncryption.encrypt_loop advance c B).2.length = B.length := by
  induction c, B using PSOPCEncryption.encrypt_loop.induct advance with
  | case1 c b0 b1 b2 b3 rest r ih =>
    simp only [r] at ih
    rw [PSOPCEncryption.pc_encrypt_loop_cons]
    simp only [List.length_append, le_store_length, ih, List.length_cons]
    omega
  | case2 c rest h =>
    rw [PSOPCEncryption.encrypt_loop]
    intro b0 b1 b2 b3 r hr
    exact h b0 b1 b2 b3 r hr

/-- Round trip of `encrypt` and `decrypt` from one state of the V1 cipher. -/
theorem PSOPCEncryption.pc_round_trip (c : PSOPCEncryption) (B : List Nat)
    (hlen : B.length % 4 = 0) (hB : ∀ b ∈ B, b < 256) :
    (c.encrypt B true).error = none ∧
      (c.decrypt (c.encrypt B true).data true).error = none ∧
      (c.decrypt (c.encrypt B true).data true).data = B := by
  have h1 : c.encrypt B true =
      ⟨(PSOPCEncryption.encrypt_loop true c B).1, (PSOPCEncryption.encrypt_loop true c B).2,
        none⟩ := by
    simp [PSOPCEncryption.encrypt, and_three, hlen]
  rw [h1]
  refine ⟨rfl, ?_⟩
  have h2 : (PSOPCEncryption.encrypt_loop true c B).2.length % 4 = 0 := by
    rw [PSOPCEncryption.pc_encrypt_loop_length]; exact hlen
  simp [PSOPCEncryption.decrypt, PSOPCEncryption.encrypt, and_three, h2,
    PSOPCEncryption.pc_encrypt_loop_round_trip true c B hB]
theorem PSOGCEncryption.gc_encrypt_loop_length (advance : Bool) (c : PSOGCEncryption)
    (B : List Nat) : (PSOGCEncryption.encrypt_loop advance c B).2.length = B.length := by
  induction c, B using PSOGCEncryption.encrypt_loop.induct advance with
  | case1 c b0 b1 b2 b3 rest r ih =>
    simp only [r] at ih
    rw [PSOGCEncryption.gc_encrypt_loop_cons]
    simp only [List.length_append, le_store_length, ih, List.length_cons]
    omega
  | case2 c rest h =>
    rw [PSOGCEncryption.encrypt_loop]
    intro b0 b1 b2 b3 r hr
    exact h b0 b1 b2 b3 r hr

/-- Round trip of `encrypt` and `decrypt` from one state of the V2/V3 cipher. -/
theorem PSOGCEncryption.gc_round_trip (c : PSOGCEncryption) (B : List Nat)
    (hlen : B.length % 4 = 0) (hB : ∀ b ∈ B, b < 256) :
    (c.encrypt B true).error = none ∧
      (c.decrypt (c.encrypt B true).data true).error = none ∧
      (c.decrypt (c.encrypt B true).data true).data = B := by
  have h1 : c.encrypt B true =
      ⟨(PSOGCEncryption.encrypt_loop true c B).1, (PSOGCEncryption.encrypt_loop true c B).2,
        none⟩ := by
    simp [PSOGCEncryption.encrypt, and_three, hlen]
  rw [h1]
  refine ⟨rfl, ?_⟩
  have h2 : (PSOGCEncryption.encrypt_loop true c B).2.length % 4 = 0 := by
    rw [PSOGCEncryption.gc_encrypt_loop_length]; exact hlen
  simp [PSOGCEncryption.decrypt, PSOGCEncryption.encrypt, and_three, h2,
    PSOGCEncryption.gc_encrypt_loop_round_trip true c B hB]

/-! ## C1: round trip of the V1 and V2/V3 ciphers -/

/-- C1: for every seed and every buffer of bytes whose length is a multiple of 4, a V1
cipher fresh from the seed encrypts the buffer in advance mode and a second V1 cipher fresh
from the same seed decrypts the result, in advance mode, back to the buffer, both without
error; the same holds with encrypt and decrypt exchanged, and for the V2/V3 cipher. -/
theorem C1_stream_round_trip (seed : Nat) (B : List Nat)
    (hlen : B.length % 4 = 0) (hB : ∀ b ∈ B, b < 256) :
    (((PSOPCEncryption.new seed).encrypt B true).error = none ∧
      ((PSOPCEncryption.new seed).decrypt
        ((PSOPCEncryption.new seed).encrypt B true).data true).error = none ∧
      ((PSOPCEncryption.new seed).decrypt
        ((PSOPCEncryption.new seed).encrypt B true).data true).data = B) ∧
    (((PSOPCEncryption.new seed).decrypt B true).error = none ∧
      ((PSOPCEncryption.new seed).encrypt
        ((PSOPCEncryption.new seed).decrypt B true).data true).error = none ∧
      ((PSOPCEncryption.new seed).encrypt
        ((PSOPCEncryption.new seed).decrypt B true).data true).data = B) ∧
    (((PSOGCEncryption.new seed).encrypt B true).error = none ∧
      ((PSOGCEncryption.new seed).decrypt
        ((PSOGCEncryption.new seed).encrypt B true).data true).error = none ∧
      ((PSOGCEncryption.new seed).decrypt
        ((PSOGCEncryption.new seed).encrypt B true).data true).data = B) ∧
    (((PSOGCEncryption.new seed).decrypt B true).error = none ∧
      ((PSOGCEncryption.new seed).encrypt
        ((PSOGCEncryption.new seed).decrypt B true).data true).error = none ∧
      ((PSOGCEncryption.new seed).encrypt
        ((PSOGCEncryption.new seed).decrypt B true).data true).data = B) :=
  ⟨PSOPCEncryption.pc_round_trip _ B hlen hB, PSOPCEncryption.pc_round_trip _ B hlen hB,
    PSOGCEncryption.gc_round_trip _ B hlen hB, PSOGCEncryption.gc_round_trip _ B hlen hB⟩

/-- C1 at seed `0x12345678` and the 12 bytes of "HELLO WRL" padded with zeros, V1 cipher. -/
theorem C1_stream_round_trip_witness :
    ((PSOPCEncryption.new 0x12345678).decrypt
      ((PSOPCEncryption.new 0x12345678).encrypt
        [72, 69, 76, 76, 79, 32, 87, 82, 76, 0, 0, 0] true).data true).data =
      [72, 69, 76, 76, 79, 32, 87, 82, 76, 0, 0, 0] :=
  (C1_stream_round_trip 0x12345678 [72, 69, 76, 76, 79, 32, 87, 82, 76, 0, 0, 0]
    (by decide) (by decide)).1.2.2

/-! ## Lemmas on the V4 block cipher -/

theorem sample_key_WF (subtype : Subtype) : (sample_key subtype).WF := by
  refine ⟨List.length_replicate _ _, List.length_replicate _ _, ?_, ?_⟩
  · intro b hb
    rw [(List.mem_replicate.mp hb).2]; decide
  · intro b hb
    rw [(List.mem_replicate.mp hb).2]; decide

theorem xor_cancel_right (a b : Nat) : (a ^^^ b) ^^^ b = a := by
  rw [Nat.xor_assoc, Nat.xor_self, Nat.xor_zero]

theorem xor_cancel_mid (a x : Nat) : x ^^^ (a ^^^ x) = a := by
  rw [Nat.xor_comm a x, ← Nat.xor_assoc, Nat.xor_self, Nat.zero_xor]

theorem xor_cancel_pair (a x y : Nat) : ((a ^^^ x) ^^^ y) ^^^ (x ^^^ y) = a := by
  rw [Nat.xor_assoc a x y, xor_cancel_right]

theorem xor_cancel_split (a x y : Nat) : ((a ^^^ (x ^^^ y)) ^^^ x) ^^^ y = a := by
  rw [Nat.xor_assoc (a ^^^ (x ^^^ y)) x y, xor_cancel_right]

theorem xor_cancel_front (x d : Nat) : (x ^^^ d) ^^^ x = d := by
  rw [Nat.xor_comm x d, xor_cancel_right]

theorem PSOBBEncryption.decrypt_encrypt_block (s : KeyFile) (d0 d1 : Nat) :
    PSOBBEncryption.decrypt_block s (PSOBBEncryption.encrypt_block s d0 d1).1
      (PSOBBEncryption.encrypt_block s d0 d1).2 = (d0, d1) := by
  simp only [PSOBBEncryption.decrypt_block, PSOBBEncryption.encrypt_block, xor_cancel_right,
    xor_cancel_mid, xor_cancel_pair, xor_cancel_split, xor_cancel_front]

theorem PSOBBEncryption.encrypt_decrypt_block (s : KeyFile) (d0 d1 : Nat) :
    PSOBBEncryption.encrypt_block s (PSOBBEncryption.decrypt_block s d0 d1).1
      (PSOBBEncryption.decrypt_block s d0 d1).2 = (d0, d1) := by
  simp only [PSOBBEncryption.decrypt_block, PSOBBEncryption.encrypt_block, xor_cancel_right,
    xor_cancel_mid, xor_cancel_pair, xor_cancel_split, xor_cancel_front]

theorem getD_lt_of_bytes {l : List Nat} (h : ∀ b ∈ l, b < 256) (i : Nat) : l.getD i 0 < 256 := by
  induction l generalizing i with
  | nil => simp
  | cons a t ih =>
    cases i with
    | zero => exact h a (List.mem_cons_self a t)
    | succ n => exact ih (fun b hb => h b (List.mem_cons_of_mem a hb)) n

theorem getD_set_of_ne {l : List Nat} {i j : Nat} (h : i ≠ j) (v d : Nat) :
    (l.set i v).getD j d = l.getD j d := by
  induction l generalizing i j with
  | nil => rfl
  | cons a t ih =>
    cases i with
    | zero =>
      cases j with
      | zero => exact (h rfl).elim
      | succ m => rfl
    | succ n =>
      cases j with
      | zero => rfl
      | succ m => exact ih (fun e => h (by rw [e]))

theorem bytes_set {l : List Nat} (h : ∀ b ∈ l, b < 256) (i : Nat) {v : Nat} (hv : v < 256) :
    ∀ b ∈ l.set i v, b < 256 := by
  intro b hb
  rcases List.mem_or_eq_of_mem_set hb with hb | hb
  · exact h b hb
  · rw [hb]; exact hv

theorem as32_lt {ks : List Nat} (h : ∀ b ∈ ks, b < 256) (i : Nat) : as32 ks i < 2 ^ 32 :=
  le_load_lt (getD_lt_of_bytes h _) (getD_lt_of_bytes h _) (getD_lt_of_bytes h _)
    (getD_lt_of_bytes h _)

theorem sbox_lt (pk : List Nat) (x : Nat) : sbox pk x < 2 ^ 32 :=
  Nat.mod_lt _ (by decide)

theorem PSOBBEncryption.encrypt_block_lt (s : KeyFile) (h : ∀ b ∈ s.initial_keys, b < 256)
    {d0 d1 : Nat} (h0 : d0 < 2 ^ 32) (h1 : d1 < 2 ^ 32) :
    (PSOBBEncryption.encrypt_block s d0 d1).1 < 2 ^ 32 ∧
      (PSOBBEncryption.encrypt_block s d0 d1).2 < 2 ^ 32 := by
  have k := as32_lt h
  have f := sbox_lt s.private_keys
  have x := @Nat.xor_lt_two_pow
  simp only [PSOBBEncryption.encrypt_block]
  constructor
  · exact x (x (x (x (x (f _) (k 1)) h1) (f _)) (k 3)) (k 5)
  · exact x (x (x h0 (k 0)) (x (f _) (k 2))) (x (f _) (k 4))

theorem PSOBBEncryption.decrypt_block_lt (s : KeyFile) (h : ∀ b ∈ s.initial_keys, b < 256)
    {d0 d1 : Nat} (h0 : d0 < 2 ^ 32) (h1 : d1 < 2 ^ 32) :
    (PSOBBEncryption.decrypt_block s d0 d1).1 < 2 ^ 32 ∧
      (PSOBBEncryption.decrypt_block s d0 d1).2 < 2 ^ 32 := by
  have k := as32_lt h
  have f := sbox_lt s.private_keys
  have x := @Nat.xor_lt_two_pow
  simp only [PSOBBEncryption.decrypt_block]
  constructor
  · exact x (x (x (x (x (f _) (k 4)) h1) (f _)) (k 2)) (k 0)
  · exact x (x (x h0 (k 5)) (x (f _) (k 3))) (x (f _) (k 1))

theorem PSOBBEncryption.encrypt_blocks_cons (s : KeyFile) (b0 b1 b2 b3 b4 b5 b6 b7 : Nat)
    (rest : List Nat) :
    PSOBBEncryption.encrypt_blocks s (b0 :: b1 :: b2 :: b3 :: b4 :: b5 :: b6 :: b7 :: rest) =
      le_store (PSOBBEncryption.encrypt_block s (le_load b0 b1 b2 b3) (le_load b4 b5 b6 b7)).1 ++
        le_store
          (PSOBBEncryption.encrypt_block s (le_load b0 b1 b2 b3) (le_load b4 b5 b6 b7)).2 ++
        PSOBBEncryption.encrypt_blocks s rest := rfl

theorem PSOBBEncryption.decrypt_blocks_cons (s : KeyFile) (b0 b1 b2 b3 b4 b5 b6 b7 : Nat)
    (rest : List Nat) :
    PSOBBEncryption.decrypt_blocks s (b0 :: b1 :: b2 :: b3 :: b4 :: b5 :: b6 :: b7 :: rest) =
      le_store (PSOBBEncryption.decrypt_block s (le_load b0 b1 b2 b3) (le_load b4 b5 b6 b7)).1 ++
        le_store
          (PSOBBEncryption.decrypt_block s (le_load b0 b1 b2 b3) (le_load b4 b5 b6 b7)).2 ++
        PSOBBEncryption.decrypt_blocks s rest := rfl

theorem PSOBBEncryption.encrypt_blocks_store (s : KeyFile) {a b : Nat} (ha : a < 2 ^ 32)
    (hb : b < 2 ^ 32) (rest : List Nat) :
    PSOBBEncryption.encrypt_blocks s (le_store a ++ le_store b ++ rest) =
      le_store (PSOBBEncryption.encrypt_block s a b).1 ++
        le_store (PSOBBEncryption.encrypt_block s a b).2 ++
        PSOBBEncryption.encrypt_blocks s rest := by
  have e := PSOBBEncryption.encrypt_blocks_cons s (a % 256) (a / 256 % 256) (a / 65536 % 256)
    (a / 16777216 % 256) (b % 256) (b / 256 % 256) (b / 65536 % 256) (b / 16777216 % 256) rest
  rw [le_load_le_store, le_load_le_store, Nat.mod_eq_of_lt ha, Nat.mod_eq_of_lt hb] at e
  exact e

theorem PSOBBEncryption.decrypt_blocks_store (s : KeyFile) {a b : Nat} (ha : a < 2 ^ 32)
    (hb : b < 2 ^ 32) (rest : List Nat) :
    PSOBBEncryption.decrypt_blocks s (le_store a ++ le_store b ++ rest) =
      le_store (PSOBBEncryption.decrypt_block s a b).1 ++
        le_store (PSOBBEncryption.decrypt_block s a b).2 ++
        PSOBBEncryption.decrypt_blocks s rest := by
  have e := PSOBBEncryption.decrypt_blocks_cons s (a % 256) (a / 256 % 256) (a / 65536 % 256)
    (a / 16777216 % 256) (b % 256) (b / 256 % 256) (b / 65536 % 256) (b / 16777216 % 256) rest
  rw [le_load_le_store, le_load_le_store, Nat.mod_eq_of_lt ha, Nat.mod_eq_of_lt hb] at e
  exact e

theorem short_of_no_block {rest : List Nat}
    (h : ∀ (b0 b1 b2 b3 b4 b5 b6 b7 : Nat) (r : List Nat),
      rest = b0 :: b1 :: b2 :: b3 :: b4 :: b5 :: b6 :: b7 :: r → False) : rest.length < 8 := by
  match rest, h with
  | [], _ => simp
  | [_], _ => simp
  | [_, _], _ => simp
  | [_, _, _], _ => simp
  | [_, _, _, _], _ => simp
  | [_, _, _, _, _], _ => simp
  | [_, _, _, _, _, _], _ => simp
  | [_, _, _, _, _, _, _], _ => simp
  | b0 :: b1 :: b2 :: b3 :: b4 :: b5 :: b6 :: b7 :: r, h =>
    exact (h b0 b1 b2 b3 b4 b5 b6 b7 r rfl).elim

theorem PSOBBEncryption.encrypt_blocks_short (s : KeyFile) {rest : List Nat}
    (h : rest.length < 8) : PSOBBEncryption.encrypt_blocks s rest = rest := by
  match rest, h with
  | [], _ => rfl
  | [_], _ => rfl
  | [_, _], _ => rfl
  | [_, _, _], _ => rfl
  | [_, _, _, _], _ => rfl
  | [_, _, _, _, _], _ => rfl
  | [_, _, _, _, _, _], _ => rfl
  | [_, _, _, _, _, _, _], _ => rfl

theorem PSOBBEncryption.decrypt_blocks_short (s : KeyFile) {rest : List Nat}
    (h : rest.length < 8) : PSOBBEncryption.decrypt_blocks s rest = rest := by
  match rest, h with
  | [], _ => rfl
  | [_], _ => rfl
  | [_, _], _ => rfl
  | [_, _, _], _ => rfl
  | [_, _, _, _], _ => rfl
  | [_, _, _, _, _], _ => rfl
  | [_, _, _, _, _, _], _ => rfl
  | [_, _, _, _, _, _, _], _ => rfl

theorem PSOBBEncryption.encrypt_blocks_length (s : KeyFile) (B : List Nat) :
    (PSOBBEncryption.encrypt_blocks s B).length = B.length := by
  induction B using PSOBBEncryption.encrypt_blocks.induct s with
  | case1 b0 b1 b2 b3 b4 b5 b6 b7 rest ih =>
    rw [PSOBBEncryption.encrypt_blocks_cons]
    simp only [List.length_append, le_store_length, ih, List.length_cons]
    omega
  | case2 rest h => rw [PSOBBEncryption.encrypt_blocks_short s (short_of_no_block h)]

theorem PSOBBEncryption.decrypt_blocks_length (s : KeyFile) (B : List Nat) :
    (PSOBBEncryption.decrypt_blocks s B).length = B.length := by
  induction B using PSOBBEncryption.decrypt_blocks.induct s with
  | case1 b0 b1 b2 b3 b4 b5 b6 b7 rest ih =>
    rw [PSOBBEncryption.decrypt_blocks_cons]
    simp only [List.length_append, le_store_length, ih, List.length_cons]
    omega
  | case2 rest h => rw [PSOBBEncryption.decrypt_blocks_short s (short_of_no_block h)]

theorem PSOBBEncryption.decrypt_encrypt_blocks (s : KeyFile)
    (h : ∀ b ∈ s.initial_keys, b < 256) (B : List Nat) (hB : ∀ b ∈ B, b < 256) :
    PSOBBEncryption.decrypt_blocks s (PSOBBEncryption.encrypt_blocks s B) = B := by
  induction B using PSOBBEncryption.encrypt_blocks.induct s with
  | case1 b0 b1 b2 b3 b4 b5 b6 b7 rest ih =>
    simp only [List.mem_cons, forall_eq_or_imp] at hB
    obtain ⟨h0, h1, h2, h3, h4, h5, h6, h7, hr⟩ := hB
    have hb := PSOBBEncryption.encrypt_block_lt s h (le_load_lt h0 h1 h2 h3)
      (le_load_lt h4 h5 h6 h7)
    rw [PSOBBEncryption.encrypt_blocks_cons, PSOBBEncryption.decrypt_blocks_store s hb.1 hb.2,
      PSOBBEncryption.decrypt_encrypt_block, ih hr, le_store_le_load h0 h1 h2 h3,
      le_store_le_load h4 h5 h6 h7]
    rfl
  | case2 rest h0 =>
    rw [PSOBBEncryption.encrypt_blocks_short s (short_of_no_block h0),
      PSOBBEncryption.decrypt_blocks_short s (short_of_no_block h0)]

theorem PSOBBEncryption.encrypt_decrypt_blocks (s : KeyFile)
    (h : ∀ b ∈ s.initial_keys, b < 256) (B : List Nat) (hB : ∀ b ∈ B, b < 256) :
    PSOBBEncryption.encrypt_blocks s (PSOBBEncryption.decrypt_blocks s B) = B := by
  induction B using PSOBBEncryption.decrypt_blocks.induct s with
  | case1 b0 b1 b2 b3 b4 b5 b6 b7 rest ih =>
    simp only [List.mem_cons, forall_eq_or_imp] at hB
    obtain ⟨h0, h1, h2, h3, h4, h5, h6, h7, hr⟩ := hB
    have hb := PSOBBEncryption.decrypt_block_lt s h (le_load_lt h0 h1 h2 h3)
      (le_load_lt h4 h5 h6 h7)
    rw [PSOBBEncryption.decrypt_blocks_cons, PSOBBEncryption.encrypt_blocks_store s hb.1 hb.2,
      PSOBBEncryption.encrypt_decrypt_block, ih hr, le_store_le_load h0 h1 h2 h3,
      le_store_le_load h4 h5 h6 h7]
    rfl
  | case2 rest h0 =>
    rw [PSOBBEncryption.decrypt_blocks_short s (short_of_no_block h0),
      PSOBBEncryption.encrypt_blocks_short s (short_of_no_block h0)]

/-! ## C2: round trip of the V4 block cipher -/

/-- C2: for a V4 cipher of the default or MOCB1 sub-variant in any well-formed key state and
every buffer of bytes whose length is a multiple of 8, encrypting and then decrypting on the
same cipher object returns the buffer, and so does decrypting and then encrypting; neither
call fails, whatever the advance flags. -/
theorem C2_block_round_trip (c : PSOBBEncryption) (B : List Nat) (a1 a2 : Bool)
    (hsub : c.state.subtype ≠ Subtype.JSD1) (hwf : c.state.WF)
    (hlen : B.length % 8 = 0) (hB : ∀ b ∈ B, b < 256) :
    ((c.encrypt B a1).error = none ∧
      ((c.encrypt B a1).crypt.decrypt (c.encrypt B a1).data a2).error = none ∧
      ((c.encrypt B a1).crypt.decrypt (c.encrypt B a1).data a2).data = B) ∧
    ((c.decrypt B a1).error = none ∧
      ((c.decrypt B a1).crypt.encrypt (c.decrypt B a1).data a2).error = none ∧
      ((c.decrypt B a1).crypt.encrypt (c.decrypt B a1).data a2).data = B) := by
  have e1 : c.encrypt B a1 = ⟨c, PSOBBEncryption.encrypt_blocks c.state B, none⟩ := by
    simp [PSOBBEncryption.encrypt, hsub, and_seven, hlen]
  have d1 : c.decrypt B a1 = ⟨c, PSOBBEncryption.decrypt_blocks c.state B, none⟩ := by
    simp [PSOBBEncryption.decrypt, hsub, and_seven, hlen]
  rw [e1, d1]
  refine ⟨⟨rfl, ?_⟩, ⟨rfl, ?_⟩⟩
  · simp [PSOBBEncryption.decrypt, hsub, and_seven, hlen,
      PSOBBEncryption.encrypt_blocks_length,
      PSOBBEncryption.decrypt_encrypt_blocks c.state hwf.2.2.1 B hB]
  · simp [PSOBBEncryption.encrypt, hsub, and_seven, hlen,
      PSOBBEncryption.decrypt_blocks_length,
      PSOBBEncryption.encrypt_decrypt_blocks c.state hwf.2.2.1 B hB]

/-- C2 at the sample key of the default sub-variant and the block `1, 2, ..., 8`. -/
theorem C2_block_round_trip_witness :
    ((PSOBBEncryption.encrypt ⟨sample_key Subtype.STANDARD⟩ [1, 2, 3, 4, 5, 6, 7, 8]
        true).crypt.decrypt
      (PSOBBEncryption.encrypt ⟨sample_key Subtype.STANDARD⟩ [1, 2, 3, 4, 5, 6, 7, 8]
        true).data true).data = [1, 2, 3, 4, 5, 6, 7, 8] :=
  (C2_block_round_trip ⟨sample_key Subtype.STANDARD⟩ [1, 2, 3, 4, 5, 6, 7, 8] true true
    (by decide) (sample_key_WF _) (by decide) (by decide)).1.2.2

/-! ## Lemmas on the V4 JSD1 cipher -/

theorem testBit_ge_eight {a i : Nat} (ha : a < 256) (h : ¬ i < 8) : a.testBit i = false :=
  Nat.testBit_lt_two_pow (lt_of_lt_of_le (show a < 2 ^ 8 from ha)
    (Nat.pow_le_pow_right (by decide) (Nat.le_of_not_lt h)))

theorem testBit_55_AA (i : Nat) (h : i < 8) :
    Nat.testBit 0x55 i = !Nat.testBit 0xAA i := by
  interval_cases i <;> decide

theorem swap_fst (a b : Nat) (ha : a < 256) :
    (((a &&& 0x55) ||| (b &&& 0xAA)) &&& 0x55) |||
      (((a &&& 0xAA) ||| (b &&& 0x55)) &&& 0xAA) = a := by
  apply Nat.eq_of_testBit_eq
  intro i
  simp only [Nat.testBit_or, Nat.testBit_and]
  by_cases h : i < 8
  · rw [testBit_55_AA i h]
    cases Nat.testBit 0xAA i <;> cases a.testBit i <;> cases b.testBit i <;> rfl
  · rw [testBit_ge_eight ha h, testBit_ge_eight (by decide : 0x55 < 256) h,
      testBit_ge_eight (by decide : 0xAA < 256) h]
    simp

theorem swap_snd (a b : Nat) (hb : b < 256) :
    (((a &&& 0x55) ||| (b &&& 0xAA)) &&& 0xAA) |||
      (((a &&& 0xAA) ||| (b &&& 0x55)) &&& 0x55) = b := by
  apply Nat.eq_of_testBit_eq
  intro i
  simp only [Nat.testBit_or, Nat.testBit_and]
  by_cases h : i < 8
  · rw [testBit_55_AA i h]
    cases Nat.testBit 0xAA i <;> cases a.testBit i <;> cases b.testBit i <;> rfl
  · rw [testBit_ge_eight hb h, testBit_ge_eight (by decide : 0x55 < 256) h,
      testBit_ge_eight (by decide : 0xAA < 256) h]
    simp

theorem PSOBBEncryption.jsd1_swap_cons (a b : Nat) (rest : List Nat) :
    PSOBBEncryption.jsd1_swap (a :: b :: rest) =
      (((a &&& 0x55) ||| (b &&& 0xAA)) :: ((a &&& 0xAA) ||| (b &&& 0x55)) ::
        (PSOBBEncryption.jsd1_swap rest).1, (PSOBBEncryption.jsd1_swap rest).2) := rfl

/-- On a buffer of bytes of even length the exchange loop stays inside the buffer, keeps
the length and undoes itself. -/
theorem PSOBBEncryption.jsd1_swap_even (L : List Nat) (hlen : L.length % 2 = 0)
    (hL : ∀ b ∈ L, b < 256) :
    (PSOBBEncryption.jsd1_swap L).2 = false ∧
      (PSOBBEncryption.jsd1_swap L).1.length = L.length ∧
      PSOBBEncryption.jsd1_swap (PSOBBEncryption.jsd1_swap L).1 = (L, false) := by
  induction L using PSOBBEncryption.jsd1_swap.induct with
  | case1 => exact ⟨rfl, rfl, rfl⟩
  | case2 a => simp at hlen
  | case3 a b rest ih =>
    simp only [List.mem_cons, forall_eq_or_imp] at hL
    obtain ⟨ha, hb, hr⟩ := hL
    have hl : rest.length % 2 = 0 := by
      simp only [List.length_cons] at hlen; omega
    obtain ⟨i1, i2, i3⟩ := ih hl hr
    refine ⟨?_, ?_, ?_⟩
    · rw [PSOBBEncryption.jsd1_swap_cons]; exact i1
    · rw [PSOBBEncryption.jsd1_swap_cons]; simp [i2]
    · rw [PSOBBEncryption.jsd1_swap_cons, PSOBBEncryption.jsd1_swap_cons, i3, swap_fst a b ha,
        swap_snd a b hb]

theorem getD_set_self {l : List Nat} {i : Nat} (h : i < l.length) (v d : Nat) :
    (l.set i v).getD i d = v := by
  induction l generalizing i with
  | nil => simp at h
  | cons a t ih =>
    cases i with
    | zero => rfl
    | succ n => exact ih (by simpa using h)

theorem sub8_lt (a b : Nat) : sub8 a b < 256 := Nat.mod_lt _ (by decide)

theorem KeyFile.WF.offset_lt {s : KeyFile} (h : s.WF) : s.jsd1_stream_offset < 256 :=
  getD_lt_of_bytes h.2.2.1 0

theorem PSOBBEncryption.jsd1_encrypt_loop_cons_advance (s : KeyFile) (v : Nat)
    (rest : List Nat) :
    PSOBBEncryption.jsd1_encrypt_loop true s (v :: rest) =
      ((PSOBBEncryption.jsd1_encrypt_loop true (jsd1_step s v) rest).1,
        (v ^^^ as8 s.private_keys s.jsd1_stream_offset) ::
          (PSOBBEncryption.jsd1_encrypt_loop true (jsd1_step s v) rest).2) := rfl

theorem PSOBBEncryption.jsd1_decrypt_loop_cons_advance (s : KeyFile) (v : Nat)
    (rest : List Nat) :
    PSOBBEncryption.jsd1_decrypt_loop true s (v :: rest) =
      ((PSOBBEncryption.jsd1_decrypt_loop true
          (jsd1_step s (v ^^^ as8 s.private_keys s.jsd1_stream_offset)) rest).1,
        (v ^^^ as8 s.private_keys s.jsd1_stream_offset) ::
          (PSOBBEncryption.jsd1_decrypt_loop true
            (jsd1_step s (v ^^^ as8 s.private_keys s.jsd1_stream_offset)) rest).2) := rfl

theorem PSOBBEncryption.jsd1_encrypt_loop_cons_peek (s : KeyFile) (v : Nat)
    (rest : List Nat) :
    PSOBBEncryption.jsd1_encrypt_loop false s (v :: rest) =
      ((PSOBBEncryption.jsd1_encrypt_loop false (jsd1_peek_step s) rest).1,
        (v ^^^ as8 s.private_keys s.jsd1_stream_offset) ::
          (PSOBBEncryption.jsd1_encrypt_loop false (jsd1_peek_step s) rest).2) := rfl

theorem PSOBBEncryption.jsd1_decrypt_loop_cons_peek (s : KeyFile) (v : Nat)
    (rest : List Nat) :
    PSOBBEncryption.jsd1_decrypt_loop false s (v :: rest) =
      ((PSOBBEncryption.jsd1_decrypt_loop false (jsd1_peek_step s) rest).1,
        (v ^^^ as8 s.private_keys s.jsd1_stream_offset) ::
          (PSOBBEncryption.jsd1_decrypt_loop false (jsd1_peek_step s) rest).2) := rfl

theorem jsd1_step_WF {s : KeyFile} (h : s.WF) (x : Nat) : (jsd1_step s x).WF := by
  obtain ⟨h1, h2, h3, h4⟩ := h
  refine ⟨?_, ?_, ?_, ?_⟩
  · simp only [jsd1_step, List.length_set]; exact h1
  · simp only [jsd1_step, List.length_set]; exact h2
  · exact bytes_set h3 0 (Nat.mod_lt _ (by decide))
  · exact bytes_set h4 _ (sub8_lt _ _)

theorem jsd1_peek_step_WF {s : KeyFile} (h : s.WF) : (jsd1_peek_step s).WF := by
  obtain ⟨h1, h2, h3, h4⟩ := h
  refine ⟨?_, h2, ?_, h4⟩
  · simp only [jsd1_peek_step, List.length_set]; exact h1
  · exact bytes_set h3 0 (Nat.mod_lt _ (by decide))

theorem jsd1_step_offset {s : KeyFile} (h : s.WF) (x : Nat) :
    (jsd1_step s x).jsd1_stream_offset = (s.jsd1_stream_offset + 1) % 256 :=
  getD_set_self (by rw [h.1]; decide) _ _

theorem jsd1_peek_step_offset {s : KeyFile} (h : s.WF) :
    (jsd1_peek_step s).jsd1_stream_offset = (s.jsd1_stream_offset + 1) % 256 :=
  getD_set_self (by rw [h.1]; decide) _ _

theorem jsd1_step_table_self {s : KeyFile} (h : s.WF) (x : Nat) :
    as8 (jsd1_step s x).private_keys s.jsd1_stream_offset =
      sub8 (as8 s.private_keys s.jsd1_stream_offset) x :=
  getD_set_self (by rw [h.2.1]; exact lt_trans h.offset_lt (by decide)) _ _

theorem jsd1_step_table_ne (s : KeyFile) (x : Nat) {i : Nat} (hi : s.jsd1_stream_offset ≠ i) :
    as8 (jsd1_step s x).private_keys i = as8 s.private_keys i :=
  getD_set_of_ne hi _ _

theorem xor_lt_256 {a b : Nat} (ha : a < 256) (hb : b < 256) : a ^^^ b < 256 :=
  @Nat.xor_lt_two_pow a b 8 ha hb

/-- The advance-mode decrypt loop, run from the same cipher state on the output of the
advance-mode encrypt loop, returns the input and ends in the same cipher state. -/
theorem PSOBBEncryption.jsd1_loops_round_trip (B : List Nat) (hB : ∀ b ∈ B, b < 256) :
    ∀ s1 s2 : KeyFile, s1.WF → s2.WF → jsd1_same_state s1 s2 →
      (PSOBBEncryption.jsd1_decrypt_loop true s2
          (PSOBBEncryption.jsd1_encrypt_loop true s1 B).2).2 = B ∧
        jsd1_same_state (PSOBBEncryption.jsd1_encrypt_loop true s1 B).1
          (PSOBBEncryption.jsd1_decrypt_loop true s2
            (PSOBBEncryption.jsd1_encrypt_loop true s1 B).2).1 ∧
        (PSOBBEncryption.jsd1_encrypt_loop true s1 B).1.WF ∧
        (PSOBBEncryption.jsd1_decrypt_loop true s2
          (PSOBBEncryption.jsd1_encrypt_loop true s1 B).2).1.WF ∧
        (PSOBBEncryption.jsd1_encrypt_loop true s1 B).1.subtype = s1.subtype ∧
        (PSOBBEncryption.jsd1_decrypt_loop true s2
          (PSOBBEncryption.jsd1_encrypt_loop true s1 B).2).1.subtype = s2.subtype ∧
        (PSOBBEncryption.jsd1_encrypt_loop true s1 B).2.length = B.length ∧
        (∀ b ∈ (PSOBBEncryption.jsd1_encrypt_loop true s1 B).2, b < 256) := by
  induction B with
  | nil =>
    intro s1 s2 h1 h2 hs
    exact ⟨rfl, hs, h1, h2, rfl, rfl, rfl, by simp [PSOBBEncryption.jsd1_encrypt_loop]⟩
  | cons v rest ih =>
    intro s1 s2 h1 h2 hs
    have hv : v < 256 := hB v (List.mem_cons_self v rest)
    have hr : ∀ b ∈ rest, b < 256 := fun b hb => hB b (List.mem_cons_of_mem v hb)
    have ho := h1.offset_lt
    have hS : as8 s2.private_keys s2.jsd1_stream_offset =
        as8 s1.private_keys s1.jsd1_stream_offset := by
      rw [← hs.1]; exact (hs.2 _ ho).symm
    have hx : (v ^^^ as8 s1.private_keys s1.jsd1_stream_offset) ^^^
        as8 s2.private_keys s2.jsd1_stream_offset = v := by
      rw [hS, xor_cancel_right]
    have hsame : jsd1_same_state (jsd1_step s1 v) (jsd1_step s2 v) := by
      refine ⟨?_, ?_⟩
      · rw [jsd1_step_offset h1, jsd1_step_offset h2, hs.1]
      · intro i hi
        by_cases e : s1.jsd1_stream_offset = i
        · have e2 : s2.jsd1_stream_offset = i := by rw [← hs.1]; exact e
          rw [← e, jsd1_step_table_self h1]
          rw [e, ← e2, jsd1_step_table_self h2, hS, hs.1]
        · have e2 : s2.jsd1_stream_offset ≠ i := by rw [← hs.1]; exact e
          rw [jsd1_step_table_ne s1 v e, jsd1_step_table_ne s2 v e2]
          exact hs.2 i hi
    obtain ⟨i1, i2, i3, i4, i5, i6, i7, i8⟩ :=
      ih hr (jsd1_step s1 v) (jsd1_step s2 v) (jsd1_step_WF h1 v) (jsd1_step_WF h2 v) hsame
    rw [PSOBBEncryption.jsd1_encrypt_loop_cons_advance,
      PSOBBEncryption.jsd1_decrypt_loop_cons_advance, hx]
    refine ⟨?_, i2, i3, i4, i5, i6, ?_, ?_⟩
    · show v :: _ = v :: rest
      rw [i1]
    · show (_ :: _).length = (v :: rest).length
      simp [i7]
    · intro b hb
      rcases List.mem_cons.mp hb with hb | hb
      · rw [hb]; exact xor_lt_256 hv (getD_lt_of_bytes h1.2.2.2 _)
      · exact i8 b hb

theorem PSOBBEncryption.encrypt_jsd1_advance (c : PSOBBEncryption) (B : List Nat)
    (h : c.state.subtype = Subtype.JSD1)
    (hsw : (PSOBBEncryption.jsd1_swap
      (PSOBBEncryption.jsd1_encrypt_loop true c.state B).2).2 = false) :
    c.encrypt B true =
      ⟨⟨(PSOBBEncryption.jsd1_encrypt_loop true c.state B).1⟩,
        (PSOBBEncryption.jsd1_swap (PSOBBEncryption.jsd1_encrypt_loop true c.state B).2).1,
        none⟩ := by
  simp [PSOBBEncryption.encrypt, h, hsw, PSOBBEncryption.jsd1_restore]

theorem PSOBBEncryption.decrypt_jsd1_advance (c : PSOBBEncryption) (B : List Nat)
    (h : c.state.subtype = Subtype.JSD1) (hsw : (PSOBBEncryption.jsd1_swap B).2 = false) :
    c.decrypt B true =
      ⟨⟨(PSOBBEncryption.jsd1_decrypt_loop true c.state (PSOBBEncryption.jsd1_swap B).1).1⟩,
        (PSOBBEncryption.jsd1_decrypt_loop true c.state (PSOBBEncryption.jsd1_swap B).1).2,
        none⟩ := by
  simp [PSOBBEncryption.decrypt, h, hsw, PSOBBEncryption.jsd1_restore]

/-! ## C3: round trip of the V4 JSD1 cipher -/

/-- C3: for two well-formed V4 JSD1 ciphers in the same state (same stream offset, same
256-entry table) and every buffer of bytes of even length, of any size: one cipher encrypts
the buffer in advance mode, the other decrypts the result in advance mode back to the
buffer, neither call fails, and afterwards the two ciphers are again well-formed JSD1
ciphers in the same state, so the round trip holds again for the next message. -/
theorem C3_jsd1_round_trip (c1 c2 : PSOBBEncryption) (B : List Nat)
    (h1 : c1.state.subtype = Subtype.JSD1) (h2 : c2.state.subtype = Subtype.JSD1)
    (w1 : c1.state.WF) (w2 : c2.state.WF) (hs : jsd1_same_state c1.state c2.state)
    (hlen : B.length % 2 = 0) (hB : ∀ b ∈ B, b < 256) :
    (c1.encrypt B true).error = none ∧
      (c2.decrypt (c1.encrypt B true).data true).error = none ∧
      (c2.decrypt (c1.encrypt B true).data true).data = B ∧
      jsd1_same_state (c1.encrypt B true).crypt.state
        (c2.decrypt (c1.encrypt B true).data true).crypt.state ∧
      (c1.encrypt B true).crypt.state.WF ∧
      (c2.decrypt (c1.encrypt B true).data true).crypt.state.WF ∧
      (c1.encrypt B true).crypt.state.subtype = Subtype.JSD1 ∧
      (c2.decrypt (c1.encrypt B true).data true).crypt.state.subtype = Subtype.JSD1 := by
  obtain ⟨r1, r2, r3, r4, r5, r6, r7, r8⟩ :=
    PSOBBEncryption.jsd1_loops_round_trip B hB c1.state c2.state w1 w2 hs
  obtain ⟨s1, s2, s3⟩ := PSOBBEncryption.jsd1_swap_even
    (PSOBBEncryption.jsd1_encrypt_loop true c1.state B).2 (by rw [r7]; exact hlen) r8
  rw [PSOBBEncryption.encrypt_jsd1_advance c1 B h1 s1]
  have hsw : (PSOBBEncryption.jsd1_swap (PSOBBEncryption.jsd1_swap
      (PSOBBEncryption.jsd1_encrypt_loop true c1.state B).2).1).2 = false := by rw [s3]
  rw [PSOBBEncryption.decrypt_jsd1_advance c2 _ h2 hsw, s3]
  exact ⟨rfl, rfl, r1, r2, r3, r4, r5.trans h1, r6.trans h2⟩

/-- C3 at the sample JSD1 key (offset `0x5A`) and a six-byte message. -/
theorem C3_jsd1_round_trip_witness :
    (PSOBBEncryption.decrypt ⟨sample_key Subtype.JSD1⟩
      (PSOBBEncryption.encrypt ⟨sample_key Subtype.JSD1⟩ [10, 20, 30, 40, 50, 60] true).data
      true).data = [10, 20, 30, 40, 50, 60] :=
  (C3_jsd1_round_trip ⟨sample_key Subtype.JSD1⟩ ⟨sample_key Subtype.JSD1⟩
    [10, 20, 30, 40, 50, 60] rfl rfl (sample_key_WF _) (sample_key_WF _)
    ⟨rfl, fun _ _ => rfl⟩ (by decide) (by decide)).2.2.1

theorem set_zero_getD (l : List Nat) : l.set 0 (l.getD 0 0) = l := by
  cases l <;> rfl

theorem set_zero_set_zero (l : List Nat) (a b : Nat) : (l.set 0 a).set 0 b = l.set 0 b := by
  cases l <;> rfl

theorem eq_of_length_four {B : List Nat} (h : B.length = 4) :
    ∃ b0 b1 b2 b3, B = [b0, b1, b2, b3] := by
  match B, h with
  | [b0, b1, b2, b3], _ => exact ⟨b0, b1, b2, b3, rfl⟩

theorem PSOBBEncryption.jsd1_swap_flag (L : List Nat) (hlen : L.length % 2 = 0) :
    (PSOBBEncryption.jsd1_swap L).2 = false ∧
      (PSOBBEncryption.jsd1_swap L).1.length = L.length := by
  induction L using PSOBBEncryption.jsd1_swap.induct with
  | case1 => exact ⟨rfl, rfl⟩
  | case2 a => simp at hlen
  | case3 a b rest ih =>
    have hl : rest.length % 2 = 0 := by
      simp only [List.length_cons] at hlen; omega
    rw [PSOBBEncryption.jsd1_swap_cons]
    exact ⟨(ih hl).1, by simp [(ih hl).2]⟩

theorem PSOBBEncryption.jsd1_decrypt_loop_peek (B : List Nat) :
    ∀ s : KeyFile, PSOBBEncryption.jsd1_decrypt_loop false s B =
      PSOBBEncryption.jsd1_encrypt_loop false s B := by
  induction B with
  | nil => intro s; rfl
  | cons v rest ih =>
    intro s
    rw [PSOBBEncryption.jsd1_decrypt_loop_cons_peek, PSOBBEncryption.jsd1_encrypt_loop_cons_peek,
      ih]

theorem PSOBBEncryption.jsd1_encrypt_loop_length (advance : Bool) (B : List Nat) :
    ∀ s : KeyFile, (PSOBBEncryption.jsd1_encrypt_loop advance s B).2.length = B.length := by
  induction B with
  | nil => intro s; rfl
  | cons v rest ih =>
    intro s
    simp only [PSOBBEncryption.jsd1_encrypt_loop, List.length_cons, ih]

/-- State after the peek-mode loop: only the stream offset has moved. -/
theorem PSOBBEncryption.jsd1_peek_loop_state (B : List Nat) :
    ∀ s : KeyFile, s.WF →
      (PSOBBEncryption.jsd1_encrypt_loop false s B).1 =
        KeyFile.mk (s.initial_keys.set 0 ((s.jsd1_stream_offset + B.length) % 256))
          s.private_keys s.subtype := by
  induction B with
  | nil =>
    intro s h
    have ho := h.offset_lt
    show s = _
    rw [List.length_nil, Nat.add_zero, Nat.mod_eq_of_lt ho]
    show s = KeyFile.mk (s.initial_keys.set 0 (s.initial_keys.getD 0 0)) s.private_keys
      s.subtype
    rw [set_zero_getD]
  | cons v rest ih =>
    intro s h
    rw [PSOBBEncryption.jsd1_encrypt_loop_cons_peek]
    show (PSOBBEncryption.jsd1_encrypt_loop false (jsd1_peek_step s) rest).1 = _
    rw [ih _ (jsd1_peek_step_WF h), jsd1_peek_step_offset h]
    simp only [jsd1_peek_step, set_zero_set_zero, List.length_cons]
    have e : ((s.jsd1_stream_offset + 1) % 256 + rest.length) % 256 =
        (s.jsd1_stream_offset + (rest.length + 1)) % 256 := by omega
    rw [e]

/-- In peek mode the loop followed by `jsd1_stream_offset -= size` restores the state. -/
theorem PSOBBEncryption.jsd1_peek_restore (B : List Nat) (s : KeyFile) (h : s.WF) :
    PSOBBEncryption.jsd1_restore false (PSOBBEncryption.jsd1_encrypt_loop false s B).1
      B.length = s := by
  rw [PSOBBEncryption.jsd1_peek_loop_state B s h]
  have ho := h.offset_lt
  have hl : 0 < s.initial_keys.length := by rw [h.1]; decide
  simp only [PSOBBEncryption.jsd1_restore, KeyFile.set_jsd1_stream_offset,
    KeyFile.jsd1_stream_offset, as8, Bool.not_false, if_true, set_zero_set_zero]
  rw [getD_set_self hl]
  have e : sub8 ((s.initial_keys.getD 0 0 + B.length) % 256) B.length =
      s.initial_keys.getD 0 0 := by
    have ho2 : s.initial_keys.getD 0 0 < 256 := ho
    unfold sub8; omega
  rw [e, set_zero_getD]

/-- Advance mode and peek mode produce the same bytes from the encrypt loop as long as
the loop does not come back to a table entry it has changed. -/
theorem PSOBBEncryption.jsd1_encrypt_loop_output (B : List Nat) :
    ∀ (n : Nat) (s p : KeyFile), s.WF → p.WF →
      s.jsd1_stream_offset = p.jsd1_stream_offset → B.length ≤ n → n ≤ 256 →
      (∀ j, j < n → as8 s.private_keys ((s.jsd1_stream_offset + j) % 256) =
        as8 p.private_keys ((s.jsd1_stream_offset + j) % 256)) →
      (PSOBBEncryption.jsd1_encrypt_loop true s B).2 =
        (PSOBBEncryption.jsd1_encrypt_loop false p B).2 := by
  induction B with
  | nil => intro n s p _ _ _ _ _ _; rfl
  | cons v rest ih =>
    intro n s p hs hp ho hn hn2 hT
    have hos := hs.offset_lt
    simp only [List.length_cons] at hn
    have h0 : as8 s.private_keys s.jsd1_stream_offset = as8 p.private_keys p.jsd1_stream_offset := by
      have := hT 0 (by omega)
      rw [Nat.add_zero, Nat.mod_eq_of_lt hos] at this
      rw [this, ho]
    rw [PSOBBEncryption.jsd1_encrypt_loop_cons_advance,
      PSOBBEncryption.jsd1_encrypt_loop_cons_peek, h0]
    have hrec := ih (n - 1) (jsd1_step s v) (jsd1_peek_step p) (jsd1_step_WF hs v)
      (jsd1_peek_step_WF hp) (by rw [jsd1_step_offset hs, jsd1_peek_step_offset hp, ho])
      (by omega) (by omega) (by
        intro j hj
        rw [jsd1_step_offset hs]
        have e : ((s.jsd1_stream_offset + 1) % 256 + j) % 256 =
            (s.jsd1_stream_offset + (j + 1)) % 256 := by omega
        rw [e, jsd1_step_table_ne s v (by omega)]
        exact hT (j + 1) (by omega))
    show _ :: _ = _ :: _
    rw [hrec]

/-- The same for the decrypt loop. -/
theorem PSOBBEncryption.jsd1_decrypt_loop_output (B : List Nat) :
    ∀ (n : Nat) (s p : KeyFile), s.WF → p.WF →
      s.jsd1_stream_offset = p.jsd1_stream_offset → B.length ≤ n → n ≤ 256 →
      (∀ j, j < n → as8 s.private_keys ((s.jsd1_stream_offset + j) % 256) =
        as8 p.private_keys ((s.jsd1_stream_offset + j) % 256)) →
      (PSOBBEncryption.jsd1_decrypt_loop true s B).2 =
        (PSOBBEncryption.jsd1_decrypt_loop false p B).2 := by
  induction B with
  | nil => intro n s p _ _ _ _ _ _; rfl
  | cons v rest ih =>
    intro n s p hs hp ho hn hn2 hT
    have hos := hs.offset_lt
    simp only [List.length_cons] at hn
    have h0 : as8 s.private_keys s.jsd1_stream_offset = as8 p.private_keys p.jsd1_stream_offset := by
      have := hT 0 (by omega)
      rw [Nat.add_zero, Nat.mod_eq_of_lt hos] at this
      rw [this, ho]
    rw [PSOBBEncryption.jsd1_decrypt_loop_cons_advance,
      PSOBBEncryption.jsd1_decrypt_loop_cons_peek, h0]
    have hrec := ih (n - 1)
      (jsd1_step s (v ^^^ as8 p.private_keys p.jsd1_stream_offset)) (jsd1_peek_step p)
      (jsd1_step_WF hs _)
      (jsd1_peek_step_WF hp) (by rw [jsd1_step_offset hs, jsd1_peek_step_offset hp, ho])
      (by omega) (by omega) (by
        intro j hj
        rw [jsd1_step_offset hs]
        have e : ((s.jsd1_stream_offset + 1) % 256 + j) % 256 =
            (s.jsd1_stream_offset + (j + 1)) % 256 := by omega
        rw [e, jsd1_step_table_ne s _ (by omega)]
        exact hT (j + 1) (by omega))
    show _ :: _ = _ :: _
    rw [hrec]

theorem PSOPCEncryption.pc_next_output (c : PSOPCEncryption) :
    (c.next false).2 = (c.next true).2 := by
  unfold PSOPCEncryption.next
  by_cases h : c.offset = PC_STREAM_LENGTH <;> simp [h]

theorem PSOGCEncryption.gc_next_output (c : PSOGCEncryption) :
    (c.next false).2 = (c.next true).2 := by
  unfold PSOGCEncryption.next
  by_cases h : c.offset = GC_STREAM_LENGTH <;> simp [h]

theorem PSOPCEncryption.pc_encrypt_four (c : PSOPCEncryption) (advance : Bool)
    (b0 b1 b2 b3 : Nat) :
    c.encrypt [b0, b1, b2, b3] advance =
      ⟨(c.next advance).1, le_store (le_load b0 b1 b2 b3 ^^^ (c.next advance).2), none⟩ := by
  have h : (4 : Nat) &&& 3 = 0 := by decide
  cases advance <;> simp [PSOPCEncryption.encrypt, PSOPCEncryption.encrypt_loop, h]

theorem PSOGCEncryption.gc_encrypt_four (c : PSOGCEncryption) (advance : Bool)
    (b0 b1 b2 b3 : Nat) :
    c.encrypt [b0, b1, b2, b3] advance =
      ⟨(c.next advance).1, le_store (le_load b0 b1 b2 b3 ^^^ (c.next advance).2), none⟩ := by
  have h : (4 : Nat) &&& 3 = 0 := by decide
  cases advance <;> simp [PSOGCEncryption.encrypt, PSOGCEncryption.encrypt_loop, h]

theorem PSOPCEncryption.pc_peek_output (c : PSOPCEncryption) (W : List Nat) (hW : W.length = 4) :
    (c.encrypt W false).error = none ∧ (c.encrypt W true).error = none ∧
      (c.encrypt W false).data = (c.encrypt W true).data := by
  obtain ⟨b0, b1, b2, b3, rfl⟩ := eq_of_length_four hW
  rw [PSOPCEncryption.pc_encrypt_four, PSOPCEncryption.pc_encrypt_four, PSOPCEncryption.pc_next_output]
  exact ⟨rfl, rfl, rfl⟩

theorem PSOGCEncryption.gc_peek_output (c : PSOGCEncryption) (W : List Nat) (hW : W.length = 4) :
    (c.encrypt W false).error = none ∧ (c.encrypt W true).error = none ∧
      (c.encrypt W false).data = (c.encrypt W true).data := by
  obtain ⟨b0, b1, b2, b3, rfl⟩ := eq_of_length_four hW
  rw [PSOGCEncryption.gc_encrypt_four, PSOGCEncryption.gc_encrypt_four, PSOGCEncryption.gc_next_output]
  exact ⟨rfl, rfl, rfl⟩

theorem PSOBBEncryption.encrypt_jsd1_peek (c : PSOBBEncryption) (B : List Nat)
    (h : c.state.subtype = Subtype.JSD1) (hwf : c.state.WF) (hle : B.length ≤ 0x100) :
    c.encrypt B false =
      ⟨c, (PSOBBEncryption.jsd1_swap (PSOBBEncryption.jsd1_encrypt_loop false c.state B).2).1,
        if (PSOBBEncryption.jsd1_swap (PSOBBEncryption.jsd1_encrypt_loop false c.state B).2).2
        then some (.undefined "bytes[z + 1] is outside the buffer") else none⟩ := by
  have hn : ¬ (256 < B.length) := by omega
  simp only [PSOBBEncryption.encrypt, h, ne_eq, not_true_eq_false, if_false, Bool.not_false,
    Bool.true_and, gt_iff_lt, decide_eq_true_eq, hn, PSOBBEncryption.jsd1_peek_restore B _ hwf]
  split <;> rfl

theorem PSOBBEncryption.decrypt_jsd1_peek (c : PSOBBEncryption) (B : List Nat)
    (h : c.state.subtype = Subtype.JSD1) (hwf : c.state.WF) (hle : B.length ≤ 0x100)
    (hsw : (PSOBBEncryption.jsd1_swap B).2 = false)
    (hl : (PSOBBEncryption.jsd1_swap B).1.length = B.length) :
    c.decrypt B false =
      ⟨c, (PSOBBEncryption.jsd1_encrypt_loop false c.state (PSOBBEncryption.jsd1_swap B).1).2,
        none⟩ := by
  have hn : ¬ (256 < B.length) := by omega
  have hr := PSOBBEncryption.jsd1_peek_restore (PSOBBEncryption.jsd1_swap B).1 _ hwf
  rw [hl] at hr
  simp only [PSOBBEncryption.decrypt, h, ne_eq, not_true_eq_false, if_false, Bool.not_false,
    Bool.true_and, gt_iff_lt, decide_eq_true_eq, hn, hsw, Bool.false_eq_true,
    PSOBBEncryption.jsd1_decrypt_loop_peek, hr]

/-! ## C4: peek mode and advance mode return the same bytes -/

/-- C4: from the same starting state, a peek-mode call returns exactly the bytes the
advance-mode call returns, and neither fails: for the V1 and the V2/V3 cipher in any state
and any 4-byte buffer, encrypt and decrypt; and for a well-formed V4 JSD1 cipher and any
buffer of even length of at most 256 bytes, encrypt and decrypt. -/
theorem C4_peek_output (pc : PSOPCEncryption) (gc : PSOGCEncryption) (bb : PSOBBEncryption)
    (W B : List Nat) (hW : W.length = 4) (hsub : bb.state.subtype = Subtype.JSD1)
    (hwf : bb.state.WF) (hlen : B.length % 2 = 0) (hle : B.length ≤ 0x100) :
    ((pc.encrypt W false).error = none ∧ (pc.encrypt W true).error = none ∧
      (pc.encrypt W false).data = (pc.encrypt W true).data) ∧
    ((pc.decrypt W false).error = none ∧ (pc.decrypt W true).error = none ∧
      (pc.decrypt W false).data = (pc.decrypt W true).data) ∧
    ((gc.encrypt W false).error = none ∧ (gc.encrypt W true).error = none ∧
      (gc.encrypt W false).data = (gc.encrypt W true).data) ∧
    ((gc.decrypt W false).error = none ∧ (gc.decrypt W true).error = none ∧
      (gc.decrypt W false).data = (gc.decrypt W true).data) ∧
    ((bb.encrypt B false).error = none ∧ (bb.encrypt B true).error = none ∧
      (bb.encrypt B false).data = (bb.encrypt B true).data) ∧
    ((bb.decrypt B false).error = none ∧ (bb.decrypt B true).error = none ∧
      (bb.decrypt B false).data = (bb.decrypt B true).data) := by
  refine ⟨pc.pc_peek_output W hW, pc.pc_peek_output W hW, gc.gc_peek_output W hW, gc.gc_peek_output W hW,
    ?_, ?_⟩
  · have hout := PSOBBEncryption.jsd1_encrypt_loop_output B 256 bb.state bb.state hwf hwf rfl
      hle (le_refl _) (fun _ _ => rfl)
    have hf := PSOBBEncryption.jsd1_swap_flag
      (PSOBBEncryption.jsd1_encrypt_loop true bb.state B).2
      (by rw [PSOBBEncryption.jsd1_encrypt_loop_length]; exact hlen)
    rw [PSOBBEncryption.encrypt_jsd1_advance bb B hsub hf.1,
      PSOBBEncryption.encrypt_jsd1_peek bb B hsub hwf hle, ← hout, hf.1]
    exact ⟨rfl, rfl, rfl⟩
  · have hf := PSOBBEncryption.jsd1_swap_flag B hlen
    have hout := PSOBBEncryption.jsd1_decrypt_loop_output (PSOBBEncryption.jsd1_swap B).1 256
      bb.state bb.state hwf hwf rfl (by rw [hf.2]; exact hle) (le_refl _) (fun _ _ => rfl)
    rw [PSOBBEncryption.decrypt_jsd1_advance bb B hsub hf.1,
      PSOBBEncryption.decrypt_jsd1_peek bb B hsub hwf hle hf.1 hf.2, hout,
      PSOBBEncryption.jsd1_decrypt_loop_peek]
    exact ⟨rfl, rfl, rfl⟩

/-- C4 at fresh V1 and V2/V3 ciphers of seed 1 and the sample JSD1 key: the JSD1 peek
encryption of `5, 6` equals the advance encryption. -/
theorem C4_peek_output_witness :
    (PSOBBEncryption.encrypt ⟨sample_key Subtype.JSD1⟩ [5, 6] false).data =
      (PSOBBEncryption.encrypt ⟨sample_key Subtype.JSD1⟩ [5, 6] true).data :=
  (C4_peek_output (PSOPCEncryption.new 1) (PSOGCEncryption.new 1) ⟨sample_key Subtype.JSD1⟩
    [1, 2, 3, 4] [5, 6] rfl rfl (sample_key_WF _) (by decide) (by decide)).2.2.2.2.1.2.2

theorem PSOBBEncryption.jsd1_swap_length (L : List Nat) :
    (PSOBBEncryption.jsd1_swap L).1.length = L.length := by
  induction L using PSOBBEncryption.jsd1_swap.induct with
  | case1 => rfl
  | case2 a => rfl
  | case3 a b rest ih =>
    rw [PSOBBEncryption.jsd1_swap_cons]
    simp [ih]

/-- A peek on a V4 cipher leaves the state as it was, whether or not the call fails. -/
theorem PSOBBEncryption.peek_state (c : PSOBBEncryption) (B : List Nat) (hwf : c.state.WF) :
    (c.encrypt B false).crypt = c ∧ (c.decrypt B false).crypt = c := by
  by_cases h : c.state.subtype = Subtype.JSD1
  · constructor
    · by_cases hl : B.length > 0x100
      · simp [PSOBBEncryption.encrypt, h, hl]
      · have hr := PSOBBEncryption.jsd1_peek_restore B _ hwf
        simp only [PSOBBEncryption.encrypt, h, ne_eq, not_true_eq_false, if_false,
          Bool.not_false, Bool.true_and, decide_eq_true_eq, hl, hr]
        split <;> rfl
    · by_cases hl : B.length > 0x100
      · simp [PSOBBEncryption.decrypt, h, hl]
      · have hr := PSOBBEncryption.jsd1_peek_restore (PSOBBEncryption.jsd1_swap B).1 _ hwf
        rw [PSOBBEncryption.jsd1_swap_length] at hr
        simp only [PSOBBEncryption.decrypt, h, ne_eq, not_true_eq_false, if_false,
          Bool.not_false, Bool.true_and, decide_eq_true_eq, hl,
          PSOBBEncryption.jsd1_decrypt_loop_peek, hr]
        split <;> rfl
  · constructor
    · simp only [PSOBBEncryption.encrypt, h, ne_eq, not_false_eq_true, if_true]
      split <;> rfl
    · simp only [PSOBBEncryption.decrypt, h, ne_eq, not_false_eq_true, if_true]
      split <;> rfl

/-! ## C6: size errors of the V1 and V2/V3 ciphers -/

/-- C6: encrypt and decrypt of the V1 and of the V2/V3 cipher fail when the buffer size is
not a multiple of 4 (`invalid_argument`), and fail in peek mode when the size is more than
4 bytes (`logic_error` when it is a multiple of 4); the failed call leaves the cipher state
and the buffer as they were. -/
theorem C6_stream_size_errors (pc : PSOPCEncryption) (gc : PSOGCEncryption) (B : List Nat)
    (advance : Bool) (h : B.length % 4 ≠ 0 ∨ (advance = false ∧ 4 < B.length)) :
    ((pc.encrypt B advance).error = some (stream_size_error B.length) ∧
      (pc.encrypt B advance).crypt = pc ∧ (pc.encrypt B advance).data = B) ∧
    ((pc.decrypt B advance).error = some (stream_size_error B.length) ∧
      (pc.decrypt B advance).crypt = pc ∧ (pc.decrypt B advance).data = B) ∧
    ((gc.encrypt B advance).error = some (stream_size_error B.length) ∧
      (gc.encrypt B advance).crypt = gc ∧ (gc.encrypt B advance).data = B) ∧
    ((gc.decrypt B advance).error = some (stream_size_error B.length) ∧
      (gc.decrypt B advance).crypt = gc ∧ (gc.decrypt B advance).data = B) := by
  have h1 : (pc.encrypt B advance).error = some (stream_size_error B.length) ∧
      (pc.encrypt B advance).crypt = pc ∧ (pc.encrypt B advance).data = B := by
    unfold PSOPCEncryption.encrypt stream_size_error
    rw [and_three]
    by_cases h4 : B.length % 4 = 0
    · rcases h with h | ⟨ha, hl⟩
      · exact (h h4).elim
      · have : B.length ≠ 4 := by omega
        simp [h4, ha, this]
    · simp [h4]
  have h2 : (gc.encrypt B advance).error = some (stream_size_error B.length) ∧
      (gc.encrypt B advance).crypt = gc ∧ (gc.encrypt B advance).data = B := by
    unfold PSOGCEncryption.encrypt stream_size_error
    rw [and_three]
    by_cases h4 : B.length % 4 = 0
    · rcases h with h | ⟨ha, hl⟩
      · exact (h h4).elim
      · have : B.length ≠ 4 := by omega
        simp [h4, ha, this]
    · simp [h4]
  exact ⟨h1, h1, h2, h2⟩

/-- The default/MOCB1 sub-variant ignores the advance flag: a call fails exactly when the
size is not a multiple of 8, and never changes the state. -/
theorem PSOBBEncryption.block_error (c : PSOBBEncryption) (B : List Nat) (advance : Bool)
    (h : c.state.subtype ≠ Subtype.JSD1) :
    ((B.length % 8 = 0 → (c.encrypt B advance).error = none) ∧
      (B.length % 8 ≠ 0 → (c.encrypt B advance).error ≠ none ∧ (c.encrypt B advance).data = B) ∧
      (c.encrypt B advance).crypt = c) ∧
    ((B.length % 8 = 0 → (c.decrypt B advance).error = none) ∧
      (B.length % 8 ≠ 0 → (c.decrypt B advance).error ≠ none ∧ (c.decrypt B advance).data = B) ∧
      (c.decrypt B advance).crypt = c) := by
  by_cases h8 : B.length % 8 = 0
  · simp [PSOBBEncryption.encrypt, PSOBBEncryption.decrypt, h, and_seven, h8]
  · simp [PSOBBEncryption.encrypt, PSOBBEncryption.decrypt, h, and_seven, h8]

/-- C6 at fresh ciphers of seed 3: a peek of 8 bytes fails and changes nothing. -/
theorem C6_stream_size_errors_witness :
    ((PSOPCEncryption.new 3).encrypt [1, 2, 3, 4, 5, 6, 7, 8] false).error =
        some (.logic_error "cannot peek-encrypt/decrypt with size > 4") ∧
      ((PSOPCEncryption.new 3).encrypt [1, 2, 3, 4, 5, 6, 7, 8] false).crypt =
        PSOPCEncryption.new 3 ∧
      ((PSOPCEncryption.new 3).encrypt [1, 2, 3, 4, 5, 6, 7, 8] false).data =
        [1, 2, 3, 4, 5, 6, 7, 8] :=
  (C6_stream_size_errors (PSOPCEncryption.new 3) (PSOGCEncryption.new 3)
    [1, 2, 3, 4, 5, 6, 7, 8] false (Or.inr ⟨rfl, by decide⟩)).1

/-! ## C7: the peek limit of the V4 cipher -/

/-- C7 (counterexample): on a V4 cipher of the default sub-variant a peek-mode encrypt and
a peek-mode decrypt of 264 bytes succeed. -/
theorem C7_block_peek_has_no_limit :
    (PSOBBEncryption.encrypt ⟨sample_key Subtype.STANDARD⟩ (List.replicate 264 0) false).error =
      none ∧
    (PSOBBEncryption.decrypt ⟨sample_key Subtype.STANDARD⟩ (List.replicate 264 0) false).error =
      none := by
  have hl : (List.replicate 264 0).length % 8 = 0 := by rw [List.length_replicate]
  exact ⟨(PSOBBEncryption.block_error ⟨sample_key Subtype.STANDARD⟩ _ false (by decide)).1.1 hl,
    (PSOBBEncryption.block_error ⟨sample_key Subtype.STANDARD⟩ _ false (by decide)).2.1 hl⟩

/-- C7 (amended): for a buffer of more than 256 bytes, a peek-mode encrypt or decrypt on a
V4 JSD1 cipher fails with `logic_error` and leaves buffer and state as they were; on a V4
cipher of the default or MOCB1 sub-variant there is no peek limit: the peek fails exactly
when the size is not a multiple of 8, in which case the buffer is left as it was, and the
state is never changed. -/
theorem C7_v4_peek_limit (j d : PSOBBEncryption) (B : List Nat)
    (hj : j.state.subtype = Subtype.JSD1) (hd : d.state.subtype ≠ Subtype.JSD1)
    (hl : 0x100 < B.length) :
    ((j.encrypt B false).error =
        some (.logic_error "JSD1 can only peek-encrypt up to 0x100 bytes") ∧
      (j.encrypt B false).crypt = j ∧ (j.encrypt B false).data = B) ∧
    ((j.decrypt B false).error =
        some (.logic_error "JSD1 can only peek-decrypt up to 0x100 bytes") ∧
      (j.decrypt B false).crypt = j ∧ (j.decrypt B false).data = B) ∧
    (((d.encrypt B false).error ≠ none ↔ B.length % 8 ≠ 0) ∧
      (B.length % 8 ≠ 0 → (d.encrypt B false).data = B) ∧ (d.encrypt B false).crypt = d) ∧
    (((d.decrypt B false).error ≠ none ↔ B.length % 8 ≠ 0) ∧
      (B.length % 8 ≠ 0 → (d.decrypt B false).data = B) ∧ (d.decrypt B false).crypt = d) := by
  obtain ⟨⟨e1, e2, e3⟩, ⟨d1, d2, d3⟩⟩ := PSOBBEncryption.block_error d B false hd
  refine ⟨?_, ?_, ⟨⟨fun h h8 => h (e1 h8), fun h => (e2 h).1⟩, fun h => (e2 h).2, e3⟩,
    ⟨⟨fun h h8 => h (d1 h8), fun h => (d2 h).1⟩, fun h => (d2 h).2, d3⟩⟩
  · simp [PSOBBEncryption.encrypt, hj, hl]
  · simp [PSOBBEncryption.decrypt, hj, hl]

/-- C7 (amended) at the sample keys and 260 zero bytes: the JSD1 peek fails, the buffer and
the cipher are as before. -/
theorem C7_v4_peek_limit_witness :
    (PSOBBEncryption.encrypt ⟨sample_key Subtype.JSD1⟩ (List.replicate 260 0) false).error =
        some (.logic_error "JSD1 can only peek-encrypt up to 0x100 bytes") ∧
      (PSOBBEncryption.encrypt ⟨sample_key Subtype.JSD1⟩ (List.replicate 260 0) false).crypt =
        ⟨sample_key Subtype.JSD1⟩ ∧
      (PSOBBEncryption.encrypt ⟨sample_key Subtype.JSD1⟩ (List.replicate 260 0) false).data =
        List.replicate 260 0 :=
  (C7_v4_peek_limit ⟨sample_key Subtype.JSD1⟩ ⟨sample_key Subtype.MOCB1⟩
    (List.replicate 260 0) rfl (by decide)
    (by rw [List.length_replicate]; decide)).1

/-! ## Lemmas on the V4 constructor -/

theorem KeyFile.WF_iff (s : KeyFile) :
    s.WF ↔ IsBytes 0x48 s.initial_keys ∧ IsBytes 0x1000 s.private_keys :=
  ⟨fun h => ⟨⟨h.1, h.2.2.1⟩, ⟨h.2.1, h.2.2.2⟩⟩, fun h => ⟨h.1.1, h.2.1, h.1.2, h.2.2⟩⟩

theorem IsBytes.set {n : Nat} {l : List Nat} (h : IsBytes n l) (i : Nat) {v : Nat}
    (hv : v < 256) : IsBytes n (l.set i v) :=
  ⟨by rw [List.length_set]; exact h.1, bytes_set h.2 i hv⟩

theorem IsBytes.set32 {n : Nat} {l : List Nat} (h : IsBytes n l) (i w : Nat) :
    IsBytes n (set32 l i w) :=
  (((h.set _ (Nat.mod_lt _ (by decide))).set _ (Nat.mod_lt _ (by decide))).set _
    (Nat.mod_lt _ (by decide))).set _ (Nat.mod_lt _ (by decide))

theorem mocb1_loop_bytes {m : Nat} (n : Nat) :
    ∀ (x : Nat) (ik : List Nat), IsBytes m ik → IsBytes m (mocb1_loop n x ik) := by
  induction n with
  | zero => intro x ik h; exact h
  | succ n ih => intro x ik h; exact ih _ _ (h.set32 _ _)

theorem seed_fold_bytes {m : Nat} (seed : List Nat) (fuel : Nat) :
    ∀ (ecx ebx : Nat) (ik : List Nat), IsBytes m ik → IsBytes m (seed_fold seed fuel ecx ebx ik) := by
  induction fuel with
  | zero => intro ecx ebx ik h; exact h
  | succ n ih =>
    intro ecx ebx ik h
    unfold seed_fold
    split
    · exact ih _ _ _ (h.set32 _ _)
    · exact h

theorem schedule_initial_bytes {m : Nat} (pk : List Nat) (fuel : Nat) :
    ∀ (edi esi ecx : Nat) (ik : List Nat), IsBytes m ik →
      IsBytes m (schedule_initial pk fuel edi esi ecx ik).2.2 := by
  induction fuel with
  | zero => intro edi esi ecx ik h; exact h
  | succ n ih =>
    intro edi esi ecx ik h
    unfold schedule_initial
    split
    · exact ih _ _ _ _ ((h.set32 _ _).set32 _ _)
    · exact h

theorem schedule_private_inner_bytes {m : Nat} (ik : List Nat) (ou fuel : Nat) :
    ∀ (edi esi ecx : Nat) (pk : List Nat), IsBytes m pk →
      IsBytes m (schedule_private_inner ik ou fuel edi esi ecx pk).2.2 := by
  induction fuel with
  | zero => intro edi esi ecx pk h; exact h
  | succ n ih =>
    intro edi esi ecx pk h
    unfold schedule_private_inner
    split
    · exact ih _ _ _ _ ((h.set32 _ _).set32 _ _)
    · exact h

theorem schedule_private_bytes {m : Nat} (ik : List Nat) (fuel : Nat) :
    ∀ (ou esi ecx : Nat) (pk : List Nat), IsBytes m pk →
      IsBytes m (schedule_private ik fuel ou esi ecx pk) := by
  induction fuel with
  | zero => intro ou esi ecx pk h; exact h
  | succ n ih =>
    intro ou esi ecx pk h
    unfold schedule_private
    split
    · exact ih _ _ _ _ (schedule_private_inner_bytes ik ou _ _ _ _ pk h)
    · exact h

theorem jsd1_table_bytes {m : Nat} (seed : List Nat) (n : Nat) :
    ∀ (z o : Nat) (pk : List Nat), IsBytes m pk → IsBytes m (jsd1_table seed n z o pk) := by
  induction n with
  | zero => intro z o pk h; exact h
  | succ n ih => intro z o pk h; exact ih _ _ _ (h.set _ (Nat.mod_lt _ (by decide)))

/-- A cipher constructed from a well-formed key file is well formed and of the key's
sub-variant. -/
theorem PSOBBEncryption.new_WF {key : KeyFile} (hwf : key.WF) {mem : List Nat} {n : Nat}
    {c : PSOBBEncryption} (h : PSOBBEncryption.new key mem n = .ok c) :
    c.state.WF ∧ c.state.subtype = key.subtype := by
  rw [KeyFile.WF_iff] at hwf
  unfold PSOBBEncryption.new PSOBBEncryption.apply_seed at h
  cases hm : seed_mask mem n n 0 [] with
  | error e => rw [hm] at h; exact nomatch h
  | ok seed =>
    rw [hm] at h
    dsimp only at h
    by_cases hj : key.subtype = Subtype.JSD1
    · simp only [hj, ne_eq, not_true_eq_false, if_false] at h
      by_cases hs : seed.length = 0
      · simp only [hs, if_true] at h; exact nomatch h
      · simp only [hs, if_false] at h
        have hpk := jsd1_table_bytes seed 0x100 0 0 key.private_keys hwf.2
        generalize jsd1_table seed 0x100 0 0 key.private_keys = pk at h hpk
        injection h with h
        subst h
        exact ⟨⟨hwf.1.1, hpk.1, hwf.1.2, hpk.2⟩, hj.symm⟩
    · simp only [hj, ne_eq, not_false_eq_true, if_true] at h
      by_cases h3 : n % 3 = 0
      · simp only [h3, not_true_eq_false, if_false] at h
        by_cases hs : seed.length = 0
        · simp only [hs, if_true] at h; exact nomatch h
        · simp only [hs, if_false] at h
          have hik : IsBytes 0x48 (if key.subtype = Subtype.MOCB1 then
              mocb1_loop 0x12 0 key.initial_keys else key.initial_keys) := by
            split
            · exact mocb1_loop_bytes 0x12 0 key.initial_keys hwf.1
            · exact hwf.1
          generalize (if key.subtype = Subtype.MOCB1 then
              mocb1_loop 0x12 0 key.initial_keys else key.initial_keys) = ik0 at h hik
          have hik1 := seed_fold_bytes seed 0x12 0 0 ik0 hik
          generalize seed_fold seed 0x12 0 0 ik0 = ik1 at h hik1
          have hik2 := schedule_initial_bytes key.private_keys 0x48 0 0 0 ik1 hik1
          generalize schedule_initial key.private_keys 0x48 0 0 0 ik1 = t at h hik2
          have hpk := schedule_private_bytes t.2.2 0x1000 0 t.1 t.2.1 key.private_keys hwf.2
          generalize schedule_private t.2.2 0x1000 0 t.1 t.2.1 key.private_keys = pk at h hpk
          injection h with h
          subst h
          exact ⟨⟨hik2.1, hpk.1, hik2.2, hpk.2⟩, rfl⟩
      · simp only [h3, not_false_eq_true, if_true] at h; exact nomatch h

/-! ## Lemmas on the multi-key detector -/

/-- A peek on a cipher constructed from a well-formed key file leaves it as it was. -/
theorem PSOBBEncryption.new_peek_state {key : KeyFile} (hwf : key.WF) {mem : List Nat}
    {n : Nat} {c : PSOBBEncryption} (h : PSOBBEncryption.new key mem n = .ok c)
    (B : List Nat) : (c.encrypt B false).crypt = c ∧ (c.decrypt B false).crypt = c :=
  c.peek_state B (PSOBBEncryption.new_WF hwf h).1

/-- When the peek-mode decrypt of a buffer succeeds, so does the decrypt in either mode. -/
theorem PSOBBEncryption.decrypt_error_of_peek (c : PSOBBEncryption) (B : List Nat)
    (advance : Bool) (h : (c.decrypt B false).error = none) :
    (c.decrypt B advance).error = none := by
  cases advance with
  | false => exact h
  | true =>
    by_cases hj : c.state.subtype = Subtype.JSD1
    · by_cases hl : B.length > 0x100
      · simp [PSOBBEncryption.decrypt, hj, hl] at h
      · by_cases hs : (PSOBBEncryption.jsd1_swap B).2 = true
        · simp [PSOBBEncryption.decrypt, hj, hl, hs] at h
        · simp [PSOBBEncryption.decrypt, hj, hs]
    · by_cases h8 : B.length % 8 = 0
      · simp [PSOBBEncryption.decrypt, hj, and_seven, h8]
      · simp [PSOBBEncryption.decrypt, hj, and_seven, h8] at h

theorem peek_decrypt_with_some {seed : List Nat} {key : KeyFile} {data out : List Nat}
    (h : peek_decrypt_with seed key data = some out) :
    ∃ c, PSOBBEncryption.new key (string_data seed) seed.length = .ok c ∧
      (c.decrypt data false).error = none ∧ (c.decrypt data false).data = out := by
  unfold peek_decrypt_with at h
  cases hn : PSOBBEncryption.new key (string_data seed) seed.length with
  | error e => rw [hn] at h; exact nomatch h
  | ok c =>
    rw [hn] at h
    dsimp only at h
    by_cases he : (c.decrypt data false).error = none
    · rw [if_pos he] at h
      exact ⟨c, rfl, he, Option.some.inj h⟩
    · rw [if_neg he] at h; exact nomatch h

namespace PSOBBMultiKeyDetectorEncryption

/-- The detector with no active key and no cipher (what the loop leaves after a candidate
that does not match). -/
theorem detect_cons_mismatch (data : List Nat) (d : PSOBBMultiKeyDetectorEncryption)
    (k : KeyFile) (rest : List KeyFile) {out : List Nat}
    (h : peek_decrypt_with d.seed k data = some out) (hne : out ≠ d.expected_first_data) :
    detect data d (k :: rest) =
      detect data { d with active_key := none, active_crypt := none } rest := by
  obtain ⟨c, hn, he, ho⟩ := peek_decrypt_with_some h
  rw [detect]
  simp only [hn, he, ho, hne, if_false]

theorem detect_cons_match (data : List Nat) (d : PSOBBMultiKeyDetectorEncryption)
    (k : KeyFile) (rest : List KeyFile) {c : PSOBBEncryption}
    (hn : PSOBBEncryption.new k (string_data d.seed) d.seed.length = .ok c)
    (he : (c.decrypt data false).error = none)
    (ho : (c.decrypt data false).data = d.expected_first_data) :
    detect data d (k :: rest) =
      ({ d with active_key := some k, active_crypt := some (c.decrypt data false).crypt },
        none) := by
  rw [detect]
  simp only [hn, he, ho, if_true]

theorem detect_first_match (data : List Nat) (pre : List KeyFile) (key : KeyFile)
    (post : List KeyFile) {c : PSOBBEncryption} :
    ∀ d : PSOBBMultiKeyDetectorEncryption,
      (∀ k ∈ pre, ∃ out, peek_decrypt_with d.seed k data = some out ∧
        out ≠ d.expected_first_data) →
      PSOBBEncryption.new key (string_data d.seed) d.seed.length = .ok c →
      (c.decrypt data false).error = none →
      (c.decrypt data false).data = d.expected_first_data →
      detect data d (pre ++ key :: post) =
        ({ d with active_key := some key, active_crypt := some (c.decrypt data false).crypt },
          none) := by
  induction pre with
  | nil => intro d _ hn he ho; exact detect_cons_match data d key post hn he ho
  | cons k pre ih =>
    intro d hpre hn he ho
    obtain ⟨out, h1, h2⟩ := hpre k (List.mem_cons_self k pre)
    rw [List.cons_append, detect_cons_mismatch data d k _ h1 h2]
    exact ih { d with active_key := none, active_crypt := none }
      (fun k' hk' => hpre k' (List.mem_cons_of_mem k hk')) hn he ho

theorem detect_no_match (data : List Nat) (keys : List KeyFile) :
    ∀ d : PSOBBMultiKeyDetectorEncryption,
      d.active_key = none → d.active_crypt = none →
      (∀ k ∈ keys, ∃ out, peek_decrypt_with d.seed k data = some out ∧
        out ≠ d.expected_first_data) →
      detect data d keys = (d, none) := by
  induction keys with
  | nil => intro d _ _ _; rfl
  | cons k keys ih =>
    intro d hk hc hpre
    obtain ⟨out, h1, h2⟩ := hpre k (List.mem_cons_self k keys)
    rw [detect_cons_mismatch data d k _ h1 h2]
    have e : ({ d with active_key := none, active_crypt := none } :
        PSOBBMultiKeyDetectorEncryption) = d := by
      cases d; simp only at hk hc; subst hk hc; rfl
    rw [e]
    exact ih d hk hc (fun k' hk' => hpre k' (List.mem_cons_of_mem k hk'))

end PSOBBMultiKeyDetectorEncryption

theorem sample_jsd1_key_WF {offset : Nat} (h : offset < 256) : (sample_jsd1_key offset).WF := by
  refine ⟨?_, List.length_replicate _ _, ?_, ?_⟩
  · show (offset :: List.replicate 0x47 0x5A).length = 0x48
    rw [List.length_cons, List.length_replicate]
  · intro b hb
    rcases List.mem_cons.mp hb with hb | hb
    · rw [hb]; exact h
    · rw [(List.mem_replicate.mp hb).2]; decide
  · intro b hb
    rw [(List.mem_replicate.mp hb).2]; decide

/-! ## C8: the detector commits to the first matching key -/

/-- C8 (counterexample): candidates `[K1, K2]` with `K1` of the default sub-variant and `K2`
a JSD1 key, a 6-byte expected first plaintext, and the ciphertext obtained by encrypting it
under `K2`. `K1` does not decrypt the ciphertext to the expected plaintext (its peek-decrypt
raises, 6 not being a multiple of 8) and `K2` does; yet the first decrypt call leaves with
that exception and the active key is `K1`, not `K2`. -/
theorem C8_earlier_candidate_raises :
    encrypt_with [0xDE, 0xAD, 0xBE, 0xEF, 0x00, 0x01] (sample_jsd1_key 0x5A)
        [0x93, 0, 6, 0, 0, 0] = some [91, 193, 125, 2, 117, 126] ∧
      peek_decrypt_with [0xDE, 0xAD, 0xBE, 0xEF, 0x00, 0x01] (sample_key Subtype.STANDARD)
        [91, 193, 125, 2, 117, 126] ≠ some [0x93, 0, 6, 0, 0, 0] ∧
      peek_decrypt_with [0xDE, 0xAD, 0xBE, 0xEF, 0x00, 0x01] (sample_jsd1_key 0x5A)
        [91, 193, 125, 2, 117, 126] = some [0x93, 0, 6, 0, 0, 0] ∧
      ((PSOBBMultiKeyDetectorEncryption.new [sample_key Subtype.STANDARD, sample_jsd1_key 0x5A]
        [0x93, 0, 6, 0, 0, 0] [0xDE, 0xAD, 0xBE, 0xEF, 0x00, 0x01]).decrypt
          [91, 193, 125, 2, 117, 126] true).error =
        some (.invalid_argument "size must be a multiple of 8") ∧
      ((PSOBBMultiKeyDetectorEncryption.new [sample_key Subtype.STANDARD, sample_jsd1_key 0x5A]
        [0x93, 0, 6, 0, 0, 0] [0xDE, 0xAD, 0xBE, 0xEF, 0x00, 0x01]).decrypt
          [91, 193, 125, 2, 117, 126] true).crypt.active_key =
        some (sample_key Subtype.STANDARD) ∧
      sample_key Subtype.STANDARD ≠ sample_jsd1_key 0x5A := by
  refine ⟨?_, ?_, ?_, ?_, rfl, ?_⟩
  · set_option maxRecDepth 100000 in decide
  · set_option maxRecDepth 100000 in decide
  · set_option maxRecDepth 100000 in decide
  · set_option maxRecDepth 100000 in decide
  · intro h
    exact absurd (congrArg KeyFile.subtype h) (by decide)

/-- C8 (amended): on its first decrypt call (no cipher installed yet), with a ciphertext of
the expected first plaintext's length, if every candidate before `key` in the list is
tried to completion (its cipher is constructed and peek-decrypts the ciphertext without
raising) and yields something other than the expected plaintext, and the cipher of the
well-formed candidate `key` peek-decrypts the ciphertext to exactly the expected plaintext,
then the detector commits to `key`: the call succeeds, the active key is `key`, the buffer
is decrypted by the cipher `c` built from `key` and the detector's seed, and every later
decrypt and encrypt call is carried out by that cipher. -/
theorem C8_detector_first_match (d : PSOBBMultiKeyDetectorEncryption)
    (pre post : List KeyFile) (key : KeyFile) (data : List Nat) (advance : Bool)
    (hfresh : d.active_crypt = none)
    (hkeys : d.possible_keys = pre ++ key :: post)
    (hlen : data.length = d.expected_first_data.length)
    (hpre : ∀ k ∈ pre, ∃ out, peek_decrypt_with d.seed k data = some out ∧
      out ≠ d.expected_first_data)
    (hwf : key.WF)
    (hmatch : peek_decrypt_with d.seed key data = some d.expected_first_data) :
    ∃ c, PSOBBEncryption.new key (string_data d.seed) d.seed.length = .ok c ∧
      (d.decrypt data advance).error = none ∧
      (d.decrypt data advance).crypt.active_key = some key ∧
      (d.decrypt data advance).crypt.active_crypt = some (c.decrypt data advance).crypt ∧
      (d.decrypt data advance).data = (c.decrypt data advance).data ∧
      ∀ (data2 : List Nat) (advance2 : Bool),
        ((d.decrypt data advance).crypt.decrypt data2 advance2).data =
            ((c.decrypt data advance).crypt.decrypt data2 advance2).data ∧
          ((d.decrypt data advance).crypt.decrypt data2 advance2).error =
            ((c.decrypt data advance).crypt.decrypt data2 advance2).error ∧
          ((d.decrypt data advance).crypt.decrypt data2 advance2).crypt.active_key =
            some key ∧
          ((d.decrypt data advance).crypt.decrypt data2 advance2).crypt.active_crypt =
            some ((c.decrypt data advance).crypt.decrypt data2 advance2).crypt ∧
          ((d.decrypt data advance).crypt.encrypt data2 advance2).data =
            ((c.decrypt data advance).crypt.encrypt data2 advance2).data ∧
          ((d.decrypt data advance).crypt.encrypt data2 advance2).error =
            ((c.decrypt data advance).crypt.encrypt data2 advance2).error ∧
          ((d.decrypt data advance).crypt.encrypt data2 advance2).crypt.active_key =
            some key ∧
          ((d.decrypt data advance).crypt.encrypt data2 advance2).crypt.active_crypt =
            some ((c.decrypt data advance).crypt.encrypt data2 advance2).crypt := by
  obtain ⟨c, hn, he, ho⟩ := peek_decrypt_with_some hmatch
  have hdet := PSOBBMultiKeyDetectorEncryption.detect_first_match data pre key post d hpre hn
    he ho
  rw [(PSOBBEncryption.new_peek_state hwf hn data).2] at hdet
  have hdec : d.decrypt data advance =
      ⟨{ d with active_key := some key, active_crypt := some (c.decrypt data advance).crypt },
        (c.decrypt data advance).data, (c.decrypt data advance).error⟩ := by
    unfold PSOBBMultiKeyDetectorEncryption.decrypt
    rw [hfresh]
    simp only [hlen, ne_eq, not_true_eq_false, if_false, hkeys, hdet]
  refine ⟨c, hn, ?_, ?_, ?_, ?_, ?_⟩
  · rw [hdec]; exact c.decrypt_error_of_peek data advance he
  · rw [hdec]
  · rw [hdec]
  · rw [hdec]
  · intro data2 advance2
    rw [hdec]
    exact ⟨rfl, rfl, rfl, rfl, rfl, rfl, rfl, rfl⟩
/-- C8 (amended) in the scenario of the spec: seed `DE AD BE EF 00 01`, expected first
plaintext `93 00 08 00 00 00 00 00`, two JSD1 candidates `[K1, K2]` (stream offsets `0x10`
and `0x5A`) and the ciphertext produced by encrypting the plaintext under `K2`: the
detector chooses `K2`. -/
theorem C8_detector_first_match_witness :
    encrypt_with [0xDE, 0xAD, 0xBE, 0xEF, 0x00, 0x01] (sample_jsd1_key 0x5A)
        [0x93, 0, 8, 0, 0, 0, 0, 0] = some [91, 193, 121, 8, 117, 126, 68, 65] ∧
      ((PSOBBMultiKeyDetectorEncryption.new [sample_jsd1_key 0x10, sample_jsd1_key 0x5A]
        [0x93, 0, 8, 0, 0, 0, 0, 0] [0xDE, 0xAD, 0xBE, 0xEF, 0x00, 0x01]).decrypt
          [91, 193, 121, 8, 117, 126, 68, 65] true).crypt.active_key =
        some (sample_jsd1_key 0x5A) :=
  ⟨by set_option maxRecDepth 100000 in decide,
    (C8_detector_first_match
      (PSOBBMultiKeyDetectorEncryption.new [sample_jsd1_key 0x10, sample_jsd1_key 0x5A]
        [0x93, 0, 8, 0, 0, 0, 0, 0] [0xDE, 0xAD, 0xBE, 0xEF, 0x00, 0x01])
      [sample_jsd1_key 0x10] [] (sample_jsd1_key 0x5A) [91, 193, 121, 8, 117, 126, 68, 65] true
      rfl rfl (by decide)
      (fun k hk => by
        rw [List.mem_singleton.mp hk]
        exact ⟨[252, 109, 227, 187, 150, 4, 99, 125],
          by set_option maxRecDepth 100000 in decide, by decide⟩)
      (sample_jsd1_key_WF (by decide))
      (by set_option maxRecDepth 100000 in decide)).elim (fun _ h => h.2.2.1)⟩
/-! ## C9: the detector when no candidate matches -/

/-- C9 (the code departs from the claim): a detector with one candidate of the default
sub-variant and a 6-byte expected first plaintext receives 6 bytes. No candidate
peek-decrypts them to the expected plaintext (the only candidate's peek-decrypt raises) and
decrypt fails; but the detector does not stay uncommitted: it is left with that candidate
as active key and its cipher installed, and its encrypt then succeeds. -/
theorem C9_raising_candidate_stays_active :
    (∀ k ∈ [sample_key Subtype.STANDARD],
      peek_decrypt_with [0xDE, 0xAD, 0xBE, 0xEF, 0x00, 0x01] k [1, 2, 3, 4, 5, 6] ≠
        some [0x93, 0, 6, 0, 0, 0]) ∧
      ((PSOBBMultiKeyDetectorEncryption.new [sample_key Subtype.STANDARD]
        [0x93, 0, 6, 0, 0, 0] [0xDE, 0xAD, 0xBE, 0xEF, 0x00, 0x01]).decrypt
          [1, 2, 3, 4, 5, 6] true).error =
        some (.invalid_argument "size must be a multiple of 8") ∧
      ((PSOBBMultiKeyDetectorEncryption.new [sample_key Subtype.STANDARD]
        [0x93, 0, 6, 0, 0, 0] [0xDE, 0xAD, 0xBE, 0xEF, 0x00, 0x01]).decrypt
          [1, 2, 3, 4, 5, 6] true).crypt.active_key = some (sample_key Subtype.STANDARD) ∧
      ((PSOBBMultiKeyDetectorEncryption.new [sample_key Subtype.STANDARD]
        [0x93, 0, 6, 0, 0, 0] [0xDE, 0xAD, 0xBE, 0xEF, 0x00, 0x01]).decrypt
          [1, 2, 3, 4, 5, 6] true).crypt.active_crypt ≠ none ∧
      (((PSOBBMultiKeyDetectorEncryption.new [sample_key Subtype.STANDARD]
        [0x93, 0, 6, 0, 0, 0] [0xDE, 0xAD, 0xBE, 0xEF, 0x00, 0x01]).decrypt
          [1, 2, 3, 4, 5, 6] true).crypt.encrypt [0, 0, 0, 0, 0, 0, 0, 0] true).error =
        none := by
  refine ⟨?_, ?_, rfl, ?_, ?_⟩
  · set_option maxRecDepth 100000 in decide
  · set_option maxRecDepth 100000 in decide
  · set_option maxRecDepth 100000 in decide
  · set_option maxRecDepth 100000 in decide
/-- The detector when every trial returns: if the detector is uncommitted (no active key,
no cipher) and every candidate is tried to completion (its cipher is constructed and peek-decrypts the first
ciphertext without raising) and yields something other than the expected plaintext, which
includes the empty candidate list, then decrypt fails (with `logic_error` when the size
differs from the expected plaintext's, else with `runtime_error`), the caller's buffer is
as it was and the detector is exactly as it was: it has no active key and no cipher, its
encrypt still fails, and a later decrypt runs the detection again. -/
theorem detector_no_match (d : PSOBBMultiKeyDetectorEncryption) (data : List Nat)
    (advance : Bool) (hk : d.active_key = none) (hc : d.active_crypt = none)
    (hall : ∀ k ∈ d.possible_keys, ∃ out, peek_decrypt_with d.seed k data = some out ∧
      out ≠ d.expected_first_data) :
    (d.decrypt data advance).error =
        some (if data.length ≠ d.expected_first_data.length then
          .logic_error "initial decryption size does not match expected first data size"
        else
          .runtime_error "none of the registered private keys are valid for this client") ∧
      (d.decrypt data advance).data = data ∧
      (d.decrypt data advance).crypt = d ∧
      (d.decrypt data advance).crypt.active_key = none ∧
      (d.decrypt data advance).crypt.active_crypt = none ∧
      (∀ (data2 : List Nat) (advance2 : Bool),
        ((d.decrypt data advance).crypt.encrypt data2 advance2).error =
          some (.logic_error "PSOBB multi-key encryption requires client input first")) ∧
      (∀ (data2 : List Nat) (advance2 : Bool),
        (d.decrypt data advance).crypt.decrypt data2 advance2 = d.decrypt data2 advance2) := by
  have hdet := PSOBBMultiKeyDetectorEncryption.detect_no_match data d.possible_keys d hk hc hall
  have hdec : d.decrypt data advance =
      ⟨d, data,
        some (if data.length ≠ d.expected_first_data.length then
          .logic_error "initial decryption size does not match expected first data size"
        else
          .runtime_error
            "none of the registered private keys are valid for this client")⟩ := by
    unfold PSOBBMultiKeyDetectorEncryption.decrypt
    rw [hc]
    by_cases hlen : data.length = d.expected_first_data.length
    · simp only [hlen, ne_eq, not_true_eq_false, if_false, hdet, hc]
    · simp only [hlen, ne_eq, not_false_eq_true, if_true]
  rw [hdec]
  refine ⟨rfl, rfl, rfl, hk, hc, ?_, fun _ _ => rfl⟩
  intro data2 advance2
  simp only [PSOBBMultiKeyDetectorEncryption.encrypt, hc]

/-- The detector with two JSD1 candidates (stream offsets `0x10`, `0x5A`) that decrypt the
8 bytes `1, ..., 8` to something other than the expected plaintext: decrypt fails with
`runtime_error`. -/
theorem detector_no_match_example :
    ((PSOBBMultiKeyDetectorEncryption.new [sample_jsd1_key 0x10, sample_jsd1_key 0x5A]
      [0x93, 0, 8, 0, 0, 0, 0, 0] [0xDE, 0xAD, 0xBE, 0xEF, 0x00, 0x01]).decrypt
        [1, 2, 3, 4, 5, 6, 7, 8] true).error =
      some (.runtime_error "none of the registered private keys are valid for this client") :=
  (detector_no_match
    (PSOBBMultiKeyDetectorEncryption.new [sample_jsd1_key 0x10, sample_jsd1_key 0x5A]
      [0x93, 0, 8, 0, 0, 0, 0, 0] [0xDE, 0xAD, 0xBE, 0xEF, 0x00, 0x01])
    [1, 2, 3, 4, 5, 6, 7, 8] true rfl rfl
    (fun k hk => by
      rcases List.mem_cons.mp hk with hk | hk
      · rw [hk]
        exact ⟨[46, 38, 187, 149, 238, 116, 42, 62],
          by set_option maxRecDepth 100000 in decide, by decide⟩
      · rw [List.mem_singleton.mp hk]
        exact ⟨[65, 75, 80, 46, 120, 112, 73, 67],
          by set_option maxRecDepth 100000 in decide, by decide⟩)).1

/-! ## Lemmas on the multi-key imitator -/

theorem seed_mask_error (mem : List Nat) (n fuel : Nat) :
    ∀ (x : Nat) (seed : List Nat) (e : Exn), seed_mask mem n fuel x seed = .error e →
      e = .undefined "original_seed_data read outside the seed" := by
  induction fuel with
  | zero => intro x seed e h; exact nomatch h
  | succ f ih =>
    intro x seed e h
    unfold seed_mask at h
    split at h
    · split at h
      · exact ih _ _ _ h
      · injection h with h; exact h.symm
    · exact nomatch h

theorem PSOBBEncryption.new_error_ne_not_ready {key : KeyFile} {mem : List Nat} {n : Nat}
    {e : Exn} (h : PSOBBEncryption.new key mem n = .error e) : e ≠ not_ready := by
  unfold PSOBBEncryption.new PSOBBEncryption.apply_seed at h
  cases hm : seed_mask mem n n 0 [] with
  | error e' =>
    rw [hm] at h
    injection h with h
    rw [← h, seed_mask_error mem n n 0 [] e' hm]
    decide
  | ok seed =>
    rw [hm] at h
    dsimp only at h
    by_cases hj : key.subtype = Subtype.JSD1
    · simp only [hj, ne_eq, not_true_eq_false, if_false] at h
      by_cases hs : seed.length = 0
      · simp only [hs, if_true] at h
        injection h with h; rw [← h]; decide
      · simp only [hs, if_false] at h; exact nomatch h
    · simp only [hj, ne_eq, not_false_eq_true, if_true] at h
      by_cases h3 : n % 3 = 0
      · simp only [h3, not_true_eq_false, if_false] at h
        by_cases hs : seed.length = 0
        · simp only [hs, if_true] at h
          injection h with h; rw [← h]; decide
        · simp only [hs, if_false] at h; exact nomatch h
      · simp only [h3, not_false_eq_true, if_true] at h
        injection h with h; rw [← h]; decide

theorem PSOBBEncryption.error_ne_not_ready (c : PSOBBEncryption) (B : List Nat)
    (advance : Bool) :
    (c.encrypt B advance).error ≠ some not_ready ∧
      (c.decrypt B advance).error ≠ some not_ready := by
  constructor
  · unfold PSOBBEncryption.encrypt
    split
    · split
      · exact fun h => absurd (Option.some.inj h) (by decide)
      · exact fun h => nomatch h
    · split
      · exact fun h => absurd (Option.some.inj h) (by decide)
      · dsimp only
        split
        · exact fun h => absurd (Option.some.inj h) (by decide)
        · exact fun h => nomatch h
  · unfold PSOBBEncryption.decrypt
    split
    · split
      · exact fun h => absurd (Option.some.inj h) (by decide)
      · exact fun h => nomatch h
    · split
      · exact fun h => absurd (Option.some.inj h) (by decide)
      · dsimp only
        split
        · exact fun h => absurd (Option.some.inj h) (by decide)
        · exact fun h => nomatch h

namespace PSOBBMultiKeyImitatorEncryption

theorem ensure_crypt_some (m : PSOBBMultiKeyImitatorEncryption)
    (det : PSOBBMultiKeyDetectorEncryption) {c : PSOBBEncryption}
    (h : m.active_crypt = some c) : m.ensure_crypt det = (m, .ok c) := by
  unfold ensure_crypt; rw [h]

theorem ensure_crypt_not_ready (m : PSOBBMultiKeyImitatorEncryption)
    (det : PSOBBMultiKeyDetectorEncryption)
    (h : m.active_crypt = none) (hk : det.get_active_key = none) :
    m.ensure_crypt det = (m, .error not_ready) := by
  unfold ensure_crypt; rw [h, hk]; rfl

theorem ensure_crypt_build (m : PSOBBMultiKeyImitatorEncryption)
    (det : PSOBBMultiKeyDetectorEncryption) {key : KeyFile}
    (h : m.active_crypt = none) (hk : det.get_active_key = some key) :
    m.ensure_crypt det =
      match PSOBBEncryption.new key (string_data (imitator_seed m det key))
        (imitator_seed m det key).length with
      | .error e => (m, .error e)
      | .ok c => ({ m with active_crypt := some c }, .ok c) := by
  unfold ensure_crypt imitator_seed
  rw [h, hk]
  dsimp only
  split <;> rfl

end PSOBBMultiKeyImitatorEncryption

namespace PSOBBMultiKeyImitatorEncryption

/-- What `encrypt` and `decrypt` of the imitator do in each of the cases of
`ensure_crypt`. -/
theorem calls_by_case (m : PSOBBMultiKeyImitatorEncryption)
    (det : PSOBBMultiKeyDetectorEncryption) (data : List Nat) (advance : Bool) :
    (∀ c, m.active_crypt = some c →
      m.encrypt det data advance =
          ⟨{ m with active_crypt := some (c.encrypt data advance).crypt },
            (c.encrypt data advance).data, (c.encrypt data advance).error⟩ ∧
        m.decrypt det data advance =
          ⟨{ m with active_crypt := some (c.decrypt data advance).crypt },
            (c.decrypt data advance).data, (c.decrypt data advance).error⟩) ∧
    (m.active_crypt = none → det.get_active_key = none →
      m.encrypt det data advance = ⟨m, data, some not_ready⟩ ∧
        m.decrypt det data advance = ⟨m, data, some not_ready⟩) ∧
    (∀ key, m.active_crypt = none → det.get_active_key = some key →
      (∀ c, PSOBBEncryption.new key (string_data (imitator_seed m det key))
          (imitator_seed m det key).length = .ok c →
        m.encrypt det data advance =
            ⟨{ m with active_crypt := some (c.encrypt data advance).crypt },
              (c.encrypt data advance).data, (c.encrypt data advance).error⟩ ∧
          m.decrypt det data advance =
            ⟨{ m with active_crypt := some (c.decrypt data advance).crypt },
              (c.decrypt data advance).data, (c.decrypt data advance).error⟩) ∧
      (∀ e, PSOBBEncryption.new key (string_data (imitator_seed m det key))
          (imitator_seed m det key).length = .error e →
        m.encrypt det data advance = ⟨m, data, some e⟩ ∧
          m.decrypt det data advance = ⟨m, data, some e⟩)) := by
  refine ⟨?_, ?_, ?_⟩
  · intro c h
    unfold encrypt decrypt
    rw [ensure_crypt_some m det h]
    exact ⟨rfl, rfl⟩
  · intro h hk
    unfold encrypt decrypt
    rw [ensure_crypt_not_ready m det h hk]
    exact ⟨rfl, rfl⟩
  · intro key h hk
    refine ⟨?_, ?_⟩
    · intro c hn
      unfold encrypt decrypt
      rw [ensure_crypt_build m det h hk, hn]
      exact ⟨rfl, rfl⟩
    · intro e hn
      unfold encrypt decrypt
      rw [ensure_crypt_build m det h hk, hn]
      exact ⟨rfl, rfl⟩

end PSOBBMultiKeyImitatorEncryption

/-! ## C10: the imitator and the not-ready error -/

/-- C10: encrypt and decrypt of the imitator fail with the not-ready error exactly when the
imitator has no cipher of its own yet and the paired detector has no active key. When the
detector has an active key and the imitator no cipher, the call constructs the V4 cipher
from the detector's key (and the seed `ensure_crypt` selects), keeps it and runs on it;
when the imitator has a cipher, every call runs on that cipher and keeps it, whatever the
detector's state. -/
theorem C10_imitator_not_ready (m : PSOBBMultiKeyImitatorEncryption)
    (det : PSOBBMultiKeyDetectorEncryption) (data : List Nat) (advance : Bool) :
    ((m.encrypt det data advance).error = some not_ready ↔
      (m.active_crypt = none ∧ det.get_active_key = none)) ∧
    ((m.decrypt det data advance).error = some not_ready ↔
      (m.active_crypt = none ∧ det.get_active_key = none)) ∧
    (∀ key c, m.active_crypt = none → det.get_active_key = some key →
      PSOBBEncryption.new key (string_data (imitator_seed m det key))
        (imitator_seed m det key).length = .ok c →
      ((m.encrypt det data advance).crypt.active_crypt =
          some (c.encrypt data advance).crypt ∧
        (m.encrypt det data advance).data = (c.encrypt data advance).data ∧
        (m.encrypt det data advance).error = (c.encrypt data advance).error) ∧
      ((m.decrypt det data advance).crypt.active_crypt =
          some (c.decrypt data advance).crypt ∧
        (m.decrypt det data advance).data = (c.decrypt data advance).data ∧
        (m.decrypt det data advance).error = (c.decrypt data advance).error)) ∧
    (∀ c, m.active_crypt = some c →
      ((m.encrypt det data advance).crypt.active_crypt =
          some (c.encrypt data advance).crypt ∧
        (m.encrypt det data advance).data = (c.encrypt data advance).data ∧
        (m.encrypt det data advance).error = (c.encrypt data advance).error) ∧
      ((m.decrypt det data advance).crypt.active_crypt =
          some (c.decrypt data advance).crypt ∧
        (m.decrypt det data advance).data = (c.decrypt data advance).data ∧
        (m.decrypt det data advance).error = (c.decrypt data advance).error)) := by
  obtain ⟨hsome, hnone, hbuild⟩ := m.calls_by_case det data advance
  have hiff : ((m.encrypt det data advance).error = some not_ready ↔
        (m.active_crypt = none ∧ det.get_active_key = none)) ∧
      ((m.decrypt det data advance).error = some not_ready ↔
        (m.active_crypt = none ∧ det.get_active_key = none)) := by
    cases hc : m.active_crypt with
    | some c =>
      obtain ⟨he, hd⟩ := hsome c hc
      rw [he, hd]
      exact ⟨⟨fun h => absurd h (c.error_ne_not_ready data advance).1, fun h => nomatch h.1⟩,
        ⟨fun h => absurd h (c.error_ne_not_ready data advance).2, fun h => nomatch h.1⟩⟩
    | none =>
      cases hk : det.get_active_key with
      | none =>
        obtain ⟨he, hd⟩ := hnone hc hk
        rw [he, hd]
        exact ⟨⟨fun _ => ⟨rfl, rfl⟩, fun _ => rfl⟩, ⟨fun _ => ⟨rfl, rfl⟩, fun _ => rfl⟩⟩
      | some key =>
        cases hn : PSOBBEncryption.new key (string_data (imitator_seed m det key))
            (imitator_seed m det key).length with
        | ok c =>
          obtain ⟨he, hd⟩ := (hbuild key hc hk).1 c hn
          rw [he, hd]
          exact ⟨⟨fun h => absurd h (c.error_ne_not_ready data advance).1,
              fun h => nomatch h.2⟩,
            ⟨fun h => absurd h (c.error_ne_not_ready data advance).2, fun h => nomatch h.2⟩⟩
        | error e =>
          obtain ⟨he, hd⟩ := (hbuild key hc hk).2 e hn
          rw [he, hd]
          have hne : e ≠ not_ready := PSOBBEncryption.new_error_ne_not_ready hn
          exact ⟨⟨fun h => absurd (Option.some.inj h) hne, fun h => nomatch h.2⟩,
            ⟨fun h => absurd (Option.some.inj h) hne, fun h => nomatch h.2⟩⟩
  refine ⟨hiff.1, hiff.2, ?_, ?_⟩
  · intro key c hc hk hn
    obtain ⟨he, hd⟩ := (hbuild key hc hk).1 c hn
    rw [he, hd]
    exact ⟨⟨rfl, rfl, rfl⟩, ⟨rfl, rfl, rfl⟩⟩
  · intro c hc
    obtain ⟨he, hd⟩ := hsome c hc
    rw [he, hd]
    exact ⟨⟨rfl, rfl, rfl⟩, ⟨rfl, rfl, rfl⟩⟩

/-- C10 at an imitator without a cipher paired with a detector that has seen no input: its
encrypt fails with the not-ready error. -/
theorem C10_imitator_not_ready_witness :
    ((PSOBBMultiKeyImitatorEncryption.new [1, 2, 3] true).encrypt
      (PSOBBMultiKeyDetectorEncryption.new [sample_jsd1_key 0x5A] [0x93, 0] [4, 5, 6])
      [7, 8] true).error = some not_ready :=
  (C10_imitator_not_ready (PSOBBMultiKeyImitatorEncryption.new [1, 2, 3] true)
    (PSOBBMultiKeyDetectorEncryption.new [sample_jsd1_key 0x5A] [0x93, 0] [4, 5, 6])
    [7, 8] true).1.mpr ⟨rfl, rfl⟩

/-! ## The subcommand dispatcher -/

/-- A payload whose declared size differs from its length fails the size check, whatever
the bounds. -/
theorem check_size_sc_mismatch (data : List Nat) (min_size max_size : Nat)
    (h : declared_size data ≠ data.length) :
    ∃ e, check_size_sc data min_size max_size true = .error e := by
  unfold declared_size at h
  unfold check_size_sc check_size_t
  by_cases h2 : max_size < min_size <;> simp only [h2, if_true, if_false] <;>
    split_ifs <;> simp_all <;> omega

/-- The payloads that pass the size check with the size-field check on. -/
theorem check_size_sc_ok_iff (data : List Nat) (min_size max_size : Nat) :
    check_size_sc data min_size max_size true = .ok () ↔
      (min_size ≤ data.length ∧ data.length ≤ max min_size max_size ∧ 4 ≤ data.length ∧
        ((header_size data ≠ 0 ∧ 4 * header_size data = data.length) ∨
         (header_size data = 0 ∧ 8 ≤ data.length ∧ ext_header_size data = data.length))) := by
  unfold check_size_sc check_size_t
  simp only [le_max_iff]
  by_cases h2 : max_size < min_size <;> simp only [h2, if_true, if_false] <;>
    split_ifs <;> simp_all <;> omega

/-- C11: with the size-field check on, `check_size_sc` accepts a payload of `n` bytes
exactly when `min_size ≤ n ≤ max(min_size, max_size)`, `n ≥ 4`, and either byte 1 is
non-zero and four times byte 1 is `n`, or byte 1 is zero, `n ≥ 8` and the little-endian
32-bit value at offset 4 is `n`; in every other case it fails with an exception. -/
theorem C11_check_size_sc_accepts (data : List Nat) (min_size max_size : Nat) :
    (check_size_sc data min_size max_size true = .ok () ↔
      (min_size ≤ data.length ∧ data.length ≤ max min_size max_size ∧ 4 ≤ data.length ∧
        ((data.getD 1 0 ≠ 0 ∧ 4 * data.getD 1 0 = data.length) ∨
         (data.getD 1 0 = 0 ∧ 8 ≤ data.length ∧
           le_load (data.getD 4 0) (data.getD 5 0) (data.getD 6 0) (data.getD 7 0)
             = data.length)))) ∧
    (check_size_sc data min_size max_size true = .ok () ∨
      ∃ e, check_size_sc data min_size max_size true = .error e) := by
  constructor
  · exact check_size_sc_ok_iff data min_size max_size
  · cases check_size_sc data min_size max_size true with
    | error e => exact Or.inr ⟨e, rfl⟩
    | ok u => exact Or.inl rfl
set_option maxRecDepth 100000 in
/-- The table has 256 entries. -/
theorem subcommand_handlers_length : subcommand_handlers.length = 256 := by
  decide

set_option maxRecDepth 100000 in
/-- Every table entry outside `size_unchecked` is empty or a handler that checks the size
field first. -/
theorem table_checks_size :
    ∀ which < 256, which ∉ size_unchecked →
      ∀ fn, subcommand_handlers.getD which none = some fn → fn.checks_size = true := by
  decide

/-- A handler that checks the size field first fails on a payload whose declared size
differs from its length, sends nothing and leaves the room as it was. -/
theorem checks_size_fails (fn : Handler) (hfn : fn.checks_size = true) (P : Protocol)
    (E : Env) (s : ServerState) (l : Lobby) (ci : Nat) (c : Client) (command flag : Nat)
    (data : List Nat) (h : declared_size data ≠ data.length) :
    (fn.run P E s l ci c command flag data).error ≠ none ∧
      (fn.run P E s l ci c command flag data).events = [] ∧
      (fn.run P E s l ci c command flag data).lobby = l := by
  have hc : ∀ min_size max_size (k : Unit → Handled),
      (attempt l [] (check_size_sc data min_size max_size true) k).error ≠ none ∧
      (attempt l [] (check_size_sc data min_size max_size true) k).events = [] ∧
      (attempt l [] (check_size_sc data min_size max_size true) k).lobby = l := by
    intro min_size max_size k
    obtain ⟨e, he⟩ := check_size_sc_mismatch data min_size max_size h
    simp [attempt, he]
  cases fn <;> simp only [Handler.checks_size] at hfn <;>
    first
    | exact absurd hfn (by decide)
    | exact hc _ _ _
    | skip
  simp only [Handler.run]
  unfold on_subcommand_open_shop_bb_or_ep3_battle_subs
  split
  · exact hc _ _ _
  · split
    · simp
    · exact hc _ _ _

/-- C12, counterexample: sub-opcode 0x36 has no size check.  In a game, the 4-byte payload
`36 05 00 00`, which declares 20 bytes, is dispatched without an error and is delivered to
the other player. -/
theorem C12_unchecked_handler_forwards :
    declared_size [0x36, 5, 0, 0] ≠ [0x36, 5, 0, 0].length ∧
    (on_subcommand sample_protocol sample_env sample_server_state (sample_room .GC [])
      0 (sample_client 100 0 .GC (sample_player 1 0 500)) 0x60 0 [0x36, 5, 0, 0]).error = none ∧
    (on_subcommand sample_protocol sample_env sample_server_state (sample_room .GC [])
      0 (sample_client 100 0 .GC (sample_player 1 0 500)) 0x60 0 [0x36, 5, 0, 0]).events
      = [Event.send_command 101 0x60 0 [0x36, 5, 0, 0]] := by
  decide

/-- C12, amended: for every sub-opcode other than 0x05, 0x06, 0x0A, 0x36, 0x5A, 0x60,
0x6B–0x72, 0x75, 0xA2, 0xB7, 0xB8, 0xBA, 0xBB, 0xBD, 0xC0, 0xC3, 0xC4, 0xC5 and 0xC8, every
room and sender, and every payload whose declared size differs from its length, the
dispatch fails, nothing is sent to any client, and the room is left as it was. -/
theorem C12_size_mismatch_fails (P : Protocol) (E : Env) (s : ServerState) (l : Lobby)
    (ci : Nat) (c : Client) (command flag : Nat) (data : List Nat)
    (hop : header_subcommand data ∉ size_unchecked)
    (hsize : declared_size data ≠ data.length) :
    (on_subcommand P E s l ci c command flag data).error ≠ none ∧
      (on_subcommand P E s l ci c command flag data).events = [] ∧
      (on_subcommand P E s l ci c command flag data).lobby = l := by
  unfold on_subcommand
  split
  · simp
  · have hu : (on_subcommand_unimplemented P E s l ci c command flag data).error ≠ none ∧
        (on_subcommand_unimplemented P E s l ci c command flag data).events = [] ∧
        (on_subcommand_unimplemented P E s l ci c command flag data).lobby = l := by
      obtain ⟨e, he⟩ := check_size_sc_mismatch data sizeof_header 0xFFFF hsize
      simp [on_subcommand_unimplemented, attempt, he]
    split
    · rename_i fn hfn
      by_cases hw : header_subcommand data < 256
      · exact checks_size_fails fn (table_checks_size _ hw hop fn hfn) P E s l ci c command
          flag data hsize
      · rw [List.getD_eq_default _ _ (by rw [subcommand_handlers_length]; omega)] at hfn
        exact absurd hfn (by simp)
    · exact hu

/-- C12, amended: the statement applies to the 4-byte payload `1F 05 00 00`, which
declares 20 bytes. -/
theorem C12_size_mismatch_fails_witness :
    (on_subcommand sample_protocol sample_env sample_server_state (sample_room .GC [])
      0 (sample_client 100 0 .GC (sample_player 1 0 500)) 0x60 0 [0x1F, 5, 0, 0]).error ≠ none ∧
    (on_subcommand sample_protocol sample_env sample_server_state (sample_room .GC [])
      0 (sample_client 100 0 .GC (sample_player 1 0 500)) 0x60 0 [0x1F, 5, 0, 0]).events = [] ∧
    (on_subcommand sample_protocol sample_env sample_server_state (sample_room .GC [])
      0 (sample_client 100 0 .GC (sample_player 1 0 500)) 0x60 0 [0x1F, 5, 0, 0]).lobby
      = sample_room .GC [] :=
  C12_size_mismatch_fails _ _ _ _ _ _ _ _ _ (by decide) (by decide)
set_option maxRecDepth 100000 in
/-- The table entries of the client-checked sub-opcodes. -/
theorem client_checked_entries :
    ∀ which ∈ client_checked,
      subcommand_handlers.getD which none = some .on_subcommand_forward_check_size_client ∨
      subcommand_handlers.getD which none = some .on_subcommand_player_drop_item ∨
      ∃ cmd, cmd ∈ [Cmd.G_StopAtPosition_6x3E, Cmd.G_SetPosition_6x3F,
          Cmd.G_WalkToPosition_6x40, Cmd.G_RunToPosition_6x42] ∧
        subcommand_handlers.getD which none = some (.on_subcommand_movement cmd) := by
  decide

/-- C13: in the handlers that check the embedded client id (sub-opcodes 0x22, 0x43–0x45,
0x4A, 0x4D–0x50, 0x55–0x57, 0x8D, 0xAB, 0xAE–0xB0, the movement handlers 0x3E, 0x3F, 0x40,
0x42, and player drop item 0x2A), a subcommand that passes the handler's size check and
whose client id differs from the sender's slot is dropped: the handler returns without an
exception, sends nothing, and leaves the room — the sender's position, every inventory and
the ground items included — as it was. -/
theorem C13_client_id_mismatch_dropped (P : Protocol) (E : Env) (s : ServerState) (l : Lobby)
    (ci : Nat) (c : Client) (command flag : Nat) (data : List Nat)
    (hop : header_subcommand data ∈ client_checked)
    (hsize : check_size_sc data (client_checked_bounds P (header_subcommand data)).1
      (client_checked_bounds P (header_subcommand data)).2 true = .ok ())
    (hid : header_id data ≠ c.lobby_client_id) :
    (on_subcommand P E s l ci c command flag data).events = [] ∧
      (on_subcommand P E s l ci c command flag data).lobby = l ∧
      (on_subcommand P E s l ci c command flag data).error = none := by
  have hne : data.isEmpty = false := by
    have h4 := ((check_size_sc_ok_iff data _ _).1 hsize).2.2.1
    cases data with
    | nil => simp at h4
    | cons a t => rfl
  unfold on_subcommand
  rw [hne]
  unfold client_checked_bounds at hsize
  rcases client_checked_entries _ hop with h | h | ⟨cmd, _, h⟩
  · rw [h] at hsize ⊢
    simp [Handler.run, on_subcommand_forward_check_size_client, attempt, hsize, hid]
  · rw [h] at hsize ⊢
    simp [Handler.run, on_subcommand_player_drop_item, attempt, hsize, hid]
  · rw [h] at hsize ⊢
    simp [Handler.run, on_subcommand_movement, attempt, hsize, hid]

/-- C13: the statement applies to the stop-moving subcommand `3E 02 01 00 08 00 00 00`
(client id 1) sent by the player in slot 0. -/
theorem C13_client_id_mismatch_dropped_witness :
    (on_subcommand sample_protocol sample_env sample_server_state (sample_room .GC [])
      0 (sample_client 100 0 .GC (sample_player 1 0 500)) 0x60 0
      [0x3E, 2, 1, 0, 8, 0, 0, 0]).events = [] ∧
    (on_subcommand sample_protocol sample_env sample_server_state (sample_room .GC [])
      0 (sample_client 100 0 .GC (sample_player 1 0 500)) 0x60 0
      [0x3E, 2, 1, 0, 8, 0, 0, 0]).lobby = sample_room .GC [] ∧
    (on_subcommand sample_protocol sample_env sample_server_state (sample_room .GC [])
      0 (sample_client 100 0 .GC (sample_player 1 0 500)) 0x60 0
      [0x3E, 2, 1, 0, 8, 0, 0, 0]).error = none :=
  C13_client_id_mismatch_dropped _ _ _ _ _ _ _ _ _ (by decide) (by rfl) (by decide)
/-- C14: `forward_subcommand` with a private command (0x62 or 0x6D) delivers the payload to
the occupant of slot `flag` when `flag < max_clients` and that slot is occupied, and to
nobody otherwise: no other client of the room and no client of a watcher lobby receives
it, and nothing is added to a battle record. -/
theorem C14_private_forward (l : Lobby) (c : Client) (command flag : Nat) (data : List Nat)
    (hp : command = 0x62 ∨ command = 0x6D) :
    forward_subcommand l c command flag data =
      if flag < l.data.max_clients then
        match l.data.client flag with
        | some target => [Event.send_command target.id command flag data]
        | none => []
      else [] := by
  cases l with
  | mk d ws =>
    rcases hp with rfl | rfl
    · unfold forward_subcommand
      have h1 : (0x62 &&& 0xF0 = 0xC0) = False := by decide
      have h2 : command_is_private 0x62 = true := by decide
      simp only [h1, h2, decide_False, Bool.false_and, Lobby.data]
      by_cases hf : flag < d.max_clients
      · simp only [hf, if_true, ge_iff_le, Nat.not_le.mpr hf]
        cases d.client flag <;> simp
      · simp [hf, Nat.le_of_not_lt hf]
    · unfold forward_subcommand
      have h1 : (0x6D &&& 0xF0 = 0xC0) = False := by decide
      have h2 : command_is_private 0x6D = true := by decide
      simp only [h1, h2, decide_False, Bool.false_and, Lobby.data]
      by_cases hf : flag < d.max_clients
      · simp only [hf, if_true, ge_iff_le, Nat.not_le.mpr hf]
        cases d.client flag <;> simp
      · simp [hf, Nat.le_of_not_lt hf]

/-- C14: the statement applies to a private command to slot 1 of a watched room; only the
occupant of slot 1 (client 101) receives the payload. -/
theorem C14_private_forward_witness :
    forward_subcommand sample_watched_room (sample_client 100 0 .GC (sample_player 1 0 500))
        0x62 1 [0x07, 1, 0, 0] = [Event.send_command 101 0x62 1 [0x07, 1, 0, 0]] :=
  C14_private_forward sample_watched_room _ 0x62 1 _ (Or.inl rfl)

/-- The argument of `watcher_subcommands.count` is 0 or 1, and neither is a watcher
subcommand. -/
theorem watcher_count_zero (p : Prop) [Decidable p] :
    watcher_subcommands.count (if p then 1 else 0) = 0 := by
  by_cases h : p <;> simp [h, watcher_subcommands]

/-- The watcher lobbies of a room have no effect on what `forward_subcommand` sends. -/
theorem forward_subcommand_ignores_watchers (d : LobbyData) (ws : List Lobby) (c : Client)
    (command flag : Nat) (data : List Nat) :
    forward_subcommand (.mk d ws) c command flag data
      = forward_subcommand (.mk d []) c command flag data := by
  unfold forward_subcommand
  simp only [watcher_count_zero, ne_eq, not_true_eq_false, and_false, if_false]

/-- C15: a chat subcommand (0x07) broadcast in a card-battle room whose battle is in
progress (setup phase MAIN_BATTLE) and that has a watcher lobby holding client 200 is
delivered to the other player of the room only; the client of the watcher lobby receives
nothing. -/
theorem C15_watchers_receive_nothing :
    sample_watched_room.data.ep3_server_base = some .MAIN_BATTLE ∧
    (sample_watched_room.watcher_lobbies.map fun w => w.data.clients.map fun t =>
      t.map fun x => x.id) = [[some 200]] ∧
    forward_subcommand sample_watched_room (sample_client 100 0 .GC (sample_player 1 0 500))
        0x60 0 [0x07, 1, 0, 0] = [Event.send_command 101 0x60 0 [0x07, 1, 0, 0]] := by
  decide
@[simp] theorem Lobby.data_set_data (l : Lobby) (d : LobbyData) : (l.set_data d).data = d := rfl

@[simp] theorem Lobby.enemies_set_client (l : Lobby) (x : Nat) (c : Client) :
    (l.set_client x c).data.enemies = l.data.enemies := rfl

@[simp] theorem Lobby.enemies_set_item_state (l : Lobby) (st : ItemState) :
    (l.set_item_state st).data.enemies = l.data.enemies := rfl

@[simp] theorem Lobby.enemies_set_enemies (l : Lobby) (es : List Enemy) :
    (l.set_enemies es).data.enemies = es := rfl

/-- `drop_item` leaves the enemy table as it was. -/
theorem drop_item_enemies (E : Env) (s : ServerState) (l : Lobby) (enemy_id : Int)
    (area x z request_id : Nat) :
    (drop_item E s l enemy_id area x z request_id).1.lobby.data.enemies = l.data.enemies := by
  simp only [drop_item]
  repeat' split
  all_goals rfl

/-- The end of the drop-request handlers keeps the enemy table of `drop_item`. -/
theorem drop_or_forward_enemies (r : Handled × Bool) (c : Client) (command flag : Nat)
    (data : List Nat) :
    (drop_or_forward r c command flag data).lobby.data.enemies = r.1.lobby.data.enemies := by
  simp only [drop_or_forward]
  repeat' split
  all_goals rfl

/-- `on_subcommand_invalid` leaves the enemy table as it was. -/
theorem invalid_enemies (P : Protocol) (E : Env) (s : ServerState)
    (l : Lobby) (ci : Nat) (c : Client) (command flag : Nat) (data : List Nat) :
    (on_subcommand_invalid P E s l ci c command flag data).lobby.data.enemies
      = l.data.enemies := by
  simp only [on_subcommand_invalid, attempt]
  repeat' split
  all_goals rfl

/-- `on_subcommand_switch_state_changed` leaves the enemy table as it was. -/
theorem switch_state_changed_enemies (P : Protocol) (E : Env) (s : ServerState)
    (l : Lobby) (ci : Nat) (c : Client) (command flag : Nat) (data : List Nat) :
    (on_subcommand_switch_state_changed P E s l ci c command flag data).lobby.data.enemies
      = l.data.enemies := by
  simp only [on_subcommand_switch_state_changed, attempt]
  repeat' split
  all_goals rfl

/-- `on_subcommand_send_guild_card` leaves the enemy table as it was. -/
theorem send_guild_card_enemies (P : Protocol) (E : Env) (s : ServerState)
    (l : Lobby) (ci : Nat) (c : Client) (command flag : Nat) (data : List Nat) :
    (on_subcommand_send_guild_card P E s l ci c command flag data).lobby.data.enemies
      = l.data.enemies := by
  simp only [on_subcommand_send_guild_card, attempt]
  repeat' split
  all_goals rfl

/-- `on_subcommand_symbol_chat` leaves the enemy table as it was. -/
theorem symbol_chat_enemies (P : Protocol) (E : Env) (s : ServerState)
    (l : Lobby) (ci : Nat) (c : Client) (command flag : Nat) (data : List Nat) :
    (on_subcommand_symbol_chat P E s l ci c command flag data).lobby.data.enemies
      = l.data.enemies := by
  simp only [on_subcommand_symbol_chat, attempt]
  repeat' split
  all_goals rfl

/-- `on_subcommand_forward_check_size_game` leaves the enemy table as it was. -/
theorem forward_check_size_game_enemies (P : Protocol) (E : Env) (s : ServerState)
    (l : Lobby) (ci : Nat) (c : Client) (command flag : Nat) (data : List Nat) :
    (on_subcommand_forward_check_size_game P E s l ci c command flag data).lobby.data.enemies
      = l.data.enemies := by
  simp only [on_subcommand_forward_check_size_game, attempt]
  repeat' split
  all_goals rfl

/-- `on_subcommand_forward_check_size` leaves the enemy table as it was. -/
theorem forward_check_size_enemies (P : Protocol) (E : Env) (s : ServerState)
    (l : Lobby) (ci : Nat) (c : Client) (command flag : Nat) (data : List Nat) :
    (on_subcommand_forward_check_size P E s l ci c command flag data).lobby.data.enemies
      = l.data.enemies := by
  simp only [on_subcommand_forward_check_size, attempt]
  repeat' split
  all_goals rfl

/-- `on_subcommand_change_area` leaves the enemy table as it was. -/
theorem change_area_enemies (P : Protocol) (E : Env) (s : ServerState)
    (l : Lobby) (ci : Nat) (c : Client) (command flag : Nat) (data : List Nat) :
    (on_subcommand_change_area P E s l ci c command flag data).lobby.data.enemies
      = l.data.enemies := by
  simp only [on_subcommand_change_area, attempt]
  repeat' split
  all_goals rfl

/-- `on_subcommand_forward_check_size_client` leaves the enemy table as it was. -/
theorem forward_check_size_client_enemies (P : Protocol) (E : Env) (s : ServerState)
    (l : Lobby) (ci : Nat) (c : Client) (command flag : Nat) (data : List Nat) :
    (on_subcommand_forward_check_size_client P E s l ci c command flag data).lobby.data.enemies
      = l.data.enemies := by
  simp only [on_subcommand_forward_check_size_client, attempt]
  repeat' split
  all_goals rfl

/-- `on_subcommand_set_player_visibility` leaves the enemy table as it was. -/
theorem set_player_visibility_enemies (P : Protocol) (E : Env) (s : ServerState)
    (l : Lobby) (ci : Nat) (c : Client) (command flag : Nat) (data : List Nat) :
    (on_subcommand_set_player_visibility P E s l ci c command flag data).lobby.data.enemies
      = l.data.enemies := by
  simp only [on_subcommand_set_player_visibility, attempt]
  repeat' split
  all_goals rfl

/-- `on_subcommand_equip_unequip_item` leaves the enemy table as it was. -/
theorem equip_unequip_item_enemies (P : Protocol) (E : Env) (s : ServerState)
    (l : Lobby) (ci : Nat) (c : Client) (command flag : Nat) (data : List Nat) :
    (on_subcommand_equip_unequip_item P E s l ci c command flag data).lobby.data.enemies
      = l.data.enemies := by
  simp only [on_subcommand_equip_unequip_item, attempt]
  repeat' split
  all_goals rfl

/-- `on_subcommand_use_item` leaves the enemy table as it was. -/
theorem use_item_enemies (P : Protocol) (E : Env) (s : ServerState)
    (l : Lobby) (ci : Nat) (c : Client) (command flag : Nat) (data : List Nat) :
    (on_subcommand_use_item P E s l ci c command flag data).lobby.data.enemies
      = l.data.enemies := by
  simp only [on_subcommand_use_item, attempt]
  repeat' split
  all_goals rfl

/-- `on_subcommand_destroy_inventory_item` leaves the enemy table as it was. -/
theorem destroy_inventory_item_enemies (P : Protocol) (E : Env) (s : ServerState)
    (l : Lobby) (ci : Nat) (c : Client) (command flag : Nat) (data : List Nat) :
    (on_subcommand_destroy_inventory_item P E s l ci c command flag data).lobby.data.enemies
      = l.data.enemies := by
  simp only [on_subcommand_destroy_inventory_item, attempt]
  repeat' split
  all_goals rfl

/-- `on_subcommand_player_drop_item` leaves the enemy table as it was. -/
theorem player_drop_item_enemies (P : Protocol) (E : Env) (s : ServerState)
    (l : Lobby) (ci : Nat) (c : Client) (command flag : Nat) (data : List Nat) :
    (on_subcommand_player_drop_item P E s l ci c command flag data).lobby.data.enemies
      = l.data.enemies := by
  simp only [on_subcommand_player_drop_item, attempt]
  repeat' split
  all_goals rfl

/-- `on_subcommand_create_inventory_item` leaves the enemy table as it was. -/
theorem create_inventory_item_enemies (P : Protocol) (E : Env) (s : ServerState)
    (l : Lobby) (ci : Nat) (c : Client) (command flag : Nat) (data : List Nat) :
    (on_subcommand_create_inventory_item P E s l ci c command flag data).lobby.data.enemies
      = l.data.enemies := by
  simp only [on_subcommand_create_inventory_item, attempt]
  repeat' split
  all_goals rfl

/-- `on_subcommand_hit_by_enemy` leaves the enemy table as it was. -/
theorem hit_by_enemy_enemies (P : Protocol) (E : Env) (s : ServerState)
    (l : Lobby) (ci : Nat) (c : Client) (command flag : Nat) (data : List Nat) :
    (on_subcommand_hit_by_enemy P E s l ci c command flag data).lobby.data.enemies
      = l.data.enemies := by
  simp only [on_subcommand_hit_by_enemy, attempt]
  repeat' split
  all_goals rfl

/-- `on_subcommand_forward_check_game` leaves the enemy table as it was. -/
theorem forward_check_game_enemies (P : Protocol) (E : Env) (s : ServerState)
    (l : Lobby) (ci : Nat) (c : Client) (command flag : Nat) (data : List Nat) :
    (on_subcommand_forward_check_game P E s l ci c command flag data).lobby.data.enemies
      = l.data.enemies := by
  simp only [on_subcommand_forward_check_game, attempt]
  repeat' split
  all_goals rfl

/-- `on_subcommand_cast_technique_finished` leaves the enemy table as it was. -/
theorem cast_technique_finished_enemies (P : Protocol) (E : Env) (s : ServerState)
    (l : Lobby) (ci : Nat) (c : Client) (command flag : Nat) (data : List Nat) :
    (on_subcommand_cast_technique_finished P E s l ci c command flag data).lobby.data.enemies
      = l.data.enemies := by
  simp only [on_subcommand_cast_technique_finished, attempt]
  repeat' split
  all_goals rfl

/-- `on_subcommand_pick_up_item` leaves the enemy table as it was. -/
theorem pick_up_item_enemies (P : Protocol) (E : Env) (s : ServerState)
    (l : Lobby) (ci : Nat) (c : Client) (command flag : Nat) (data : List Nat) :
    (on_subcommand_pick_up_item P E s l ci c command flag data).lobby.data.enemies
      = l.data.enemies := by
  simp only [on_subcommand_pick_up_item, attempt]
  repeat' split
  all_goals rfl

/-- `on_subcommand_pick_up_item_request` leaves the enemy table as it was. -/
theorem pick_up_item_request_enemies (P : Protocol) (E : Env) (s : ServerState)
    (l : Lobby) (ci : Nat) (c : Client) (command flag : Nat) (data : List Nat) :
    (on_subcommand_pick_up_item_request P E s l ci c command flag data).lobby.data.enemies
      = l.data.enemies := by
  simp only [on_subcommand_pick_up_item_request, attempt]
  repeat' split
  all_goals rfl

/-- `on_subcommand_drop_partial_stack` leaves the enemy table as it was. -/
theorem drop_partial_stack_enemies (P : Protocol) (E : Env) (s : ServerState)
    (l : Lobby) (ci : Nat) (c : Client) (command flag : Nat) (data : List Nat) :
    (on_subcommand_drop_partial_stack P E s l ci c command flag data).lobby.data.enemies
      = l.data.enemies := by
  simp only [on_subcommand_drop_partial_stack, attempt]
  repeat' split
  all_goals rfl

/-- `on_subcommand_buy_shop_item` leaves the enemy table as it was. -/
theorem buy_shop_item_enemies (P : Protocol) (E : Env) (s : ServerState)
    (l : Lobby) (ci : Nat) (c : Client) (command flag : Nat) (data : List Nat) :
    (on_subcommand_buy_shop_item P E s l ci c command flag data).lobby.data.enemies
      = l.data.enemies := by
  simp only [on_subcommand_buy_shop_item, attempt]
  repeat' split
  all_goals rfl

/-- `on_subcommand_box_or_enemy_item_drop` leaves the enemy table as it was. -/
theorem box_or_enemy_item_drop_enemies (P : Protocol) (E : Env) (s : ServerState)
    (l : Lobby) (ci : Nat) (c : Client) (command flag : Nat) (data : List Nat) :
    (on_subcommand_box_or_enemy_item_drop P E s l ci c command flag data).lobby.data.enemies
      = l.data.enemies := by
  simp only [on_subcommand_box_or_enemy_item_drop, attempt]
  repeat' split
  all_goals rfl

/-- `on_subcommand_destroy_ground_item` leaves the enemy table as it was. -/
theorem destroy_ground_item_enemies (P : Protocol) (E : Env) (s : ServerState)
    (l : Lobby) (ci : Nat) (c : Client) (command flag : Nat) (data : List Nat) :
    (on_subcommand_destroy_ground_item P E s l ci c command flag data).lobby.data.enemies
      = l.data.enemies := by
  simp only [on_subcommand_destroy_ground_item, attempt]
  repeat' split
  all_goals rfl

/-- `on_subcommand_forward_check_game_loading` leaves the enemy table as it was. -/
theorem forward_check_game_loading_enemies (P : Protocol) (E : Env) (s : ServerState)
    (l : Lobby) (ci : Nat) (c : Client) (command flag : Nat) (data : List Nat) :
    (on_subcommand_forward_check_game_loading P E s l ci c command flag data).lobby.data.enemies
      = l.data.enemies := by
  simp only [on_subcommand_forward_check_game_loading, attempt]
  repeat' split
  all_goals rfl

/-- `on_subcommand_word_select` leaves the enemy table as it was. -/
theorem word_select_enemies (P : Protocol) (E : Env) (s : ServerState)
    (l : Lobby) (ci : Nat) (c : Client) (command flag : Nat) (data : List Nat) :
    (on_subcommand_word_select P E s l ci c command flag data).lobby.data.enemies
      = l.data.enemies := by
  simp only [on_subcommand_word_select, attempt]
  repeat' split
  all_goals rfl

/-- `on_subcommand_phase_setup` leaves the enemy table as it was. -/
theorem phase_setup_enemies (P : Protocol) (E : Env) (s : ServerState)
    (l : Lobby) (ci : Nat) (c : Client) (command flag : Nat) (data : List Nat) :
    (on_subcommand_phase_setup P E s l ci c command flag data).lobby.data.enemies
      = l.data.enemies := by
  simp only [on_subcommand_phase_setup, attempt]
  repeat' split
  all_goals rfl

/-- `on_subcommand_buy_shop_item_bb` leaves the enemy table as it was. -/
theorem buy_shop_item_bb_enemies (P : Protocol) (E : Env) (s : ServerState)
    (l : Lobby) (ci : Nat) (c : Client) (command flag : Nat) (data : List Nat) :
    (on_subcommand_buy_shop_item_bb P E s l ci c command flag data).lobby.data.enemies
      = l.data.enemies := by
  simp only [on_subcommand_buy_shop_item_bb, attempt]
  repeat' split
  all_goals rfl

/-- `on_subcommand_identify_item_bb` leaves the enemy table as it was. -/
theorem identify_item_bb_enemies (P : Protocol) (E : Env) (s : ServerState)
    (l : Lobby) (ci : Nat) (c : Client) (command flag : Nat) (data : List Nat) :
    (on_subcommand_identify_item_bb P E s l ci c command flag data).lobby.data.enemies
      = l.data.enemies := by
  simp only [on_subcommand_identify_item_bb, attempt]
  repeat' split
  all_goals rfl

/-- `on_subcommand_accept_identify_item_bb` leaves the enemy table as it was. -/
theorem accept_identify_item_bb_enemies (P : Protocol) (E : Env) (s : ServerState)
    (l : Lobby) (ci : Nat) (c : Client) (command flag : Nat) (data : List Nat) :
    (on_subcommand_accept_identify_item_bb P E s l ci c command flag data).lobby.data.enemies
      = l.data.enemies := by
  simp only [on_subcommand_accept_identify_item_bb, attempt]
  repeat' split
  all_goals rfl

/-- `on_subcommand_open_bank_bb_or_card_trade_counter_ep3` leaves the enemy table as it was. -/
theorem open_bank_bb_or_card_trade_counter_ep3_enemies (P : Protocol) (E : Env) (s : ServerState)
    (l : Lobby) (ci : Nat) (c : Client) (command flag : Nat) (data : List Nat) :
    (on_subcommand_open_bank_bb_or_card_trade_counter_ep3 P E s l ci c command flag data).lobby.data.enemies
      = l.data.enemies := by
  simp only [on_subcommand_open_bank_bb_or_card_trade_counter_ep3, attempt]
  repeat' split
  all_goals rfl

/-- `on_subcommand_forward_check_size_ep3_game` leaves the enemy table as it was. -/
theorem forward_check_size_ep3_game_enemies (P : Protocol) (E : Env) (s : ServerState)
    (l : Lobby) (ci : Nat) (c : Client) (command flag : Nat) (data : List Nat) :
    (on_subcommand_forward_check_size_ep3_game P E s l ci c command flag data).lobby.data.enemies
      = l.data.enemies := by
  simp only [on_subcommand_forward_check_size_ep3_game, attempt]
  repeat' split
  all_goals rfl

/-- `on_subcommand_bank_action_bb` leaves the enemy table as it was. -/
theorem bank_action_bb_enemies (P : Protocol) (E : Env) (s : ServerState)
    (l : Lobby) (ci : Nat) (c : Client) (command flag : Nat) (data : List Nat) :
    (on_subcommand_bank_action_bb P E s l ci c command flag data).lobby.data.enemies
      = l.data.enemies := by
  simp only [on_subcommand_bank_action_bb, attempt]
  repeat' split
  all_goals rfl

/-- `on_subcommand_forward_check_size_ep3_lobby` leaves the enemy table as it was. -/
theorem forward_check_size_ep3_lobby_enemies (P : Protocol) (E : Env) (s : ServerState)
    (l : Lobby) (ci : Nat) (c : Client) (command flag : Nat) (data : List Nat) :
    (on_subcommand_forward_check_size_ep3_lobby P E s l ci c command flag data).lobby.data.enemies
      = l.data.enemies := by
  simp only [on_subcommand_forward_check_size_ep3_lobby, attempt]
  repeat' split
  all_goals rfl

/-- `on_subcommand_sell_item_at_shop_bb` leaves the enemy table as it was. -/
theorem sell_item_at_shop_bb_enemies (P : Protocol) (E : Env) (s : ServerState)
    (l : Lobby) (ci : Nat) (c : Client) (command flag : Nat) (data : List Nat) :
    (on_subcommand_sell_item_at_shop_bb P E s l ci c command flag data).lobby.data.enemies
      = l.data.enemies := by
  simp only [on_subcommand_sell_item_at_shop_bb, attempt]
  repeat' split
  all_goals rfl

/-- `on_subcommand_drop_partial_stack_bb` leaves the enemy table as it was. -/
theorem drop_partial_stack_bb_enemies (P : Protocol) (E : Env) (s : ServerState)
    (l : Lobby) (ci : Nat) (c : Client) (command flag : Nat) (data : List Nat) :
    (on_subcommand_drop_partial_stack_bb P E s l ci c command flag data).lobby.data.enemies
      = l.data.enemies := by
  simp only [on_subcommand_drop_partial_stack_bb, attempt]
  repeat' split
  all_goals rfl

/-- `on_subcommand_sort_inventory_bb` leaves the enemy table as it was. -/
theorem sort_inventory_bb_enemies (P : Protocol) (E : Env) (s : ServerState)
    (l : Lobby) (ci : Nat) (c : Client) (command flag : Nat) (data : List Nat) :
    (on_subcommand_sort_inventory_bb P E s l ci c command flag data).lobby.data.enemies
      = l.data.enemies := by
  simp only [on_subcommand_sort_inventory_bb, attempt]
  repeat' split
  all_goals rfl

/-- `on_subcommand_medical_center_bb` leaves the enemy table as it was. -/
theorem medical_center_bb_enemies (P : Protocol) (E : Env) (s : ServerState)
    (l : Lobby) (ci : Nat) (c : Client) (command flag : Nat) (data : List Nat) :
    (on_subcommand_medical_center_bb P E s l ci c command flag data).lobby.data.enemies
      = l.data.enemies := by
  simp only [on_subcommand_medical_center_bb, attempt]
  repeat' split
  all_goals rfl

/-- `on_subcommand_ep3_battle_subs` leaves the enemy table as it was. -/
theorem ep3_battle_subs_enemies (P : Protocol) (E : Env) (s : ServerState)
    (l : Lobby) (ci : Nat) (c : Client) (command flag : Nat) (data : List Nat) :
    (on_subcommand_ep3_battle_subs P E s l ci c command flag data).lobby.data.enemies
      = l.data.enemies := by
  simp only [on_subcommand_ep3_battle_subs, attempt]
  repeat' split
  all_goals rfl

/-- `on_subcommand_unimplemented` leaves the enemy table as it was. -/
theorem unimplemented_enemies (P : Protocol) (E : Env) (s : ServerState)
    (l : Lobby) (ci : Nat) (c : Client) (command flag : Nat) (data : List Nat) :
    (on_subcommand_unimplemented P E s l ci c command flag data).lobby.data.enemies
      = l.data.enemies := by
  simp only [on_subcommand_unimplemented, attempt]
  repeat' split
  all_goals rfl

/-- `on_subcommand_movement` leaves the enemy table as it was. -/
theorem movement_enemies (cmd : Cmd) (P : Protocol) (E : Env) (s : ServerState)
    (l : Lobby) (ci : Nat) (c : Client) (command flag : Nat) (data : List Nat) :
    (on_subcommand_movement cmd P E s l ci c command flag data).lobby.data.enemies
      = l.data.enemies := by
  simp only [on_subcommand_movement, attempt]
  repeat' split
  all_goals rfl

/-- `on_subcommand_attack_finished` leaves the enemy table as it was. -/
theorem attack_finished_enemies (P : Protocol) (E : Env) (s : ServerState)
    (l : Lobby) (ci : Nat) (c : Client) (command flag : Nat) (data : List Nat) :
    (on_subcommand_attack_finished P E s l ci c command flag data).lobby.data.enemies
      = l.data.enemies := by
  simp only [on_subcommand_attack_finished, attempt]
  repeat' split
  all_goals first | rfl | exact forward_check_size_client_enemies P E s l ci c command flag data

/-- `on_subcommand_cast_technique` leaves the enemy table as it was. -/
theorem cast_technique_enemies (P : Protocol) (E : Env) (s : ServerState)
    (l : Lobby) (ci : Nat) (c : Client) (command flag : Nat) (data : List Nat) :
    (on_subcommand_cast_technique P E s l ci c command flag data).lobby.data.enemies
      = l.data.enemies := by
  simp only [on_subcommand_cast_technique, attempt]
  repeat' split
  all_goals first | rfl | exact forward_check_size_client_enemies P E s l ci c command flag data

/-- `on_subcommand_subtract_pb_energy` leaves the enemy table as it was. -/
theorem subtract_pb_energy_enemies (P : Protocol) (E : Env) (s : ServerState)
    (l : Lobby) (ci : Nat) (c : Client) (command flag : Nat) (data : List Nat) :
    (on_subcommand_subtract_pb_energy P E s l ci c command flag data).lobby.data.enemies
      = l.data.enemies := by
  simp only [on_subcommand_subtract_pb_energy, attempt]
  repeat' split
  all_goals first | rfl | exact forward_check_size_client_enemies P E s l ci c command flag data

/-- `on_subcommand_open_shop_bb_or_ep3_battle_subs` leaves the enemy table as it was. -/
theorem open_shop_bb_or_ep3_battle_subs_enemies (P : Protocol) (E : Env) (s : ServerState)
    (l : Lobby) (ci : Nat) (c : Client) (command flag : Nat) (data : List Nat) :
    (on_subcommand_open_shop_bb_or_ep3_battle_subs P E s l ci c command flag
      data).lobby.data.enemies = l.data.enemies := by
  simp only [on_subcommand_open_shop_bb_or_ep3_battle_subs, attempt]
  repeat' split
  all_goals first | rfl | exact ep3_battle_subs_enemies P E s l ci c command flag data

/-- `on_subcommand_enemy_drop_item_request` leaves the enemy table as it was. -/
theorem enemy_drop_item_request_enemies (P : Protocol) (E : Env) (s : ServerState)
    (l : Lobby) (ci : Nat) (c : Client) (command flag : Nat) (data : List Nat) :
    (on_subcommand_enemy_drop_item_request P E s l ci c command flag data).lobby.data.enemies
      = l.data.enemies := by
  simp only [on_subcommand_enemy_drop_item_request, attempt]
  repeat' split
  all_goals first | rfl | (rw [drop_or_forward_enemies]; exact drop_item_enemies ..)

/-- `on_subcommand_box_drop_item_request` leaves the enemy table as it was. -/
theorem box_drop_item_request_enemies (P : Protocol) (E : Env) (s : ServerState)
    (l : Lobby) (ci : Nat) (c : Client) (command flag : Nat) (data : List Nat) :
    (on_subcommand_box_drop_item_request P E s l ci c command flag data).lobby.data.enemies
      = l.data.enemies := by
  simp only [on_subcommand_box_drop_item_request, attempt]
  repeat' split
  all_goals first | rfl | (rw [drop_or_forward_enemies]; exact drop_item_enemies ..)

/-- Every handler other than enemy hit and enemy killed leaves the enemy table as it
was. -/
theorem other_handlers_enemies (fn : Handler) (h1 : fn ≠ .on_subcommand_enemy_hit)
    (h2 : fn ≠ .on_subcommand_enemy_killed) (P : Protocol) (E : Env) (s : ServerState)
    (l : Lobby) (ci : Nat) (c : Client) (command flag : Nat) (data : List Nat) :
    (fn.run P E s l ci c command flag data).lobby.data.enemies = l.data.enemies := by
  cases fn
  case on_subcommand_enemy_hit => exact absurd rfl h1
  case on_subcommand_enemy_killed => exact absurd rfl h2
  case on_subcommand_movement cmd => exact movement_enemies cmd P E s l ci c command flag data
  case on_subcommand_invalid => exact invalid_enemies P E s l ci c command flag data
  case on_subcommand_switch_state_changed => exact switch_state_changed_enemies P E s l ci c command flag data
  case on_subcommand_send_guild_card => exact send_guild_card_enemies P E s l ci c command flag data
  case on_subcommand_symbol_chat => exact symbol_chat_enemies P E s l ci c command flag data
  case on_subcommand_forward_check_size_game => exact forward_check_size_game_enemies P E s l ci c command flag data
  case on_subcommand_forward_check_size => exact forward_check_size_enemies P E s l ci c command flag data
  case on_subcommand_change_area => exact change_area_enemies P E s l ci c command flag data
  case on_subcommand_forward_check_size_client => exact forward_check_size_client_enemies P E s l ci c command flag data
  case on_subcommand_set_player_visibility => exact set_player_visibility_enemies P E s l ci c command flag data
  case on_subcommand_equip_unequip_item => exact equip_unequip_item_enemies P E s l ci c command flag data
  case on_subcommand_use_item => exact use_item_enemies P E s l ci c command flag data
  case on_subcommand_destroy_inventory_item => exact destroy_inventory_item_enemies P E s l ci c command flag data
  case on_subcommand_player_drop_item => exact player_drop_item_enemies P E s l ci c command flag data
  case on_subcommand_create_inventory_item => exact create_inventory_item_enemies P E s l ci c command flag data
  case on_subcommand_hit_by_enemy => exact hit_by_enemy_enemies P E s l ci c command flag data
  case on_subcommand_forward_check_game => exact forward_check_game_enemies P E s l ci c command flag data
  case on_subcommand_cast_technique_finished => exact cast_technique_finished_enemies P E s l ci c command flag data
  case on_subcommand_pick_up_item => exact pick_up_item_enemies P E s l ci c command flag data
  case on_subcommand_pick_up_item_request => exact pick_up_item_request_enemies P E s l ci c command flag data
  case on_subcommand_drop_partial_stack => exact drop_partial_stack_enemies P E s l ci c command flag data
  case on_subcommand_buy_shop_item => exact buy_shop_item_enemies P E s l ci c command flag data
  case on_subcommand_box_or_enemy_item_drop => exact box_or_enemy_item_drop_enemies P E s l ci c command flag data
  case on_subcommand_destroy_ground_item => exact destroy_ground_item_enemies P E s l ci c command flag data
  case on_subcommand_forward_check_game_loading => exact forward_check_game_loading_enemies P E s l ci c command flag data
  case on_subcommand_word_select => exact word_select_enemies P E s l ci c command flag data
  case on_subcommand_phase_setup => exact phase_setup_enemies P E s l ci c command flag data
  case on_subcommand_buy_shop_item_bb => exact buy_shop_item_bb_enemies P E s l ci c command flag data
  case on_subcommand_identify_item_bb => exact identify_item_bb_enemies P E s l ci c command flag data
  case on_subcommand_accept_identify_item_bb => exact accept_identify_item_bb_enemies P E s l ci c command flag data
  case on_subcommand_open_bank_bb_or_card_trade_counter_ep3 => exact open_bank_bb_or_card_trade_counter_ep3_enemies P E s l ci c command flag data
  case on_subcommand_forward_check_size_ep3_game => exact forward_check_size_ep3_game_enemies P E s l ci c command flag data
  case on_subcommand_bank_action_bb => exact bank_action_bb_enemies P E s l ci c command flag data
  case on_subcommand_forward_check_size_ep3_lobby => exact forward_check_size_ep3_lobby_enemies P E s l ci c command flag data
  case on_subcommand_sell_item_at_shop_bb => exact sell_item_at_shop_bb_enemies P E s l ci c command flag data
  case on_subcommand_drop_partial_stack_bb => exact drop_partial_stack_bb_enemies P E s l ci c command flag data
  case on_subcommand_sort_inventory_bb => exact sort_inventory_bb_enemies P E s l ci c command flag data
  case on_subcommand_medical_center_bb => exact medical_center_bb_enemies P E s l ci c command flag data
  case on_subcommand_ep3_battle_subs => exact ep3_battle_subs_enemies P E s l ci c command flag data
  case on_subcommand_attack_finished => exact attack_finished_enemies P E s l ci c command flag data
  case on_subcommand_cast_technique => exact cast_technique_enemies P E s l ci c command flag data
  case on_subcommand_subtract_pb_energy => exact subtract_pb_energy_enemies P E s l ci c command flag data
  case on_subcommand_open_shop_bb_or_ep3_battle_subs => exact open_shop_bb_or_ep3_battle_subs_enemies P E s l ci c command flag data
  case on_subcommand_enemy_drop_item_request => exact enemy_drop_item_request_enemies P E s l ci c command flag data
  case on_subcommand_box_drop_item_request => exact box_drop_item_request_enemies P E s l ci c command flag data
/-- A bit of a byte survives an `|=` on the byte. -/
theorem testBit_or_mod_256 (a b k : Nat) (hk : k < 8) (h : a.testBit k = true) :
    ((a ||| b) % 256).testBit k = true := by
  have e : (256 : Nat) = 2 ^ 8 := by norm_num
  rw [e, Nat.testBit_mod_two_pow]
  simp [hk, h]

/-- The kill bit is bit 7. -/
theorem kill_bit_iff (x : Nat) : x &&& 0x80 ≠ 0 ↔ x.testBit 7 = true := by
  have e : (0x80 : Nat) = 2 ^ 7 := by norm_num
  constructor
  · intro h
    by_contra hb
    apply h
    apply Nat.eq_of_testBit_eq
    intro j
    rw [Nat.testBit_and, e, Nat.testBit_two_pow, Nat.zero_testBit]
    by_cases hj : 7 = j
    · subst hj; simp at hb; simp [hb]
    · simp [hj]
  · intro h h0
    have := congrArg (fun v => v.testBit 7) h0
    simp only [Nat.testBit_and, e, Nat.testBit_two_pow, Nat.zero_testBit, h] at this
    simp at this

theorem flags_kept_refl (es : List Enemy) : flags_kept es es :=
  ⟨rfl, fun _ _ _ h => h⟩

/-- Writing an entry whose flags are the old ones with bits added keeps the flags. -/
theorem flags_kept_set (es : List Enemy) (id b lh : Nat) :
    flags_kept es (es.set id
      { es.getD id ⟨0, 0, 0⟩ with
        hit_flags := ((es.getD id ⟨0, 0, 0⟩).hit_flags ||| b) % 256, last_hit := lh }) := by
  refine ⟨by simp, ?_⟩
  intro i k hk h
  by_cases hi : id = i
  · subst hi
    by_cases hl : id < es.length
    · rw [List.getD_eq_getElem?_getD, List.getElem?_set_self hl]
      simp only [Option.getD_some]
      exact testBit_or_mod_256 _ _ _ hk h
    · rw [List.set_eq_of_length_le (by omega)]
      exact h
  · rw [List.getD_eq_getElem?_getD, List.getElem?_set_ne hi, ← List.getD_eq_getElem?_getD]
    exact h

/-- The loop over the slots leaves the enemy table as it was. -/
theorem enemy_killed_loop_enemies (s : ServerState) (enemy : Enemy) :
    ∀ (n x : Nat) (l : Lobby) (events : List Event),
      (enemy_killed_loop s enemy n x l events).lobby.data.enemies = l.data.enemies
  | 0, _, _, _ => rfl
  | n + 1, x, l, events => by
    rw [enemy_killed_loop]
    split
    · exact enemy_killed_loop_enemies s enemy n (x + 1) l events
    · split
      · exact enemy_killed_loop_enemies s enemy n (x + 1) l events
      · split
        · exact enemy_killed_loop_enemies s enemy n (x + 1) l events
        · simp only []
          split
          · rfl
          · rw [enemy_killed_loop_enemies s enemy n (x + 1)]
            rfl

/-- What the enemy-hit handler does to the enemy table. -/
theorem enemy_hit_enemies (P : Protocol) (E : Env) (s : ServerState)
    (l : Lobby) (ci : Nat) (c : Client) (command flag : Nat) (data : List Nat) :
    (on_subcommand_enemy_hit P E s l ci c command flag data).lobby.data.enemies
        = l.data.enemies ∨
    ((l.data.enemy (header_id data)).hit_flags &&& 0x80 = 0 ∧
      (on_subcommand_enemy_hit P E s l ci c command flag data).lobby.data.enemies
        = l.data.enemies.set (header_id data)
          { l.data.enemies.getD (header_id data) ⟨0, 0, 0⟩ with
            hit_flags := ((l.data.enemies.getD (header_id data) ⟨0, 0, 0⟩).hit_flags
              ||| 1 <<< c.lobby_client_id) % 256
            last_hit := c.lobby_client_id }) := by
  simp only [on_subcommand_enemy_hit, attempt]
  repeat' split
  all_goals first
    | exact Or.inl rfl
    | (refine Or.inr ⟨?_, rfl⟩; simp_all)

/-- What the enemy-killed handler does to the enemy table. -/
theorem enemy_killed_enemies (P : Protocol) (E : Env) (s : ServerState)
    (l : Lobby) (ci : Nat) (c : Client) (command flag : Nat) (data : List Nat) :
    (on_subcommand_enemy_killed P E s l ci c command flag data).lobby.data.enemies
        = l.data.enemies ∨
    (on_subcommand_enemy_killed P E s l ci c command flag data).lobby.data.enemies
        = l.data.enemies.set (header_id data)
          { l.data.enemies.getD (header_id data) ⟨0, 0, 0⟩ with
            hit_flags := ((l.data.enemies.getD (header_id data) ⟨0, 0, 0⟩).hit_flags
              ||| 0x80) % 256
            last_hit := (l.data.enemies.getD (header_id data) ⟨0, 0, 0⟩).last_hit } := by
  simp only [on_subcommand_enemy_killed, attempt]
  repeat' split
  all_goals first
    | exact Or.inl rfl
    | (refine Or.inr ?_; rw [enemy_killed_loop_enemies]; rfl)

/-- Every handler keeps the hit flags. -/
theorem handler_flags_kept (fn : Handler) (P : Protocol) (E : Env) (s : ServerState)
    (l : Lobby) (ci : Nat) (c : Client) (command flag : Nat) (data : List Nat) :
    flags_kept l.data.enemies (fn.run P E s l ci c command flag data).lobby.data.enemies := by
  by_cases h1 : fn = .on_subcommand_enemy_hit
  · subst h1
    rcases enemy_hit_enemies P E s l ci c command flag data with h | ⟨_, h⟩
    · simp only [Handler.run]; rw [h]; exact flags_kept_refl _
    · simp only [Handler.run]; rw [h]; exact flags_kept_set _ _ _ _
  · by_cases h2 : fn = .on_subcommand_enemy_killed
    · subst h2
      rcases enemy_killed_enemies P E s l ci c command flag data with h | h
      · simp only [Handler.run]; rw [h]; exact flags_kept_refl _
      · simp only [Handler.run]; rw [h]; exact flags_kept_set _ _ _ _
    · rw [other_handlers_enemies fn h1 h2]
      exact flags_kept_refl _

/-- C16: the kill bit is sticky.  Whatever subcommand `on_subcommand` dispatches, to
whatever handler, no bit of the hit flags of any enemy is cleared (the enemy table keeps
its length), so an enemy whose kill bit 0x80 is set before the call has it set afterwards;
and an enemy-hit subcommand (0x0A) for an enemy whose kill bit is set leaves the whole
enemy table, its hit flags and its last hitter included, as it was. -/
theorem C16_kill_bit_sticky (P : Protocol) (E : Env) (s : ServerState) (l : Lobby)
    (ci : Nat) (c : Client) (command flag : Nat) (data : List Nat) :
    flags_kept l.data.enemies
      (on_subcommand P E s l ci c command flag data).lobby.data.enemies ∧
    (∀ i, (l.data.enemy i).hit_flags &&& 0x80 ≠ 0 →
      ((on_subcommand P E s l ci c command flag data).lobby.data.enemy i).hit_flags
        &&& 0x80 ≠ 0) ∧
    (header_subcommand data = 0x0A →
      (l.data.enemy (header_id data)).hit_flags &&& 0x80 ≠ 0 →
      (on_subcommand P E s l ci c command flag data).lobby.data.enemies = l.data.enemies) := by
  have hk : flags_kept l.data.enemies
      (on_subcommand P E s l ci c command flag data).lobby.data.enemies := by
    unfold on_subcommand
    split
    · exact flags_kept_refl _
    · split
      · exact handler_flags_kept _ P E s l ci c command flag data
      · rw [unimplemented_enemies]; exact flags_kept_refl _
  refine ⟨hk, ?_, ?_⟩
  · intro i h
    rw [kill_bit_iff] at h ⊢
    exact hk.2 i 7 (by norm_num) h
  · intro hop hkill
    unfold on_subcommand
    split
    · rfl
    · have ht : subcommand_handlers.getD 0x0A none = some .on_subcommand_enemy_hit := by
        decide
      rw [hop, ht]
      rcases enemy_hit_enemies P E s l ci c command flag data with h | ⟨h0, _⟩
      · exact h
      · exact absurd h0 hkill
/-- The level-up loop ends within `199 - level` passes when it is entered below level 199;
the level does not decrease and ends at most at 199, the loop is left at level 199 or with
the experience below the threshold of the next level, and `leveled_up` tells whether the
level has grown. -/
theorem level_up_loop_spec (s : ServerState) :
    ∀ (fuel : Nat) (disp : PlayerDispData) (b : Bool), disp.level < 199 →
      199 - disp.level ≤ fuel →
      ∃ r, level_up_loop s fuel disp b = some r ∧ disp.level ≤ r.1.level ∧ r.1.level ≤ 199 ∧
        (r.1.level = 199 ∨
          r.1.experience < (s.stats_for_level r.1.char_class (r.1.level + 1)).experience) ∧
        (r.2 = true ↔ (b = true ∨ disp.level < r.1.level)) ∧
        r.1.experience = disp.experience ∧ r.1.char_class = disp.char_class ∧
        r.1.meseta = disp.meseta
  | 0, disp, b, h1, h2 => by omega
  | fuel + 1, disp, b, h1, h2 => by
    rw [level_up_loop]
    dsimp only
    split
    · split
      · rename_i hlt
        obtain ⟨r, hr, h3, h4, h5, h6, h7, h8, h9⟩ :=
          level_up_loop_spec s fuel
            (PlayerDispData.mk ((s.stats_for_level disp.char_class (disp.level + 1)).apply disp.stats)
              (disp.level + 1) disp.experience disp.meseta disp.char_class)
            true hlt (by dsimp only; omega)
        dsimp only at h3 h7 h8 h9
        refine ⟨r, hr, by omega, h4, h5, ?_, h7, h8, h9⟩
        rw [h6]
        constructor
        · intro _; right; omega
        · intro _; left; rfl
      · rename_i hge
        refine ⟨(_, _), rfl, ?_, ?_, Or.inl ?_, ?_, rfl, rfl, rfl⟩
        · dsimp only; omega
        · dsimp only; omega
        · dsimp only; omega
        · dsimp only; simp
    · rename_i hlt
      refine ⟨(_, _), rfl, le_refl _, by dsimp only; omega, Or.inr ?_, ?_, rfl, rfl, rfl⟩
      · dsimp only; omega
      · dsimp only; simp

/-- The result of the loop body when the level-up loop ends with `r`. -/
theorem enemy_killed_award_eq (s : ServerState) (enemy : Enemy) (lobby_id : Nat)
    (other_c : Client) (r : PlayerDispData × Bool)
    (hr : level_up_loop s 200
      (PlayerDispData.mk other_c.player.disp.stats other_c.player.disp.level
        (add32 other_c.player.disp.experience (experience_share enemy other_c))
        other_c.player.disp.meseta other_c.player.disp.char_class) false = some r) :
    enemy_killed_award s enemy lobby_id other_c =
      (other_c.set_player { other_c.player with disp := r.1 },
        Event.send_give_experience lobby_id other_c.id (experience_share enemy other_c) ::
          (if r.2 then [Event.send_level_up lobby_id other_c.id] else []), none) := by
  unfold enemy_killed_award
  dsimp only
  rw [hr]

/-- C20: for a player awarded experience by `on_subcommand_enemy_killed` (the loop body
runs for players below level 199), the level-up loop terminates, the player's level does
not decrease and ends at most at 199, on exit either the level is 199 or the cumulative
experience is below the level table's threshold for level + 1, and a level-up message is
sent for the player exactly when the level has increased. -/
theorem C20_level_up_loop (s : ServerState) (enemy : Enemy) (lobby_id : Nat)
    (other_c : Client) (hlevel : other_c.player.disp.level < 199) :
    (enemy_killed_award s enemy lobby_id other_c).2.2 = none ∧
    other_c.player.disp.level
      ≤ (enemy_killed_award s enemy lobby_id other_c).1.player.disp.level ∧
    (enemy_killed_award s enemy lobby_id other_c).1.player.disp.level ≤ 199 ∧
    ((enemy_killed_award s enemy lobby_id other_c).1.player.disp.level = 199 ∨
      (enemy_killed_award s enemy lobby_id other_c).1.player.disp.experience <
        (s.stats_for_level (enemy_killed_award s enemy lobby_id other_c).1.player.disp.char_class
          ((enemy_killed_award s enemy lobby_id other_c).1.player.disp.level + 1)).experience) ∧
    (Event.send_level_up lobby_id other_c.id ∈ (enemy_killed_award s enemy lobby_id other_c).2.1
      ↔ other_c.player.disp.level
          < (enemy_killed_award s enemy lobby_id other_c).1.player.disp.level) := by
  obtain ⟨r, hr, h3, h4, h5, h6, -⟩ :=
    level_up_loop_spec s 200
      (PlayerDispData.mk other_c.player.disp.stats other_c.player.disp.level
        (add32 other_c.player.disp.experience (experience_share enemy other_c))
        other_c.player.disp.meseta other_c.player.disp.char_class)
      false hlevel (by dsimp only; omega)
  dsimp only at h3 h6
  rw [enemy_killed_award_eq s enemy lobby_id other_c r hr]
  refine ⟨rfl, h3, h4, h5, ?_⟩
  show _ ↔ other_c.player.disp.level < r.1.level
  simp only [List.mem_cons, List.mem_ite_nil_right, List.mem_singleton, and_true,
    reduceCtorEq, false_or]
  rw [h6]
  simp

/-- C20: the statement applies to a level-1 player with 1500 experience who is given
1000: the player reaches level 2 and a level-up message is sent. -/
theorem C20_level_up_loop_witness :
    (enemy_killed_award sample_server_state ⟨0x81, 0, 1000⟩ 1
      (sample_client 100 0 .BB (sample_player 1 1500 0))).2.2 = none ∧
    (enemy_killed_award sample_server_state ⟨0x81, 0, 1000⟩ 1
      (sample_client 100 0 .BB (sample_player 1 1500 0))).1.player.disp.level = 2 ∧
    Event.send_level_up 1 100 ∈ (enemy_killed_award sample_server_state ⟨0x81, 0, 1000⟩ 1
      (sample_client 100 0 .BB (sample_player 1 1500 0))).2.1 :=
  have h := C20_level_up_loop sample_server_state ⟨0x81, 0, 1000⟩ 1
    (sample_client 100 0 .BB (sample_player 1 1500 0)) (by decide)
  ⟨h.1, by decide, h.2.2.2.2.2 (by decide)⟩
/-- The loop body never reports an endless level-up loop for a player below level 199. -/
theorem enemy_killed_award_error (s : ServerState) (enemy : Enemy) (lobby_id : Nat)
    (other_c : Client) (hlevel : other_c.player.disp.level < 199) :
    (enemy_killed_award s enemy lobby_id other_c).2.2 = none := by
  obtain ⟨r, hr, -⟩ :=
    level_up_loop_spec s 200
      (PlayerDispData.mk other_c.player.disp.stats other_c.player.disp.level
        (add32 other_c.player.disp.experience (experience_share enemy other_c))
        other_c.player.disp.meseta other_c.player.disp.char_class)
      false hlevel (by dsimp only; omega)
  rw [enemy_killed_award_eq s enemy lobby_id other_c r hr]

/-- Reading a slot after a write to an occupied slot. -/
theorem client_set_client (l : Lobby) (x y : Nat) (c oc : Client)
    (h : l.data.client x = some oc) :
    (l.set_client x c).data.client y = if y = x then some c else l.data.client y := by
  have hx : x < l.data.clients.length := by
    by_contra hn
    unfold LobbyData.client at h
    rw [List.getD_eq_default _ _ (by omega)] at h
    exact absurd h (by simp)
  simp only [Lobby.set_client, Lobby.data_set_data, LobbyData.set_client, LobbyData.client]
  by_cases hy : y = x
  · subst hy
    rw [List.getD_eq_getElem?_getD, List.getElem?_set_self (by simpa using hx)]
    simp
  · rw [List.getD_eq_getElem?_getD, List.getElem?_set_ne (Ne.symm hy),
      ← List.getD_eq_getElem?_getD]
    simp [hy]

/-- One pass of the loop over the slots, in terms of `slot_award`. -/
theorem enemy_killed_loop_succ (s : ServerState) (enemy : Enemy) (n x : Nat) (l : Lobby)
    (events : List Event) :
    ∃ l1, enemy_killed_loop s enemy (n + 1) x l events
        = enemy_killed_loop s enemy n (x + 1) l1
            (events ++ (slot_award s enemy l.data.lobby_id x (l.data.client x)).2) ∧
      l1.data.lobby_id = l.data.lobby_id ∧
      ∀ y, l1.data.client y
        = if y = x then (slot_award s enemy l.data.lobby_id x (l.data.client x)).1
          else l.data.client y := by
  rw [enemy_killed_loop]
  by_cases hb : (enemy.hit_flags >>> x) &&& 1 = 0
  · refine ⟨l, ?_, rfl, ?_⟩
    · rw [if_pos hb]
      cases hc : l.data.client x <;> simp [slot_award, hb]
    · intro y
      cases hc : l.data.client x <;> by_cases hy : y = x <;> simp [slot_award, hb, hy, hc]
  · rw [if_neg hb]
    cases hc : l.data.client x with
    | none =>
      refine ⟨l, by simp [slot_award], rfl, ?_⟩
      intro y
      by_cases hy : y = x <;> simp [slot_award, hy, hc]
    | some other_c =>
      dsimp only
      by_cases hl : other_c.player.disp.level ≥ 199
      · refine ⟨l, by simp [slot_award, hl], rfl, ?_⟩
        intro y
        by_cases hy : y = x <;> simp [slot_award, hy, hc, hl]
      · rw [if_neg hl, enemy_killed_award_error s enemy _ other_c (by omega)]
        have hcond : ¬((enemy.hit_flags >>> x) &&& 1 = 0 ∨ other_c.player.disp.level ≥ 199) :=
          by tauto
        refine ⟨l.set_client x (enemy_killed_award s enemy l.data.lobby_id other_c).1, ?_, rfl,
          ?_⟩
        · simp only [slot_award, if_neg hcond]
        · intro y
          rw [client_set_client l x y _ other_c hc]
          by_cases hy : y = x
          · simp only [hy, if_true, slot_award, if_neg hcond]
          · simp only [hy, if_false]

/-- The loop over the slots: it ends without an exception, each slot it passes holds what
`slot_award` leaves there, the other slots are as before, and the events are those of
`slot_award`, slot by slot. -/
theorem enemy_killed_loop_spec (s : ServerState) (enemy : Enemy) :
    ∀ (n x : Nat) (l : Lobby) (events : List Event),
      (enemy_killed_loop s enemy n x l events).error = none ∧
      (∀ y, (enemy_killed_loop s enemy n x l events).lobby.data.client y
        = if x ≤ y ∧ y < x + n then (slot_award s enemy l.data.lobby_id y (l.data.client y)).1
          else l.data.client y) ∧
      (enemy_killed_loop s enemy n x l events).events
        = events ++ (List.range' x n).flatMap fun y =>
            (slot_award s enemy l.data.lobby_id y (l.data.client y)).2
  | 0, x, l, events => by
    refine ⟨rfl, ?_, ?_⟩
    · intro y
      have : ¬(x ≤ y ∧ y < x + 0) := by omega
      rw [if_neg this]
      rfl
    · simp [enemy_killed_loop]
  | n + 1, x, l, events => by
    obtain ⟨l1, h1, hid, hcl⟩ := enemy_killed_loop_succ s enemy n x l events
    obtain ⟨ih1, ih2, ih3⟩ := enemy_killed_loop_spec s enemy n (x + 1) l1
      (events ++ (slot_award s enemy l.data.lobby_id x (l.data.client x)).2)
    rw [h1]
    refine ⟨ih1, ?_, ?_⟩
    · intro y
      rw [ih2 y, hid, hcl y]
      by_cases hy : y = x
      · subst hy
        have h1 : ¬(y + 1 ≤ y ∧ y < y + 1 + n) := by omega
        have h2 : y ≤ y ∧ y < y + (n + 1) := by omega
        rw [if_neg h1, if_pos h2, if_pos rfl]
      · rw [if_neg hy]
        by_cases hr : x + 1 ≤ y ∧ y < x + 1 + n
        · rw [if_pos hr, if_pos (by omega)]
        · rw [if_neg hr, if_neg (by omega)]
    · rw [ih3, hid, List.range'_succ, List.flatMap_cons, List.append_assoc]
      congr 1
      congr 1
      apply List.flatMap_congr
      intro y hy
      rw [hcl y, if_neg]
      have := List.mem_range'_1.mp hy
      omega
/-- The dispatcher calls the handler of the table entry of the payload's first byte. -/
theorem on_subcommand_entry (P : Protocol) (E : Env) (s : ServerState) (l : Lobby)
    (ci : Nat) (c : Client) (command flag : Nat) (data : List Nat) (fn : Handler)
    (hne : data ≠ [])
    (hfn : subcommand_handlers.getD (header_subcommand data) none = some fn) :
    on_subcommand P E s l ci c command flag data = fn.run P E s l ci c command flag data := by
  unfold on_subcommand
  have : data.isEmpty = false := by
    cases data with
    | nil => exact absurd rfl hne
    | cons a t => rfl
  rw [this, hfn]
  rfl

/-- A payload that passes the size check is not empty. -/
theorem ne_nil_of_check_size_sc (data : List Nat) (min_size max_size : Nat)
    (h : check_size_sc data min_size max_size true = .ok ()) : data ≠ [] := by
  have h4 := ((check_size_sc_ok_iff data _ _).1 h).2.2.1
  intro hd
  rw [hd] at h4
  simp at h4

/-- The slot test of the loop reads bit `x` of the hit flags. -/
theorem shift_and_one (m x : Nat) : (m >>> x) &&& 1 = 0 ↔ m.testBit x = false := by
  rw [Nat.testBit, Nat.and_comm]
  simp

/-- The experience of a player after the loop body: the share is added in 32 bits. -/
theorem enemy_killed_award_experience (s : ServerState) (enemy : Enemy) (lobby_id : Nat)
    (other_c : Client) (hlevel : other_c.player.disp.level < 199) :
    (enemy_killed_award s enemy lobby_id other_c).1.player.disp.experience
      = add32 other_c.player.disp.experience (experience_share enemy other_c) := by
  obtain ⟨r, hr, -, -, -, -, h7, -⟩ :=
    level_up_loop_spec s 200
      (PlayerDispData.mk other_c.player.disp.stats other_c.player.disp.level
        (add32 other_c.player.disp.experience (experience_share enemy other_c))
        other_c.player.disp.meseta other_c.player.disp.char_class)
      false hlevel (by dsimp only; omega)
  rw [enemy_killed_award_eq s enemy lobby_id other_c r hr]
  exact h7

/-- The enemy-killed handler in a V4 game, for an enemy in range whose kill bit is clear
and whose experience is known: the kill bit is set and the loop over the slots runs. -/
theorem enemy_killed_runs_loop (P : Protocol) (E : Env) (s : ServerState) (l : Lobby)
    (ci : Nat) (c : Client) (command flag : Nat) (data : List Nat)
    (hv : l.data.version = .BB) (hg : l.data.is_game = true)
    (hsz : check_size_sc data (P.sizeof .G_EnemyKilled_6xC8) (P.sizeof .G_EnemyKilled_6xC8)
      true = .ok ())
    (hin : header_id data < l.data.enemies.length)
    (hkill : (l.data.enemy (header_id data)).hit_flags &&& 0x80 = 0)
    (hexp : (l.data.enemy (header_id data)).experience ≠ 0xFFFFFFFF) :
    on_subcommand_enemy_killed P E s l ci c command flag data =
      enemy_killed_loop s
        { l.data.enemy (header_id data) with
          hit_flags := ((l.data.enemy (header_id data)).hit_flags ||| 0x80) % 256 }
        l.data.max_clients 0
        (l.set_enemies (l.data.enemies.set (header_id data)
          { l.data.enemy (header_id data) with
            hit_flags := ((l.data.enemy (header_id data)).hit_flags ||| 0x80) % 256 }))
        (forward_subcommand l c command flag data) := by
  unfold on_subcommand_enemy_killed
  simp only [hv, if_true, attempt, hsz, hg, Bool.not_true, Bool.false_eq_true, if_false,
    ge_iff_le, Nat.not_le.mpr hin, hkill, ne_eq, not_true_eq_false, if_neg hexp]
/-- Setting the kill bit leaves the bits of the slots below 7 as they were. -/
theorem testBit_or_kill (hf x : Nat) (hx : x < 7) :
    ((hf ||| 0x80) % 256).testBit x = hf.testBit x := by
  have e : (256 : Nat) = 2 ^ 8 := by norm_num
  have e2 : (0x80 : Nat) = 2 ^ 7 := by norm_num
  rw [e, Nat.testBit_mod_two_pow, Nat.testBit_or, e2, Nat.testBit_two_pow]
  have h1 : x < 8 := by omega
  have h2 : ¬(7 = x) := by omega
  simp [h1, h2]

/-- Setting the kill bit sets it. -/
theorem kill_bit_set (hf : Nat) : ((hf ||| 0x80) % 256) &&& 0x80 ≠ 0 := by
  rw [kill_bit_iff]
  have e : (256 : Nat) = 2 ^ 8 := by norm_num
  have e2 : (0x80 : Nat) = 2 ^ 7 := by norm_num
  rw [e, Nat.testBit_mod_two_pow, Nat.testBit_or, e2, Nat.testBit_two_pow]
  simp

set_option maxRecDepth 1000000 in
/-- C17, counterexample: an enemy worth 60000000 experience (a 32-bit value) is killed in
a V4 game after the players in slots 0 and 1 have hit it, slot 1 last.  The player in slot
0 gains 3250327 experience, not `⌊60000000 × 77 / 100⌋ = 46200000`: the product is
computed in 32 bits. -/
theorem C17_share_wraps :
    60000000 * 77 / 100 = 46200000 ∧
    ((sample_room .BB [⟨3, 1, 60000000⟩]).data.client 0).map
      (fun oc => oc.player.disp.experience) = some 0 ∧
    ((on_subcommand sample_protocol sample_env sample_server_state
        (sample_room .BB [⟨3, 1, 60000000⟩]) 1
        (sample_client 101 1 .BB (sample_player 1 0 500)) 0x60 0
        [0xC8, 2, 0, 0, 0, 0, 0, 0]).lobby.data.client 0).map
      (fun oc => oc.player.disp.experience) = some 3250327 := by
  decide

/-- C17, amended: when a V4 EnemyKilled subcommand is processed in a game of at most 7
slots, each slot holding the client whose `lobby_client_id` is the slot's index, for an
in-range enemy whose kill bit is clear and whose experience `e` is known
(`e ≠ 0xFFFFFFFF`), with `e × 77 < 2 ^ 32` and no player's experience exceeding
`2 ^ 32 - 1 - e`, the handler ends without an exception, the kill bit becomes set, every
occupied slot `x` whose bit `x` is set in the hit flags and whose player is below level 199
gains exactly `e` if `x` is the last hitter and exactly `⌊e × 77 / 100⌋` otherwise, and
every other slot is as before. -/
theorem C17_experience_award (P : Protocol) (E : Env) (s : ServerState) (l : Lobby)
    (ci : Nat) (c : Client) (command flag : Nat) (data : List Nat)
    (hop : header_subcommand data = 0xC8)
    (hv : l.data.version = .BB) (hg : l.data.is_game = true)
    (hsz : check_size_sc data (P.sizeof .G_EnemyKilled_6xC8) (P.sizeof .G_EnemyKilled_6xC8)
      true = .ok ())
    (hin : header_id data < l.data.enemies.length)
    (hkill : (l.data.enemy (header_id data)).hit_flags &&& 0x80 = 0)
    (hexp : (l.data.enemy (header_id data)).experience ≠ 0xFFFFFFFF)
    (hmul : (l.data.enemy (header_id data)).experience * 77 < 2 ^ 32)
    (hslots : l.data.max_clients ≤ 7)
    (hid : ∀ x oc, l.data.client x = some oc → oc.lobby_client_id = x)
    (hsum : ∀ x oc, l.data.client x = some oc →
      oc.player.disp.experience + (l.data.enemy (header_id data)).experience < 2 ^ 32) :
    (on_subcommand P E s l ci c command flag data).error = none ∧
    award_as_specified l.data (on_subcommand P E s l ci c command flag data).lobby.data
      (header_id data) := by
  have ht : subcommand_handlers.getD 0xC8 none = some .on_subcommand_enemy_killed := by
    decide
  rw [on_subcommand_entry P E s l ci c command flag data _
    (ne_nil_of_check_size_sc data _ _ hsz) (by rw [hop]; exact ht)]
  simp only [Handler.run]
  rw [enemy_killed_runs_loop P E s l ci c command flag data hv hg hsz hin hkill hexp]
  obtain ⟨h1, h2, -⟩ := enemy_killed_loop_spec s
    { l.data.enemy (header_id data) with
      hit_flags := ((l.data.enemy (header_id data)).hit_flags ||| 0x80) % 256 }
    l.data.max_clients 0
    (l.set_enemies (l.data.enemies.set (header_id data)
      { l.data.enemy (header_id data) with
        hit_flags := ((l.data.enemy (header_id data)).hit_flags ||| 0x80) % 256 }))
    (forward_subcommand l c command flag data)
  refine ⟨h1, ?_, ?_⟩
  · unfold LobbyData.enemy
    rw [enemy_killed_loop_enemies, Lobby.enemies_set_enemies, List.getD_eq_getElem?_getD,
      List.getElem?_set_self hin]
    exact kill_bit_set _
  · intro x
    have hcl : (l.set_enemies (l.data.enemies.set (header_id data)
        { l.data.enemy (header_id data) with
          hit_flags := ((l.data.enemy (header_id data)).hit_flags ||| 0x80) % 256 })).data.client x
        = l.data.client x := rfl
    rw [h2 x, hcl]
    cases hc : l.data.client x with
    | none => simp [slot_award]
    | some oc =>
      dsimp only
      by_cases hcond : x < l.data.max_clients ∧
          (l.data.enemy (header_id data)).hit_flags.testBit x = true ∧
          oc.player.disp.level < 199
      · obtain ⟨hx, hbit, hlev⟩ := hcond
        rw [if_pos ⟨hx, hbit, hlev⟩, if_pos ⟨Nat.zero_le _, by omega⟩]
        have hb : ¬((((l.data.enemy (header_id data)).hit_flags ||| 0x80) % 256) >>> x
            &&& 1 = 0 ∨ oc.player.disp.level ≥ 199) := by
          rw [shift_and_one, testBit_or_kill _ _ (by omega), hbit]
          simp
          omega
        simp only [slot_award, if_neg hb]
        refine ⟨_, rfl, ?_⟩
        rw [enemy_killed_award_experience s _ _ oc hlev]
        have hs := hsum x oc hc
        have hi := hid x oc hc
        unfold experience_share add32
        dsimp only
        rw [hi, Nat.mod_eq_of_lt hmul]
        by_cases hlh : x = (l.data.enemy (header_id data)).last_hit
        · rw [if_pos hlh.symm, if_pos hlh]
          exact Nat.mod_eq_of_lt hs
        · rw [if_neg (Ne.symm hlh), if_neg hlh]
          apply Nat.mod_eq_of_lt
          have : (l.data.enemy (header_id data)).experience * 77 / 100
              ≤ (l.data.enemy (header_id data)).experience := by omega
          omega
      · rw [if_neg hcond]
        by_cases hx : x < l.data.max_clients
        · rw [if_pos ⟨Nat.zero_le _, by omega⟩]
          have hb : (((l.data.enemy (header_id data)).hit_flags ||| 0x80) % 256) >>> x
              &&& 1 = 0 ∨ oc.player.disp.level ≥ 199 := by
            rw [shift_and_one, testBit_or_kill _ _ (by omega)]
            by_cases hbit : (l.data.enemy (header_id data)).hit_flags.testBit x = true
            · right
              by_contra hl
              exact hcond ⟨hx, hbit, by omega⟩
            · left
              simpa using hbit
          simp only [slot_award, if_pos hb]
        · rw [if_neg (by omega)]

/-- C17, amended: the statement applies to the specification's example, an enemy worth
1000 experience hit by the players in slots 0 and 1, slot 1 last; the award is as
specified (770 for slot 0, 1000 for slot 1). -/
theorem C17_experience_award_witness :
    award_as_specified (sample_room .BB [⟨3, 1, 1000⟩]).data
      (on_subcommand sample_protocol sample_env sample_server_state
        (sample_room .BB [⟨3, 1, 1000⟩]) 1
        (sample_client 101 1 .BB (sample_player 1 0 500)) 0x60 0
        [0xC8, 2, 0, 0, 0, 0, 0, 0]).lobby.data 0 :=
  (C17_experience_award sample_protocol sample_env sample_server_state
    (sample_room .BB [⟨3, 1, 1000⟩]) 1 (sample_client 101 1 .BB (sample_player 1 0 500))
    0x60 0 [0xC8, 2, 0, 0, 0, 0, 0, 0] (by decide) (by decide) (by decide) (by rfl)
    (by decide) (by decide) (by decide) (by decide) (by decide)
    (by
      intro x oc h
      have hx : x = 0 ∨ x = 1 ∨ 2 ≤ x := by omega
      rcases hx with rfl | rfl | hx
      · cases h; rfl
      · cases h; rfl
      · exfalso
        have h2 : (sample_room .BB [⟨3, 1, 1000⟩]).data.client x = none := by
          have hx' : x = 2 ∨ x = 3 ∨ 4 ≤ x := by omega
          rcases hx' with rfl | rfl | hx'
          · rfl
          · rfl
          · exact List.getD_eq_default _ _ (by simpa using hx')
        rw [h2] at h
        exact absurd h (by simp))
    (by
      intro x oc h
      have hx : x = 0 ∨ x = 1 ∨ 2 ≤ x := by omega
      rcases hx with rfl | rfl | hx
      · cases h; decide
      · cases h; decide
      · exfalso
        have h2 : (sample_room .BB [⟨3, 1, 1000⟩]).data.client x = none := by
          have hx' : x = 2 ∨ x = 3 ∨ 4 ≤ x := by omega
          rcases hx' with rfl | rfl | hx'
          · rfl
          · rfl
          · exact List.getD_eq_default _ _ (by simpa using hx')
        rw [h2] at h
        exact absurd h (by simp))).2
/-- The broadcast sends no give-experience or level-up message. -/
theorem send_command_excluding_client_no_award (d : LobbyData) (c : Client)
    (command flag : Nat) (data : List Nat) :
    ∀ e ∈ send_command_excluding_client d c command flag data, e.is_award = false := by
  intro e he
  unfold send_command_excluding_client at he
  rw [List.mem_filterMap] at he
  obtain ⟨t, -, ht⟩ := he
  cases t with
  | none => simp at ht
  | some target =>
    dsimp only at ht
    split at ht
    · simp at ht
    · injection ht with ht
      subst ht
      rfl

/-- The card-battle loop sends no give-experience or level-up message. -/
theorem forward_ep3_loop_no_award (d : LobbyData) (c : Client)
    (command flag : Nat) (data : List Nat) :
    ∀ e ∈ forward_ep3_loop d c command flag data, e.is_award = false := by
  intro e he
  unfold forward_ep3_loop at he
  rw [List.mem_filterMap] at he
  obtain ⟨t, -, ht⟩ := he
  cases t with
  | none => simp at ht
  | some target =>
    dsimp only at ht
    split at ht
    · simp at ht
    · injection ht with ht
      subst ht
      rfl

/-- `forward_subcommand` sends no give-experience or level-up message. -/
theorem forward_subcommand_no_award (l : Lobby) (c : Client) (command flag : Nat)
    (data : List Nat) : ∀ e ∈ forward_subcommand l c command flag data, e.is_award = false := by
  cases l with
  | mk d ws =>
    rw [forward_subcommand_ignores_watchers]
    unfold forward_subcommand
    dsimp only
    split
    · simp
    · split
      · split
        · simp
        · split
          · simp
          · split
            · simp
            · simp [Event.is_award]
      · intro e he
        rw [List.mem_append, List.mem_append] at he
        rcases he with (h | h) | h
        · split at h
          · exact forward_ep3_loop_no_award d c command flag data e h
          · exact send_command_excluding_client_no_award d c command flag data e h
        · simp [forward_to_watchers] at h
        · split at h
          · simp only [List.mem_singleton] at h
            subst h
            rfl
          · simp at h

/-- C18: experience for an enemy is awarded at most once.  Once the kill bit of an enemy
is set, a further EnemyKilled subcommand for it leaves the room — every player's
experience, level and stats included — as it was, and the only events are those of the
forwarding of the payload: no give-experience and no level-up message is sent. -/
theorem C18_no_second_award (P : Protocol) (E : Env) (s : ServerState) (l : Lobby)
    (ci : Nat) (c : Client) (command flag : Nat) (data : List Nat)
    (hop : header_subcommand data = 0xC8)
    (hin : header_id data < l.data.enemies.length)
    (hkill : (l.data.enemy (header_id data)).hit_flags &&& 0x80 ≠ 0) :
    (on_subcommand P E s l ci c command flag data).lobby = l ∧
    (on_subcommand P E s l ci c command flag data).events
      = forward_subcommand l c command flag data ∧
    ∀ e ∈ (on_subcommand P E s l ci c command flag data).events, e.is_award = false := by
  have hne : data ≠ [] := by
    intro hd
    rw [hd] at hop
    exact absurd hop (by decide)
  have ht : subcommand_handlers.getD 0xC8 none = some .on_subcommand_enemy_killed := by
    decide
  rw [on_subcommand_entry P E s l ci c command flag data _ hne (by rw [hop]; exact ht)]
  have key : (on_subcommand_enemy_killed P E s l ci c command flag data).lobby = l ∧
      (on_subcommand_enemy_killed P E s l ci c command flag data).events
        = forward_subcommand l c command flag data := by
    unfold on_subcommand_enemy_killed
    simp only [attempt]
    split
    · split
      · exact ⟨rfl, rfl⟩
      · split
        · exact ⟨rfl, rfl⟩
        · rw [if_neg (by omega)]
          exact ⟨rfl, rfl⟩
    · exact ⟨rfl, rfl⟩
  simp only [Handler.run]
  refine ⟨key.1, key.2, ?_⟩
  rw [key.2]
  exact forward_subcommand_no_award l c command flag data

/-- C18: the statement applies to a second EnemyKilled for an enemy whose flags are 0x83
(hit by slots 0 and 1, killed). -/
theorem C18_no_second_award_witness :
    (on_subcommand sample_protocol sample_env sample_server_state
      (sample_room .BB [⟨0x83, 1, 1000⟩]) 1
      (sample_client 101 1 .BB (sample_player 1 0 500)) 0x60 0
      [0xC8, 2, 0, 0, 0, 0, 0, 0]).lobby = sample_room .BB [⟨0x83, 1, 1000⟩] :=
  (C18_no_second_award sample_protocol sample_env sample_server_state
    (sample_room .BB [⟨0x83, 1, 1000⟩]) 1 (sample_client 101 1 .BB (sample_player 1 0 500))
    0x60 0 [0xC8, 2, 0, 0, 0, 0, 0, 0] (by decide) (by decide) (by decide)).1
set_option maxRecDepth 100000 in
/-- The enemy-hit handler is the entry of sub-opcode 0x0A only. -/
theorem enemy_hit_entry :
    ∀ which < 256, subcommand_handlers.getD which none = some .on_subcommand_enemy_hit →
      which = 0x0A := by
  decide

/-- Bit `k` of `1 << n`. -/
theorem testBit_one_shiftLeft (n k : Nat) : (1 <<< n).testBit k = decide (n = k) := by
  rw [Nat.one_shiftLeft, Nat.testBit_two_pow]

/-- A hit bit that is set after a call of `on_subcommand` was set before it, or the call
is an enemy-hit subcommand for this enemy from the slot of the bit. -/
theorem hit_bit_step (d : Dispatch) (l : Lobby) (id k : Nat) (hk : k < 7)
    (h : (((d.run l).lobby.data.enemy id).hit_flags).testBit k = true) :
    ((l.data.enemy id).hit_flags).testBit k = true ∨ d.is_hit id k = true := by
  unfold Dispatch.run on_subcommand at h
  split at h
  · exact Or.inl h
  · split at h
    · rename_i fn hfn
      by_cases h1 : fn = .on_subcommand_enemy_hit
      · subst h1
        have hw : header_subcommand d.data = 0x0A := by
          by_cases hlt : header_subcommand d.data < 256
          · exact enemy_hit_entry _ hlt hfn
          · rw [List.getD_eq_default _ _ (by rw [subcommand_handlers_length]; omega)] at hfn
            exact absurd hfn (by simp)
        simp only [Handler.run] at h
        rcases enemy_hit_enemies d.P d.E d.s l d.ci d.c d.command d.flag d.data with he | ⟨-, he⟩
        · unfold LobbyData.enemy at h ⊢
          rw [he] at h
          exact Or.inl h
        · unfold LobbyData.enemy at h ⊢
          rw [he] at h
          by_cases hid : header_id d.data = id
          · by_cases hin : id < l.data.enemies.length
            · rw [hid, List.getD_eq_getElem?_getD, List.getElem?_set_self hin] at h
              simp only [Option.getD_some] at h
              have e : (256 : Nat) = 2 ^ 8 := by norm_num
              rw [e, Nat.testBit_mod_two_pow, Nat.testBit_or, testBit_one_shiftLeft] at h
              simp only [Bool.and_eq_true, Bool.or_eq_true, decide_eq_true_eq] at h
              rcases h.2 with h2 | h2
              · exact Or.inl h2
              · right
                simp [Dispatch.is_hit, hw, hid, h2]
            · rw [List.set_eq_of_length_le (by omega)] at h
              exact Or.inl h
          · rw [List.getD_eq_getElem?_getD, List.getElem?_set_ne hid,
              ← List.getD_eq_getElem?_getD] at h
            exact Or.inl h
      · by_cases h2 : fn = .on_subcommand_enemy_killed
        · subst h2
          simp only [Handler.run] at h
          rcases enemy_killed_enemies d.P d.E d.s l d.ci d.c d.command d.flag d.data with he | he
          · unfold LobbyData.enemy at h ⊢
            rw [he] at h
            exact Or.inl h
          · unfold LobbyData.enemy at h ⊢
            rw [he] at h
            by_cases hid : header_id d.data = id
            · by_cases hin : id < l.data.enemies.length
              · rw [hid, List.getD_eq_getElem?_getD, List.getElem?_set_self hin] at h
                simp only [Option.getD_some] at h
                rw [testBit_or_kill _ _ hk] at h
                exact Or.inl h
              · rw [List.set_eq_of_length_le (by omega)] at h
                exact Or.inl h
            · rw [List.getD_eq_getElem?_getD, List.getElem?_set_ne hid,
                ← List.getD_eq_getElem?_getD] at h
              exact Or.inl h
        · unfold LobbyData.enemy at h ⊢
          rw [other_handlers_enemies fn h1 h2] at h
          exact Or.inl h
    · unfold LobbyData.enemy at h ⊢
      rw [unimplemented_enemies] at h
      exact Or.inl h

/-- A hit bit that is set after a sequence of calls was set before it, or one of the calls
is an enemy-hit subcommand for this enemy from the slot of the bit. -/
theorem hit_bit_trace (id k : Nat) (hk : k < 7) :
    ∀ (ds : List Dispatch) (l : Lobby),
      (((run_dispatches l ds).data.enemy id).hit_flags).testBit k = true →
      ((l.data.enemy id).hit_flags).testBit k = true ∨ ∃ d ∈ ds, d.is_hit id k = true
  | [], l, h => Or.inl h
  | d :: ds, l, h => by
    rw [run_dispatches] at h
    rcases hit_bit_trace id k hk ds _ h with h1 | ⟨d', hd', h1⟩
    · rcases hit_bit_step d l id k hk h1 with h2 | h2
      · exact Or.inl h2
      · exact Or.inr ⟨d, List.mem_cons_self _ _, h2⟩
    · exact Or.inr ⟨d', List.mem_cons_of_mem _ hd', h1⟩
theorem experience_given_append (a b : List Event) :
    experience_given (a ++ b) = experience_given a + experience_given b := by
  induction a with
  | nil => simp [experience_given]
  | cons e a ih => cases e <;> simp [experience_given, ih, Nat.add_assoc]

/-- Events without a give-experience message give no experience. -/
theorem experience_given_no_award (a : List Event) (h : ∀ e ∈ a, e.is_award = false) :
    experience_given a = 0 := by
  induction a with
  | nil => rfl
  | cons e a ih =>
    have he := h e (List.mem_cons_self _ _)
    have ih' := ih fun e' he' => h e' (List.mem_cons_of_mem _ he')
    cases e <;> simp_all [experience_given, Event.is_award]

/-- A share is at most the enemy's experience. -/
theorem experience_share_le (enemy : Enemy) (other_c : Client) :
    experience_share enemy other_c ≤ enemy.experience := by
  unfold experience_share
  split
  · exact le_refl _
  · by_cases h : enemy.experience * 77 < 2 ^ 32
    · rw [Nat.mod_eq_of_lt h]
      exact Nat.div_le_of_le_mul (by omega)
    · have h1 : enemy.experience * 77 % 2 ^ 32 < 2 ^ 32 := Nat.mod_lt _ (by norm_num)
      have h2 : enemy.experience * 77 % 2 ^ 32 / 100 ≤ 42949672 :=
        Nat.le_of_lt_succ (Nat.div_lt_of_lt_mul (by omega))
      have h3 : 55778797 ≤ enemy.experience := by omega
      omega

/-- The experience given for one slot is at most the enemy's experience, and none is given
unless the bit of the slot is set in the hit flags. -/
theorem slot_award_given (s : ServerState) (enemy : Enemy) (lobby_id x : Nat)
    (t : Option Client) :
    experience_given (slot_award s enemy lobby_id x t).2
      ≤ if enemy.hit_flags.testBit x = true then enemy.experience else 0 := by
  unfold slot_award
  cases t with
  | none => simp [experience_given]
  | some other_c =>
    dsimp only
    split
    · simp [experience_given]
    · rename_i hc
      rw [not_or, shift_and_one] at hc
      obtain ⟨hb, hl⟩ := hc
      have hb' : enemy.hit_flags.testBit x = true := by simpa using hb
      obtain ⟨r, hr, -⟩ :=
        level_up_loop_spec s 200
          (PlayerDispData.mk other_c.player.disp.stats other_c.player.disp.level
            (add32 other_c.player.disp.experience (experience_share enemy other_c))
            other_c.player.disp.meseta other_c.player.disp.char_class)
          false (by dsimp only; omega) (by dsimp only; omega)
      rw [enemy_killed_award_eq s enemy lobby_id other_c r hr, if_pos hb']
      dsimp only
      rw [experience_given]
      have : experience_given
          (if r.2 = true then [Event.send_level_up lobby_id other_c.id] else []) = 0 := by
        split <;> rfl
      rw [this]
      exact experience_share_le enemy other_c

/-- A slot is changed by `slot_award` only if its bit is set in the hit flags. -/
theorem slot_award_changed (s : ServerState) (enemy : Enemy) (lobby_id x : Nat)
    (t : Option Client) (h : (slot_award s enemy lobby_id x t).1 ≠ t) :
    enemy.hit_flags.testBit x = true := by
  unfold slot_award at h
  cases t with
  | none => exact absurd rfl h
  | some other_c =>
    dsimp only at h
    split at h
    · exact absurd rfl h
    · rename_i hc
      rw [not_or, shift_and_one] at hc
      simpa using hc.1

/-- A sum over slots of terms bounded by `e` on the slots that satisfy `p`, and by 0 on the
others, is at most `e` times the number of slots that satisfy `p`. -/
theorem given_flatMap_le (f : Nat → List Event) (p : Nat → Bool) (e : Nat) :
    ∀ xs : List Nat, (∀ x ∈ xs, experience_given (f x) ≤ if p x = true then e else 0) →
      experience_given (xs.flatMap f) ≤ e * (xs.filter p).length
  | [], _ => by simp [experience_given]
  | x :: xs, h => by
    rw [List.flatMap_cons, experience_given_append]
    have h1 := h x (List.mem_cons_self _ _)
    have h2 := given_flatMap_le f p e xs fun y hy => h y (List.mem_cons_of_mem _ hy)
    by_cases hp : p x = true
    · rw [List.filter_cons_of_pos hp, List.length_cons, Nat.mul_succ]
      rw [if_pos hp] at h1
      omega
    · rw [List.filter_cons_of_neg hp]
      rw [if_neg hp] at h1
      omega
/-- The enemy-killed handler either leaves the room as it was and sends no give-experience
or level-up message, or it is in the case of `enemy_killed_runs_loop`. -/
theorem enemy_killed_cases (P : Protocol) (E : Env) (s : ServerState) (l : Lobby)
    (ci : Nat) (c : Client) (command flag : Nat) (data : List Nat) :
    ((on_subcommand_enemy_killed P E s l ci c command flag data).lobby = l ∧
      ∀ e ∈ (on_subcommand_enemy_killed P E s l ci c command flag data).events,
        e.is_award = false) ∨
    (l.data.version = .BB ∧ l.data.is_game = true ∧
      check_size_sc data (P.sizeof .G_EnemyKilled_6xC8) (P.sizeof .G_EnemyKilled_6xC8) true
        = .ok () ∧
      header_id data < l.data.enemies.length ∧
      (l.data.enemy (header_id data)).hit_flags &&& 0x80 = 0 ∧
      (l.data.enemy (header_id data)).experience ≠ 0xFFFFFFFF) := by
  have hs := forward_subcommand_no_award l c command flag data
  have hs2 : ∀ (m : String), ∀ e ∈ forward_subcommand l c command flag data
      ++ [Event.send_text_message c.id m], e.is_award = false := by
    intro m e he
    rw [List.mem_append, List.mem_singleton] at he
    rcases he with he | he
    · exact hs e he
    · subst he; rfl
  by_cases hv : l.data.version = .BB
  · cases hsz : check_size_sc data (P.sizeof .G_EnemyKilled_6xC8)
        (P.sizeof .G_EnemyKilled_6xC8) true with
    | error e =>
      left
      simp only [on_subcommand_enemy_killed, hv, if_true, attempt, hsz]
      refine ⟨?_, ?_⟩ <;> trivial
    | ok u =>
      by_cases hg : l.data.is_game = true
      · by_cases hin : header_id data < l.data.enemies.length
        · by_cases hkill : (l.data.enemy (header_id data)).hit_flags &&& 0x80 = 0
          · by_cases hexp : (l.data.enemy (header_id data)).experience = 0xFFFFFFFF
            · left
              simp only [on_subcommand_enemy_killed, hv, if_true, attempt, hsz, hg,
                Bool.not_true, Bool.false_eq_true, if_false, ge_iff_le, Nat.not_le.mpr hin,
                hkill, ne_eq, not_true_eq_false, if_pos hexp]
              refine ⟨?_, ?_⟩ <;> first | trivial | exact hs2 _
            · exact Or.inr ⟨hv, hg, rfl, hin, hkill, hexp⟩
          · left
            simp only [on_subcommand_enemy_killed, hv, if_true, attempt, hsz, hg,
              Bool.not_true, Bool.false_eq_true, if_false, ge_iff_le, Nat.not_le.mpr hin,
              ne_eq, hkill, not_false_eq_true]
            refine ⟨?_, ?_⟩ <;> trivial
        · left
          simp only [on_subcommand_enemy_killed, hv, if_true, attempt, hsz, hg,
            Bool.not_true, Bool.false_eq_true, if_false, ge_iff_le, Nat.le_of_not_lt hin]
          refine ⟨?_, ?_⟩ <;> first | trivial | exact hs2 _
      · left
        have hg' : l.data.is_game = false := by simpa using hg
        simp only [on_subcommand_enemy_killed, hv, if_true, attempt, hsz, hg',
          Bool.not_false]
        refine ⟨?_, ?_⟩ <;> trivial
  · left
    simp only [on_subcommand_enemy_killed, hv, if_false]
    refine ⟨?_, ?_⟩ <;> trivial

set_option maxRecDepth 1000000 in
/-- C19, counterexample: in a V4 game of twelve slots, the player of slot 0 hits an enemy
worth 1000 experience and kills it.  The player of slot 7, who never hit it, is given 770
experience, because bit 7 of the hit flags is the kill bit; 1770 experience is given in
all, more than 1000 times the one player who hit. -/
theorem C19_slot_seven_is_paid :
    (sample_room_12.data.enemy 0).hit_flags = 0 ∧
    hitters [sample_dispatch [0x0A, 2, 0, 0, 0, 0, 0, 0]] 0 12 = [0] ∧
    ((run_dispatches sample_room_12 [sample_dispatch [0x0A, 2, 0, 0, 0, 0, 0, 0]]).data.client
      7).map (fun oc => oc.player.disp.experience) = some 0 ∧
    (((sample_dispatch [0xC8, 2, 0, 0, 0, 0, 0, 0]).run
      (run_dispatches sample_room_12
        [sample_dispatch [0x0A, 2, 0, 0, 0, 0, 0, 0]])).lobby.data.client 7).map
      (fun oc => oc.player.disp.experience) = some 770 ∧
    experience_given ((sample_dispatch [0xC8, 2, 0, 0, 0, 0, 0, 0]).run
      (run_dispatches sample_room_12
        [sample_dispatch [0x0A, 2, 0, 0, 0, 0, 0, 0]])).events = 1770 := by
  decide

/-- C19, amended: for every game room of at most 7 slots and every enemy whose hit flags
start at zero, whatever subcommands have been dispatched since, an EnemyKilled subcommand
for the enemy changes the record of a slot only if an enemy-hit subcommand for the enemy
has been sent from that slot, and the experience it gives in all is at most the enemy's
experience times the number of slots that have hit it. -/
theorem C19_experience_only_to_hitters (l0 : Lobby) (ds : List Dispatch) (d : Dispatch)
    (id : Nat) (hfresh : (l0.data.enemy id).hit_flags = 0)
    (hop : header_subcommand d.data = 0xC8) (hid : header_id d.data = id)
    (hslots : (run_dispatches l0 ds).data.max_clients ≤ 7) :
    (∀ x, (d.run (run_dispatches l0 ds)).lobby.data.client x
        ≠ (run_dispatches l0 ds).data.client x → ∃ d' ∈ ds, d'.is_hit id x = true) ∧
    experience_given (d.run (run_dispatches l0 ds)).events
      ≤ ((run_dispatches l0 ds).data.enemy id).experience
        * (hitters ds id (run_dispatches l0 ds).data.max_clients).length := by
  subst hid
  have hne : d.data ≠ [] := by
    intro hd
    rw [hd] at hop
    exact absurd hop (by decide)
  have ht : subcommand_handlers.getD 0xC8 none = some .on_subcommand_enemy_killed := by
    decide
  have hbit : ∀ x, x < 7 →
      (((run_dispatches l0 ds).data.enemy (header_id d.data)).hit_flags).testBit x = true →
      ∃ d' ∈ ds, d'.is_hit (header_id d.data) x = true := by
    intro x hx hb
    rcases hit_bit_trace (header_id d.data) x hx ds l0 hb with h | h
    · rw [hfresh] at h
      simp at h
    · exact h
  unfold Dispatch.run
  rw [on_subcommand_entry d.P d.E d.s _ d.ci d.c d.command d.flag d.data _ hne
    (by rw [hop]; exact ht)]
  simp only [Handler.run]
  generalize run_dispatches l0 ds = l at hslots hbit ⊢
  rcases enemy_killed_cases d.P d.E d.s l d.ci d.c d.command d.flag d.data with
    ⟨h1, h2⟩ | ⟨hv, hg, hsz, hin, hkill, hexp⟩
  · refine ⟨?_, ?_⟩
    · intro x hx
      rw [h1] at hx
      exact absurd rfl hx
    · rw [experience_given_no_award _ h2]
      exact Nat.zero_le _
  · rw [enemy_killed_runs_loop d.P d.E d.s l d.ci d.c d.command d.flag d.data hv hg hsz hin
      hkill hexp]
    obtain ⟨-, h2, h3⟩ := enemy_killed_loop_spec d.s
      { l.data.enemy (header_id d.data) with
        hit_flags := ((l.data.enemy (header_id d.data)).hit_flags ||| 0x80) % 256 }
      l.data.max_clients 0
      (l.set_enemies (l.data.enemies.set (header_id d.data)
        { l.data.enemy (header_id d.data) with
          hit_flags := ((l.data.enemy (header_id d.data)).hit_flags ||| 0x80) % 256 }))
      (forward_subcommand l d.c d.command d.flag d.data)
    refine ⟨?_, ?_⟩
    · intro x hx
      rw [h2 x] at hx
      by_cases hr : 0 ≤ x ∧ x < 0 + l.data.max_clients
      · rw [if_pos hr] at hx
        have hb := slot_award_changed _ _ _ _ _ hx
        dsimp only at hb
        rw [testBit_or_kill _ _ (by omega)] at hb
        exact hbit x (by omega) hb
      · rw [if_neg hr] at hx
        exact absurd rfl hx
    · rw [h3, experience_given_append,
        experience_given_no_award _ (forward_subcommand_no_award l d.c d.command d.flag d.data),
        Nat.zero_add, ← List.range_eq_range']
      unfold hitters
      apply given_flatMap_le
      intro x hx
      have hx' : x < l.data.max_clients := List.mem_range.mp hx
      refine le_trans (slot_award_given _ _ _ _ _) ?_
      dsimp only
      rw [testBit_or_kill _ _ (by omega)]
      by_cases hb : (l.data.enemy (header_id d.data)).hit_flags.testBit x = true
      · rw [if_pos hb]
        obtain ⟨d', hd', hh⟩ := hbit x (by omega) hb
        have : (ds.any fun d' => d'.is_hit (header_id d.data) x) = true := by
          rw [List.any_eq_true]
          exact ⟨d', hd', hh⟩
        rw [if_pos this]
      · rw [if_neg hb]
        exact Nat.zero_le _

set_option maxRecDepth 1000000 in
/-- C19, amended: the statement applies to a game of four slots in which the player of
slot 0 hits an enemy worth 1000 experience and then kills it. -/
theorem C19_experience_only_to_hitters_witness :
    experience_given ((sample_dispatch [0xC8, 2, 0, 0, 0, 0, 0, 0]).run
      (run_dispatches (sample_room .BB [⟨0, 0, 1000⟩])
        [sample_dispatch [0x0A, 2, 0, 0, 0, 0, 0, 0]])).events
      ≤ ((run_dispatches (sample_room .BB [⟨0, 0, 1000⟩])
          [sample_dispatch [0x0A, 2, 0, 0, 0, 0, 0, 0]]).data.enemy 0).experience
        * (hitters [sample_dispatch [0x0A, 2, 0, 0, 0, 0, 0, 0]] 0
            (run_dispatches (sample_room .BB [⟨0, 0, 1000⟩])
              [sample_dispatch [0x0A, 2, 0, 0, 0, 0, 0, 0]]).data.max_clients).length :=
  (C19_experience_only_to_hitters (sample_room .BB [⟨0, 0, 1000⟩])
    [sample_dispatch [0x0A, 2, 0, 0, 0, 0, 0, 0]] (sample_dispatch [0xC8, 2, 0, 0, 0, 0, 0, 0])
    0 (by decide) (by decide) (by decide) (by decide)).2

/-! ## Bank, shop and item handlers -/

/-- The bank handler on a meseta action in a V4 game with item tracking: the room
afterwards. -/
theorem bank_action_meseta (P : Protocol) (E : Env) (s : ServerState) (l : Lobby)
    (ci : Nat) (c : Client) (command flag : Nat) (data : List Nat)
    (hv : l.data.version = .BB) (hg : l.data.is_game = true)
    (htrack : l.data.item_tracking_enabled = true)
    (hsz : check_size_sc data (P.sizeof .G_BankAction_BB_6xBD) (P.sizeof .G_BankAction_BB_6xBD)
      true = .ok ())
    (hitem : P.field .G_BankAction_BB_6xBD .item_id data = 0xFFFFFFFF)
    (hact : P.field .G_BankAction_BB_6xBD .action data = 0 ∨
      P.field .G_BankAction_BB_6xBD .action data = 1)
    (hm : c.player.disp.meseta ≤ 999999) (hb : c.player.bank.meseta ≤ 999999) :
    on_subcommand_bank_action_bb P E s l ci c command flag data =
      if (P.field .G_BankAction_BB_6xBD .action data = 0 ∧
            P.field .G_BankAction_BB_6xBD .meseta_amount data ≤ c.player.disp.meseta ∧
            c.player.bank.meseta + P.field .G_BankAction_BB_6xBD .meseta_amount data ≤ 999999) ∨
         (P.field .G_BankAction_BB_6xBD .action data = 1 ∧
            P.field .G_BankAction_BB_6xBD .meseta_amount data ≤ c.player.bank.meseta ∧
            c.player.disp.meseta + P.field .G_BankAction_BB_6xBD .meseta_amount data ≤ 999999)
      then
        ⟨l.set_client ci (c.set_player (c.player.move_meseta
          (decide (P.field .G_BankAction_BB_6xBD .action data = 0))
          (P.field .G_BankAction_BB_6xBD .meseta_amount data))), [], none⟩
      else ⟨l, [], none⟩ := by
  unfold on_subcommand_bank_action_bb
  simp only [hv, if_true, attempt, hsz, hg, htrack, Bool.not_true, Bool.false_eq_true,
    if_false, hitem]
  generalize P.field .G_BankAction_BB_6xBD .meseta_amount data = a
  rcases hact with h0 | h1
  · simp only [h0, if_true, true_and, zero_ne_one, false_and, or_false, decide_True,
      Player.move_meseta]
    by_cases h1 : a > c.player.disp.meseta
    · rw [if_pos h1, if_neg (by omega)]
    · rw [if_neg h1]
      have e1 : add32 c.player.bank.meseta a = c.player.bank.meseta + a := by
        unfold add32; exact Nat.mod_eq_of_lt (by omega)
      have e2 : sub32 c.player.disp.meseta a = c.player.disp.meseta - a := by
        unfold sub32; rw [Nat.mod_eq_of_lt (show a < 2 ^ 32 by omega)]; omega
      rw [e1, e2]
      by_cases h2 : c.player.bank.meseta + a > 999999
      · rw [if_pos h2, if_neg (by omega)]
      · rw [if_neg h2, if_pos (by omega)]
  · simp only [h1, one_ne_zero, if_false, if_true, false_and, false_or, true_and,
      decide_False, Player.move_meseta, Bool.false_eq_true]
    by_cases h1 : a > c.player.bank.meseta
    · rw [if_pos h1, if_neg (by omega)]
    · rw [if_neg h1]
      have e1 : add32 c.player.disp.meseta a = c.player.disp.meseta + a := by
        unfold add32; exact Nat.mod_eq_of_lt (by omega)
      have e2 : sub32 c.player.bank.meseta a = c.player.bank.meseta - a := by
        unfold sub32; rw [Nat.mod_eq_of_lt (show a < 2 ^ 32 by omega)]; omega
      rw [e1, e2]
      by_cases h2 : c.player.disp.meseta + a > 999999
      · rw [if_pos h2, if_neg (by omega)]
      · rw [if_neg h2, if_pos (by omega)]

/-- C21: for a V4 bank action on meseta (`item_id = 0xFFFFFFFF`) in a game with item
tracking, with carried and bank meseta both at most 999999: the deposit (action 0) or
withdrawal (action 1) is carried out exactly when the amount does not exceed the source
balance and the destination balance plus the amount does not exceed 999999.  When carried
out, the amount has moved, carried + bank meseta is unchanged and both balances are still
at most 999999; when rejected, the room (both balances included) is unchanged. -/
theorem C21_bank_meseta (P : Protocol) (E : Env) (s : ServerState) (l : Lobby)
    (ci : Nat) (c : Client) (command flag : Nat) (data : List Nat)
    (hop : header_subcommand data = 0xBD)
    (hv : l.data.version = .BB) (hg : l.data.is_game = true)
    (htrack : l.data.item_tracking_enabled = true)
    (hsz : check_size_sc data (P.sizeof .G_BankAction_BB_6xBD) (P.sizeof .G_BankAction_BB_6xBD)
      true = .ok ())
    (hitem : P.field .G_BankAction_BB_6xBD .item_id data = 0xFFFFFFFF)
    (hact : P.field .G_BankAction_BB_6xBD .action data = 0 ∨
      P.field .G_BankAction_BB_6xBD .action data = 1)
    (hm : c.player.disp.meseta ≤ 999999) (hb : c.player.bank.meseta ≤ 999999) :
    (((P.field .G_BankAction_BB_6xBD .action data = 0 ∧
          P.field .G_BankAction_BB_6xBD .meseta_amount data ≤ c.player.disp.meseta ∧
          c.player.bank.meseta + P.field .G_BankAction_BB_6xBD .meseta_amount data ≤ 999999) ∨
        (P.field .G_BankAction_BB_6xBD .action data = 1 ∧
          P.field .G_BankAction_BB_6xBD .meseta_amount data ≤ c.player.bank.meseta ∧
          c.player.disp.meseta + P.field .G_BankAction_BB_6xBD .meseta_amount data ≤ 999999)) →
      (on_subcommand P E s l ci c command flag data).lobby
        = l.set_client ci (c.set_player (c.player.move_meseta
            (decide (P.field .G_BankAction_BB_6xBD .action data = 0))
            (P.field .G_BankAction_BB_6xBD .meseta_amount data))) ∧
      (c.player.move_meseta (decide (P.field .G_BankAction_BB_6xBD .action data = 0))
          (P.field .G_BankAction_BB_6xBD .meseta_amount data)).disp.meseta
        + (c.player.move_meseta (decide (P.field .G_BankAction_BB_6xBD .action data = 0))
          (P.field .G_BankAction_BB_6xBD .meseta_amount data)).bank.meseta
        = c.player.disp.meseta + c.player.bank.meseta ∧
      (c.player.move_meseta (decide (P.field .G_BankAction_BB_6xBD .action data = 0))
          (P.field .G_BankAction_BB_6xBD .meseta_amount data)).disp.meseta ≤ 999999 ∧
      (c.player.move_meseta (decide (P.field .G_BankAction_BB_6xBD .action data = 0))
          (P.field .G_BankAction_BB_6xBD .meseta_amount data)).bank.meseta ≤ 999999) ∧
    (¬((P.field .G_BankAction_BB_6xBD .action data = 0 ∧
          P.field .G_BankAction_BB_6xBD .meseta_amount data ≤ c.player.disp.meseta ∧
          c.player.bank.meseta + P.field .G_BankAction_BB_6xBD .meseta_amount data ≤ 999999) ∨
        (P.field .G_BankAction_BB_6xBD .action data = 1 ∧
          P.field .G_BankAction_BB_6xBD .meseta_amount data ≤ c.player.bank.meseta ∧
          c.player.disp.meseta + P.field .G_BankAction_BB_6xBD .meseta_amount data ≤ 999999)) →
      (on_subcommand P E s l ci c command flag data).lobby = l) := by
  have ht : subcommand_handlers.getD 0xBD none = some .on_subcommand_bank_action_bb := by
    decide
  rw [on_subcommand_entry P E s l ci c command flag data _
    (ne_nil_of_check_size_sc data _ _ hsz) (by rw [hop]; exact ht)]
  simp only [Handler.run]
  rw [bank_action_meseta P E s l ci c command flag data hv hg htrack hsz hitem hact hm hb]
  constructor
  · intro hc
    rw [if_pos hc]
    refine ⟨rfl, ?_⟩
    rcases hc with ⟨h0, h1, h2⟩ | ⟨h0, h1, h2⟩
    · simp only [h0, decide_True, Player.move_meseta, if_true]
      omega
    · simp only [h0, one_ne_zero, decide_False, Player.move_meseta, Bool.false_eq_true,
        if_false]
      omega
  · intro hc
    rw [if_neg hc]

/-- C21: the statement applies to a deposit of 300 meseta by a player who carries 500 and
has none in the bank: afterwards the player carries 200 and the bank holds 300. -/
theorem C21_bank_meseta_witness :
    ((on_subcommand sample_bank_protocol sample_env sample_server_state (sample_room .BB [])
        0 (sample_client 100 0 .BB (sample_player 1 0 500)) 0x60 0
        [0xBD, 4, 0, 0, 0, 0xFF, 0, 0, 44, 1, 0, 0, 0, 0, 0, 0]).lobby.data.client 0).map
      (fun oc => (oc.player.disp.meseta, oc.player.bank.meseta)) = some (200, 300) :=
  have h := (C21_bank_meseta sample_bank_protocol sample_env sample_server_state
    (sample_room .BB []) 0 (sample_client 100 0 .BB (sample_player 1 0 500)) 0x60 0
    [0xBD, 4, 0, 0, 0, 0xFF, 0, 0, 44, 1, 0, 0, 0, 0, 0, 0] (by decide) (by decide)
    (by decide) (by decide) (by rfl) (by decide) (by decide) (by decide) (by decide)).1
    (by decide)
  by rw [h.1]; decide
/-- C29, counterexample: an Equip (0x25) for an entry that is already equipped (flags 8)
leaves bit 3 set; the bit after the command is not the negation of the bit before. -/
theorem C29_equip_twice_keeps_bit :
    ((sample_item_room (sample_holder 0 [⟨1, 8, ⟨[0, 1, 0, 0, 0, 0, 0, 0, 0, 0, 0, 0], 0x10,
        [0, 0, 0, 0]⟩⟩])).data.client 0).map
      (fun oc => oc.player.inventory.items.map fun e => e.flags) = some [8] ∧
    ((on_subcommand sample_item_protocol model_env sample_server_state
        (sample_item_room (sample_holder 0 [⟨1, 8, ⟨[0, 1, 0, 0, 0, 0, 0, 0, 0, 0, 0, 0], 0x10,
          [0, 0, 0, 0]⟩⟩]))
        0 (sample_client 100 0 .BB (sample_holder 0 [⟨1, 8,
          ⟨[0, 1, 0, 0, 0, 0, 0, 0, 0, 0, 0, 0], 0x10, [0, 0, 0, 0]⟩⟩])) 0x60 0
        [0x25, 4, 0, 0, 0x10, 0, 0, 0, 0, 0, 0, 0, 0, 0, 0, 0]).lobby.data.client 0).map
      (fun oc => oc.player.inventory.items.map fun e => e.flags) = some [8] := by
  decide

/-- Bits of `flags | 8`. -/
theorem testBit_or_eight (flags k : Nat) :
    (flags ||| 0x00000008).testBit k = (flags.testBit k || decide (k = 3)) := by
  have e : (0x00000008 : Nat) = 2 ^ 3 := by norm_num
  rw [Nat.testBit_or, e, Nat.testBit_two_pow]
  by_cases h : 3 = k
  · subst h; simp
  · have h' : ¬(k = 3) := fun hk => h hk.symm
    simp [h, h']

/-- Bits of `flags & 0xFFFFFFF7`. -/
theorem testBit_and_not_eight (flags k : Nat) :
    (flags &&& 0xFFFFFFF7).testBit k = (flags.testBit k && decide (k < 32) && decide (k ≠ 3)) := by
  have e : (0xFFFFFFF7 : Nat) = (2 ^ 32 - 1) ^^^ 2 ^ 3 := by decide
  rw [Nat.testBit_and, e, Nat.testBit_xor, Nat.testBit_two_pow_sub_one, Nat.testBit_two_pow]
  by_cases h : 3 = k
  · subst h; simp
  · have h' : ¬(k = 3) := fun hk => h hk.symm
    simp [h, h', Bool.and_assoc]

/-- C29, amended: with item tracking on, an Equip (0x25) subcommand sent by the item's
owner sets bit 3 (0x08) of that inventory entry's flags and an Unequip (0x26) clears it, so
the bit is flipped exactly when the item was not equipped, respectively was equipped; no
other bit of the 32-bit flags changes, and nothing else in the entry or in the other
entries of the inventory changes. -/
theorem C29_equip_sets_unequip_clears (P : Protocol) (E : Env) (s : ServerState) (l : Lobby)
    (ci : Nat) (c : Client) (command flag : Nat) (data : List Nat) (index : Nat)
    (hop : header_subcommand data = 0x25 ∨ header_subcommand data = 0x26)
    (htrack : l.data.item_tracking_enabled = true)
    (hsz : check_size_sc data (P.sizeof .G_EquipOrUnequipItem_6x25_6x26)
      (P.sizeof .G_EquipOrUnequipItem_6x25_6x26) true = .ok ())
    (hid : header_id data = c.lobby_client_id)
    (hfind : E.find_item c.player.inventory
      (P.field .G_EquipOrUnequipItem_6x25_6x26 .item_id data) = .ok index) :
    ∃ entry : PlayerInventoryItem,
      (on_subcommand P E s l ci c command flag data).lobby
        = l.set_client ci (c.set_player { c.player with
            inventory := { c.player.inventory with
              items := c.player.inventory.items.set index entry } }) ∧
      entry.present = (c.player.inventory.items.getD index .blank).present ∧
      entry.data = (c.player.inventory.items.getD index .blank).data ∧
      entry.flags.testBit 3 = decide (header_subcommand data = 0x25) ∧
      ∀ k, k < 32 → k ≠ 3 →
        entry.flags.testBit k = (c.player.inventory.items.getD index .blank).flags.testBit k := by
  have ht1 : subcommand_handlers.getD 0x25 none = some .on_subcommand_equip_unequip_item := by
    decide
  have ht2 : subcommand_handlers.getD 0x26 none = some .on_subcommand_equip_unequip_item := by
    decide
  rw [on_subcommand_entry P E s l ci c command flag data .on_subcommand_equip_unequip_item
    (ne_nil_of_check_size_sc data _ _ hsz)
    (by rcases hop with h | h <;> rw [h] <;> assumption)]
  simp only [Handler.run, on_subcommand_equip_unequip_item, attempt, hsz, hid, ne_eq,
    not_true_eq_false, if_false, htrack, if_true, hfind, PlayerInventory.update_flags]
  rcases hop with h | h
  · rw [if_pos h]
    refine ⟨_, rfl, rfl, rfl, ?_, ?_⟩
    · dsimp only
      rw [testBit_or_eight, h]
      simp
    · intro k _ hk
      dsimp only
      rw [testBit_or_eight]
      simp [hk]
  · rw [if_neg (by rw [h]; decide)]
    refine ⟨_, rfl, rfl, rfl, ?_, ?_⟩
    · dsimp only
      rw [testBit_and_not_eight, h]
      simp
    · intro k hk32 hk
      dsimp only
      rw [testBit_and_not_eight]
      simp [hk, hk32]

/-- C29, amended: the statement applies to an Unequip of the equipped item 0x10. -/
theorem C29_equip_sets_unequip_clears_witness :
    ∃ entry : PlayerInventoryItem,
      (on_subcommand sample_item_protocol model_env sample_server_state
        (sample_item_room (sample_holder 0 [⟨1, 8, ⟨[0, 1, 0, 0, 0, 0, 0, 0, 0, 0, 0, 0], 0x10,
          [0, 0, 0, 0]⟩⟩]))
        0 (sample_client 100 0 .BB (sample_holder 0 [⟨1, 8,
          ⟨[0, 1, 0, 0, 0, 0, 0, 0, 0, 0, 0, 0], 0x10, [0, 0, 0, 0]⟩⟩])) 0x60 0
        [0x26, 4, 0, 0, 0x10, 0, 0, 0, 0, 0, 0, 0, 0, 0, 0, 0]).lobby.data.client 0
        = some ((sample_client 100 0 .BB (sample_holder 0 [entry]))) ∧
      entry.flags.testBit 3 = false :=
  have h := C29_equip_sets_unequip_clears sample_item_protocol model_env sample_server_state
    (sample_item_room (sample_holder 0 [⟨1, 8, ⟨[0, 1, 0, 0, 0, 0, 0, 0, 0, 0, 0, 0], 0x10,
      [0, 0, 0, 0]⟩⟩]))
    0 (sample_client 100 0 .BB (sample_holder 0 [⟨1, 8,
      ⟨[0, 1, 0, 0, 0, 0, 0, 0, 0, 0, 0, 0], 0x10, [0, 0, 0, 0]⟩⟩])) 0x60 0
    [0x26, 4, 0, 0, 0x10, 0, 0, 0, 0, 0, 0, 0, 0, 0, 0, 0] 0 (Or.inr (by decide)) (by decide)
    (by rfl) (by decide) (by rfl)
  match h with
  | ⟨entry, h1, _, _, h4, _⟩ => ⟨entry, by rw [h1]; rfl, by rw [h4]; decide⟩
/-- The unidentified bit of a rare item is set exactly when the first 32-bit word of
`data1`, that is all three bytes of the item code, is zero. -/
theorem rare_item_bit (drop : RareDrop)
    (h0 : drop.item_code.getD 0 0 < 256) (h1 : drop.item_code.getD 1 0 < 256) :
    ((rare_item drop).data1.getD 4 0 &&& 0x80 ≠ 0) ↔
      (drop.item_code.getD 0 0 = 0 ∧ drop.item_code.getD 1 0 = 0 ∧
        drop.item_code.getD 2 0 = 0) := by
  unfold rare_item
  simp only [ItemData.data1d0, le_load]
  generalize drop.item_code.getD 0 0 = a at *
  generalize drop.item_code.getD 1 0 = b at *
  generalize drop.item_code.getD 2 0 = c at *
  simp only [List.replicate, List.set, List.getD_cons_zero, List.getD_cons_succ]
  by_cases h : a + 256 * b + 65536 * c + 16777216 * 0 = 0
  · rw [if_pos h]
    simp only [List.set, List.getD_cons_zero, List.getD_cons_succ]
    constructor
    · intro _; omega
    · intro _; decide
  · rw [if_neg h]
    simp only [List.getD_cons_zero, List.getD_cons_succ]
    constructor
    · intro hh; exact absurd rfl hh
    · intro hh; omega

set_option maxRecDepth 100000 in
/-- C28: `drop_item` for enemy 0 in a V4 game, with a rare table that gives the enemy the
item code `00 01 00` (a weapon: first byte 0) and a sample that succeeds, emits the item
with byte 4 equal to 0: the unidentified bit 0x80 is clear. -/
theorem C28_rare_weapon_stays_identified :
    (drop_item sample_rare_env (sample_rare_state [0, 1, 0]) (sample_item_room
        (sample_holder 0 [])) 0 1 10 20 0).1.events
      = [Event.send_drop_item 1 ⟨[0, 1, 0, 0, 0, 0, 0, 0, 0, 0, 0, 0], 0x11, [0, 0, 0, 0]⟩
          true 1 10 20 0] ∧
    (rare_item ⟨0xFF, [0, 1, 0]⟩).data1.getD 4 0 &&& 0x80 = 0 ∧
    (rare_item ⟨0xFF, [0, 0, 0]⟩).data1.getD 4 0 &&& 0x80 = 0x80 := by
  decide
/-- The filling loop for a known shop type: `n` items are added, with the ids of `n`
successive draws from the item-id generator. -/
theorem shop_loop_fills (E : Env) (difficulty shop_type client_id : Nat)
    (h : shop_type = 0 ∨ shop_type = 1 ∨ shop_type = 2) :
    ∀ (n k : Nat) (st : ItemState) (acc : List ItemData),
      ∃ items, (shop_loop E difficulty shop_type client_id n k st acc).2 = acc ++ items ∧
        items.length = n ∧ items.map (fun i => i.id) = generated_ids E client_id n st
  | 0, k, st, acc => ⟨[], by simp [shop_loop], rfl, rfl⟩
  | n + 1, k, st, acc => by
    rw [shop_loop, if_pos h]
    dsimp only
    obtain ⟨items, h1, h2, h3⟩ := shop_loop_fills E difficulty shop_type client_id h n (k + 1)
      (E.generate_item_id st client_id).2
      (acc ++ [{ E.create_shop_item k difficulty
        (if shop_type = 0 then 3 else if shop_type = 1 then 0 else 1) with
        id := (E.generate_item_id st client_id).1 }])
    refine ⟨ItemData.mk
      (E.create_shop_item k difficulty
        (if shop_type = 0 then 3 else if shop_type = 1 then 0 else 1)).data1
      (E.generate_item_id st client_id).1
      (E.create_shop_item k difficulty
        (if shop_type = 0 then 3 else if shop_type = 1 then 0 else 1)).data2 :: items,
      ?_, by simp [h2], ?_⟩
    · rw [h1, List.append_assoc]
      rfl
    · rw [List.map_cons, h3, generated_ids]

/-- The filling loop for an unknown shop type adds nothing. -/
theorem shop_loop_unknown (E : Env) (difficulty shop_type client_id : Nat)
    (h : ¬(shop_type = 0 ∨ shop_type = 1 ∨ shop_type = 2)) (n k : Nat) (st : ItemState)
    (acc : List ItemData) :
    shop_loop E difficulty shop_type client_id n k st acc = (st, acc) := by
  cases n with
  | zero => rfl
  | succ n => rw [shop_loop, if_neg h]

/-- C30: for a shop-contents request in a V4 game (not a card room, item creator
present), the filling loop ends and the sender's shop contents afterwards hold
`9 + (rand() mod 4)` items, hence between 9 and 12, when `shop_type` is 0, 1 or 2, each
carrying the id of one of that many successive draws from the room's item-id generator,
and hold no items for every other `shop_type`. -/
theorem C30_shop_contents (P : Protocol) (E : Env) (s : ServerState) (l : Lobby)
    (ci : Nat) (c : Client) (command flag : Nat) (data : List Nat)
    (hop : header_subcommand data = 0xB5)
    (hep3 : l.data.episode_3_only = false) (hcreator : l.data.common_item_creator = true)
    (hsz : check_size_sc data 0x08 (P.sizeof .G_ShopContentsRequest_BB_6xB5) true = .ok ())
    (hv : l.data.version = .BB) (hg : l.data.is_game = true) :
    ∃ (contents : List ItemData) (st : ItemState),
      on_subcommand P E s l ci c command flag data =
        ⟨(l.set_item_state st).set_client ci
          { c with game_data := { c.game_data with shop_contents := contents } },
         [Event.send_shop c.id (P.field .G_ShopContentsRequest_BB_6xB5 .shop_type data)],
         none⟩ ∧
      ((P.field .G_ShopContentsRequest_BB_6xB5 .shop_type data = 0 ∨
          P.field .G_ShopContentsRequest_BB_6xB5 .shop_type data = 1 ∨
          P.field .G_ShopContentsRequest_BB_6xB5 .shop_type data = 2) →
        contents.length = 9 + E.rand % 4 ∧ 9 ≤ contents.length ∧ contents.length ≤ 12 ∧
        contents.map (fun i => i.id)
          = generated_ids E c.lobby_client_id (9 + E.rand % 4) l.data.item_state) ∧
      (¬(P.field .G_ShopContentsRequest_BB_6xB5 .shop_type data = 0 ∨
          P.field .G_ShopContentsRequest_BB_6xB5 .shop_type data = 1 ∨
          P.field .G_ShopContentsRequest_BB_6xB5 .shop_type data = 2) →
        contents = []) := by
  have ht : subcommand_handlers.getD 0xB5 none
      = some .on_subcommand_open_shop_bb_or_ep3_battle_subs := by decide
  rw [on_subcommand_entry P E s l ci c command flag data _
    (ne_nil_of_check_size_sc data _ _ hsz) (by rw [hop]; exact ht)]
  simp only [Handler.run, on_subcommand_open_shop_bb_or_ep3_battle_subs, hep3,
    Bool.false_eq_true, if_false, hcreator, Bool.not_true, attempt, hsz, hv, hg, and_self,
    if_true]
  refine ⟨_, _, rfl, ?_, ?_⟩
  · intro h
    obtain ⟨items, h1, h2, h3⟩ := shop_loop_fills E l.data.difficulty _ c.lobby_client_id h
      (9 + E.rand % 4) 0 l.data.item_state []
    rw [h1, List.nil_append]
    refine ⟨h2, by omega, by omega, h3⟩
  · intro h
    rw [shop_loop_unknown E l.data.difficulty _ c.lobby_client_id h]

/-- C30: the statement applies to a request for the tool shop (type 0) with `rand()`
returning 1: ten items, with the ids 0x11 to 0x1A. -/
theorem C30_shop_contents_witness :
    ∃ (contents : List ItemData) (st : ItemState),
      on_subcommand sample_protocol model_env sample_server_state
          (sample_item_room (sample_holder 0 [])) 0
          (sample_client 100 0 .BB (sample_holder 0 [])) 0x60 0
          [0xB5, 2, 0, 0, 0, 0, 0, 0] =
        ⟨((sample_item_room (sample_holder 0 [])).set_item_state st).set_client 0
          { sample_client 100 0 .BB (sample_holder 0 []) with
            game_data := { (sample_client 100 0 .BB (sample_holder 0 [])).game_data with
              shop_contents := contents } },
         [Event.send_shop 100 0], none⟩ ∧
      contents.map (fun i => i.id)
        = [0x11, 0x12, 0x13, 0x14, 0x15, 0x16, 0x17, 0x18, 0x19, 0x1A] :=
  match C30_shop_contents sample_protocol model_env sample_server_state
    (sample_item_room (sample_holder 0 [])) 0 (sample_client 100 0 .BB (sample_holder 0 []))
    0x60 0 [0xB5, 2, 0, 0, 0, 0, 0, 0] (by decide) (by decide) (by decide) (by rfl)
    (by decide) (by decide) with
  | ⟨contents, st, h1, h2, _⟩ => ⟨contents, st, h1, by rw [(h2 (Or.inl rfl)).2.2.2]; rfl⟩
set_option maxRecDepth 100000 in
/-- C38: a player who carries 50 meseta asks for the identification of the unidentified
weapon 0x10 in a V4 game with item tracking.  The handler does not fail; it charges the fee
of 100 in 32-bit arithmetic, and the player carries 4294967246 meseta afterwards.  (The
medical center, in contrast, fails with "insufficient funds" for a player who carries 5.) -/
theorem C38_identify_wraps_meseta :
    (on_subcommand sample_item_protocol model_env sample_server_state
      (sample_item_room (sample_holder 50 [⟨1, 0, ⟨[0, 1, 0, 0, 0x80, 0, 0, 0, 0, 0, 0, 0], 0x10,
        [0, 0, 0, 0]⟩⟩]))
      0 (sample_client 100 0 .BB (sample_holder 50 [⟨1, 0,
        ⟨[0, 1, 0, 0, 0x80, 0, 0, 0, 0, 0, 0, 0], 0x10, [0, 0, 0, 0]⟩⟩])) 0x60 0
      [0xB8, 4, 0, 0, 0x10, 0, 0, 0, 0, 0, 0, 0, 0, 0, 0, 0]).error = none ∧
    ((on_subcommand sample_item_protocol model_env sample_server_state
      (sample_item_room (sample_holder 50 [⟨1, 0, ⟨[0, 1, 0, 0, 0x80, 0, 0, 0, 0, 0, 0, 0], 0x10,
        [0, 0, 0, 0]⟩⟩]))
      0 (sample_client 100 0 .BB (sample_holder 50 [⟨1, 0,
        ⟨[0, 1, 0, 0, 0x80, 0, 0, 0, 0, 0, 0, 0], 0x10, [0, 0, 0, 0]⟩⟩])) 0x60 0
      [0xB8, 4, 0, 0, 0x10, 0, 0, 0, 0, 0, 0, 0, 0, 0, 0, 0]).lobby.data.client 0).map
      (fun oc => oc.player.disp.meseta) = some 4294967246 ∧
    (on_subcommand sample_item_protocol model_env sample_server_state
      (sample_item_room (sample_holder 5 []))
      0 (sample_client 100 0 .BB (sample_holder 5 [])) 0x60 0
      [0xC5, 1, 0, 0]).error = some (.runtime_error "insufficient funds") := by
  decide

set_option maxRecDepth 100000 in
/-- C39: the attack-finished subcommand `46 00 00 00 08 00 00 00` (extended-size header,
8 bytes, no entry) sent by the client of slot 0 declares 8 entries, more than the
`min(11, 8/4 − 2) = 0` entries that are present; the handler accepts it (the allowed count
computed from size byte 0 is 11) and forwards it to the other player. -/
theorem C39_extended_header_count :
    sample_attack_protocol.field .G_AttackFinished_6x46 .count [0x46, 0, 0, 0, 8, 0, 0, 0] = 8 ∧
    min 11 ([0x46, 0, 0, 0, 8, 0, 0, 0].length / 4 - 2) = 0 ∧
    allowed_count [0x46, 0, 0, 0, 8, 0, 0, 0] 2 11 = 11 ∧
    on_subcommand sample_attack_protocol sample_env sample_server_state (sample_room .GC [])
      0 (sample_client 100 0 .GC (sample_player 1 0 500)) 0x60 0 [0x46, 0, 0, 0, 8, 0, 0, 0]
      = ⟨sample_room .GC [], [Event.send_command 101 0x60 0 [0x46, 0, 0, 0, 8, 0, 0, 0]],
          none⟩ := by
  refine ⟨by decide, by decide, by decide, ?_⟩
  rfl
theorem findIdx_append_cons {α : Type} (p : α → Bool) (pre post : List α) (x : α)
    (hpre : ∀ e ∈ pre, p e = false) (hx : p x = true) :
    (pre ++ x :: post).findIdx p = pre.length := by
  induction pre with
  | nil => simp [List.findIdx_cons, hx]
  | cons y ys ih =>
    have hy : p y = false := hpre y (List.mem_cons_self _ _)
    have := ih fun e he => hpre e (List.mem_cons_of_mem _ he)
    simp [List.findIdx_cons, hy, this]

theorem getD_append_cons {α : Type} (pre post : List α) (x d : α) :
    (pre ++ x :: post).getD pre.length d = x := by
  induction pre with
  | nil => rfl
  | cons z zs ih => simpa using ih

theorem set_getD_self {α : Type} (xs : List α) (i : Nat) (d : α) :
    xs.set i (xs.getD i d) = xs := by
  induction xs generalizing i with
  | nil => rfl
  | cons z zs ih =>
    cases i with
    | zero => rfl
    | succ j => simpa using ih j

theorem set_append_cons {α : Type} (pre post : List α) (x y : α) :
    (pre ++ x :: post).set pre.length y = pre ++ y :: post := by
  induction pre with
  | nil => rfl
  | cons z zs ih => simp [ih]

theorem type_bytes_set_count (d : ItemData) (n : Nat) :
    (d.set_count n).type_bytes = d.type_bytes := by
  simp [ItemData.set_count, ItemData.type_bytes, List.getD_eq_getElem?_getD,
    List.getElem?_set_ne]

theorem stack_size_set_count (d : ItemData) (n : Nat) :
    (d.set_count n).stack_size = d.stack_size := by
  simp [ItemData.set_count, ItemData.stack_size, List.getD_eq_getElem?_getD,
    List.getElem?_set_ne]

theorem count_pos_length (d : ItemData) (h : 0 < d.count) : 5 < d.data1.length := by
  by_contra hlt
  have : d.count = 0 := by
    unfold ItemData.count
    exact List.getD_eq_default _ _ (by omega)
  omega

theorem count_set_count (d : ItemData) (n : Nat) (h : 5 < d.data1.length) :
    (d.set_count n).count = n := by
  simp [ItemData.set_count, ItemData.count, List.getD_eq_getElem?_getD,
    List.getElem?_set_self h]

theorem set_count_restore (d : ItemData) (m : Nat) :
    (d.set_count m).set_count d.count = d := by
  cases d with
  | mk data1 id data2 =>
    simp only [ItemData.set_count, ItemData.count, List.set_set]
    congr 1
    exact set_getD_self data1 5 0

theorem model_remove_item_split (p : Player) (pre post : List PlayerInventoryItem)
    (entry : PlayerInventoryItem) (a : Nat)
    (hinv : p.inventory.items = pre ++ entry :: post)
    (hpre : ∀ e ∈ pre, e.data.id ≠ entry.data.id)
    (h0 : 0 < a) (han : a < entry.data.count)
    (hstack : entry.data.count ≤ entry.data.stack_size) :
    model_remove_item p entry.data.id a = .ok
      (⟨entry.present, entry.flags, ⟨(entry.data.set_count a).data1, 0xFFFFFFFF,
          (entry.data.set_count a).data2⟩⟩,
        ⟨p.disp, ⟨p.inventory.num_items, p.inventory.hp_materials_used,
          p.inventory.tp_materials_used, p.inventory.language,
          pre ++ ⟨entry.present, entry.flags,
            entry.data.set_count (entry.data.count - a)⟩ :: post⟩,
          p.bank, p.guild_card_description⟩) := by
  have hidx : p.inventory.items.findIdx (fun e => e.data.id == entry.data.id) = pre.length := by
    rw [hinv]
    exact findIdx_append_cons _ _ _ _ (fun e he => by simpa using hpre e he) (by simp)
  have hlen : pre.length < p.inventory.items.length := by
    rw [hinv]; simp
  unfold model_remove_item find_item
  rw [hidx, if_pos hlen]
  have hget : p.inventory.items.getD pre.length .blank = entry := by
    rw [hinv]; exact getD_append_cons _ _ _ _
  have hset : ∀ y, p.inventory.items.set pre.length y = pre ++ y :: post := by
    intro y; rw [hinv]; exact set_append_cons _ _ _ _
  dsimp only
  rw [hget, if_pos ⟨by omega, by omega, han⟩, hset]

theorem model_add_item_merge (p : Player) (pre post : List PlayerInventoryItem)
    (rest item : PlayerInventoryItem)
    (hinv : p.inventory.items = pre ++ rest :: post)
    (hpre : ∀ e ∈ pre, e.data.type_bytes ≠ item.data.type_bytes)
    (htype : rest.data.type_bytes = item.data.type_bytes)
    (hs : 1 < item.data.stack_size) :
    model_add_item p item = .ok
      ⟨p.disp, ⟨p.inventory.num_items, p.inventory.hp_materials_used,
          p.inventory.tp_materials_used, p.inventory.language,
          pre ++ ⟨rest.present, rest.flags,
            rest.data.set_count
              (min (rest.data.count + item.data.count) item.data.stack_size)⟩ :: post⟩,
          p.bank, p.guild_card_description⟩ := by
  have hidx : p.inventory.items.findIdx
      (fun e => e.data.type_bytes == item.data.type_bytes) = pre.length := by
    rw [hinv]
    exact findIdx_append_cons _ _ _ _ (fun e he => by simpa using hpre e he) (by simp [htype])
  have hlen : pre.length < p.inventory.items.length := by
    rw [hinv]; simp
  have hget : p.inventory.items.getD pre.length .blank = rest := by
    rw [hinv]; exact getD_append_cons _ _ _ _
  have hset : ∀ y, p.inventory.items.set pre.length y = pre ++ y :: post := by
    intro y; rw [hinv]; exact set_append_cons _ _ _ _
  unfold model_add_item
  dsimp only
  rw [hidx, if_pos ⟨by omega, hlen⟩, hget, hset]
theorem split_stack_steps (P : Protocol) (E : Env) (s : ServerState) (l : Lobby) (ci : Nat)
    (c : Client) (command flag : Nat) (data : List Nat)
    (ret : PlayerInventoryItem) (p1 p2 : Player) (st : ItemState)
    (hv : l.data.version = .BB) (hg : l.data.is_game = true)
    (ht : l.data.item_tracking_enabled = true)
    (hsize : check_size_sc data (P.sizeof .G_SplitStackedItem_6xC3)
      (P.sizeof .G_SplitStackedItem_6xC3) true = .ok ())
    (hid : header_id data = c.lobby_client_id)
    (hrem : E.player_remove_item c.player (P.field .G_SplitStackedItem_6xC3 .item_id data)
      (P.field .G_SplitStackedItem_6xC3 .amount data) = .ok (ret, p1))
    (hnew : ret.data.id = 0xFFFFFFFF)
    (hadd : E.player_add_item p1 (ret.set_id (E.generate_item_id
      (l.set_client ci (c.set_player p1)).data.item_state c.lobby_client_id).1) = .ok p2)
    (hground : E.add_item
      ((((l.set_client ci (c.set_player p1)).set_item_state (E.generate_item_id
        (l.set_client ci (c.set_player p1)).data.item_state c.lobby_client_id).2).set_client ci
          (c.set_player p2)).data.item_state)
      (ret.set_id (E.generate_item_id
        (l.set_client ci (c.set_player p1)).data.item_state c.lobby_client_id).1)
      (P.field .G_SplitStackedItem_6xC3 .area data)
      (P.field .G_SplitStackedItem_6xC3 .x data)
      (P.field .G_SplitStackedItem_6xC3 .z data) = .ok st) :
    on_subcommand_drop_partial_stack_bb P E s l ci c command flag data =
      ⟨(((l.set_client ci (c.set_player p1)).set_item_state (E.generate_item_id
        (l.set_client ci (c.set_player p1)).data.item_state c.lobby_client_id).2).set_client ci
          (c.set_player p2)).set_item_state st,
        [Event.send_drop_stacked_item l.data.lobby_id
          (ret.set_id (E.generate_item_id
            (l.set_client ci (c.set_player p1)).data.item_state c.lobby_client_id).1).data
          (P.field .G_SplitStackedItem_6xC3 .area data)
          (P.field .G_SplitStackedItem_6xC3 .x data)
          (P.field .G_SplitStackedItem_6xC3 .z data)], none⟩ := by
  unfold on_subcommand_drop_partial_stack_bb
  rw [if_pos hv, hsize]
  simp only [attempt, hg, ht, hid, ne_eq, not_true_eq_false,
      decide_False, Bool.not_true, Bool.or_self, Bool.false_eq_true, if_false]
  rw [hrem]
  simp only [attempt, hnew, if_true]
  rw [hadd]
  simp only [attempt]
  rw [hground]
theorem split_stack_result (P : Protocol) (s : ServerState) (l : Lobby) (ci : Nat)
    (c : Client) (command flag : Nat) (data : List Nat)
    (pre post : List PlayerInventoryItem) (entry : PlayerInventoryItem) (a : Nat)
    (hv : l.data.version = .BB) (hg : l.data.is_game = true)
    (ht : l.data.item_tracking_enabled = true)
    (hsize : check_size_sc data (P.sizeof .G_SplitStackedItem_6xC3)
      (P.sizeof .G_SplitStackedItem_6xC3) true = .ok ())
    (hid : header_id data = c.lobby_client_id)
    (hc : l.data.client ci = some c)
    (hinv : c.player.inventory.items = pre ++ entry :: post)
    (hpre : ∀ e ∈ pre, e.data.id ≠ entry.data.id ∧ e.data.type_bytes ≠ entry.data.type_bytes)
    (hI : P.field .G_SplitStackedItem_6xC3 .item_id data = entry.data.id)
    (ha : P.field .G_SplitStackedItem_6xC3 .amount data = a)
    (h0 : 0 < a) (han : a < entry.data.count)
    (hstack : entry.data.count ≤ entry.data.stack_size)
 :
    on_subcommand_drop_partial_stack_bb P model_env s l ci c command flag data =
      ⟨.mk { l.data with
          item_state := ⟨l.data.item_state.items ++
            [⟨⟨entry.present, entry.flags, ⟨(entry.data.set_count a).data1,
                l.data.item_state.next_game_item_id, entry.data.data2⟩⟩,
              P.field .G_SplitStackedItem_6xC3 .area data,
              P.field .G_SplitStackedItem_6xC3 .x data,
              P.field .G_SplitStackedItem_6xC3 .z data⟩],
            l.data.item_state.next_item_id, l.data.item_state.next_game_item_id + 1⟩ }
          l.watcher_lobbies,
        [Event.send_drop_stacked_item l.data.lobby_id
          ⟨(entry.data.set_count a).data1, l.data.item_state.next_game_item_id,
            entry.data.data2⟩
          (P.field .G_SplitStackedItem_6xC3 .area data)
          (P.field .G_SplitStackedItem_6xC3 .x data)
          (P.field .G_SplitStackedItem_6xC3 .z data)], none⟩ := by
  have hn5 : 5 < entry.data.data1.length := count_pos_length _ (by omega)
  have hrem := model_remove_item_split c.player pre post entry a hinv
    (fun e he => (hpre e he).1) h0 han hstack
  have hcount : (⟨(entry.data.set_count a).data1, l.data.item_state.next_game_item_id,
      entry.data.data2⟩ : ItemData).count = a := count_set_count entry.data a hn5
  have hadd := model_add_item_merge
    ⟨c.player.disp, ⟨c.player.inventory.num_items, c.player.inventory.hp_materials_used,
          c.player.inventory.tp_materials_used, c.player.inventory.language,
          pre ++ ⟨entry.present, entry.flags,
            entry.data.set_count (entry.data.count - a)⟩ :: post⟩,
          c.player.bank, c.player.guild_card_description⟩
    pre post ⟨entry.present, entry.flags, entry.data.set_count (entry.data.count - a)⟩
    ⟨entry.present, entry.flags, ⟨(entry.data.set_count a).data1,
      l.data.item_state.next_game_item_id, entry.data.data2⟩⟩ rfl
    (fun e he => by
      have := (hpre e he).2
      rw [show (⟨(entry.data.set_count a).data1, l.data.item_state.next_game_item_id,
        entry.data.data2⟩ : ItemData).type_bytes = entry.data.type_bytes from
          type_bytes_set_count entry.data a]
      exact this)
    (by
      show (entry.data.set_count (entry.data.count - a)).type_bytes = _
      rw [type_bytes_set_count]
      exact (type_bytes_set_count entry.data a).symm)
    (by
      show 1 < (entry.data.set_count a).stack_size
      rw [stack_size_set_count]; omega)
  have hmin : min ((entry.data.set_count (entry.data.count - a)).count +
      (⟨(entry.data.set_count a).data1, l.data.item_state.next_game_item_id,
        entry.data.data2⟩ : ItemData).count)
      (⟨(entry.data.set_count a).data1, l.data.item_state.next_game_item_id,
        entry.data.data2⟩ : ItemData).stack_size = entry.data.count := by
    rw [hcount, count_set_count _ _ hn5]
    rw [show (⟨(entry.data.set_count a).data1, l.data.item_state.next_game_item_id,
        entry.data.data2⟩ : ItemData).stack_size = entry.data.stack_size from
          stack_size_set_count entry.data a]
    omega
  dsimp only at hadd
  rw [hmin, set_count_restore] at hadd
  have hback : (⟨c.player.disp, ⟨c.player.inventory.num_items,
      c.player.inventory.hp_materials_used, c.player.inventory.tp_materials_used,
      c.player.inventory.language, pre ++ ⟨entry.present, entry.flags, entry.data⟩ :: post⟩,
      c.player.bank, c.player.guild_card_description⟩ : Player) = c.player := by
    rw [show (⟨entry.present, entry.flags, entry.data⟩ : PlayerInventoryItem) = entry from rfl,
      ← hinv]
  rw [hback] at hadd
  have hclients : (l.data.clients.set ci (some c)) = l.data.clients := by
    have := set_getD_self l.data.clients ci none
    unfold LobbyData.client at hc
    rw [hc] at this
    exact this
  cases l with
  | mk d w =>
    simp only [Lobby.data] at hv hg ht hclients hadd hcount ⊢
    have hstep := split_stack_steps P model_env s (.mk d w) ci c command flag data
      ⟨entry.present, entry.flags, ⟨(entry.data.set_count a).data1, 0xFFFFFFFF,
          (entry.data.set_count a).data2⟩⟩
      ⟨c.player.disp, ⟨c.player.inventory.num_items, c.player.inventory.hp_materials_used,
          c.player.inventory.tp_materials_used, c.player.inventory.language,
          pre ++ ⟨entry.present, entry.flags,
            entry.data.set_count (entry.data.count - a)⟩ :: post⟩,
          c.player.bank, c.player.guild_card_description⟩
      c.player
      ⟨d.item_state.items ++
            [⟨⟨entry.present, entry.flags, ⟨(entry.data.set_count a).data1,
                d.item_state.next_game_item_id, entry.data.data2⟩⟩,
              P.field .G_SplitStackedItem_6xC3 .area data,
              P.field .G_SplitStackedItem_6xC3 .x data,
              P.field .G_SplitStackedItem_6xC3 .z data⟩],
            d.item_state.next_item_id, d.item_state.next_game_item_id + 1⟩
      hv hg ht hsize hid (by rw [hI, ha]; exact hrem) (by rfl) hadd (by rfl)
    rw [hstep]
    simp only [Lobby.set_client, Lobby.set_item_state, Lobby.set_data, Lobby.data,
      Lobby.watcher_lobbies, LobbyData.set_client, List.set_set]
    rw [show c.set_player c.player = c from rfl, hclients]
    rfl
theorem item_ids_nodup_add (ground : List Nat) (inv : List Nat) (g : Nat)
    (hn : (ground ++ inv).Nodup) (hg : g ∉ ground ++ inv) :
    ((ground ++ [g]) ++ inv).Nodup := by
  have hp : ((ground ++ [g]) ++ inv).Perm (g :: (ground ++ inv)) := by
    simp only [List.append_assoc, List.singleton_append]
    exact List.perm_middle
  exact hp.nodup_iff.mpr (List.nodup_cons.mpr ⟨hg, hn⟩)

/-- C27 (amended): in a V4 game with item tracking, with inventories and stacks as the
specification describes them, a sender whose inventory holds a stack of `n` items under id
`I` (no earlier entry of the same id or type, `n` within the stack limit) sends
SplitStack(item_id = I, amount = a, area, x, z) with `0 < a < n` and its own client id.
After the handler returns, the split-off items have been added back to the inventory, so
every inventory of the room is as before and stack `I` has count `n` again; a ground item
with the freshly generated id and count `a` exists at (area, x, z); a DropStackedItem for
it has been sent to the room; and when the ids of the room were pairwise distinct and all
below the room's id counter, the generated id is none of them, the ids are still pairwise
distinct afterwards, and they are all below the advanced counter. -/
theorem C27_split_stack_restored (P : Protocol) (s : ServerState) (l : Lobby) (ci : Nat)
    (c : Client) (command flag : Nat) (data : List Nat)
    (pre post : List PlayerInventoryItem) (entry : PlayerInventoryItem) (a : Nat)
    (hv : l.data.version = .BB) (hg : l.data.is_game = true)
    (ht : l.data.item_tracking_enabled = true)
    (hsize : check_size_sc data (P.sizeof .G_SplitStackedItem_6xC3)
      (P.sizeof .G_SplitStackedItem_6xC3) true = .ok ())
    (hid : header_id data = c.lobby_client_id)
    (hc : l.data.client ci = some c)
    (hinv : c.player.inventory.items = pre ++ entry :: post)
    (hpre : ∀ e ∈ pre, e.data.id ≠ entry.data.id ∧ e.data.type_bytes ≠ entry.data.type_bytes)
    (hI : P.field .G_SplitStackedItem_6xC3 .item_id data = entry.data.id)
    (ha : P.field .G_SplitStackedItem_6xC3 .amount data = a)
    (h0 : 0 < a) (han : a < entry.data.count)
    (hstack : entry.data.count ≤ entry.data.stack_size)
    (hnodup : l.data.item_ids.Nodup)
    (hbelow : ∀ id ∈ l.data.item_ids, id < l.data.item_state.next_game_item_id) :
    (on_subcommand_drop_partial_stack_bb P model_env s l ci c command flag data).error = none ∧
    (on_subcommand_drop_partial_stack_bb P model_env s l ci c command flag data).lobby.data.clients
      = l.data.clients ∧
    (on_subcommand_drop_partial_stack_bb P model_env s l ci c command flag
        data).lobby.data.item_state.items
      = l.data.item_state.items ++
        [⟨⟨entry.present, entry.flags, ⟨(entry.data.set_count a).data1,
            l.data.item_state.next_game_item_id, entry.data.data2⟩⟩,
          P.field .G_SplitStackedItem_6xC3 .area data,
          P.field .G_SplitStackedItem_6xC3 .x data,
          P.field .G_SplitStackedItem_6xC3 .z data⟩] ∧
    (⟨(entry.data.set_count a).data1, l.data.item_state.next_game_item_id,
        entry.data.data2⟩ : ItemData).count = a ∧
    (on_subcommand_drop_partial_stack_bb P model_env s l ci c command flag data).events
      = [Event.send_drop_stacked_item l.data.lobby_id
          ⟨(entry.data.set_count a).data1, l.data.item_state.next_game_item_id,
            entry.data.data2⟩
          (P.field .G_SplitStackedItem_6xC3 .area data)
          (P.field .G_SplitStackedItem_6xC3 .x data)
          (P.field .G_SplitStackedItem_6xC3 .z data)] ∧
    l.data.item_state.next_game_item_id ∉ l.data.item_ids ∧
    (on_subcommand_drop_partial_stack_bb P model_env s l ci c command flag
        data).lobby.data.item_ids.Nodup ∧
    (∀ id ∈ (on_subcommand_drop_partial_stack_bb P model_env s l ci c command flag
        data).lobby.data.item_ids,
      id < (on_subcommand_drop_partial_stack_bb P model_env s l ci c command flag
        data).lobby.data.item_state.next_game_item_id) := by
  have hres := split_stack_result P s l ci c command flag data pre post entry a hv hg ht hsize
    hid hc hinv hpre hI ha h0 han hstack
  have hn5 : 5 < entry.data.data1.length := count_pos_length _ (by omega)
  have hfresh : l.data.item_state.next_game_item_id ∉ l.data.item_ids :=
    fun hmem => Nat.lt_irrefl _ (hbelow _ hmem)
  rw [hres]
  refine ⟨rfl, rfl, rfl, count_set_count entry.data a hn5, rfl, hfresh, ?_, ?_⟩
  · unfold LobbyData.item_ids at hnodup hfresh ⊢
    simp only [Lobby.data, List.map_append, List.map_cons, List.map_nil]
    exact item_ids_nodup_add _ _ _ hnodup hfresh
  · intro id hid
    unfold LobbyData.item_ids at hbelow hid
    simp only [Lobby.data, List.map_append, List.map_cons, List.map_nil, List.mem_append,
      List.mem_singleton] at hid hbelow ⊢
    rcases hid with (h | h) | h
    · exact Nat.lt_succ_of_lt (hbelow id (Or.inl h))
    · rw [h]; exact Nat.lt_succ_self _
    · exact Nat.lt_succ_of_lt (hbelow id (Or.inr h))

set_option maxRecDepth 100000 in
/-- C27 (witness): the scenario of the specification — five monomates under id 0x10, two of
them split off to (1, 10, 20), the id counter at 0x11. -/
theorem C27_split_stack_restored_witness :
    (on_subcommand_drop_partial_stack_bb sample_item_protocol model_env sample_server_state
      (sample_item_room (sample_holder 0 [sample_monomates])) 0
      (sample_client 100 0 .BB (sample_holder 0 [sample_monomates])) 0x60 0
      sample_split_payload).lobby.data.item_state.items
      = [⟨⟨1, 0, ⟨[3, 0, 0, 0, 0, 2, 0, 0, 0, 0, 0, 0], 0x11, [0, 0, 0, 0]⟩⟩, 1, 10, 20⟩] :=
  (C27_split_stack_restored sample_item_protocol sample_server_state
    (sample_item_room (sample_holder 0 [sample_monomates])) 0
    (sample_client 100 0 .BB (sample_holder 0 [sample_monomates])) 0x60 0
    sample_split_payload [] [] sample_monomates 2 rfl rfl rfl rfl rfl rfl rfl
    (by intro e he; cases he) rfl rfl (by decide) (by decide) (by decide) (by decide)
    (by decide)).2.2.1

set_option maxRecDepth 100000 in
/-- C27 (counterexample): in the scenario of the specification — the sender holds five
monomates under id 0x10 and splits two of them off — the handler succeeds, and afterwards
the sender's stack 0x10 has count 5, not 3. -/
theorem C27_split_stack_added_back :
    (on_subcommand_drop_partial_stack_bb sample_item_protocol model_env sample_server_state
      (sample_item_room (sample_holder 0 [sample_monomates])) 0
      (sample_client 100 0 .BB (sample_holder 0 [sample_monomates])) 0x60 0
      sample_split_payload).error = none ∧
    ((on_subcommand_drop_partial_stack_bb sample_item_protocol model_env sample_server_state
      (sample_item_room (sample_holder 0 [sample_monomates])) 0
      (sample_client 100 0 .BB (sample_holder 0 [sample_monomates])) 0x60 0
      sample_split_payload).lobby.data.client 0).map
        (fun oc => oc.player.inventory.items.map fun e => (e.data.id, e.data.count))
      = some [(0x10, 5)] := by
  decide
/-! ## Static game data (src/src/StaticGameData.cc) -/

/-- C31: `stack_size_for_item(data0, data1)` is 999999 when `data0 = 4`, 10 when
`data0 = 3`, `data1 < 9` and `data1 ≠ 2`, 99 when `data0 = 3` and `data1 = 0x10`, and 1 for
every other pair; hence every stack limit is one of 1, 10, 99, 999999. -/
theorem C31_stack_size_for_item (data0 data1 : Nat) :
    stack_size_for_item data0 data1 =
      (if data0 = 4 then 999999
       else if data0 = 3 ∧ data1 < 9 ∧ data1 ≠ 2 then 10
       else if data0 = 3 ∧ data1 = 0x10 then 99
       else 1) ∧
    stack_size_for_item data0 data1 ∈ [1, 10, 99, 999999] := by
  unfold stack_size_for_item
  constructor
  · split_ifs <;> simp_all
  · split_ifs <;> simp

theorem left_pb_loop_mono (fuel center_pb right_pb : Nat) :
    ∀ actual left v, left_pb_loop fuel center_pb right_pb actual left = some v →
      left_pb_loop (fuel + 1) center_pb right_pb actual left = some v := by
  induction fuel with
  | zero => intro actual left v h; simp [left_pb_loop] at h
  | succ n ih =>
    intro actual left v h
    rw [left_pb_loop] at h ⊢
    split_ifs at h ⊢ with h1 h2
    · exact ih _ _ _ h
    · exact ih _ _ _ h
    · exact h

theorem left_pb_loop_more (fuel more center_pb right_pb actual left v : Nat)
    (h : left_pb_loop fuel center_pb right_pb actual left = some v) :
    left_pb_loop (fuel + more) center_pb right_pb actual left = some v := by
  induction more with
  | zero => exact h
  | succ n ih => exact left_pb_loop_mono _ _ _ _ _ _ ih

set_option maxRecDepth 100000 in
theorem left_pb_cases :
    ∀ center_pb ∈ [0, 1, 2, 3, 4, 5, 6, 7, 0xFF], ∀ right_pb ∈ [0, 1, 2, 3, 4, 5, 6, 7, 0xFF],
      ∀ k ∈ [0, 1, 2, 3], left_pb_ok center_pb right_pb k = true := by
  decide

/-- C35: for every center and right photon blast (each 0..7, or 0xFF for absent) and every
2-bit left index `k`, the loop of `name_for_item` terminates (8 passes or more give a
result), and the left photon blast it computes is the element at index `k` of the ascending
list of photon blasts with the center and right ones removed; it differs from both and is
at most 5, inside the 8-entry name table. -/
theorem C35_left_photon_blast (center_pb right_pb k : Nat)
    (hc : center_pb < 8 ∨ center_pb = 0xFF) (hr : right_pb < 8 ∨ right_pb = 0xFF)
    (hk : k < 4) :
    ∃ v, (∀ fuel, 8 ≤ fuel → left_pb_loop fuel center_pb right_pb 0 k = some v) ∧
      (remaining_pbs center_pb right_pb)[k]? = some v ∧ v ≠ center_pb ∧ v ≠ right_pb ∧
      v ≤ 5 := by
  have hcm : center_pb ∈ [0, 1, 2, 3, 4, 5, 6, 7, 0xFF] := by
    simp only [List.mem_cons, List.mem_singleton]; omega
  have hrm : right_pb ∈ [0, 1, 2, 3, 4, 5, 6, 7, 0xFF] := by
    simp only [List.mem_cons, List.mem_singleton]; omega
  have hkm : k ∈ [0, 1, 2, 3] := by
    simp only [List.mem_cons, List.mem_singleton]; omega
  have h := left_pb_cases center_pb hcm right_pb hrm k hkm
  unfold left_pb_ok at h
  cases hl : left_pb_loop 8 center_pb right_pb 0 k with
  | none => rw [hl] at h; simp at h
  | some v =>
    rw [hl] at h
    simp only [Bool.and_eq_true, beq_iff_eq, bne_iff_ne, ne_eq, decide_eq_true_eq] at h
    refine ⟨v, ?_, h.1.1.1, h.1.1.2, h.1.2, h.2⟩
    intro fuel hf
    have := left_pb_loop_more 8 (fuel - 8) center_pb right_pb 0 k v hl
    rwa [show 8 + (fuel - 8) = fuel by omega] at this

/-- C35 (witness): center photon blast 0, right photon blast 1, left index 3. -/
theorem C35_left_photon_blast_witness :
    ∃ v, (∀ fuel, 8 ≤ fuel → left_pb_loop fuel 0 1 0 3 = some v) ∧
      (remaining_pbs 0 1)[3]? = some v ∧ v ≠ 0 ∧ v ≠ 1 ∧ v ≤ 5 :=
  C35_left_photon_blast 0 1 3 (by decide) (by decide) (by decide)
/-! ## The constructors and bounds of the ciphers (src/src/PSOEncryption.cc) -/

theorem pc_init_loop_spec (seed : Nat) :
    ∀ m i fuel stream, i + m = 55 → 1 ≤ i → m ≤ fuel → stream.length = 57 →
      PSOPCEncryption.init_loop fuel (pc_seq seed i) (pc_seq seed (i - 1)) (21 * i) stream =
        pc_writes seed i m stream := by
  intro m
  induction m with
  | zero =>
    intro i fuel stream hi _ _ _
    have hi55 : i = 55 := by omega
    subst hi55
    cases fuel with
    | zero => rfl
    | succ f =>
      rw [PSOPCEncryption.init_loop, if_neg (by norm_num)]
      rfl
  | succ m ih =>
    intro i fuel stream hi h1 hf hlen
    cases fuel with
    | zero => omega
    | succ f =>
      obtain ⟨j, rfl⟩ : ∃ j, i = j + 1 := ⟨i - 1, by omega⟩
      rw [PSOPCEncryption.init_loop, if_pos (by omega)]
      have hedx : 21 * (j + 1) - 21 * (j + 1) / 55 * 55 = 21 * (j + 1) % 55 := by
        have := Nat.div_add_mod (21 * (j + 1)) 55
        have := Nat.mod_lt (21 * (j + 1)) (show 55 > 0 by norm_num)
        omega
      have hlt : 21 * (j + 1) % 55 < stream.length := by
        have := Nat.mod_lt (21 * (j + 1)) (show 55 > 0 by norm_num)
        omega
      dsimp only
      rw [hedx]
      have hget : (stream.set (21 * (j + 1) % 55) (pc_seq seed (j + 1))).getD
          (21 * (j + 1) % 55) 0 = pc_seq seed (j + 1) := by
        rw [List.getD_eq_getElem?_getD, List.getElem?_set_self hlt]
        rfl
      rw [hget]
      have hstep := ih (j + 2) f (stream.set (21 * (j + 1) % 55) (pc_seq seed (j + 1)))
        (by omega) (by omega) (by omega) (by simpa using hlen)
      rw [show j + 1 + 1 - 1 = j + 1 by omega] at *
      rw [show j + 1 - 1 = j by omega]
      rw [show 21 * (j + 1) + 0x15 = 21 * (j + 2) by omega]
      rw [show sub32 (pc_seq seed j) (pc_seq seed (j + 1)) = pc_seq seed (j + 2) from rfl]
      rw [hstep]
      unfold pc_writes
      rw [List.range'_succ, List.foldl_cons]

theorem pc_writes_length (seed first m : Nat) (stream : List Nat) :
    (pc_writes seed first m stream).length = stream.length := by
  unfold pc_writes
  induction m generalizing first stream with
  | zero => rfl
  | succ m ih => rw [List.range'_succ, List.foldl_cons, ih]; simp

theorem pc_writes_high (seed first m : Nat) (stream : List Nat) (k : Nat) (hk : 55 ≤ k) :
    (pc_writes seed first m stream).getD k 0 = stream.getD k 0 := by
  unfold pc_writes
  induction m generalizing first stream with
  | zero => rfl
  | succ m ih =>
    rw [List.range'_succ, List.foldl_cons, ih]
    have := Nat.mod_lt (21 * first) (show 55 > 0 by norm_num)
    rw [List.getD_eq_getElem?_getD, List.getD_eq_getElem?_getD,
      List.getElem?_set_ne (by omega)]

theorem pc_writes_zero (seed : Nat) :
    ∀ m first stream, 1 ≤ first → first + m ≤ 55 →
      (pc_writes seed first m stream).getD 0 0 = stream.getD 0 0 := by
  intro m
  unfold pc_writes
  induction m with
  | zero => intro first stream _ _; rfl
  | succ m ih =>
    intro first stream h1 h2
    rw [List.range'_succ, List.foldl_cons, ih (first + 1) _ (by omega) (by omega)]
    have : 21 * first % 55 ≠ 0 := by omega
    rw [List.getD_eq_getElem?_getD, List.getD_eq_getElem?_getD,
      List.getElem?_set_ne this]

set_option maxRecDepth 100000 in
/-- C32 (counterexample): the constructor's loop started on a state array whose cells all
hold 7, with seed 0.  Position 0 — the position `(21·55) mod 55` of the 55th write — still
holds 7 when the loop ends, although the 55th term of the sequence is 2144908973. -/
theorem C32_position_zero_not_written :
    21 * 55 % 55 = 0 ∧ pc_seq 0 55 = 2144908973 ∧
    (PSOPCEncryption.init_loop 0x46F 1 0 0x15 (pc_seeded 0 (List.replicate 57 7))).getD 0 0
      = 7 ∧
    (pc_writes 0 1 55 (pc_seeded 0 (List.replicate 57 7))).getD 0 0 = 2144908973 := by
  decide

/-- C32 (amended): the V1 constructor stores the seed at state positions 55 and 56 and
then, for i = 1..54 in order, writes position (21·i) mod 55 with the i-th term of the
sequence v(1) = 1, v(2) = seed − 1, v(i+2) = v(i) − v(i+1) modulo 2^32; positions 0, 55 and
56 are not written by these; it then runs exactly five stir passes, and the offset
starts at 1. -/
theorem C32_constructor (seed : Nat) :
    PSOPCEncryption.new seed =
      ⟨PSOPCEncryption.stir 5
        (pc_writes seed 1 54 (pc_seeded seed (List.replicate PC_STREAM_LENGTH 0))), 1⟩ ∧
    (∀ stream : List Nat, PSOPCEncryption.init_loop 0x46F 1 seed 0x15
        (pc_seeded seed (stream ++ List.replicate (57 - stream.length) 0 |>.take 57)) =
      pc_writes seed 1 54
        (pc_seeded seed (stream ++ List.replicate (57 - stream.length) 0 |>.take 57))) ∧
    pc_seq seed 1 = 1 ∧ pc_seq seed 2 = sub32 seed 1 ∧
    (∀ i, pc_seq seed (i + 2) = sub32 (pc_seq seed i) (pc_seq seed (i + 1))) ∧
    (pc_writes seed 1 54 (pc_seeded seed (List.replicate PC_STREAM_LENGTH 0))).getD 55 0
      = seed ∧
    (pc_writes seed 1 54 (pc_seeded seed (List.replicate PC_STREAM_LENGTH 0))).getD 56 0
      = seed ∧
    (∀ stream : List Nat, (pc_writes seed 1 54 stream).getD 0 0 = stream.getD 0 0) := by
  have hloop : ∀ stream : List Nat, stream.length = 57 →
      PSOPCEncryption.init_loop 0x46F 1 seed 0x15 (pc_seeded seed stream) =
        pc_writes seed 1 54 (pc_seeded seed stream) := by
    intro stream hlen
    exact pc_init_loop_spec seed 54 1 0x46F (pc_seeded seed stream) (by norm_num)
      (by norm_num) (by norm_num) (by simp [pc_seeded, hlen])
  refine ⟨?_, ?_, rfl, rfl, fun _ => rfl, ?_, ?_, ?_⟩
  · unfold PSOPCEncryption.new
    have := hloop (List.replicate PC_STREAM_LENGTH 0) (by simp [PC_STREAM_LENGTH])
    unfold pc_seeded at this
    simp only [this]
    rfl
  · intro stream
    apply hloop
    simp
    omega
  · rw [pc_writes_high _ _ _ _ _ (by norm_num)]
    simp [pc_seeded, PC_STREAM_LENGTH, List.getD_eq_getElem?_getD, List.getElem?_set_self]
  · rw [pc_writes_high _ _ _ _ _ (by norm_num)]
    simp [pc_seeded, PC_STREAM_LENGTH, List.getD_eq_getElem?_getD, List.getElem?_set_self,
      List.getElem?_set_ne]
  · intro stream
    exact pc_writes_zero seed 54 1 stream (by norm_num) (by norm_num)
set_option maxRecDepth 1000000 in
/-- C33 (counterexample): with the key whose private key is zero and whose initial-key
word 6 is 1, the block (0, 0) encrypts to (0, 0); the 16-round network over the 18 words
gives (0, 1), as it XORs word 6 in. -/
theorem C33_word_six_unused :
    PSOBBEncryption.encrypt_block sample_flat_key 0 0 = (0, 0) ∧
    feistel sample_flat_key.private_keys (fun i => as32 sample_flat_key.initial_keys i) 16 0 0
      = (0, 1) ∧
    (PSOBBEncryption.encrypt ⟨sample_flat_key⟩ [0, 0, 0, 0, 0, 0, 0, 0] true).data
      = [0, 0, 0, 0, 0, 0, 0, 0] := by
  decide

theorem feistel_shape (F : Nat → Nat) (L0 d1 a b c e f : Nat) :
    (F L0 ^^^ a ^^^ d1 ^^^ F (L0 ^^^ (F (F L0 ^^^ a ^^^ d1) ^^^ b)) ^^^ c ^^^ f,
      L0 ^^^ (F (F L0 ^^^ a ^^^ d1) ^^^ b) ^^^
        (F (F L0 ^^^ a ^^^ d1 ^^^ F (L0 ^^^ (F (F L0 ^^^ a ^^^ d1) ^^^ b)) ^^^ c) ^^^ e)) =
    (d1 ^^^ F L0 ^^^ a ^^^ F (L0 ^^^ F (d1 ^^^ F L0 ^^^ a) ^^^ b) ^^^ c ^^^ f,
      L0 ^^^ F (d1 ^^^ F L0 ^^^ a) ^^^ b ^^^
        F (d1 ^^^ F L0 ^^^ a ^^^ F (L0 ^^^ F (d1 ^^^ F L0 ^^^ a) ^^^ b) ^^^ c) ^^^ e) := by
  have h1 : d1 ^^^ F L0 ^^^ a = F L0 ^^^ a ^^^ d1 := by ac_rfl
  rw [h1]
  generalize F L0 ^^^ a ^^^ d1 = R1
  rw [Nat.xor_assoc L0 (F R1) b]
  generalize L0 ^^^ (F R1 ^^^ b) = L2
  rw [Nat.xor_assoc L2]

/-- C33 (amended): for the default/MOCB1 sub-variant, encrypt transforms each 64-bit block
by a 4-round Feistel network that XORs in the first 6 of the 18 initial-key words, and
decrypt is the same network with these 6 words used in the reverse order. -/
theorem C33_four_round_feistel (s : KeyFile) (d0 d1 : Nat) :
    PSOBBEncryption.encrypt_block s d0 d1 =
      feistel s.private_keys (fun i => as32 s.initial_keys i) 4 d0 d1 ∧
    PSOBBEncryption.decrypt_block s d0 d1 =
      feistel s.private_keys (fun i => as32 s.initial_keys (5 - i)) 4 d0 d1 := by
  constructor
  · simp only [PSOBBEncryption.encrypt_block, feistel, feistel_rounds, Nat.zero_add,
      Nat.reduceAdd]
    exact feistel_shape (sbox s.private_keys) _ _ _ _ _ _ _
  · simp only [PSOBBEncryption.decrypt_block, feistel, feistel_rounds, Nat.zero_add,
      Nat.reduceAdd, Nat.reduceSub, Nat.sub_zero]
    exact feistel_shape (sbox s.private_keys) _ _ _ _ _ _ _
theorem seed_mask_ok (seed : List Nat) :
    ∀ fuel j acc, 3 * j ≤ seed.length → seed.length % 3 = 0 → seed.length ≤ fuel + 3 * j →
      seed_mask seed seed.length fuel (3 * j) acc =
        .ok (acc ++ (List.range' (3 * j) (seed.length - 3 * j)).map (masked_byte seed)) := by
  intro fuel
  induction fuel with
  | zero =>
    intro j acc h1 _ h2
    have : seed.length - 3 * j = 0 := by omega
    rw [this]
    simp [seed_mask]
  | succ f ih =>
    intro j acc h1 h3 h2
    unfold seed_mask
    by_cases hx : 3 * j < seed.length
    · rw [if_pos hx]
      have hx1 : 3 * j + 1 < seed.length := by omega
      have hx2 : 3 * j + 2 < seed.length := by omega
      rw [List.getElem?_eq_getElem hx, List.getElem?_eq_getElem hx1,
        List.getElem?_eq_getElem hx2]
      dsimp only
      rw [show 3 * j + 3 = 3 * (j + 1) by omega, ih (j + 1) _ (by omega) h3 (by omega)]
      congr 1
      rw [show seed.length - 3 * j = (seed.length - 3 * (j + 1)) + 1 + 1 + 1 by omega]
      rw [List.range'_succ, List.range'_succ, List.range'_succ]
      simp only [List.map_cons, List.append_assoc, List.cons_append, List.nil_append]
      rw [show 3 * j + 1 + 1 + 1 = 3 * (j + 1) by omega]
      have m0 : masked_byte seed (3 * j) = (seed[3 * j] ^^^ 0x19) % 256 := by
        unfold masked_byte
        rw [List.getD_eq_getElem _ _ hx, show 3 * j % 3 = 0 by omega]
        rfl
      have m1 : masked_byte seed (3 * j + 1) = (seed[3 * j + 1] ^^^ 0x16) % 256 := by
        unfold masked_byte
        rw [List.getD_eq_getElem _ _ hx1, show (3 * j + 1) % 3 = 1 by omega]
        rfl
      have m2 : masked_byte seed (3 * j + 1 + 1) = (seed[3 * j + 2] ^^^ 0x18) % 256 := by
        unfold masked_byte
        rw [List.getD_eq_getElem _ _ hx2, show (3 * j + 1 + 1) % 3 = 2 by omega]
        rfl
      rw [m0, m1, m2]
    · rw [if_neg hx]
      have : seed.length - 3 * j = 0 := by omega
      rw [this]
      simp

theorem jsd1_table_spec (seed : List Nat) (hne : 0 < seed.length) :
    ∀ n z o pk, z + n ≤ pk.length → o < seed.length →
      ∀ i, (jsd1_table seed n z o pk).getD i 0 =
        if z ≤ i ∧ i < z + n then
          ((i + seed.getD ((o + (i - z)) % seed.length) 0) ^^^
            (seed.getD ((o + (i - z)) % seed.length) 0 >>> 1)) % 256
        else pk.getD i 0 := by
  intro n
  induction n with
  | zero =>
    intro z o pk _ _ i
    rw [if_neg (by omega)]
    rfl
  | succ n ih =>
    intro z o pk hz ho i
    unfold jsd1_table
    dsimp only
    rw [ih (z + 1) ((o + 1) % seed.length) _ (by simp; omega) (Nat.mod_lt _ hne) i]
    by_cases h1 : z + 1 ≤ i ∧ i < z + 1 + n
    · rw [if_pos h1, if_pos (by omega)]
      have : ((o + 1) % seed.length + (i - (z + 1))) % seed.length
          = (o + (i - z)) % seed.length := by
        rw [Nat.add_mod, Nat.mod_mod, ← Nat.add_mod]
        congr 1
        omega
      rw [this]
    · rw [if_neg h1]
      by_cases h2 : i = z
      · subst h2
        rw [if_pos (by omega), Nat.sub_self, Nat.add_zero, Nat.mod_eq_of_lt ho,
          List.getD_eq_getElem?_getD, List.getElem?_set_self (by omega)]
        rfl
      · rw [if_neg (by omega), List.getD_eq_getElem?_getD, List.getElem?_set_ne (by omega),
          ← List.getD_eq_getElem?_getD]

theorem masked_getD (seed : List Nat) (i : Nat) (hi : i < seed.length) :
    ((List.range' 0 seed.length).map (masked_byte seed)).getD i 0 = masked_byte seed i := by
  rw [List.getD_eq_getElem?_getD, List.getElem?_map, List.getElem?_range' _ _ hi]
  simp

theorem jsd1_new_spec (key : KeyFile) (seed : List Nat)
    (hsub : key.subtype = Subtype.JSD1) (hne : seed ≠ []) (h3 : seed.length % 3 = 0)
    (hpk : 0x100 ≤ key.private_keys.length) :
    ∃ c, PSOBBEncryption.new key seed seed.length = .ok c ∧
      (∀ z, z < 256 → as8 c.state.private_keys z =
        ((z + masked_byte seed (z % seed.length)) % 256) ^^^
          (masked_byte seed (z % seed.length) >>> 1)) ∧
      c.state.jsd1_stream_offset = key.jsd1_stream_offset ∧
      c.state.initial_keys = key.initial_keys := by
  have hlen : 0 < seed.length := List.length_pos.mpr hne
  have hmask := seed_mask_ok seed seed.length 0 [] (by omega) h3 (by omega)
  simp only [Nat.mul_zero, Nat.sub_zero, List.nil_append] at hmask
  have hml : ((List.range' 0 seed.length).map (masked_byte seed)).length = seed.length := by
    simp
  refine ⟨⟨KeyFile.mk key.initial_keys (jsd1_table
      ((List.range' 0 seed.length).map (masked_byte seed)) 0x100 0 0 key.private_keys)
      key.subtype⟩, ?_, ?_, ?_, ?_⟩
  · unfold PSOBBEncryption.new PSOBBEncryption.apply_seed
    rw [hmask]
    dsimp only
    rw [if_neg (by rw [hsub]; simp), if_neg (by rw [hml]; omega)]
  · intro z hz
    unfold as8
    dsimp only
    rw [jsd1_table_spec _ (by rw [hml]; exact hlen) 0x100 0 0 key.private_keys
      (by omega) (by rw [hml]; exact hlen) z, if_pos (by omega)]
    rw [hml, Nat.zero_add, Nat.sub_zero, masked_getD seed _ (Nat.mod_lt _ hlen)]
    have hm : masked_byte seed (z % seed.length) < 256 := by
      unfold masked_byte; exact Nat.mod_lt _ (by norm_num)
    have hs : masked_byte seed (z % seed.length) >>> 1 < 256 := by
      rw [Nat.shiftRight_eq_div_pow]; omega
    rw [show (256 : Nat) = 2 ^ 8 from rfl, xor_mod_two_pow,
      Nat.mod_eq_of_lt (show masked_byte seed (z % seed.length) >>> 1 < 2 ^ 8 from hs)]
  · simp only [KeyFile.jsd1_stream_offset]
  · simp only

/-- C34 (counterexample): a JSD1 cipher constructed from the sample key with the 3-byte
seed `00 00 00` has `S[0] = 0x15 = (0 + 0x19) XOR (0x19 >> 1)`; the formula of the claim
over the seed as passed gives `(0 + 0) XOR (0 >> 1) = 0`. -/
theorem C34_table_uses_masked_seed :
    (∃ c, PSOBBEncryption.new (sample_jsd1_key 0) [0, 0, 0] 3 = .ok c ∧
      as8 c.state.private_keys 0 = 0x15) ∧
    ((0 + [0, 0, 0].getD (0 % 3) 0) % 256) ^^^ ([0, 0, 0].getD (0 % 3) 0 >>> 1) = 0 := by
  refine ⟨?_, by decide⟩
  obtain ⟨c, hc, htab, _⟩ := jsd1_new_spec (sample_jsd1_key 0) [0, 0, 0] rfl (by decide)
    (by decide) (by
      show 0x100 ≤ (List.replicate 0x1000 0xC3).length
      rw [List.length_replicate]; norm_num)
  refine ⟨c, hc, ?_⟩
  rw [htab 0 (by norm_num)]
  decide

/-- C34 (amended): for a V4 JSD1 cipher constructed with a non-empty seed whose length is a
multiple of 3, the initial table satisfies, for every z in 0..255,
S[z] = ((z + m[z mod |seed|]) mod 256) XOR (m[z mod |seed|] >> 1), where m is the masked
seed — byte i of the seed passed to the constructor XORed with 0x19, 0x16 or 0x18 for
i mod 3 = 0, 1, 2 — and the stream offset keeps the value from the key file. -/
theorem C34_jsd1_initial_table (key : KeyFile) (seed : List Nat)
    (hsub : key.subtype = Subtype.JSD1) (hne : seed ≠ []) (h3 : seed.length % 3 = 0)
    (hpk : 0x100 ≤ key.private_keys.length) :
    ∃ c, PSOBBEncryption.new key seed seed.length = .ok c ∧
      (∀ z, z < 256 → as8 c.state.private_keys z =
        ((z + masked_byte seed (z % seed.length)) % 256) ^^^
          (masked_byte seed (z % seed.length) >>> 1)) ∧
      c.state.jsd1_stream_offset = key.jsd1_stream_offset ∧
      c.state.initial_keys = key.initial_keys := by
  have hlen : 0 < seed.length := List.length_pos.mpr hne
  have hmask := seed_mask_ok seed seed.length 0 [] (by omega) h3 (by omega)
  simp only [Nat.mul_zero, Nat.sub_zero, List.nil_append] at hmask
  have hml : ((List.range' 0 seed.length).map (masked_byte seed)).length = seed.length := by
    simp
  refine ⟨⟨KeyFile.mk key.initial_keys (jsd1_table
      ((List.range' 0 seed.length).map (masked_byte seed)) 0x100 0 0 key.private_keys)
      key.subtype⟩, ?_, ?_, ?_, ?_⟩
  · unfold PSOBBEncryption.new PSOBBEncryption.apply_seed
    rw [hmask]
    dsimp only
    rw [if_neg (by rw [hsub]; simp), if_neg (by rw [hml]; omega)]
  · intro z hz
    unfold as8
    dsimp only
    rw [jsd1_table_spec _ (by rw [hml]; exact hlen) 0x100 0 0 key.private_keys
      (by omega) (by rw [hml]; exact hlen) z, if_pos (by omega)]
    rw [hml, Nat.zero_add, Nat.sub_zero, masked_getD seed _ (Nat.mod_lt _ hlen)]
    have hm : masked_byte seed (z % seed.length) < 256 := by
      unfold masked_byte; exact Nat.mod_lt _ (by norm_num)
    have hs : masked_byte seed (z % seed.length) >>> 1 < 256 := by
      rw [Nat.shiftRight_eq_div_pow]; omega
    rw [show (256 : Nat) = 2 ^ 8 from rfl, xor_mod_two_pow,
      Nat.mod_eq_of_lt (show masked_byte seed (z % seed.length) >>> 1 < 2 ^ 8 from hs)]
  · simp only [KeyFile.jsd1_stream_offset]
  · simp only

/-- C34 (witness): the sample JSD1 key with the seed `00 00 00`. -/
theorem C34_jsd1_initial_table_witness :
    ∃ c, PSOBBEncryption.new (sample_jsd1_key 7) [0, 0, 0] 3 = .ok c ∧
      (∀ z, z < 256 → as8 c.state.private_keys z =
        ((z + masked_byte [0, 0, 0] (z % 3)) % 256) ^^^
          (masked_byte [0, 0, 0] (z % 3) >>> 1)) ∧
      c.state.jsd1_stream_offset = (sample_jsd1_key 7).jsd1_stream_offset ∧
      c.state.initial_keys = (sample_jsd1_key 7).initial_keys :=
  C34_jsd1_initial_table (sample_jsd1_key 7) [0, 0, 0] rfl (by decide) (by decide)
    (by
      show 0x100 ≤ (List.replicate 0x1000 0xC3).length
      rw [List.length_replicate]; norm_num)

/-! ## Failure of the detector and of the constructor of the V4 cipher -/

/-- C37: a detector with one candidate of the default sub-variant.  (1) With a 6-byte seed
and a 6-byte expected first plaintext, a first message of 6 bytes makes the candidate's
peek-decrypt raise; decrypt leaves with that exception, and afterwards `get_active_key()` is
the candidate and a cipher is installed.  (2) With a 2-byte seed the candidate's
construction raises; afterwards `get_active_key()` is the candidate.  In both cases a paired
imitator does not fail as not ready: `ensure_crypt` builds a cipher from the candidate. -/
theorem C37_failed_detection_leaves_key :
    ((PSOBBMultiKeyDetectorEncryption.new [sample_key Subtype.STANDARD]
        [0x93, 0, 6, 0, 0, 0] [0xDE, 0xAD, 0xBE, 0xEF, 0x00, 0x01]).decrypt
          [1, 2, 3, 4, 5, 6] true).error =
        some (.invalid_argument "size must be a multiple of 8") ∧
      ((PSOBBMultiKeyDetectorEncryption.new [sample_key Subtype.STANDARD]
        [0x93, 0, 6, 0, 0, 0] [0xDE, 0xAD, 0xBE, 0xEF, 0x00, 0x01]).decrypt
          [1, 2, 3, 4, 5, 6] true).crypt.get_active_key = some (sample_key Subtype.STANDARD) ∧
      ((PSOBBMultiKeyDetectorEncryption.new [sample_key Subtype.STANDARD]
        [0x93, 0, 6, 0, 0, 0] [0xDE, 0xAD, 0xBE, 0xEF, 0x00, 0x01]).decrypt
          [1, 2, 3, 4, 5, 6] true).crypt.active_crypt.isSome = true ∧
      (match ((PSOBBMultiKeyImitatorEncryption.new [1, 2, 3] false).ensure_crypt
          ((PSOBBMultiKeyDetectorEncryption.new [sample_key Subtype.STANDARD]
            [0x93, 0, 6, 0, 0, 0] [0xDE, 0xAD, 0xBE, 0xEF, 0x00, 0x01]).decrypt
              [1, 2, 3, 4, 5, 6] true).crypt).2 with
        | .ok _ => true
        | .error _ => false) = true ∧
      ((PSOBBMultiKeyDetectorEncryption.new [sample_key Subtype.STANDARD]
        [0x93, 0, 8, 0, 0, 0, 0, 0] [0xDE, 0xAD]).decrypt
          [1, 2, 3, 4, 5, 6, 7, 8] true).error =
        some (.invalid_argument "seed size must be divisible by 3") ∧
      ((PSOBBMultiKeyDetectorEncryption.new [sample_key Subtype.STANDARD]
        [0x93, 0, 8, 0, 0, 0, 0, 0] [0xDE, 0xAD]).decrypt
          [1, 2, 3, 4, 5, 6, 7, 8] true).crypt.get_active_key =
        some (sample_key Subtype.STANDARD) ∧
      (match ((PSOBBMultiKeyImitatorEncryption.new [1, 2, 3] false).ensure_crypt
          ((PSOBBMultiKeyDetectorEncryption.new [sample_key Subtype.STANDARD]
            [0x93, 0, 8, 0, 0, 0, 0, 0] [0xDE, 0xAD]).decrypt
              [1, 2, 3, 4, 5, 6, 7, 8] true).crypt).2 with
        | .ok _ => true
        | .error _ => false) = true := by
  refine ⟨?_, rfl, ?_, ?_, ?_, rfl, ?_⟩
  · set_option maxRecDepth 100000 in decide
  · set_option maxRecDepth 100000 in decide
  · set_option maxRecDepth 100000 in decide
  · set_option maxRecDepth 100000 in decide
  · set_option maxRecDepth 100000 in decide

/-- C40: the construction of a V4 cipher is not defined for every seed.  With the empty
seed, for a key of the default sub-variant as for a JSD1 key, `apply_seed` takes a remainder
modulo `seed.size() = 0`; with a seed of one byte it reads `original_seed_data[1]` and
`[2]`, outside the given bytes, before the length is looked at (and for a JSD1 key the
length is never looked at).  A seed of 2 or 4 bytes whose buffer is followed by two more
readable bytes is rejected for the default sub-variant. -/
theorem C40_seed_reads_and_remainder :
    PSOBBEncryption.new (sample_key Subtype.STANDARD) [] 0
      = .error (.undefined "remainder by seed.size() = 0") ∧
    PSOBBEncryption.new (sample_jsd1_key 0) [] 0
      = .error (.undefined "remainder by seed.size() = 0") ∧
    PSOBBEncryption.new (sample_key Subtype.STANDARD) [7] 1
      = .error (.undefined "original_seed_data read outside the seed") ∧
    PSOBBEncryption.new (sample_jsd1_key 0) [7] 1
      = .error (.undefined "original_seed_data read outside the seed") ∧
    PSOBBEncryption.new (sample_key Subtype.MOCB1) [7, 8, 0, 0, 0, 0] 4
      = .error (.invalid_argument "seed size must be divisible by 3") := by
  refine ⟨?_, ?_, ?_, ?_, ?_⟩ <;> rfl

/-! ## Offsets and state indices of the stream ciphers -/

theorem read_cell_lt {stream : List Nat} {i : Nat} (h : i < stream.length) :
    read_cell stream i = some (stream.getD i 0) := by
  unfold read_cell
  rw [List.getD_eq_getElem?_getD, List.getElem?_eq_getElem h]
  rfl

theorem write_cell_lt {stream : List Nat} {i : Nat} (v : Nat) (h : i < stream.length) :
    write_cell stream i v = some (stream.set i v) := by
  simp [write_cell, h]

theorem PSOPCEncryption.pc_loop1_length :
    ∀ (edx eax : Nat) (stream : List Nat),
      (update_stream_loop1 edx eax stream).length = stream.length := by
  intro edx
  induction edx with
  | zero => intro eax stream; rfl
  | succ edx ih =>
    intro eax stream
    rw [update_stream_loop1, ih, List.length_set]

theorem PSOPCEncryption.pc_loop2_length :
    ∀ (edx eax : Nat) (stream : List Nat),
      (update_stream_loop2 edx eax stream).length = stream.length := by
  intro edx
  induction edx with
  | zero => intro eax stream; rfl
  | succ edx ih =>
    intro eax stream
    rw [update_stream_loop2, ih, List.length_set]

theorem PSOPCEncryption.pc_update_stream_length (stream : List Nat) :
    (update_stream stream).length = stream.length := by
  unfold update_stream
  dsimp only
  rw [pc_loop2_length, pc_loop1_length]

theorem PSOPCEncryption.pc_loop1_checked :
    ∀ (edx eax : Nat) (stream : List Nat), eax + edx + 0x1F ≤ stream.length →
      stream.length < 2 ^ 32 →
      update_stream_loop1_checked edx eax stream = some (update_stream_loop1 edx eax stream) := by
  intro edx
  induction edx with
  | zero => intro eax stream _ _; rfl
  | succ edx ih =>
    intro eax stream h hlt
    rw [update_stream_loop1_checked, update_stream_loop1]
    rw [Nat.mod_eq_of_lt (show eax + 0x1F < 2 ^ 32 by omega),
      Nat.mod_eq_of_lt (show eax + 1 < 2 ^ 32 by omega),
      read_cell_lt (show eax + 0x1F < stream.length by omega),
      read_cell_lt (show eax < stream.length by omega)]
    simp only [Option.some_bind]
    rw [write_cell_lt _ (show eax < stream.length by omega)]
    simp only [Option.some_bind]
    exact ih _ _ (by rw [List.length_set]; omega) (by rw [List.length_set]; exact hlt)

theorem sub32_of_le {a b : Nat} (hb : b ≤ a) (ha : a < 2 ^ 32) : sub32 a b = a - b := by
  unfold sub32
  rw [Nat.mod_eq_of_lt (lt_of_le_of_lt hb ha)]
  have h : a + 2 ^ 32 - b = (a - b) + 2 ^ 32 := by omega
  rw [h, Nat.add_mod_right, Nat.mod_eq_of_lt (by omega)]

theorem PSOPCEncryption.pc_loop2_checked :
    ∀ (edx eax : Nat) (stream : List Nat), 0x18 ≤ eax → eax + edx ≤ stream.length →
      stream.length < 2 ^ 32 →
      update_stream_loop2_checked edx eax stream = some (update_stream_loop2 edx eax stream) := by
  intro edx
  induction edx with
  | zero => intro eax stream _ _ _; rfl
  | succ edx ih =>
    intro eax stream h18 h hlt
    rw [update_stream_loop2_checked, update_stream_loop2]
    rw [sub32_of_le h18 (by omega),
      Nat.mod_eq_of_lt (show eax + 1 < 2 ^ 32 by omega),
      read_cell_lt (show eax - 0x18 < stream.length by omega),
      read_cell_lt (show eax < stream.length by omega)]
    simp only [Option.some_bind]
    rw [write_cell_lt _ (show eax < stream.length by omega)]
    simp only [Option.some_bind]
    exact ih _ _ (by omega) (by rw [List.length_set]; omega) (by rw [List.length_set]; exact hlt)

theorem PSOPCEncryption.pc_update_stream_checked (stream : List Nat)
    (h : 56 ≤ stream.length) (hlt : stream.length < 2 ^ 32) :
    update_stream_checked stream = some (update_stream stream) := by
  unfold update_stream_checked update_stream
  rw [pc_loop1_checked _ _ _ (by omega) hlt]
  simp only [Option.some_bind]
  exact pc_loop2_checked _ _ _ (by norm_num) (by rw [pc_loop1_length]; omega)
    (by rw [pc_loop1_length]; exact hlt)

theorem PSOPCEncryption.pc_init_loop_length :
    ∀ (fuel esi ebx edi : Nat) (stream : List Nat),
      (init_loop fuel esi ebx edi stream).length = stream.length := by
  intro fuel
  induction fuel with
  | zero => intro esi ebx edi stream; rfl
  | succ fuel ih =>
    intro esi ebx edi stream
    rw [init_loop]
    split_ifs
    · dsimp only
      rw [ih, List.length_set]
    · rfl

theorem PSOPCEncryption.pc_init_loop_checked :
    ∀ (fuel esi ebx edi : Nat) (stream : List Nat), 55 ≤ stream.length →
      init_loop_checked fuel esi ebx edi stream = some (init_loop fuel esi ebx edi stream) := by
  intro fuel
  induction fuel with
  | zero => intro esi ebx edi stream _; rfl
  | succ fuel ih =>
    intro esi ebx edi stream h
    rw [init_loop_checked, init_loop]
    split_ifs with hedi
    · dsimp only
      have h1 : edi / 55 * 55 % 2 ^ 32 = edi / 55 * 55 := Nat.mod_eq_of_lt (by omega)
      rw [h1, sub32_of_le (Nat.div_mul_le_self edi 55) (by omega),
        Nat.mod_eq_of_lt (show edi + 0x15 < 2 ^ 32 by omega),
        write_cell_lt _ (show edi - edi / 55 * 55 < stream.length by omega)]
      simp only [Option.some_bind]
      rw [read_cell_lt (by rw [List.length_set]; omega)]
      simp only [Option.some_bind]
      exact ih _ _ _ _ (by rw [List.length_set]; exact h)
    · rfl

theorem PSOPCEncryption.pc_stir_length :
    ∀ (n : Nat) (stream : List Nat), (stir n stream).length = stream.length := by
  intro n
  induction n with
  | zero => intro stream; rfl
  | succ n ih => intro stream; rw [stir, ih, pc_update_stream_length]

theorem PSOPCEncryption.pc_stir_checked :
    ∀ (n : Nat) (stream : List Nat), 56 ≤ stream.length → stream.length < 2 ^ 32 →
      stir_checked n stream = some (stir n stream) := by
  intro n
  induction n with
  | zero => intro stream _ _; rfl
  | succ n ih =>
    intro stream h hlt
    rw [stir_checked, stir, pc_update_stream_checked stream h hlt]
    simp only [Option.some_bind]
    exact ih _ (by rw [pc_update_stream_length]; exact h)
      (by rw [pc_update_stream_length]; exact hlt)

theorem PSOPCEncryption.pc_new_length (seed : Nat) : (new seed).stream.length = 57 := by
  unfold new
  dsimp only
  rw [pc_stir_length, pc_init_loop_length]
  simp [PC_STREAM_LENGTH]

theorem PSOPCEncryption.pc_new_checked_from (seed : Nat) (stream : List Nat)
    (h : stream.length = 57) :
    ((write_cell stream 56 seed).bind fun stream =>
      (write_cell stream 55 seed).bind fun stream =>
      (init_loop_checked 0x46F 1 seed 0x15 stream).bind fun stream =>
      (stir_checked 5 stream).bind fun stream =>
      some ({ stream := stream, offset := 1 } : PSOPCEncryption)) =
      some ⟨stir 5 (init_loop 0x46F 1 seed 0x15 ((stream.set 56 seed).set 55 seed)), 1⟩ := by
  rw [write_cell_lt _ (show 56 < stream.length by omega)]
  simp only [Option.some_bind]
  rw [write_cell_lt _ (show 55 < (stream.set 56 seed).length by rw [List.length_set]; omega)]
  simp only [Option.some_bind]
  rw [pc_init_loop_checked _ _ _ _ _ (by rw [List.length_set, List.length_set]; omega)]
  simp only [Option.some_bind]
  rw [pc_stir_checked _ _
    (by rw [pc_init_loop_length, List.length_set, List.length_set]; omega)
    (by rw [pc_init_loop_length, List.length_set, List.length_set, h]; norm_num)]
  simp only [Option.some_bind]

theorem PSOPCEncryption.pc_new_checked (seed : Nat) :
    new_checked 57 seed = some (new seed) :=
  pc_new_checked_from seed (List.replicate 57 0) (List.length_replicate 57 0)

theorem PSOPCEncryption.pc_next_checked (stream_length : Nat) (c : PSOPCEncryption)
    (advance : Bool) (hlen : c.stream.length = 57) (ho : c.offset ≤ stream_length)
    (h57 : stream_length ≤ 57) :
    c.next_checked stream_length advance = some (c.next_at stream_length advance) := by
  unfold next_checked next_at
  by_cases h : c.offset = stream_length
  · rw [if_pos h, if_pos h, pc_update_stream_checked _ (by omega) (by omega)]
    refine Eq.trans (Option.some_bind _ _) ?_
    dsimp only
    rw [read_cell_lt (show 1 < (update_stream c.stream).length by
      rw [pc_update_stream_length]; omega)]
    rfl
  · rw [if_neg h, if_neg h]
    refine Eq.trans (Option.some_bind _ _) ?_
    dsimp only
    rw [read_cell_lt (show c.offset < c.stream.length by omega)]
    rfl
theorem PSOPCEncryption.pc_next_at_inv (stream_length : Nat) (c : PSOPCEncryption)
    (advance : Bool) (h2 : 2 ≤ stream_length)
    (h : c.stream.length = 57 ∧ 1 ≤ c.offset ∧ c.offset ≤ stream_length) :
    (c.next_at stream_length advance).1.stream.length = 57 ∧
      1 ≤ (c.next_at stream_length advance).1.offset ∧
      (c.next_at stream_length advance).1.offset ≤ stream_length := by
  unfold next_at
  by_cases h1 : c.offset = stream_length <;> cases advance <;>
    simp [h1, pc_update_stream_length] <;> omega

theorem PSOPCEncryption.pc_encrypt_loop_at_inv (stream_length : Nat) (advance : Bool)
    (h2 : 2 ≤ stream_length) :
    ∀ (n : Nat) (data : List Nat) (c : PSOPCEncryption), data.length ≤ n →
      (c.stream.length = 57 ∧ 1 ≤ c.offset ∧ c.offset ≤ stream_length) →
      (encrypt_loop_at stream_length advance c data).1.stream.length = 57 ∧
        1 ≤ (encrypt_loop_at stream_length advance c data).1.offset ∧
        (encrypt_loop_at stream_length advance c data).1.offset ≤ stream_length := by
  intro n
  induction n with
  | zero =>
    intro data c hlen h
    have : data = [] := List.length_eq_zero.mp (by omega)
    subst this
    simpa [encrypt_loop_at] using h
  | succ n ih =>
    intro data c hlen h
    match data, hlen with
    | b0 :: b1 :: b2 :: b3 :: rest, hlen =>
      rw [encrypt_loop_at]
      exact ih rest _ (by simp at hlen; omega) (pc_next_at_inv stream_length c advance h2 h)
    | [], _ => simpa [encrypt_loop_at] using h
    | [_], _ => simpa [encrypt_loop_at] using h
    | [_, _], _ => simpa [encrypt_loop_at] using h
    | [_, _, _], _ => simpa [encrypt_loop_at] using h

theorem PSOPCEncryption.pc_encrypt_at_inv (stream_length : Nat) (c : PSOPCEncryption)
    (data : List Nat) (advance : Bool) (h2 : 2 ≤ stream_length)
    (h : c.stream.length = 57 ∧ 1 ≤ c.offset ∧ c.offset ≤ stream_length) :
    (c.encrypt_at stream_length data advance).crypt.stream.length = 57 ∧
      1 ≤ (c.encrypt_at stream_length data advance).crypt.offset ∧
      (c.encrypt_at stream_length data advance).crypt.offset ≤ stream_length := by
  unfold PSOPCEncryption.encrypt_at
  split_ifs
  · exact h
  · exact h
  · exact pc_encrypt_loop_at_inv stream_length advance h2 data.length data c (le_refl _) h

theorem PSOPCEncryption.pc_run_at_inv (stream_length : Nat) (h2 : 2 ≤ stream_length)
    (calls : List (List Nat × Bool)) :
    ∀ c : PSOPCEncryption, (c.stream.length = 57 ∧ 1 ≤ c.offset ∧ c.offset ≤ stream_length) →
      (c.run_at stream_length calls).stream.length = 57 ∧
        1 ≤ (c.run_at stream_length calls).offset ∧
        (c.run_at stream_length calls).offset ≤ stream_length := by
  induction calls with
  | nil => intro c h; exact h
  | cons call calls ih =>
    intro c h
    rw [PSOPCEncryption.run_at]
    exact ih _ (pc_encrypt_at_inv stream_length c call.1 call.2 h2 h)

theorem PSOPCEncryption.pc_encrypt_loop_at_length (advance : Bool) :
    ∀ (n : Nat) (data : List Nat) (c : PSOPCEncryption), data.length ≤ n →
      encrypt_loop_at PC_STREAM_LENGTH advance c data = encrypt_loop advance c data := by
  intro n
  induction n with
  | zero =>
    intro data c hlen
    have : data = [] := List.length_eq_zero.mp (by omega)
    subst this
    rfl
  | succ n ih =>
    intro data c hlen
    match data, hlen with
    | b0 :: b1 :: b2 :: b3 :: rest, hlen =>
      rw [encrypt_loop_at, encrypt_loop]
      rw [ih rest _ (by simp at hlen; omega)]
      rfl
    | [], _ => rfl
    | [_], _ => rfl
    | [_, _], _ => rfl
    | [_, _, _], _ => rfl

theorem PSOPCEncryption.pc_encrypt_at_length (c : PSOPCEncryption) (data : List Nat)
    (advance : Bool) : c.encrypt_at PC_STREAM_LENGTH data advance = c.encrypt data advance := by
  unfold PSOPCEncryption.encrypt_at PSOPCEncryption.encrypt
  rw [pc_encrypt_loop_at_length advance data.length data c (le_refl _)]

theorem PSOPCEncryption.pc_encrypt_at_four (stream_length : Nat) (c : PSOPCEncryption)
    (advance : Bool) (b0 b1 b2 b3 : Nat) :
    c.encrypt_at stream_length [b0, b1, b2, b3] advance =
      ⟨(c.next_at stream_length advance).1,
        le_store (le_load b0 b1 b2 b3 ^^^ (c.next_at stream_length advance).2), none⟩ := by
  have h : (4 : Nat) &&& 3 = 0 := by decide
  cases advance <;> simp [PSOPCEncryption.encrypt_at, PSOPCEncryption.encrypt_loop_at, h]
theorem PSOGCEncryption.gc_loop1_length :
    ∀ (fuel r5 r6 : Nat) (stream : List Nat),
      (update_stream_loop1 fuel r5 r6 stream).2.length = stream.length := by
  intro fuel
  induction fuel with
  | zero => intro r5 r6 stream; rfl
  | succ fuel ih =>
    intro r5 r6 stream
    rw [update_stream_loop1]
    split_ifs
    · rw [ih, List.length_set]
    · rfl

theorem PSOGCEncryption.gc_loop1_bound :
    ∀ (fuel r5 r6 : Nat) (stream : List Nat), r5 ≤ r6 → r6 ≤ GC_STREAM_LENGTH →
      (update_stream_loop1 fuel r5 r6 stream).1 ≤ GC_STREAM_LENGTH := by
  intro fuel
  induction fuel with
  | zero => intro r5 r6 stream h1 h2; exact le_trans h1 h2
  | succ fuel ih =>
    intro r5 r6 stream h1 h2
    rw [update_stream_loop1]
    split_ifs with h
    · exact ih _ _ _ (by omega) (by omega)
    · exact le_trans h1 h2

theorem PSOGCEncryption.gc_loop2_length :
    ∀ (fuel r5 r7 : Nat) (stream : List Nat),
      (update_stream_loop2 fuel r5 r7 stream).length = stream.length := by
  intro fuel
  induction fuel with
  | zero => intro r5 r7 stream; rfl
  | succ fuel ih =>
    intro r5 r7 stream
    rw [update_stream_loop2]
    split_ifs
    · rw [ih, List.length_set]
    · rfl

theorem PSOGCEncryption.gc_update_stream_length (c : PSOGCEncryption) :
    c.update_stream.stream.length = c.stream.length := by
  unfold update_stream
  dsimp only
  rw [gc_loop2_length, gc_loop1_length]

theorem PSOGCEncryption.gc_loop1_checked :
    ∀ (fuel r5 r6 : Nat) (stream : List Nat), r5 ≤ r6 → r6 ≤ GC_STREAM_LENGTH →
      GC_STREAM_LENGTH ≤ stream.length →
      update_stream_loop1_checked fuel r5 r6 stream =
        some (update_stream_loop1 fuel r5 r6 stream) := by
  intro fuel
  induction fuel with
  | zero => intro r5 r6 stream _ _ _; rfl
  | succ fuel ih =>
    intro r5 r6 stream h1 h2 hlen
    rw [update_stream_loop1_checked, update_stream_loop1]
    unfold GC_STREAM_LENGTH at h2 hlen
    split_ifs with h
    · unfold GC_STREAM_LENGTH at h
      rw [Nat.mod_eq_of_lt (show r5 + 1 < 2 ^ 32 by omega),
        Nat.mod_eq_of_lt (show r6 + 1 < 2 ^ 32 by omega),
        read_cell_lt (show r5 < stream.length by omega),
        read_cell_lt (show r6 < stream.length by omega)]
      refine Eq.trans (Option.some_bind _ _) ?_
      refine Eq.trans (Option.some_bind _ _) ?_
      rw [write_cell_lt _ (show r5 < stream.length by omega)]
      refine Eq.trans (Option.some_bind _ _) ?_
      exact ih _ _ _ (by omega) (by unfold GC_STREAM_LENGTH; omega)
        (by rw [List.length_set]; unfold GC_STREAM_LENGTH; exact hlen)
    · rfl

theorem PSOGCEncryption.gc_loop2_checked :
    ∀ (fuel r5 r7 : Nat) (stream : List Nat), r7 ≤ r5 → r5 ≤ GC_STREAM_LENGTH →
      GC_STREAM_LENGTH ≤ stream.length →
      update_stream_loop2_checked fuel r5 r7 stream =
        some (update_stream_loop2 fuel r5 r7 stream) := by
  intro fuel
  induction fuel with
  | zero => intro r5 r7 stream _ _ _; rfl
  | succ fuel ih =>
    intro r5 r7 stream h1 h2 hlen
    rw [update_stream_loop2_checked, update_stream_loop2]
    unfold GC_STREAM_LENGTH at h2 hlen
    split_ifs with h
    · unfold GC_STREAM_LENGTH at h
      rw [Nat.mod_eq_of_lt (show r5 + 1 < 2 ^ 32 by omega),
        Nat.mod_eq_of_lt (show r7 + 1 < 2 ^ 32 by omega),
        read_cell_lt (show r5 < stream.length by omega),
        read_cell_lt (show r7 < stream.length by omega)]
      refine Eq.trans (Option.some_bind _ _) ?_
      refine Eq.trans (Option.some_bind _ _) ?_
      rw [write_cell_lt _ (show r5 < stream.length by omega)]
      refine Eq.trans (Option.some_bind _ _) ?_
      exact ih _ _ _ (by omega) (by unfold GC_STREAM_LENGTH; omega)
        (by rw [List.length_set]; unfold GC_STREAM_LENGTH; exact hlen)
    · rfl

theorem PSOGCEncryption.gc_update_stream_checked (c : PSOGCEncryption)
    (hlen : GC_STREAM_LENGTH ≤ c.stream.length) :
    c.update_stream_checked = some c.update_stream := by
  unfold update_stream_checked update_stream
  rw [gc_loop1_checked _ _ _ _ (by norm_num) (by unfold GC_STREAM_LENGTH; norm_num) hlen]
  refine Eq.trans (Option.some_bind _ _) ?_
  dsimp only
  rw [gc_loop2_checked _ _ _ _ (Nat.zero_le _)
    (gc_loop1_bound _ _ _ _ (by norm_num) (by unfold GC_STREAM_LENGTH; norm_num))
    (by rw [gc_loop1_length]; exact hlen)]
  rfl

theorem PSOGCEncryption.gc_stir_length :
    ∀ (n : Nat) (c : PSOGCEncryption), (stir n c).stream.length = c.stream.length := by
  intro n
  induction n with
  | zero => intro c; rfl
  | succ n ih => intro c; rw [stir, ih, gc_update_stream_length]

theorem PSOGCEncryption.gc_stir_checked :
    ∀ (n : Nat) (c : PSOGCEncryption), GC_STREAM_LENGTH ≤ c.stream.length →
      stir_checked n c = some (stir n c) := by
  intro n
  induction n with
  | zero => intro c _; rfl
  | succ n ih =>
    intro c h
    rw [stir_checked, stir, gc_update_stream_checked c h]
    refine Eq.trans (Option.some_bind _ _) ?_
    exact ih _ (by rw [gc_update_stream_length]; exact h)

theorem PSOGCEncryption.gc_stir_offset (n : Nat) (c : PSOGCEncryption) :
    (stir (n + 1) c).offset = 0 := by
  induction n generalizing c with
  | zero => rfl
  | succ n ih => rw [stir]; exact ih _

theorem PSOGCEncryption.gc_init_words_shape :
    ∀ (n seed basekey : Nat) (c : PSOGCEncryption),
      (init_words n seed basekey c).offset = c.offset + n ∧
        (init_words n seed basekey c).stream.length = c.stream.length := by
  intro n
  induction n with
  | zero => intro seed basekey c; exact ⟨rfl, rfl⟩
  | succ n ih =>
    intro seed basekey c
    rw [init_words]
    have := ih (init_bits 32 seed basekey).1 (init_bits 32 seed basekey).2
      { stream := c.stream.set c.offset (init_bits 32 seed basekey).2, offset := c.offset + 1 }
    dsimp only at this
    rw [this.1, this.2, List.length_set]
    exact ⟨by omega, rfl⟩

theorem PSOGCEncryption.gc_init_words_checked :
    ∀ (n seed basekey : Nat) (c : PSOGCEncryption), c.offset + n ≤ c.stream.length →
      init_words_checked n seed basekey c = some (init_words n seed basekey c) := by
  intro n
  induction n with
  | zero => intro seed basekey c _; rfl
  | succ n ih =>
    intro seed basekey c h
    rw [init_words_checked, init_words]
    rw [write_cell_lt _ (show c.offset < c.stream.length by omega)]
    refine Eq.trans (Option.some_bind _ _) ?_
    refine ih _ _ _ ?_
    show c.offset + 1 + n ≤ (c.stream.set c.offset _).length
    rw [List.length_set]
    omega

theorem PSOGCEncryption.gc_init_fill_length :
    ∀ (fuel s1 s2 s3 : Nat) (c : PSOGCEncryption),
      (init_fill fuel s1 s2 s3 c).stream.length = c.stream.length := by
  intro fuel
  induction fuel with
  | zero => intro s1 s2 s3 c; rfl
  | succ fuel ih =>
    intro s1 s2 s3 c
    rw [init_fill]
    split_ifs
    · dsimp only
      rw [ih, List.length_set]
    · rfl

theorem PSOGCEncryption.gc_init_fill_checked :
    ∀ (fuel s1 s2 s3 : Nat) (c : PSOGCEncryption), s1 ≤ c.offset → s2 ≤ c.offset →
      s3 ≤ c.offset → c.offset ≤ GC_STREAM_LENGTH → GC_STREAM_LENGTH ≤ c.stream.length →
      init_fill_checked fuel s1 s2 s3 c = some (init_fill fuel s1 s2 s3 c) := by
  intro fuel
  induction fuel with
  | zero => intro s1 s2 s3 c _ _ _ _ _; rfl
  | succ fuel ih =>
    intro s1 s2 s3 c h1 h2 h3 ho hlen
    rw [init_fill_checked, init_fill]
    unfold GC_STREAM_LENGTH at ho hlen
    split_ifs with h
    · unfold GC_STREAM_LENGTH at h
      rw [Nat.mod_eq_of_lt (show s1 + 1 < 2 ^ 32 by omega),
        Nat.mod_eq_of_lt (show s2 + 1 < 2 ^ 32 by omega),
        Nat.mod_eq_of_lt (show s3 + 1 < 2 ^ 32 by omega),
        read_cell_lt (show s3 < c.stream.length by omega),
        read_cell_lt (show s1 < c.stream.length by omega),
        read_cell_lt (show s2 < c.stream.length by omega)]
      refine Eq.trans (Option.some_bind _ _) ?_
      refine Eq.trans (Option.some_bind _ _) ?_
      refine Eq.trans (Option.some_bind _ _) ?_
      rw [write_cell_lt _ (show c.offset < c.stream.length by omega)]
      refine Eq.trans (Option.some_bind _ _) ?_
      dsimp only
      refine ih _ _ _ _ ?_ ?_ ?_ ?_ ?_
      · show s1 + 1 ≤ c.offset + 1
        omega
      · show s2 + 1 ≤ c.offset + 1
        omega
      · show s3 + 1 ≤ c.offset + 1
        omega
      · show c.offset + 1 ≤ 521
        omega
      · show 521 ≤ (c.stream.set c.offset _).length
        rw [List.length_set]
        exact hlen
    · rfl
theorem PSOGCEncryption.gc_new_checked_from (seed : Nat) (c0 : PSOGCEncryption)
    (ho : c0.offset = 0) (hlen : c0.stream.length = 521) :
    ((init_words_checked 17 seed 0 c0).bind fun c =>
      (read_cell c.stream 0).bind fun a =>
      (read_cell c.stream (sub32 c.offset 1)).bind fun b =>
      (read_cell c.stream 15).bind fun d =>
      (write_cell c.stream (sub32 c.offset 1)
        (((a >>> 9) ^^^ ((b <<< 23) % 2 ^ 32)) ^^^ d)).bind fun stream =>
      (init_fill_checked GC_STREAM_LENGTH 0 1 (sub32 c.offset 1)
        { stream := stream, offset := c.offset }).bind fun c =>
      stir_checked 4 c) =
    some (stir 4 (init_fill GC_STREAM_LENGTH 0 1 ((init_words 17 seed 0 c0).offset - 1)
      { stream := (init_words 17 seed 0 c0).stream.set ((init_words 17 seed 0 c0).offset - 1)
          ((((init_words 17 seed 0 c0).stream.getD 0 0 >>> 9) ^^^
            (((init_words 17 seed 0 c0).stream.getD ((init_words 17 seed 0 c0).offset - 1) 0
              <<< 23) % 2 ^ 32)) ^^^ (init_words 17 seed 0 c0).stream.getD 15 0),
        offset := (init_words 17 seed 0 c0).offset })) := by
  have hs := gc_init_words_shape 17 seed 0 c0
  rw [ho, hlen] at hs
  rw [gc_init_words_checked 17 seed 0 c0 (by omega)]
  refine Eq.trans (Option.some_bind _ _) ?_
  generalize init_words 17 seed 0 c0 = c at hs ⊢
  obtain ⟨h1, h2⟩ := hs
  have hsub : sub32 c.offset 1 = c.offset - 1 := sub32_of_le (by omega) (by omega)
  rw [hsub, read_cell_lt (show 0 < c.stream.length by omega),
    read_cell_lt (show c.offset - 1 < c.stream.length by omega),
    read_cell_lt (show 15 < c.stream.length by omega)]
  refine Eq.trans (Option.some_bind _ _) ?_
  refine Eq.trans (Option.some_bind _ _) ?_
  refine Eq.trans (Option.some_bind _ _) ?_
  rw [write_cell_lt _ (show c.offset - 1 < c.stream.length by omega)]
  refine Eq.trans (Option.some_bind _ _) ?_
  rw [gc_init_fill_checked _ _ _ _ _ (Nat.zero_le _) (by show 1 ≤ c.offset; omega)
    (by show c.offset - 1 ≤ c.offset; omega)
    (by show c.offset ≤ GC_STREAM_LENGTH; unfold GC_STREAM_LENGTH; omega)
    (by
      show GC_STREAM_LENGTH ≤ (c.stream.set _ _).length
      rw [List.length_set]; unfold GC_STREAM_LENGTH; omega)]
  refine Eq.trans (Option.some_bind _ _) ?_
  exact gc_stir_checked 4 _ (by
    rw [gc_init_fill_length]
    show GC_STREAM_LENGTH ≤ (c.stream.set _ _).length
    rw [List.length_set]; unfold GC_STREAM_LENGTH; omega)

theorem PSOGCEncryption.gc_new_checked (seed : Nat) :
    new_checked 521 seed = some (new seed) :=
  gc_new_checked_from seed { stream := List.replicate 521 0, offset := 0 } rfl
    (List.length_replicate 521 0)

theorem PSOGCEncryption.gc_new_shape (seed : Nat) :
    (new seed).stream.length = 521 ∧ (new seed).offset = 0 := by
  unfold new
  dsimp only
  refine ⟨?_, gc_stir_offset 3 _⟩
  rw [gc_stir_length, gc_init_fill_length]
  dsimp only
  rw [List.length_set, (gc_init_words_shape 17 seed 0 _).2]
  exact List.length_replicate _ _

theorem PSOGCEncryption.gc_next_checked (c : PSOGCEncryption) (advance : Bool)
    (hlen : c.stream.length = 521) (ho : c.offset ≤ GC_STREAM_LENGTH) :
    c.next_checked advance = some (c.next advance) := by
  unfold next_checked next
  unfold GC_STREAM_LENGTH at ho
  by_cases h : c.offset = GC_STREAM_LENGTH
  · rw [if_pos h, if_pos h,
      gc_update_stream_checked c (by unfold GC_STREAM_LENGTH; omega)]
    refine Eq.trans (Option.some_bind _ _) ?_
    dsimp only
    rw [read_cell_lt (show c.update_stream.offset < c.update_stream.stream.length by
      rw [gc_update_stream_length, hlen]; exact Nat.zero_lt_succ _)]
    rfl
  · rw [if_neg h, if_neg h]
    unfold GC_STREAM_LENGTH at h
    refine Eq.trans (Option.some_bind _ _) ?_
    dsimp only
    rw [read_cell_lt (show c.offset < c.stream.length by omega)]
    rfl

theorem PSOGCEncryption.gc_update_stream_offset (c : PSOGCEncryption) :
    c.update_stream.offset = 0 := rfl

theorem PSOGCEncryption.gc_next_inv (c : PSOGCEncryption) (advance : Bool)
    (h : c.stream.length = 521 ∧ c.offset ≤ GC_STREAM_LENGTH) :
    (c.next advance).1.stream.length = 521 ∧ (c.next advance).1.offset ≤ GC_STREAM_LENGTH := by
  unfold PSOGCEncryption.next
  unfold GC_STREAM_LENGTH at *
  by_cases h1 : c.offset = 521 <;> cases advance <;>
    simp [h1, gc_update_stream_length, gc_update_stream_offset, h.1] <;> omega

theorem PSOGCEncryption.gc_encrypt_loop_inv (advance : Bool) :
    ∀ (n : Nat) (data : List Nat) (c : PSOGCEncryption), data.length ≤ n →
      (c.stream.length = 521 ∧ c.offset ≤ GC_STREAM_LENGTH) →
      (encrypt_loop advance c data).1.stream.length = 521 ∧
        (encrypt_loop advance c data).1.offset ≤ GC_STREAM_LENGTH := by
  intro n
  induction n with
  | zero =>
    intro data c hlen h
    have : data = [] := List.length_eq_zero.mp (by omega)
    subst this
    simpa [encrypt_loop] using h
  | succ n ih =>
    intro data c hlen h
    match data, hlen with
    | b0 :: b1 :: b2 :: b3 :: rest, hlen =>
      rw [encrypt_loop]
      exact ih rest _ (by simp at hlen; omega) (gc_next_inv c advance h)
    | [], _ => simpa [encrypt_loop] using h
    | [_], _ => simpa [encrypt_loop] using h
    | [_, _], _ => simpa [encrypt_loop] using h
    | [_, _, _], _ => simpa [encrypt_loop] using h

theorem PSOGCEncryption.gc_encrypt_inv (c : PSOGCEncryption) (data : List Nat) (advance : Bool)
    (h : c.stream.length = 521 ∧ c.offset ≤ GC_STREAM_LENGTH) :
    (c.encrypt data advance).crypt.stream.length = 521 ∧
      (c.encrypt data advance).crypt.offset ≤ GC_STREAM_LENGTH := by
  unfold PSOGCEncryption.encrypt
  split_ifs
  · exact h
  · exact h
  · exact gc_encrypt_loop_inv advance data.length data c (le_refl _) h

theorem PSOGCEncryption.gc_run_inv (calls : List (List Nat × Bool)) :
    ∀ c : PSOGCEncryption, (c.stream.length = 521 ∧ c.offset ≤ GC_STREAM_LENGTH) →
      (c.run calls).stream.length = 521 ∧ (c.run calls).offset ≤ GC_STREAM_LENGTH := by
  induction calls with
  | nil => intro c h; exact h
  | cons call calls ih =>
    intro c h
    rw [PSOGCEncryption.run]
    exact ih _ (gc_encrypt_inv c call.1 call.2 h)

theorem PSOGCEncryption.gc_encrypt_loop_advance_offset :
    ∀ (n : Nat) (data : List Nat) (c : PSOGCEncryption), data.length = 4 * n →
      c.offset + n ≤ GC_STREAM_LENGTH →
      (encrypt_loop true c data).1.offset = c.offset + n := by
  intro n
  induction n with
  | zero =>
    intro data c hlen _
    have : data = [] := List.length_eq_zero.mp (by omega)
    subst this
    rfl
  | succ n ih =>
    intro data c hlen h
    unfold GC_STREAM_LENGTH at h
    match data, hlen with
    | b0 :: b1 :: b2 :: b3 :: rest, hlen =>
      rw [encrypt_loop]
      have hne : c.offset ≠ GC_STREAM_LENGTH := by unfold GC_STREAM_LENGTH; omega
      have hnext : (c.next true).1.offset = c.offset + 1 := by
        unfold PSOGCEncryption.next
        rw [if_neg hne]
        rfl
      show (encrypt_loop true (c.next true).1 rest).1.offset = _
      rw [ih rest _ (by simp at hlen; omega) (by rw [hnext]; unfold GC_STREAM_LENGTH; omega),
        hnext]
      omega
    | [], hlen => simp at hlen
    | [_], hlen => simp at hlen; omega
    | [_, _], hlen => simp at hlen; omega
    | [_, _, _], hlen => simp at hlen; omega

/-- C36: after construction and after any sequence of encrypt/decrypt calls, the V1
cipher's offset lies in 1..PC_STREAM_LENGTH and the V2/V3 cipher's offset lies in
0..GC_STREAM_LENGTH, and every state index that the constructors, the stir passes
(`update_stream`) and the keystream reads (`next`, in any state so reached) read or write is
inside the state array: run with every access to the array checked, on an array of the
cells 0..56 for V1 and 0..520 for V2/V3, each of them completes, and with the result of the
unchecked function. The V1 part holds whatever value from 2 to 57 `PC_STREAM_LENGTH` has
(`stream_length`). -/
theorem C36_offsets_and_indices (stream_length seed : Nat) (calls : List (List Nat × Bool))
    (advance : Bool) (h2 : 2 ≤ stream_length) (h57 : stream_length ≤ 57) :
    (1 ≤ ((PSOPCEncryption.new seed).run_at stream_length calls).offset ∧
      ((PSOPCEncryption.new seed).run_at stream_length calls).offset ≤ stream_length) ∧
    ((PSOGCEncryption.new seed).run calls).offset ≤ GC_STREAM_LENGTH ∧
    PSOPCEncryption.new_checked 57 seed = some (PSOPCEncryption.new seed) ∧
    PSOPCEncryption.update_stream_checked
        ((PSOPCEncryption.new seed).run_at stream_length calls).stream =
      some (PSOPCEncryption.update_stream
        ((PSOPCEncryption.new seed).run_at stream_length calls).stream) ∧
    ((PSOPCEncryption.new seed).run_at stream_length calls).next_checked stream_length advance =
      some (((PSOPCEncryption.new seed).run_at stream_length calls).next_at stream_length
        advance) ∧
    PSOGCEncryption.new_checked 521 seed = some (PSOGCEncryption.new seed) ∧
    ((PSOGCEncryption.new seed).run calls).update_stream_checked =
      some ((PSOGCEncryption.new seed).run calls).update_stream ∧
    ((PSOGCEncryption.new seed).run calls).next_checked advance =
      some (((PSOGCEncryption.new seed).run calls).next advance) := by
  have hpc := PSOPCEncryption.pc_run_at_inv stream_length h2 calls (PSOPCEncryption.new seed)
    ⟨PSOPCEncryption.pc_new_length seed, le_refl 1, by show 1 ≤ stream_length; omega⟩
  have hgc := PSOGCEncryption.gc_run_inv calls (PSOGCEncryption.new seed)
    ⟨(PSOGCEncryption.gc_new_shape seed).1, by
      rw [(PSOGCEncryption.gc_new_shape seed).2]; exact Nat.zero_le _⟩
  exact ⟨hpc.2, hgc.2, PSOPCEncryption.pc_new_checked seed,
    PSOPCEncryption.pc_update_stream_checked _ (by rw [hpc.1]; norm_num)
      (by rw [hpc.1]; norm_num),
    PSOPCEncryption.pc_next_checked stream_length _ advance hpc.1 hpc.2.2 h57,
    PSOGCEncryption.gc_new_checked seed,
    PSOGCEncryption.gc_update_stream_checked _ (by rw [hgc.1]; unfold GC_STREAM_LENGTH; norm_num),
    PSOGCEncryption.gc_next_checked _ advance hgc.1 hgc.2⟩

/-- C36 at `PC_STREAM_LENGTH` = 56, seed 7 and one advancing 4-byte call: the V1
constructor completes with every access inside the cells 0..56. -/
theorem C36_offsets_and_indices_witness :
    PSOPCEncryption.new_checked 57 7 = some (PSOPCEncryption.new 7) :=
  (C36_offsets_and_indices 56 7 [([1, 2, 3, 4], true)] true (by decide) (by decide)).2.2.1

/-! ## C5: what a peek does to the state -/

/-- C5 (counterexample): a V2/V3 cipher built from seed 0 that has encrypted 2084 bytes (521
words) in advance mode stands at the end of its stream; a successful 4-byte peek then
changes its state (the stream is stirred and the offset goes back to 0). -/
theorem C5_peek_changes_state_at_stream_end :
    ((PSOGCEncryption.new 0).encrypt (List.replicate 2084 0) true).error = none ∧
    (((PSOGCEncryption.new 0).encrypt (List.replicate 2084 0) true).crypt.encrypt [0, 0, 0, 0]
      false).error = none ∧
    (((PSOGCEncryption.new 0).encrypt (List.replicate 2084 0) true).crypt.encrypt [0, 0, 0, 0]
      false).crypt ≠ ((PSOGCEncryption.new 0).encrypt (List.replicate 2084 0) true).crypt := by
  have hlen : (List.replicate 2084 0 : List Nat).length = 2084 := List.length_replicate _ _
  have hrun : (PSOGCEncryption.new 0).encrypt (List.replicate 2084 0) true =
      ⟨(PSOGCEncryption.encrypt_loop true (PSOGCEncryption.new 0) (List.replicate 2084 0)).1,
        (PSOGCEncryption.encrypt_loop true (PSOGCEncryption.new 0) (List.replicate 2084 0)).2,
        none⟩ := by
    unfold PSOGCEncryption.encrypt
    rw [hlen, if_neg (by decide), if_neg (by decide)]
  have hoff : (PSOGCEncryption.encrypt_loop true (PSOGCEncryption.new 0)
      (List.replicate 2084 0)).1.offset = 521 := by
    rw [PSOGCEncryption.gc_encrypt_loop_advance_offset 521 _ _ hlen
      (by rw [(PSOGCEncryption.gc_new_shape 0).2]; decide),
      (PSOGCEncryption.gc_new_shape 0).2]
  rw [hrun]
  dsimp only
  rw [PSOGCEncryption.gc_encrypt_four]
  refine ⟨rfl, rfl, ?_⟩
  dsimp only
  intro h
  have h1 := congrArg PSOGCEncryption.offset h
  unfold PSOGCEncryption.next at h1
  rw [if_pos (by rw [hoff]; rfl)] at h1
  rw [hoff] at h1
  exact absurd h1 (by decide)

/-- C5 (amended): a peek on a well-formed V4 cipher of either sub-variant leaves the state
exactly as it was. A successful (4-byte) peek on a V1 or V2/V3 cipher leaves the state
exactly as it was when the offset is not at the end of the stream; when it is
(`offset = PC_STREAM_LENGTH`, `offset = GC_STREAM_LENGTH`) the peek carries out the pending
refill: the state words are stirred by `update_stream` and the offset restarts (at 1 for
V1, at 0 for V2/V3). The V1 part holds whatever the value of `PC_STREAM_LENGTH` is
(`stream_length`). -/
theorem C5_peek_state (stream_length : Nat) (pc : PSOPCEncryption) (gc : PSOGCEncryption)
    (bb : PSOBBEncryption) (W B : List Nat) (hW : W.length = 4) (hwf : bb.state.WF) :
    ((pc.encrypt_at stream_length W false).error = none ∧
      (pc.encrypt_at stream_length W false).crypt =
        if pc.offset = stream_length then
          ⟨PSOPCEncryption.update_stream pc.stream, 1⟩
        else pc) ∧
    ((pc.decrypt_at stream_length W false).error = none ∧
      (pc.decrypt_at stream_length W false).crypt =
        if pc.offset = stream_length then
          ⟨PSOPCEncryption.update_stream pc.stream, 1⟩
        else pc) ∧
    ((gc.encrypt W false).error = none ∧
      (gc.encrypt W false).crypt =
        if gc.offset = GC_STREAM_LENGTH then gc.update_stream else gc) ∧
    ((gc.decrypt W false).error = none ∧
      (gc.decrypt W false).crypt =
        if gc.offset = GC_STREAM_LENGTH then gc.update_stream else gc) ∧
    (bb.encrypt B false).crypt = bb ∧ (bb.decrypt B false).crypt = bb := by
  obtain ⟨b0, b1, b2, b3, rfl⟩ := eq_of_length_four hW
  have h1 : (pc.encrypt_at stream_length [b0, b1, b2, b3] false).error = none ∧
      (pc.encrypt_at stream_length [b0, b1, b2, b3] false).crypt =
        if pc.offset = stream_length then
          ⟨PSOPCEncryption.update_stream pc.stream, 1⟩
        else pc := by
    rw [PSOPCEncryption.pc_encrypt_at_four]
    exact ⟨rfl, rfl⟩
  have h2 : (gc.encrypt [b0, b1, b2, b3] false).error = none ∧
      (gc.encrypt [b0, b1, b2, b3] false).crypt =
        if gc.offset = GC_STREAM_LENGTH then gc.update_stream else gc := by
    rw [PSOGCEncryption.gc_encrypt_four]
    exact ⟨rfl, rfl⟩
  exact ⟨h1, h1, h2, h2, bb.peek_state B hwf⟩

/-- C5 (amended) at fresh V1 and V2/V3 ciphers of seed 7, `PC_STREAM_LENGTH` = 56 and the
sample JSD1 key: the peek leaves the fresh V1 cipher as it was. -/
theorem C5_peek_state_witness :
    ((PSOPCEncryption.new 7).encrypt_at 56 [1, 2, 3, 4] false).crypt = PSOPCEncryption.new 7 :=
  (C5_peek_state 56 (PSOPCEncryption.new 7) (PSOGCEncryption.new 7) ⟨sample_key Subtype.JSD1⟩
    [1, 2, 3, 4] [9, 8, 7] rfl (sample_key_WF _)).1.2

/-! ## Quest files -/

theorem xor_div_two_pow (a b n : Nat) : (a ^^^ b) / 2 ^ n = (a / 2 ^ n) ^^^ (b / 2 ^ n) := by
  rw [← Nat.shiftRight_eq_div_pow, ← Nat.shiftRight_eq_div_pow, ← Nat.shiftRight_eq_div_pow]
  apply Nat.eq_of_testBit_eq
  intro i
  simp only [Nat.testBit_shiftRight, Nat.testBit_xor]

/-- The bytes of `w ^ k` are the bytes of `w` XORed with the bytes of `k`. -/
theorem le_store_xor {b0 b1 b2 b3 : Nat} (k : Nat) (h0 : b0 < 256) (h1 : b1 < 256)
    (h2 : b2 < 256) (h3 : b3 < 256) :
    le_store (le_load b0 b1 b2 b3 ^^^ k) =
      [b0 ^^^ (k % 256), b1 ^^^ (k / 256 % 256), b2 ^^^ (k / 65536 % 256),
        b3 ^^^ (k / 16777216 % 256)] := by
  have e0 : le_load b0 b1 b2 b3 % 256 = b0 := by unfold le_load; omega
  have e1 : le_load b0 b1 b2 b3 / 256 % 256 = b1 := by unfold le_load; omega
  have e2 : le_load b0 b1 b2 b3 / 65536 % 256 = b2 := by unfold le_load; omega
  have e3 : le_load b0 b1 b2 b3 / 16777216 % 256 = b3 := by unfold le_load; omega
  have x := xor_mod_two_pow
  have d := xor_div_two_pow
  unfold le_store
  rw [show (256 : Nat) = 2 ^ 8 from rfl, show (65536 : Nat) = 2 ^ 16 from rfl,
    show (16777216 : Nat) = 2 ^ 24 from rfl] at *
  rw [d _ _ 8, d _ _ 16, d _ _ 24, x, x, x, x, e0, e1, e2, e3]

theorem xor_byte_lt {b k : Nat} (h : b < 256) : b ^^^ (k % 256) < 256 :=
  xor_lt_256 h (Nat.mod_lt _ (by norm_num))

theorem xor_xor_cancel (b k : Nat) : (b ^^^ k) ^^^ k = b := by
  rw [Nat.xor_assoc, Nat.xor_self, Nat.xor_zero]

/-- Encrypting a buffer padded with zeros to a multiple of 4, cutting the result back,
padding it again and encrypting from the same state gives the buffer back. -/
theorem PSOPCEncryption.truncated_round_trip :
    ∀ (n : Nat) (D : List Nat) (c : PSOPCEncryption), D.length ≤ n → (∀ b ∈ D, b < 256) →
      ((encrypt_loop true c
        (((encrypt_loop true c (D ++ List.replicate ((4 - D.length % 4) % 4) 0)).2.take
          D.length) ++ List.replicate ((4 - D.length % 4) % 4) 0)).2).take D.length = D := by
  intro n
  induction n using Nat.strong_induction_on with
  | _ n ih =>
    intro D c hn hD
    match D, hn, hD with
    | [], _, _ => rfl
    | [a], _, hD =>
      have ha : a < 256 := hD a (by simp)
      show (encrypt_loop true c ((encrypt_loop true c [a, 0, 0, 0]).2.take 1 ++ [0, 0, 0])).2.take
        1 = [a]
      rw [pc_encrypt_loop_cons, le_store_xor _ ha (by norm_num) (by norm_num) (by norm_num)]
      simp only [List.take_succ_cons, List.take_zero, List.cons_append, List.nil_append]
      rw [pc_encrypt_loop_cons, le_store_xor _ (xor_byte_lt ha) (by norm_num) (by norm_num)
        (by norm_num)]
      simp only [List.cons_append, List.take_succ_cons, List.take_zero, xor_xor_cancel]
    | [a, b], _, hD =>
      have ha : a < 256 := hD a (by simp)
      have hb : b < 256 := hD b (by simp)
      show (encrypt_loop true c ((encrypt_loop true c [a, b, 0, 0]).2.take 2 ++ [0, 0])).2.take
        2 = [a, b]
      rw [pc_encrypt_loop_cons, le_store_xor _ ha hb (by norm_num) (by norm_num)]
      simp only [List.take_succ_cons, List.take_zero, List.cons_append, List.nil_append]
      rw [pc_encrypt_loop_cons, le_store_xor _ (xor_byte_lt ha)
        (show b ^^^ (_ / 256 % 256) < 256 from xor_lt_256 hb (Nat.mod_lt _ (by norm_num)))
        (by norm_num) (by norm_num)]
      simp only [List.cons_append, List.take_succ_cons, List.take_zero, xor_xor_cancel]
    | [a, b, d], _, hD =>
      have ha : a < 256 := hD a (by simp)
      have hb : b < 256 := hD b (by simp)
      have hd : d < 256 := hD d (by simp)
      show (encrypt_loop true c ((encrypt_loop true c [a, b, d, 0]).2.take 3 ++ [0])).2.take
        3 = [a, b, d]
      rw [pc_encrypt_loop_cons, le_store_xor _ ha hb hd (by norm_num)]
      simp only [List.take_succ_cons, List.take_zero, List.cons_append, List.nil_append]
      rw [pc_encrypt_loop_cons, le_store_xor _ (xor_byte_lt ha)
        (show b ^^^ (_ / 256 % 256) < 256 from xor_lt_256 hb (Nat.mod_lt _ (by norm_num)))
        (show d ^^^ (_ / 65536 % 256) < 256 from xor_lt_256 hd (Nat.mod_lt _ (by norm_num)))
        (by norm_num)]
      simp only [List.cons_append, List.take_succ_cons, List.take_zero, xor_xor_cancel]
    | b0 :: b1 :: b2 :: b3 :: rest, hn, hD =>
      have h0 : b0 < 256 := hD b0 (by simp)
      have h1 : b1 < 256 := hD b1 (by simp)
      have h2 : b2 < 256 := hD b2 (by simp)
      have h3 : b3 < 256 := hD b3 (by simp)
      have hr : ∀ b ∈ rest, b < 256 := fun b hb => hD b (by simp [hb])
      have hlen : (b0 :: b1 :: b2 :: b3 :: rest).length = rest.length + 4 := by simp
      have hmod : (4 - (rest.length + 4) % 4) % 4 = (4 - rest.length % 4) % 4 := by omega
      rw [hlen, hmod]
      simp only [List.cons_append]
      rw [pc_encrypt_loop_cons, le_store_xor _ h0 h1 h2 h3]
      simp only [List.cons_append, List.nil_append, List.take_succ_cons]
      rw [pc_encrypt_loop_cons, le_store_xor _ (xor_byte_lt h0)
        (show b1 ^^^ (_ / 256 % 256) < 256 from xor_lt_256 h1 (Nat.mod_lt _ (by norm_num)))
        (show b2 ^^^ (_ / 65536 % 256) < 256 from xor_lt_256 h2 (Nat.mod_lt _ (by norm_num)))
        (show b3 ^^^ (_ / 16777216 % 256) < 256 from
          xor_lt_256 h3 (Nat.mod_lt _ (by norm_num)))]
      simp only [List.cons_append, List.nil_append, List.take_succ_cons, xor_xor_cancel]
      have := ih rest.length (by simp at hn; omega) rest (c.next true).1 (le_refl _) hr
      rw [this]
theorem PSOPCEncryption.pc_encrypt_ok (c : PSOPCEncryption) (B : List Nat)
    (hlen : B.length % 4 = 0) :
    c.encrypt B true = ⟨(encrypt_loop true c B).1, (encrypt_loop true c B).2, none⟩ := by
  simp [PSOPCEncryption.encrypt, and_three, hlen]

theorem resize_pad (data : List Nat) :
    resize data (padded_size data.length) =
      data ++ List.replicate ((4 - data.length % 4) % 4) 0 := by
  unfold resize padded_size
  rw [List.take_of_length_le (by omega)]
  congr 2
  omega

theorem resize_cut (data : List Nat) (n : Nat) (h : n ≤ data.length) :
    resize data n = data.take n := by
  unfold resize
  rw [show n - data.length = 0 by omega]
  simp

theorem padded_length (data : List Nat) :
    (data ++ List.replicate ((4 - data.length % 4) % 4) 0).length % 4 = 0 := by
  simp only [List.length_append, List.length_replicate]
  omega

/-- What `decode_dlq` returns for a file of at least 8 bytes. -/
theorem decode_dlq_eq (prs_decompress_size : List Nat → Nat) (file : List Nat)
    (h : 8 ≤ file.length) :
    decode_dlq prs_decompress_size file =
      if prs_decompress_size (dlq_payload file) ≠ dlq_declared_size file then
        .error (.runtime_error "decompressed size does not match size in header")
      else .ok (dlq_payload file) := by
  unfold decode_dlq
  rw [if_neg (by omega)]
  dsimp only
  rw [resize_pad, PSOPCEncryption.decrypt, PSOPCEncryption.pc_encrypt_ok _ _ (padded_length _)]
  dsimp only
  rw [resize_cut _ _ (by
    rw [PSOPCEncryption.pc_encrypt_loop_length]
    simp only [List.length_append, List.length_replicate]
    omega)]
  have hl : (file.drop 8).length = file.length - 8 := List.length_drop 8 file
  rw [hl]
  rfl

theorem dlq_payload_length (file : List Nat) :
    (dlq_payload file).length = file.length - 8 := by
  unfold dlq_payload
  rw [List.length_take, PSOPCEncryption.pc_encrypt_loop_length]
  simp only [List.length_append, List.length_replicate, List.length_drop]
  omega

/-- C23: `decode_dlq` on a file of at least 8 bytes succeeds exactly when the
PRS-decompressed size of the V1-decrypted payload (the bytes after the 8-byte header,
decrypted with the header's key after zero-padding to a multiple of 4 and cut back to their
length) equals the header's declared decompressed size; on success it returns that payload,
whose length is the file length minus 8, and otherwise it fails. -/
theorem C23_decode_dlq (prs_decompress_size : List Nat → Nat) (file : List Nat)
    (h : 8 ≤ file.length) :
    (dlq_payload file).length = file.length - 8 ∧
    ((prs_decompress_size (dlq_payload file) = dlq_declared_size file ∧
        decode_dlq prs_decompress_size file = .ok (dlq_payload file)) ∨
      (prs_decompress_size (dlq_payload file) ≠ dlq_declared_size file ∧
        decode_dlq prs_decompress_size file =
          .error (.runtime_error "decompressed size does not match size in header"))) := by
  refine ⟨dlq_payload_length file, ?_⟩
  rw [decode_dlq_eq _ _ h]
  by_cases hp : prs_decompress_size (dlq_payload file) = dlq_declared_size file
  · left
    exact ⟨hp, by rw [if_neg (by simpa using hp)]⟩
  · right
    exact ⟨hp, by rw [if_pos hp]⟩

/-- C23 (witness): the 11-byte file with declared size 3, key 0 and three payload
bytes, with the length of a stream as its decompressed size. -/
theorem C23_decode_dlq_witness :
    (dlq_payload [3, 0, 0, 0, 0, 0, 0, 0, 1, 2, 3]).length = 11 - 8 ∧
    ((List.length (dlq_payload [3, 0, 0, 0, 0, 0, 0, 0, 1, 2, 3]) =
          dlq_declared_size [3, 0, 0, 0, 0, 0, 0, 0, 1, 2, 3] ∧
        decode_dlq List.length [3, 0, 0, 0, 0, 0, 0, 0, 1, 2, 3] =
          .ok (dlq_payload [3, 0, 0, 0, 0, 0, 0, 0, 1, 2, 3])) ∨
      (List.length (dlq_payload [3, 0, 0, 0, 0, 0, 0, 0, 1, 2, 3]) ≠
          dlq_declared_size [3, 0, 0, 0, 0, 0, 0, 0, 1, 2, 3] ∧
        decode_dlq List.length [3, 0, 0, 0, 0, 0, 0, 0, 1, 2, 3] =
          .error (.runtime_error "decompressed size does not match size in header"))) :=
  C23_decode_dlq List.length [3, 0, 0, 0, 0, 0, 0, 0, 1, 2, 3] (by decide)

theorem le_load_getD_store (w : Nat) (rest : List Nat) :
    le_load ((le_store w ++ rest).getD 0 0) ((le_store w ++ rest).getD 1 0)
      ((le_store w ++ rest).getD 2 0) ((le_store w ++ rest).getD 3 0) = w % 2 ^ 32 := by
  show le_load (w % 256) (w / 256 % 256) (w / 65536 % 256) (w / 16777216 % 256) = _
  exact le_load_le_store w

/-- C22: the DLQ encoding round-trips.  For every non-zero 32-bit seed, every byte string D
of any length and every 32-bit size s with `prs_decompress_size(D) = s`, the file produced
by `create_download_quest_file(D, s, seed)` is 8 + |D| bytes long, begins with s and the
seed as little-endian 32-bit words in the clear, and `decode_dlq` applied to it returns
exactly D. -/
theorem C22_dlq_round_trip (prs_decompress_size : List Nat → Nat) (D : List Nat)
    (s seed random : Nat) (hseed : seed ≠ 0) (hseed32 : seed < 2 ^ 32) (hs : s < 2 ^ 32)
    (hD : ∀ b ∈ D, b < 256) (hprs : prs_decompress_size D = s) :
    ∃ file, create_download_quest_file D s seed random = .ok file ∧
      file.length = 8 + D.length ∧ file.take 8 = le_store s ++ le_store seed ∧
      decode_dlq prs_decompress_size file = .ok D := by
  have hdata : le_store s ++ le_store seed ++ (List.replicate 8 0).drop 8 ++ D =
      le_store s ++ le_store seed ++ D := by
    simp
  have hcreate : create_download_quest_file D s seed random = .ok
      (le_store s ++ le_store seed ++
        ((PSOPCEncryption.encrypt_loop true (PSOPCEncryption.new seed)
          (D ++ List.replicate ((4 - D.length % 4) % 4) 0)).2).take D.length) := by
    unfold create_download_quest_file
    rw [if_neg hseed]
    dsimp only
    rw [hdata, resize_pad]
    have hl : (le_store s ++ le_store seed ++ D).length = 8 + D.length := by
      simp only [List.length_append, le_store_length]
    have hpad : (4 - (le_store s ++ le_store seed ++ D).length % 4) % 4
        = (4 - D.length % 4) % 4 := by
      rw [hl]; omega
    rw [hpad, hl]
    have hdrop : (le_store s ++ le_store seed ++ D ++
        List.replicate ((4 - D.length % 4) % 4) 0).drop 8
        = D ++ List.replicate ((4 - D.length % 4) % 4) 0 := by
      rw [List.append_assoc (le_store s ++ le_store seed)]
      exact List.drop_left' (by simp [le_store_length])
    have htake : (le_store s ++ le_store seed ++ D ++
        List.replicate ((4 - D.length % 4) % 4) 0).take 8
        = le_store s ++ le_store seed := by
      rw [List.append_assoc (le_store s ++ le_store seed)]
      exact List.take_left' (by simp [le_store_length])
    rw [hdrop, htake, PSOPCEncryption.pc_encrypt_ok _ _ (padded_length D)]
    dsimp only
    rw [resize_cut _ _ (by
      simp only [List.length_append, le_store_length,
        PSOPCEncryption.pc_encrypt_loop_length, List.length_replicate]
      omega)]
    rw [show 8 + D.length = (le_store s ++ le_store seed).length + D.length by
      simp [le_store_length], List.take_append]
  have hcut : ((PSOPCEncryption.encrypt_loop true (PSOPCEncryption.new seed)
      (D ++ List.replicate ((4 - D.length % 4) % 4) 0)).2.take D.length).length = D.length := by
    rw [List.length_take, PSOPCEncryption.pc_encrypt_loop_length]
    simp only [List.length_append, List.length_replicate]
    omega
  refine ⟨_, hcreate, ?_, ?_, ?_⟩
  · simp only [List.length_append, le_store_length, hcut]
  · rw [List.take_left' (by simp [le_store_length])]
  · rw [decode_dlq_eq _ _ (by simp only [List.length_append, le_store_length, hcut]; omega)]
    have hkey : le_load
        ((le_store s ++ le_store seed ++ ((PSOPCEncryption.encrypt_loop true
          (PSOPCEncryption.new seed)
          (D ++ List.replicate ((4 - D.length % 4) % 4) 0)).2).take D.length).getD 4 0)
        ((le_store s ++ le_store seed ++ ((PSOPCEncryption.encrypt_loop true
          (PSOPCEncryption.new seed)
          (D ++ List.replicate ((4 - D.length % 4) % 4) 0)).2).take D.length).getD 5 0)
        ((le_store s ++ le_store seed ++ ((PSOPCEncryption.encrypt_loop true
          (PSOPCEncryption.new seed)
          (D ++ List.replicate ((4 - D.length % 4) % 4) 0)).2).take D.length).getD 6 0)
        ((le_store s ++ le_store seed ++ ((PSOPCEncryption.encrypt_loop true
          (PSOPCEncryption.new seed)
          (D ++ List.replicate ((4 - D.length % 4) % 4) 0)).2).take D.length).getD 7 0)
        = seed := by
      show le_load (seed % 256) (seed / 256 % 256) (seed / 65536 % 256)
        (seed / 16777216 % 256) = seed
      rw [le_load_le_store, Nat.mod_eq_of_lt hseed32]
    have hsize : dlq_declared_size (le_store s ++ le_store seed ++
        ((PSOPCEncryption.encrypt_loop true (PSOPCEncryption.new seed)
          (D ++ List.replicate ((4 - D.length % 4) % 4) 0)).2).take D.length) = s := by
      show le_load (s % 256) (s / 256 % 256) (s / 65536 % 256) (s / 16777216 % 256) = s
      rw [le_load_le_store, Nat.mod_eq_of_lt hs]
    have hpay : dlq_payload (le_store s ++ le_store seed ++
        ((PSOPCEncryption.encrypt_loop true (PSOPCEncryption.new seed)
          (D ++ List.replicate ((4 - D.length % 4) % 4) 0)).2).take D.length) = D := by
      unfold dlq_payload
      rw [hkey]
      have hl : (le_store s ++ le_store seed ++
          ((PSOPCEncryption.encrypt_loop true (PSOPCEncryption.new seed)
            (D ++ List.replicate ((4 - D.length % 4) % 4) 0)).2).take D.length).length - 8
          = D.length := by
        simp only [List.length_append, le_store_length, hcut]
        omega
      rw [hl, List.drop_left' (by simp [le_store_length])]
      exact PSOPCEncryption.truncated_round_trip D.length D _ (le_refl _) hD
    rw [hsize, hpay, if_neg (by simpa using hprs)]

/-- C22 (witness): the three bytes `01 02 03` with the seed 0x12345678, the length of a
stream standing for its decompressed size. -/
theorem C22_dlq_round_trip_witness :
    ∃ file, create_download_quest_file [1, 2, 3] 3 0x12345678 0 = .ok file ∧
      file.length = 8 + [1, 2, 3].length ∧
      file.take 8 = le_store 3 ++ le_store 0x12345678 ∧
      decode_dlq List.length file = .ok [1, 2, 3] :=
  C22_dlq_round_trip List.length [1, 2, 3] 3 0x12345678 0 (by decide) (by decide) (by decide)
    (by decide) rfl
theorem getD_take_drop (data : List Nat) (a n i : Nat)
    (h : i < ((data.drop a).take n).length) :
    ((data.drop a).take n).getD i 0 = data.getD (a + i) 0 := by
  rw [List.getD_eq_getElem?_getD, List.getD_eq_getElem?_getD, List.getElem?_take_of_lt
    (by rw [List.length_take] at h; omega), List.getElem?_drop]

/-- What `decode_gci` returns for a file of the sample layout. -/
theorem decode_gci_layout (prs_decompress_size : List Nat → Nat) (pre seed4 blob : List Nat)
    (declared : Nat) (hpre : pre.length = 0x2080) (hseed : seed4.length = 4)
    (hn : 16 + blob.length < 2 ^ 32) (hd : declared < 2 ^ 32)
    (hsize : sub32 declared 8 ≤ prs_decompress_size blob) :
    decode_gci prs_decompress_size (pre ++ le_store (16 + blob.length) ++ seed4 ++
      (le_store 0 ++ le_store 0 ++ le_store declared ++ le_store 0) ++ blob) = .ok blob ∧
    gci_declared_size (pre ++ le_store (16 + blob.length) ++ seed4 ++
      (le_store 0 ++ le_store 0 ++ le_store declared ++ le_store 0) ++ blob) = declared := by
  have hlen : (pre ++ le_store (16 + blob.length) ++ seed4 ++
      (le_store 0 ++ le_store 0 ++ le_store declared ++ le_store 0) ++ blob).length
      = 0x2098 + blob.length := by
    simp only [List.length_append, le_store_length, hpre, hseed]
  have hhead : ∀ i, i < 4 →
      (pre ++ le_store (16 + blob.length) ++ seed4 ++
        (le_store 0 ++ le_store 0 ++ le_store declared ++ le_store 0) ++ blob).getD
          (0x2080 + i) 0 = (le_store (16 + blob.length)).getD i 0 := by
    intro i hi
    rw [List.append_assoc, List.append_assoc, List.append_assoc, List.getD_eq_getElem?_getD,
      List.getElem?_append_right (by omega), hpre, Nat.add_sub_cancel_left,
      List.getElem?_append_left (by rw [le_store_length]; exact hi),
      ← List.getD_eq_getElem?_getD]
  have hdrop : (pre ++ le_store (16 + blob.length) ++ seed4 ++
      (le_store 0 ++ le_store 0 ++ le_store declared ++ le_store 0) ++ blob).drop 0x2088
      = (le_store 0 ++ le_store 0 ++ le_store declared ++ le_store 0) ++ blob := by
    rw [List.append_assoc (pre ++ le_store (16 + blob.length) ++ seed4)]
    exact List.drop_left' (by simp only [List.length_append, le_store_length, hpre, hseed])
  have hsz : le_load ((le_store (16 + blob.length)).getD 0 0)
      ((le_store (16 + blob.length)).getD 1 0) ((le_store (16 + blob.length)).getD 2 0)
      ((le_store (16 + blob.length)).getD 3 0) = 16 + blob.length := by
    show le_load ((16 + blob.length) % 256) ((16 + blob.length) / 256 % 256)
      ((16 + blob.length) / 65536 % 256) ((16 + blob.length) / 16777216 % 256) = _
    rw [le_load_le_store, Nat.mod_eq_of_lt hn]
  have htake : ((le_store 0 ++ le_store 0 ++ le_store declared ++ le_store 0) ++ blob).take
      (16 + blob.length) = (le_store 0 ++ le_store 0 ++ le_store declared ++ le_store 0) ++ blob :=
    List.take_of_length_le (by simp only [List.length_append, le_store_length]; omega)
  have hdecl : le_load (declared % 256) (declared / 256 % 256) (declared / 65536 % 256)
      (declared / 16777216 % 256) = declared := by
    rw [le_load_le_store, Nat.mod_eq_of_lt hd]
  constructor
  · unfold decode_gci
    rw [if_neg (by rw [hlen]; omega)]
    dsimp only
    have e0 := hhead 0 (by norm_num)
    have e1 := hhead 1 (by norm_num)
    have e2 := hhead 2 (by norm_num)
    have e3 := hhead 3 (by norm_num)
    rw [show (0x2080 : Nat) + 0 = 0x2080 from rfl] at e0
    rw [show (0x2080 : Nat) + 1 = 0x2081 from rfl] at e1
    rw [show (0x2080 : Nat) + 2 = 0x2082 from rfl] at e2
    rw [show (0x2080 : Nat) + 3 = 0x2083 from rfl] at e3
    rw [e0, e1, e2, e3, hsz, hdrop, htake]
    rw [if_neg (by simp only [List.length_append, le_store_length]; omega)]
    have hu : ∀ i, i < 16 →
        ((le_store 0 ++ le_store 0 ++ le_store declared ++ le_store 0) ++ blob).getD i 0
          = (le_store 0 ++ le_store 0 ++ le_store declared ++ le_store 0).getD i 0 := by
      intro i hi
      rw [List.getD_eq_getElem?_getD, List.getElem?_append_left
        (by simp only [List.length_append, le_store_length]; omega),
        ← List.getD_eq_getElem?_getD]
    rw [hu 0 (by norm_num), hu 1 (by norm_num), hu 2 (by norm_num), hu 3 (by norm_num),
      hu 4 (by norm_num), hu 5 (by norm_num), hu 6 (by norm_num), hu 7 (by norm_num),
      hu 8 (by norm_num), hu 9 (by norm_num), hu 10 (by norm_num), hu 11 (by norm_num),
      hu 12 (by norm_num), hu 13 (by norm_num), hu 14 (by norm_num), hu 15 (by norm_num)]
    have hw : le_load ((le_store 0 ++ le_store 0 ++ le_store declared ++ le_store 0).getD 8 0)
        ((le_store 0 ++ le_store 0 ++ le_store declared ++ le_store 0).getD 9 0)
        ((le_store 0 ++ le_store 0 ++ le_store declared ++ le_store 0).getD 10 0)
        ((le_store 0 ++ le_store 0 ++ le_store declared ++ le_store 0).getD 11 0)
        = declared := hdecl
    rw [hw, if_neg (by simp [le_store, le_load]), List.drop_left' (by simp only [List.length_append,
      le_store_length]), if_neg (by omega)]
  · unfold gci_declared_size
    have hg : ∀ i, i < 16 →
        (pre ++ le_store (16 + blob.length) ++ seed4 ++
          (le_store 0 ++ le_store 0 ++ le_store declared ++ le_store 0) ++ blob).getD
            (0x2088 + i) 0
          = (le_store 0 ++ le_store 0 ++ le_store declared ++ le_store 0).getD i 0 := by
      intro i hi
      rw [List.append_assoc (pre ++ le_store (16 + blob.length) ++ seed4),
        List.getD_eq_getElem?_getD, List.getElem?_append_right
          (by simp only [List.length_append, le_store_length, hpre, hseed]; omega)]
      simp only [List.length_append, le_store_length, hpre, hseed]
      rw [show 8320 + 4 + 4 = 0x2088 from rfl, Nat.add_sub_cancel_left,
        List.getElem?_append_left (by simp only [List.length_append, le_store_length]; omega),
        ← List.getD_eq_getElem?_getD]
    rw [hg 8 (by norm_num), hg 9 (by norm_num), hg 10 (by norm_num), hg 11 (by norm_num)]
    exact hdecl

theorem sample_gci_head_length : (List.replicate 0x2080 (0 : Nat)).length = 0x2080 :=
  List.length_replicate _ _

/-- C24 (counterexample): the GCI file whose inner header declares a decompressed size of
8 and whose blob is the PRS end marker alone, which decompresses to 0 bytes.  `decode_gci`
accepts the file and returns the blob; its decompressed size, 0, is not the declared
size, 8. -/
theorem C24_gci_size_not_equal :
    decode_gci sample_prs_size (sample_gci 8 sample_prs_stream) = .ok sample_prs_stream ∧
    gci_declared_size (sample_gci 8 sample_prs_stream) = 8 ∧
    sample_prs_size sample_prs_stream = 0 := by
  have h := decode_gci_layout sample_prs_size (List.replicate 0x2080 0) [0, 0, 0, 0]
    sample_prs_stream 8 sample_gci_head_length rfl (by decide) (by decide) (by decide)
  exact ⟨h.1, h.2, by decide⟩

/-- C24 (amended): for every GCI file that `decode_gci` accepts, the returned blob is what
follows the 16-byte inner header, and its PRS-decompressed size is at least the
decompressed size declared in that header minus 8 (a 32-bit subtraction). -/
theorem C24_decode_gci_size (prs_decompress_size : List Nat → Nat) (data blob : List Nat)
    (h : decode_gci prs_decompress_size data = .ok blob) :
    blob = ((data.drop 0x2088).take (le_load (data.getD 0x2080 0) (data.getD 0x2081 0)
      (data.getD 0x2082 0) (data.getD 0x2083 0))).drop 16 ∧
    sub32 (gci_declared_size data) 8 ≤ prs_decompress_size blob := by
  unfold decode_gci at h
  dsimp only at h
  split_ifs at h with h1 h2 h3 h4
  have hb := (Except.ok.inj h).symm
  refine ⟨hb, ?_⟩
  have g : ∀ i, i < 16 → ((data.drop 0x2088).take (le_load (data.getD 0x2080 0)
      (data.getD 0x2081 0) (data.getD 0x2082 0) (data.getD 0x2083 0))).getD i 0
      = data.getD (0x2088 + i) 0 :=
    fun i hi => getD_take_drop data 0x2088 _ i (by omega)
  unfold gci_declared_size
  rw [← g 8 (by norm_num), ← g 9 (by norm_num), ← g 10 (by norm_num), ← g 11 (by norm_num), hb]
  exact Nat.le_of_not_lt h4

/-- C24 (witness): the GCI file that declares 11 and holds a blob of three bytes other
than the end marker, with the length of a stream standing for its decompressed size. -/
theorem C24_decode_gci_size_witness :
    [1, 2, 3] = (((sample_gci 11 [1, 2, 3]).drop 0x2088).take
      (le_load ((sample_gci 11 [1, 2, 3]).getD 0x2080 0)
        ((sample_gci 11 [1, 2, 3]).getD 0x2081 0) ((sample_gci 11 [1, 2, 3]).getD 0x2082 0)
        ((sample_gci 11 [1, 2, 3]).getD 0x2083 0))).drop 16 ∧
    sub32 (gci_declared_size (sample_gci 11 [1, 2, 3])) 8 ≤ sample_prs_size [1, 2, 3] :=
  C24_decode_gci_size sample_prs_size (sample_gci 11 [1, 2, 3]) [1, 2, 3]
    (decode_gci_layout sample_prs_size (List.replicate 0x2080 0) [0, 0, 0, 0] [1, 2, 3] 11
      sample_gci_head_length rfl (by decide) (by decide) (by decide)).1
theorem char_digit_toNat (ch : Char) (h : '0' ≤ ch ∧ ch ≤ '9') :
    48 ≤ ch.toNat ∧ ch.toNat ≤ 57 := by
  obtain ⟨h1, h2⟩ := h
  rw [Char.le_def] at h1 h2
  exact ⟨h1, h2⟩

theorem split_ne_nil (s : List Char) (delim : Char) : split s delim ≠ [] := by
  cases s with
  | nil => simp [split]
  | cons ch rest =>
    unfold split
    rw [List.foldr_cons]
    split_ifs
    · simp
    · split <;> simp

theorem split_cons (ch : Char) (rest : List Char) (delim : Char) (h : ch ≠ delim) :
    ∃ t ts, split (ch :: rest) delim = (ch :: t) :: ts := by
  have hne := split_ne_nil rest delim
  cases hs : split rest delim with
  | nil => exact absurd hs hne
  | cons t ts =>
    refine ⟨t, ts, ?_⟩
    unfold split at hs ⊢
    rw [List.foldr_cons, hs, if_neg h]

theorem strtoull_digits_decimal (num : List Char) (h : ∀ ch ∈ num, '0' ≤ ch ∧ ch ≤ '9') :
    ∀ acc, strtoull_digits num acc = num.foldl (fun a ch => a * 10 + (ch.toNat - 48)) acc := by
  induction num with
  | nil => intro acc; rfl
  | cons ch rest ih =>
    intro acc
    rw [strtoull_digits, if_pos (h ch (List.mem_cons_self _ _)), List.foldl_cons]
    exact ih (fun c hc => h c (List.mem_cons_of_mem _ hc)) _

/-- For a string of decimal digits whose value is below 2^63, `strtoull` and the
conversion to `int64_t` give the decimal value. -/
theorem strtoull_decimal (num : List Char) (h : ∀ ch ∈ num, '0' ≤ ch ∧ ch ≤ '9')
    (hv : decimal num < 2 ^ 63) : to_int64 (strtoull num) = decimal num := by
  have hd : strtoull_digits num 0 = decimal num := strtoull_digits_decimal num h 0
  have hs : strtoull num = decimal num := by
    cases num with
    | nil => rfl
    | cons ch rest =>
      have hr := char_digit_toNat ch (h ch (List.mem_cons_self _ _))
      have hsp : (ch.toNat == 32 || (decide (9 ≤ ch.toNat) && decide (ch.toNat ≤ 13))) = false := by
        have h1 : (ch.toNat == 32) = false := beq_false_of_ne (by omega)
        have h2 : decide (ch.toNat ≤ 13) = false := decide_eq_false (by omega)
        rw [h1, h2]
        simp
      have hm : ch ≠ '-' := by
        intro he; rw [he] at hr; exact absurd hr.1 (by decide)
      have hp : ch ≠ '+' := by
        intro he; rw [he] at hr; exact absurd hr.1 (by decide)
      unfold strtoull
      rw [List.dropWhile_cons_of_neg (by simpa using hsp)]
      dsimp only
      split
      · rename_i heq
        exact absurd (List.cons.inj heq).1 hm
      · rename_i heq
        exact absurd (List.cons.inj heq).1 hp
      · rw [hd]
        exact Nat.min_eq_left (by omega)
  rw [hs]
  unfold to_int64
  rw [Nat.mod_eq_of_lt (by omega), if_pos hv]
theorem Quest.read_extension_ok (f : List Char) (q : Quest)
    (h : Quest.initial.read_extension f = .ok q) :
    q.category = .UNKNOWN ∧ q.episode = 0 ∧
    (((ends_with f ".bin.gci".toList = true ∨ ends_with f ".bin.dlq".toList = true) ∧
        q.local_basename f = (after_last_slash f).take ((after_last_slash f).length - 8)) ∨
      (ends_with f ".bin".toList = true ∧
        q.local_basename f = (after_last_slash f).take ((after_last_slash f).length - 4))) := by
  unfold Quest.read_extension at h
  split_ifs at h with h1 h2 h3
  · rw [← Except.ok.inj h]
    exact ⟨rfl, rfl, Or.inl ⟨Or.inl h1, rfl⟩⟩
  · rw [← Except.ok.inj h]
    exact ⟨rfl, rfl, Or.inl ⟨Or.inr h2, rfl⟩⟩
  · rw [← Except.ok.inj h]
    exact ⟨rfl, rfl, Or.inr ⟨h3, rfl⟩⟩

theorem Quest.read_mode_ok (q q1 : Quest) (b : List Char) (h : q.read_mode b = .ok q1) :
    q1.episode = q.episode ∧
    ∃ ch rest, b = ch :: rest ∧
      ((ch = 'b' ∧ q1.category = .BATTLE) ∨ (ch = 'c' ∧ q1.category = .CHALLENGE) ∨
        (ch = 'e' ∧ q1.category = .EPISODE_3) ∨ (ch = 'q' ∧ q1.category = q.category)) := by
  unfold Quest.read_mode at h
  cases b with
  | nil => simp at h
  | cons ch rest =>
    simp only [List.head?_cons, Option.some.injEq, reduceCtorEq, if_false, ne_eq] at h
    split_ifs at h with h1 h2 h3 h4
    · rw [← Except.ok.inj h]
      exact ⟨rfl, ch, rest, rfl, Or.inl ⟨h1, rfl⟩⟩
    · rw [← Except.ok.inj h]
      exact ⟨rfl, ch, rest, rfl, Or.inr (Or.inl ⟨h2, rfl⟩)⟩
    · rw [← Except.ok.inj h]
      exact ⟨rfl, ch, rest, rfl, Or.inr (Or.inr (Or.inl ⟨h3, rfl⟩))⟩
    · rw [← Except.ok.inj h]
      exact ⟨rfl, ch, rest, rfl, Or.inr (Or.inr (Or.inr ⟨h4, rfl⟩))⟩

theorem map_at_ok {β : Type} (m : List (List Char × β)) (key : List Char) (v : β)
    (h : map_at m key = .ok v) : m.lookup key = some v := by
  unfold map_at at h
  split at h
  · rename_i w hw
    rw [hw, Except.ok.inj h]
  · cases h

theorem length_two {α : Type} (l : List α) (h : l.length = 2) (d : α) :
    l = [l.getD 0 d, l.getD 1 d] := by
  match l, h with
  | [a, b], _ => rfl

theorem length_three {α : Type} (l : List α) (h : l.length = 3) (d : α) :
    l = [l.getD 0 d, l.getD 1 d, l.getD 2 d] := by
  match l, h with
  | [a, b, c], _ => rfl

theorem eraseIdx_three {α : Type} (l : List α) (h : l.length = 3) (d : α) :
    (l.eraseIdx 1).getD 1 d = l.getD 2 d := by
  match l, h with
  | [a, b, c], _ => rfl

theorem Quest.read_tokens_ok (q1 q2 : Quest) (b : List Char) (tokens : List (List Char))
    (he : q1.episode = 0) (h : q1.read_tokens b = .ok (q2, tokens)) :
    ∃ t0 dialect, (name_to_version.lookup dialect).isSome = true ∧
      q2.quest_id = to_int64 (strtoull (t0.drop 1)) ∧
      ((q1.category ≠ .UNKNOWN ∧ split b '-' = [t0, dialect] ∧ q2.category = q1.category) ∨
        (q1.category = .UNKNOWN ∧ ∃ cat, split b '-' = [t0, cat, dialect] ∧
          category_of_token cat = some q2.category)) := by

  unfold Quest.read_tokens at h
  dsimp only at h
  by_cases hcat : q1.category = .UNKNOWN
  · simp only [hcat, if_true, he] at h
    by_cases hlen : (split b '-').length = 2 + 1
    · have hl := length_three (split b '-') hlen []
      simp only [hlen, ne_eq, not_true_eq_false, if_false] at h
      by_cases hgov : (split b '-').getD 1 [] = "gov".toList
      · simp only [hgov, if_true] at h
        rw [eraseIdx_three _ hlen] at h
        split at h
        · cases h
        · rename_i v hv
          obtain ⟨hq2, _⟩ := Prod.mk.inj (Except.ok.inj h)
          subst hq2
          refine ⟨(split b '-').getD 0 [], (split b '-').getD 2 [], ?_, rfl, Or.inr ⟨hcat,
            (split b '-').getD 1 [], hl, ?_⟩⟩
          · rw [map_at_ok _ _ _ hv]; rfl
          · unfold category_of_token
            rw [if_pos hgov]
      · simp only [hgov, if_false] at h
        split at h
        · cases h
        · rename_i q' tokens' heq
          split at heq
          · cases heq
          · rename_i cat hc
            obtain ⟨hq, ht⟩ := Prod.mk.inj (Except.ok.inj heq)
            subst hq ht
            rw [eraseIdx_three _ hlen] at h
            split at h
            · cases h
            · rename_i v hv
              obtain ⟨hq2, _⟩ := Prod.mk.inj (Except.ok.inj h)
              subst hq2
              refine ⟨(split b '-').getD 0 [], (split b '-').getD 2 [], ?_, rfl, Or.inr ⟨hcat,
                (split b '-').getD 1 [], hl, ?_⟩⟩
              · rw [map_at_ok _ _ _ hv]; rfl
              · unfold category_of_token
                rw [if_neg hgov]
                exact map_at_ok _ _ _ hc
    · simp only [hlen, ne_eq, not_false_eq_true, if_true] at h
      cases h
  · simp only [hcat, if_false] at h
    by_cases hlen : (split b '-').length = 2 + 0
    · have hl := length_two (split b '-') hlen []
      simp only [hlen, ne_eq, not_true_eq_false, if_false] at h
      split at h
      · cases h
      · rename_i v hv
        obtain ⟨hq2, _⟩ := Prod.mk.inj (Except.ok.inj h)
        subst hq2
        refine ⟨(split b '-').getD 0 [], (split b '-').getD 1 [], ?_, rfl,
          Or.inl ⟨hcat, hl, rfl⟩⟩
        rw [map_at_ok _ _ _ hv]; rfl
    · simp only [hlen, ne_eq, not_false_eq_true, if_true] at h
      cases h

theorem Quest.read_header_ok (q2 q : Quest) (tokens : List (List Char)) (bin : List Nat)
    (h : q2.read_header tokens bin = .ok q) :
    q.category = q2.category ∧ q.quest_id = q2.quest_id := by

  unfold Quest.read_header at h
  split at h
  · cases h
  all_goals first
    | (rw [← Except.ok.inj h]; exact ⟨rfl, rfl⟩)
    | (split_ifs at h <;> (rw [← Except.ok.inj h]; exact ⟨rfl, rfl⟩))
/-- The parts of the constructor in sequence, for a call that returns. -/
theorem Quest.new_parts (f : List Char) (bin : Except Exn (List Nat)) (q : Quest)
    (h : Quest.new f bin = .ok q) :
    ∃ q0 q1 q2 tokens content, Quest.initial.read_extension f = .ok q0 ∧
      q0.read_mode (q0.local_basename f) = .ok q1 ∧
      q1.read_tokens (q0.local_basename f) = .ok (q2, tokens) ∧
      q2.read_header tokens content = .ok q := by
  unfold Quest.new at h
  split at h
  · cases h
  · rename_i q0 h0
    split at h
    · cases h
    · rename_i q1 h1
      split at h
      · cases h
      · rename_i q2 tokens h2
        cases bin with
        | error e => cases h
        | ok content => exact ⟨q0, q1, q2, tokens, content, h0, h1, h2, h⟩

theorem category_of_token_range (cat : List Char) (c : QuestCategory)
    (h : category_of_token cat = some c) :
    c ≠ .GOVERNMENT_EPISODE_2 ∧ c ≠ .GOVERNMENT_EPISODE_4 := by
  unfold category_of_token name_to_category at h
  simp only [List.lookup] at h
  split_ifs at h with h0
  · rw [← Option.some.inj h]; exact ⟨by decide, by decide⟩
  · repeat' split at h
    all_goals first
      | (rw [← Option.some.inj h]; exact ⟨by decide, by decide⟩)
      | cases h
set_option maxRecDepth 100000 in
/-- C25 (counterexample): the file `q001-gov-gc.bin`, whose category token `gov` is none of
the eight listed, is not rejected: the constructor returns a quest of the category
GovernmentEpisode1 with the id 1. And the quest id is not always the decimal number after
the first letter: `qabc-ret-gc.bin`, where no number follows, is accepted with the id 0, and
`q18446744073709551615-ret-gc.bin` is accepted with the id -1. -/
theorem C25_gov_token_accepted :
    Quest.summary (Quest.new "q001-gov-gc.bin".toList (.ok (List.replicate 468 0)))
      = some (.GOVERNMENT_EPISODE_1, 1, 0) ∧
    name_to_category.lookup "gov".toList = none ∧
    Quest.summary (Quest.new "qabc-ret-gc.bin".toList (.ok (List.replicate 468 0)))
      = some (.RETRIEVAL, 0, 0) ∧
    Quest.summary (Quest.new "q18446744073709551615-ret-gc.bin".toList
      (.ok (List.replicate 468 0))) = some (.RETRIEVAL, -1, 0) := by
  decide

/-- C25 (amended): whenever the constructor accepts a file, its base name (path and .bin /
.bin.gci / .bin.dlq extension removed) has one of these forms: first letter b, c or e and
exactly two '-'-separated tokens, the category being Battle, Challenge or Episode 3; or
first letter q and exactly three tokens, the middle one mapped ret→Retrieval,
ext→Extermination, evt→Event, shp→Shop, vr→VR, twr→Tower, dl→Download, 1p→Solo, or gov
(which gives GovernmentEpisode1); the last token is one of the dialect tokens; the quest id
is what `strtoull` reads after the first letter of the first token, which is the decimal
number there when the rest of the token is a string of decimal digits with a value below
2^63.  Every other extension, first letter,
token count, category token or dialect token is therefore rejected with an error. -/
theorem C25_filename_parsing (f : List Char) (bin : Except Exn (List Nat)) (q : Quest)
    (h : Quest.new f bin = .ok q) :
    ∃ base num dialect,
      (((ends_with f ".bin.gci".toList = true ∨ ends_with f ".bin.dlq".toList = true) ∧
          base = (after_last_slash f).take ((after_last_slash f).length - 8)) ∨
        (ends_with f ".bin".toList = true ∧
          base = (after_last_slash f).take ((after_last_slash f).length - 4))) ∧
      (name_to_version.lookup dialect).isSome = true ∧
      q.quest_id = to_int64 (strtoull num) ∧
      ((∀ ch ∈ num, '0' ≤ ch ∧ ch ≤ '9') → decimal num < 2 ^ 63 → q.quest_id = decimal num) ∧
      ((split base '-' = [('b' :: num), dialect] ∧ q.category = .BATTLE) ∨
        (split base '-' = [('c' :: num), dialect] ∧ q.category = .CHALLENGE) ∨
        (split base '-' = [('e' :: num), dialect] ∧ q.category = .EPISODE_3) ∨
        (∃ cat, split base '-' = [('q' :: num), cat, dialect] ∧
          category_of_token cat = some q.category)) := by
  obtain ⟨q0, q1, q2, tokens, content, h0, h1, h2, h3⟩ := Quest.new_parts f bin q h
  obtain ⟨hc0, he0, hbase⟩ := Quest.read_extension_ok f q0 h0
  obtain ⟨he1, ch, rest, hb, hmode⟩ := Quest.read_mode_ok q0 q1 _ h1
  obtain ⟨t0, dialect, hver, hid, htok⟩ := Quest.read_tokens_ok q1 q2 _ tokens
    (by rw [he1, he0]) h2
  obtain ⟨hcat, hqid⟩ := Quest.read_header_ok q2 q tokens content h3
  have hch : ch ≠ '-' := by
    rcases hmode with ⟨h, _⟩ | ⟨h, _⟩ | ⟨h, _⟩ | ⟨h, _⟩ <;> rw [h] <;> decide
  obtain ⟨t, ts, hsplit⟩ := split_cons ch rest '-' hch
  rw [hb] at htok
  have ht0 : t0 = ch :: t := by
    rcases htok with ⟨_, hs, _⟩ | ⟨_, cat, hs, _⟩
    · rw [hsplit] at hs; exact ((List.cons.inj hs).1).symm
    · rw [hsplit] at hs; exact ((List.cons.inj hs).1).symm
  subst ht0
  have hbase2 : q0.local_basename f = ch :: rest := hb
  refine ⟨ch :: rest, t, dialect, ?_, hver, ?_, ?_, ?_⟩
  · rcases hbase with ⟨he, hl⟩ | ⟨he, hl⟩
    · exact Or.inl ⟨he, by rw [← hl, hbase2]⟩
    · exact Or.inr ⟨he, by rw [← hl, hbase2]⟩
  · rw [hqid, hid]; rfl
  · intro hd hv
    rw [hqid, hid]
    exact strtoull_decimal t hd hv
  · rcases htok with ⟨hne, hs, hc⟩ | ⟨hu, cat, hs, hc⟩
    · rcases hmode with ⟨h, hm⟩ | ⟨h, hm⟩ | ⟨h, hm⟩ | ⟨h, hm⟩
      · subst h; exact Or.inl ⟨hs, by rw [hcat, hc, hm]⟩
      · subst h; exact Or.inr (Or.inl ⟨hs, by rw [hcat, hc, hm]⟩)
      · subst h; exact Or.inr (Or.inr (Or.inl ⟨hs, by rw [hcat, hc, hm]⟩))
      · exact absurd (by rw [hm, hc0]) hne
    · rcases hmode with ⟨h, hm⟩ | ⟨h, hm⟩ | ⟨h, hm⟩ | ⟨h, hm⟩
      · rw [hm] at hu; cases hu
      · rw [hm] at hu; cases hu
      · rw [hm] at hu; cases hu
      · subst h; exact Or.inr (Or.inr (Or.inr ⟨cat, hs, by rw [hcat]; exact hc⟩))

set_option maxRecDepth 100000 in
/-- C25 (witness): the file `quests/q058-ret-gc.bin` with a V3 header of 468 bytes. -/
theorem C25_filename_parsing_witness :
    ∃ base num dialect,
      (((ends_with "quests/q058-ret-gc.bin".toList ".bin.gci".toList = true ∨
            ends_with "quests/q058-ret-gc.bin".toList ".bin.dlq".toList = true) ∧
          base = (after_last_slash "quests/q058-ret-gc.bin".toList).take
            ((after_last_slash "quests/q058-ret-gc.bin".toList).length - 8)) ∨
        (ends_with "quests/q058-ret-gc.bin".toList ".bin".toList = true ∧
          base = (after_last_slash "quests/q058-ret-gc.bin".toList).take
            ((after_last_slash "quests/q058-ret-gc.bin".toList).length - 4))) ∧
      (name_to_version.lookup dialect).isSome = true ∧
      (58 : Int) = to_int64 (strtoull num) ∧
      ((∀ ch ∈ num, '0' ≤ ch ∧ ch ≤ '9') → decimal num < 2 ^ 63 → (58 : Int) = decimal num) ∧
      ((split base '-' = [('b' :: num), dialect] ∧
          QuestCategory.RETRIEVAL = QuestCategory.BATTLE) ∨
        (split base '-' = [('c' :: num), dialect] ∧
          QuestCategory.RETRIEVAL = QuestCategory.CHALLENGE) ∨
        (split base '-' = [('e' :: num), dialect] ∧
          QuestCategory.RETRIEVAL = QuestCategory.EPISODE_3) ∨
        (∃ cat, split base '-' = [('q' :: num), cat, dialect] ∧
          category_of_token cat = some QuestCategory.RETRIEVAL)) :=
  C25_filename_parsing "quests/q058-ret-gc.bin".toList (.ok (List.replicate 468 0))
    ⟨58, .RETRIEVAL, 0, false, false, .BIN_DAT, "quests/q058-ret-gc".toList, some .GC⟩ (by rfl)


set_option maxRecDepth 100000 in
/-- C26: the file `q001-gov-bb.bin` whose header has the episode byte 1, or 2, and the
file `q001-gov-gc.bin` whose header has the episode byte 1: the constructor records the
episode 1, 2 and 1, and the category is GovernmentEpisode1 each time.  For every file that
the constructor accepts, the category is neither GovernmentEpisode2 nor
GovernmentEpisode4. -/
theorem C26_gov_category_ignores_episode :
    Quest.summary (Quest.new "q001-gov-bb.bin".toList (.ok (sample_bb_bin 1)))
      = some (.GOVERNMENT_EPISODE_1, 1, 1) ∧
    Quest.summary (Quest.new "q001-gov-bb.bin".toList (.ok (sample_bb_bin 2)))
      = some (.GOVERNMENT_EPISODE_1, 1, 2) ∧
    Quest.summary (Quest.new "q001-gov-gc.bin".toList
        (.ok (List.replicate 19 0 ++ [1] ++ List.replicate 448 0)))
      = some (.GOVERNMENT_EPISODE_1, 1, 1) ∧
    ∀ (f : List Char) (bin : Except Exn (List Nat)) (q : Quest), Quest.new f bin = .ok q →
      q.category ≠ .GOVERNMENT_EPISODE_2 ∧ q.category ≠ .GOVERNMENT_EPISODE_4 := by
  refine ⟨by decide, by decide, by decide, ?_⟩
  intro f bin q h
  obtain ⟨q0, q1, q2, tokens, content, h0, h1, h2, h3⟩ := Quest.new_parts f bin q h
  obtain ⟨hc0, he0, _⟩ := Quest.read_extension_ok f q0 h0
  obtain ⟨he1, ch, rest, hb, hmode⟩ := Quest.read_mode_ok q0 q1 _ h1
  obtain ⟨t0, dialect, _, _, htok⟩ := Quest.read_tokens_ok q1 q2 _ tokens
    (by rw [he1, he0]) h2
  obtain ⟨hcat, _⟩ := Quest.read_header_ok q2 q tokens content h3
  rw [hcat]
  rcases htok with ⟨hne, _, hc⟩ | ⟨_, cat, _, hc⟩
  · rw [hc]
    rcases hmode with ⟨_, hm⟩ | ⟨_, hm⟩ | ⟨_, hm⟩ | ⟨_, hm⟩
    · rw [hm]; exact ⟨by decide, by decide⟩
    · rw [hm]; exact ⟨by decide, by decide⟩
    · rw [hm]; exact ⟨by decide, by decide⟩
    · exact absurd (by rw [hm, hc0]) hne
  · exact category_of_token_range cat _ hc

end NewServ
